import Mathlib

/-!
# SimpleFusion: a verification development

A shallow embedding of the TSDF fusion core of SimpleFusion (`spf`): block index
arithmetic (`BlockUtils.hpp`), voxel blocks (`VoxelBlock.cpp`), the sparse volume
(`Volume.cpp`), the raycast allocator, the integrator's running update and the
gradient pass (`Fusion.cpp`), the Marching Cubes passes (`MarchingCubes.cpp`) and
point extraction from a depth frame (`RGBDFrame.hpp`, `PointTypes.hpp`).

Conventions of the embedding.

* `float` is modelled in exact arithmetic by `ℚ`; `FLT_MAX` is the rational number
  `(2 - 2^(-23)) * 2^127`.
* `int` and `size_t` are modelled by `Int` and `Nat`; the development is about runs
  in which no integer overflows.
* A heap array (`float*`, `std::unique_ptr<T[]>`) is a function from the offset to
  the stored value.  A `for (i = 0; i < n; i++)` loop is `forLoop n body`.
* `std::vector` is a `List`; a possibly null pointer is an `Option`.
-/

namespace spf

/-! ## Geometry (`geometry/vec3.hpp`, `Types.hpp`) -/

/-- `spf::geometry::Vec3<float>`, with exact rational components. -/
structure Vec3f where
  x : ℚ
  y : ℚ
  z : ℚ
  deriving DecidableEq, Repr

/-- `typedef Vec3<float> Point3f`. -/
abbrev Point3f := Vec3f

/-- `typedef Vec3<float> Color3f`. -/
abbrev Color3f := Vec3f

namespace Vec3f

/-- The constructor `Vec3(const U val)`, setting the three components to `val`. -/
def splat (val : ℚ) : Vec3f := ⟨val, val, val⟩

/-- The default constructor `Vec3() : x(0), y(0), z(0)`. -/
def zero : Vec3f := ⟨0, 0, 0⟩

/-- `Vec3::operator!=`: some component differs. -/
def ne (v v0 : Vec3f) : Bool := (v.x != v0.x) || (v.y != v0.y) || (v.z != v0.z)

/-- `operator+` on `Vec3`. -/
def add (v0 v1 : Vec3f) : Vec3f := ⟨v0.x + v1.x, v0.y + v1.y, v0.z + v1.z⟩

/-- `operator*(T, Vec3)`: scaling by a scalar. -/
def smul (k : ℚ) (v : Vec3f) : Vec3f := ⟨k * v.x, k * v.y, k * v.z⟩

/-- `operator/(Vec3, T)`: division by a scalar. -/
def sdiv (v : Vec3f) (k : ℚ) : Vec3f := ⟨v.x / k, v.y / k, v.z / k⟩

end Vec3f

/-- `FLT_MAX`, that is `std::numeric_limits<float>::max()`. -/
def FLT_MAX : ℚ := 340282346638528859811704183484516925440

/-- A counted loop `for (size_t i = 0; i < n; i++) body(i)` over a state. -/
def forLoop {σ : Type} (n : Nat) (body : Nat → σ → σ) (s : σ) : σ :=
  (List.range n).foldl (fun st i => body i st) s

/-- The store `a[i] = v` on an array modelled as a function. -/
def store {α : Type} (a : Nat → α) (i : Nat) (v : α) : Nat → α :=
  fun n => if n = i then v else a n

/-- A counted loop `for (size_t i = lo; i < hi; i++) body(i)` over a state. -/
def forLoopFrom {σ : Type} (lo hi : Nat) (body : Nat → σ → σ) (s : σ) : σ :=
  forLoop (hi - lo) (fun i => body (lo + i)) s

/-- A sequence of stores `a[w.1] = w.2`, in order. -/
def applyWrites {α : Type} (a : Nat → α) (ws : List (Nat × α)) : Nat → α :=
  ws.foldl (fun b w => store b w.1 w.2) a

namespace Vec3f

/-- `operator-(Vec3, Vec3)`. -/
def sub (v0 v1 : Vec3f) : Vec3f := ⟨v0.x - v1.x, v0.y - v1.y, v0.z - v1.z⟩

/-- `Vec3::Dot(v0, v1)`. -/
def Dot (v0 v1 : Vec3f) : ℚ := v0.x * v1.x + v0.y * v1.y + v0.z * v1.z

/-- `Vec3::Dist(v0, v1)`, with the square root of `libm` as a parameter. -/
def Dist (sqrtf : ℚ → ℚ) (v0 v1 : Vec3f) : ℚ :=
  let dx := v0.x - v1.x
  let dy := v0.y - v1.y
  let dz := v0.z - v1.z
  sqrtf (dx * dx + dy * dy + dz * dz)

/-- `Vec3::Normalize(v0) = v0 * (1 / sqrt(v0.x * v0.x + v0.y * v0.y + v0.z * v0.z))`. -/
def Normalize (sqrtf : ℚ → ℚ) (v0 : Vec3f) : Vec3f :=
  smul (1 / sqrtf (v0.x * v0.x + v0.y * v0.y + v0.z * v0.z)) v0

end Vec3f


namespace fusion

/-! ## Block index arithmetic (`fusion/BlockUtils.hpp`) -/

/-- `getShift<N>()`: `0` for `N == 0`, else `1 + getShift<N / 2>()`. -/
def getShift : Nat → Nat
  | 0 => 0
  | n + 1 => 1 + getShift ((n + 1) / 2)
decreasing_by exact Nat.div_lt_self (Nat.succ_pos n) (by decide)

/-- `BlockProperties<float, 16>::blockSize`. -/
def blockSize : Nat := 16

/-- `BlockProperties<float, 16>::blockShift = getShift<N / 2>()`. -/
def blockShift : Nat := getShift (blockSize / 2)

/-- `BlockProperties<float, 16>::blockVolume`. -/
def blockVolume : Nat := blockSize * blockSize * blockSize

/-- `BlockProperties<float, 16>::invalidTsdf = std::numeric_limits<float>::max()`. -/
def invalidTsdf : ℚ := FLT_MAX

/-- `struct Index3d { int x; int y; int z; }`. -/
structure Index3d where
  x : Int
  y : Int
  z : Int
  deriving DecidableEq, Repr

/-- `typedef Index3d BlockId`. -/
abbrev BlockId := Index3d

/-- `typedef Index3d VoxelId`. -/
abbrev VoxelId := Index3d

namespace Index3d

/-- `Index3d::operator<`: the nested comparison on `x`, then `y`, then `z`. -/
def lt (a other : Index3d) : Bool :=
  if a.x < other.x then true
  else if a.x = other.x then
    if a.y < other.y then true
    else if a.y = other.y then
      if a.z < other.z then true else false
    else false
  else false

/-- `operator+(Index3d, Index3d)`. -/
def add (i0 i1 : Index3d) : Index3d := ⟨i0.x + i1.x, i0.y + i1.y, i0.z + i1.z⟩

/-- `operator-(Index3d, Index3d)`. -/
def sub (i0 i1 : Index3d) : Index3d := ⟨i0.x - i1.x, i0.y - i1.y, i0.z - i1.z⟩

/-- `operator*(int, Index3d)`. -/
def smul (k : Int) (id : Index3d) : Index3d := ⟨k * id.x, k * id.y, k * id.z⟩

end Index3d

/-- `Dot(Index3d, Index3d)`. -/
def Dot (id0 id1 : Index3d) : Int := id0.x * id1.x + id0.y * id1.y + id0.z * id1.z

/-- `Mod(int a, int b) = (a % b + b) % b`, with the truncating `%` of C++. -/
def Mod (a b : Int) : Int := Int.tmod (Int.tmod a b + b) b

/-- `Mod(Index3d, int)`, component by component. -/
def ModIndex (index : Index3d) (val : Int) : Index3d :=
  ⟨Mod index.x val, Mod index.y val, Mod index.z val⟩

/-- `Div(int a, int b) = (a - Mod(a, b)) / b`, with the truncating `/` of C++. -/
def Div (a b : Int) : Int := Int.tdiv (a - Mod a b) b

/-- The expression `(int) floorf(c / voxelRes)` of `GetId` and `GetVoxelId`. -/
def floorDiv (c voxelRes : ℚ) : Int := Int.floor (c / voxelRes)

/-- `GetId<16>(v, voxelRes)`: each voxel coordinate shifted right by `blockShift`. -/
def GetId (v : Point3f) (voxelRes : ℚ) : BlockId :=
  ⟨floorDiv v.x voxelRes >>> blockShift,
   floorDiv v.y voxelRes >>> blockShift,
   floorDiv v.z voxelRes >>> blockShift⟩

/-- `GetVoxelAbsolutePos<16>(blockId, voxelId) = blockSize * blockId + voxelId`. -/
def GetVoxelAbsolutePos (blockId : BlockId) (voxelId : Index3d) : Index3d :=
  Index3d.add (Index3d.smul (blockSize : Int) blockId) voxelId

/-- `GetVoxelPos(id, voxelRes) = voxelRes * Point3f(id.x, id.y, id.z)`. -/
def GetVoxelPos (id : Index3d) (voxelRes : ℚ) : Point3f :=
  Vec3f.smul voxelRes ⟨(id.x : ℚ), (id.y : ℚ), (id.z : ℚ)⟩

/-- `GetVoxelId<16>(p, voxelRes)`: each voxel coordinate reduced by `Mod(., blockSize)`. -/
def GetVoxelId (p : Point3f) (voxelRes : ℚ) : Index3d :=
  ⟨Mod (floorDiv p.x voxelRes) (blockSize : Int),
   Mod (floorDiv p.y voxelRes) (blockSize : Int),
   Mod (floorDiv p.z voxelRes) (blockSize : Int)⟩

/-! ## The raycast allocator (`Fusion::RaycastVoxels`) -/

/-- The left shift `a << n` on `int`, as a multiplication by `2 ^ n`. -/
def shl (a : Int) (n : Nat) : Int := a * 2 ^ n

/-- The expression `d == 0 ? 0 : d < 0 ? -1 : 1`. -/
def inc (d : Int) : Int := if d = 0 then 0 else if d < 0 then -1 else 1

/-- The variables that the loops of `RaycastVoxels` update: the current id, the two error
terms, and the output set. -/
structure RaycastState where
  id : BlockId
  err1 : Int
  err2 : Int
  foundIds : Finset Index3d

/-- The body of the loop whose driver is the x axis. -/
def raycastStepX (incX incY incZ dx2 dy2 dz2 : Int) (s : RaycastState) : RaycastState :=
  let found := insert s.id s.foundIds
  let y1 := if s.err1 > 0 then s.id.y + incY else s.id.y
  let e1 := if s.err1 > 0 then s.err1 - dx2 else s.err1
  let z1 := if s.err2 > 0 then s.id.z + incZ else s.id.z
  let e2 := if s.err2 > 0 then s.err2 - dx2 else s.err2
  { id := ⟨s.id.x + incX, y1, z1⟩, err1 := e1 + dy2, err2 := e2 + dz2, foundIds := found }

/-- The body of the loop whose driver is the y axis. -/
def raycastStepY (incX incY incZ dx2 dy2 dz2 : Int) (s : RaycastState) : RaycastState :=
  let found := insert s.id s.foundIds
  let x1 := if s.err1 > 0 then s.id.x + incX else s.id.x
  let e1 := if s.err1 > 0 then s.err1 - dy2 else s.err1
  let z1 := if s.err2 > 0 then s.id.z + incZ else s.id.z
  let e2 := if s.err2 > 0 then s.err2 - dy2 else s.err2
  { id := ⟨x1, s.id.y + incY, z1⟩, err1 := e1 + dx2, err2 := e2 + dz2, foundIds := found }

/-- The body of the loop whose driver is the z axis. -/
def raycastStepZ (incX incY incZ dx2 dy2 dz2 : Int) (s : RaycastState) : RaycastState :=
  let found := insert s.id s.foundIds
  let y1 := if s.err1 > 0 then s.id.y + incY else s.id.y
  let e1 := if s.err1 > 0 then s.err1 - dz2 else s.err1
  let x1 := if s.err2 > 0 then s.id.x + incX else s.id.x
  let e2 := if s.err2 > 0 then s.err2 - dz2 else s.err2
  { id := ⟨x1, y1, s.id.z + incZ⟩, err1 := e1 + dy2, err2 := e2 + dx2, foundIds := found }

/-- `Fusion::RaycastVoxels(minId, maxId, foundIds)`: the set `foundIds` after the call.
Each loop runs for `i = 0, ..., L` with `L` the absolute delta of its driver axis, and the
id reached after the loop is emplaced once more. -/
def RaycastVoxels (minId maxId : Index3d) (foundIds : Finset Index3d) : Finset Index3d :=
  let dx := maxId.x - minId.x
  let dy := maxId.y - minId.y
  let dz := maxId.z - minId.z
  let incX := inc dx
  let incY := inc dy
  let incZ := inc dz
  let l := |dx|
  let m := |dy|
  let n := |dz|
  let dx2 := shl dx 1
  let dy2 := shl dy 1
  let dz2 := shl dz 2
  if l ≥ m ∧ l ≥ n then
    let s := forLoop (l.toNat + 1) (fun _ => raycastStepX incX incY incZ dx2 dy2 dz2)
      ⟨minId, dy2 - l, dz2 - l, foundIds⟩
    insert s.id s.foundIds
  else if m ≥ l ∧ m ≥ n then
    let s := forLoop (m.toNat + 1) (fun _ => raycastStepY incX incY incZ dx2 dy2 dz2)
      ⟨minId, dx2 - m, dz2 - m, foundIds⟩
    insert s.id s.foundIds
  else
    let s := forLoop (n.toNat + 1) (fun _ => raycastStepZ incX incY incZ dx2 dy2 dz2)
      ⟨minId, dy2 - n, dx2 - n, foundIds⟩
    insert s.id s.foundIds

/-- The point at parameter `t` of the segment joining the centres of the unit cells of
the block ids `a` and `b`, on one axis. -/
def segmentPoint (a b : Int) (t : ℚ) : ℚ := (a : ℚ) + 1 / 2 + t * ((b : ℚ) - (a : ℚ))

/-- The straight segment joining the centres of the cells of `a` and `b` crosses the unit
cubic cell of `c`: some point of the segment lies inside the cell.  The cell is open, so
a rational parameter exists as soon as a real one does. -/
def segmentCrossesCell (a b c : BlockId) : Prop :=
  ∃ t : ℚ, 0 ≤ t ∧ t ≤ 1 ∧
    ((c.x : ℚ) < segmentPoint a.x b.x t ∧ segmentPoint a.x b.x t < (c.x : ℚ) + 1) ∧
    ((c.y : ℚ) < segmentPoint a.y b.y t ∧ segmentPoint a.y b.y t < (c.y : ℚ) + 1) ∧
    ((c.z : ℚ) < segmentPoint a.z b.z t ∧ segmentPoint a.z b.z t < (c.z : ℚ) + 1)

/-! ## Voxel blocks (`fusion/VoxelBlock.hpp`, `fusion/VoxelBlock.cpp`) -/

/-- `class VoxelBlock`: the four parallel arrays of `blockVolume` slots.  The colour
array is allocated only when `useColor_` holds; `Volume::AddBlock` always builds blocks
with the default `useColor = true`. -/
structure VoxelBlock where
  voxelRes_ : ℚ
  blockVolume_ : Nat
  useColor_ : Bool
  tsdf_ : Nat → ℚ
  weights_ : Nat → ℚ
  gradients_ : Nat → Vec3f
  colors_ : Nat → Color3f

/-- `VoxelBlock::VoxelBlock(voxelRes, useColor)`: every tsdf slot is `invalidTsdf`, the
weights and colours are zeroed by `memset`, and `new Point3f[]` default-constructs the
gradients to zero. -/
def VoxelBlock.new (voxelRes : ℚ) (useColor : Bool) : VoxelBlock :=
  { voxelRes_ := voxelRes
    blockVolume_ := blockVolume
    useColor_ := useColor
    tsdf_ := fun _ => invalidTsdf
    weights_ := fun _ => 0
    gradients_ := fun _ => Vec3f.zero
    colors_ := fun _ => Vec3f.zero }

/-- The offset `voxelId.x + voxelId.y * blockSize + voxelId.z * blockSize * blockSize`
used by `TSDFAt`, `WeightAt`, `GradientAt`, `ColorAt` and by the integrator. -/
def voxelOffset (voxelId : Index3d) : Int :=
  voxelId.x + voxelId.y * (blockSize : Int) + voxelId.z * (blockSize : Int) * (blockSize : Int)

/-! ## The integrator's running update (`Fusion::IntegratePointCloud`) -/

/-- The read-modify-write at the end of the marching loop of `IntegratePointCloud`
(both variants), for a sample of weight `weight`, signed distance `tsdf` and colour `rgb`
landing on slot `offset`:
`weightSum = weight + weightsPtr[offset]`,
`tsdfPtr[offset] = (weightsPtr[offset] * tsdfPtr[offset] + weight * tsdf) / weightSum`,
`colorsPtr[offset] = (weightsPtr[offset] * colorsPtr[offset] + weight * rgb) / weightSum`,
`weightsPtr[offset] += weight`. -/
def integrateSample (voxelBlock : VoxelBlock) (offset : Nat) (weight tsdf : ℚ) (rgb : Color3f) :
    VoxelBlock :=
  let weightSum := weight + voxelBlock.weights_ offset
  { voxelBlock with
    tsdf_ := store voxelBlock.tsdf_ offset
      ((voxelBlock.weights_ offset * voxelBlock.tsdf_ offset + weight * tsdf) / weightSum)
    colors_ := store voxelBlock.colors_ offset
      (Vec3f.sdiv (Vec3f.add (Vec3f.smul (voxelBlock.weights_ offset) (voxelBlock.colors_ offset))
        (Vec3f.smul weight rgb)) weightSum)
    weights_ := store voxelBlock.weights_ offset (voxelBlock.weights_ offset + weight) }

/-- One sample reaching a voxel: its Gaussian weight, signed distance and colour. -/
structure Sample where
  weight : ℚ
  tsdf : ℚ
  rgb : Color3f
  deriving DecidableEq, Repr

/-- The running update applied for a sequence of samples that land on the same slot. -/
def integrateSamples (voxelBlock : VoxelBlock) (offset : Nat) (samples : List Sample) :
    VoxelBlock :=
  samples.foldl (fun b s => integrateSample b offset s.weight s.tsdf s.rgb) voxelBlock

/-- The sum of the sample weights. -/
def weightTotal (samples : List Sample) : ℚ := (samples.map Sample.weight).sum

/-- The sum of the products `w_i * t_i`. -/
def momentTotal (samples : List Sample) : ℚ := (samples.map (fun s => s.weight * s.tsdf)).sum

/-! ## The sparse volume (`fusion/Volume.hpp`, `fusion/Volume.cpp`) -/

/-- `data_types::Mesh<PointXYZRGBN<float>>`: three vertices per triangle, as a structure
of arrays. -/
structure Mesh where
  points : List Vec3f
  colors : List Vec3f
  normals : List Vec3f
  numTriangles : Nat
  deriving DecidableEq, Repr

/-- `BlockIdMap = std::unordered_map<BlockId, int, ChunkHasher>`, as the list of its
entries in insertion order; keys are compared with `Index3d::operator==`. -/
abbrev BlockIdMap := List (BlockId × Nat)

namespace BlockIdMap

/-- `m.find(id)`: the stored value, or `none` for `m.end()`. -/
def find (m : BlockIdMap) (id : BlockId) : Option Nat := List.lookup id m

/-- `m[id] = v`: overwrite the entry of `id`, or insert one. -/
def assign (m : BlockIdMap) (id : BlockId) (v : Nat) : BlockIdMap :=
  if (find m id).isSome then m.map (fun e => if e.1 = id then (e.1, v) else e)
  else m ++ [(id, v)]

/-- `m.size()`. -/
def size (m : BlockIdMap) : Nat := m.length

end BlockIdMap

/-- `class Volume`: the block-id map and the two parallel arrays. -/
structure Volume where
  nextBlockIndex_ : Nat
  voxelRes_ : ℚ
  blockIds_ : BlockIdMap
  voxelBlocks_ : List (Option VoxelBlock)
  meshes_ : List (Option Mesh)

namespace Volume

/-- `Volume::Volume(voxelRes)`. -/
def new (voxelRes : ℚ) : Volume :=
  { nextBlockIndex_ := 0, voxelRes_ := voxelRes, blockIds_ := [], voxelBlocks_ := [],
    meshes_ := [] }

/-- `Volume::AddBlock`: `false` and no change when the id is known; otherwise the id is
mapped to `nextBlockIndex_`, a fresh block and a null mesh are pushed, and `true` is
returned. -/
def AddBlock (v : Volume) (blockId : BlockId) : Bool × Volume :=
  if (v.blockIds_.find blockId).isSome then (false, v)
  else
    (true,
      { v with
        blockIds_ := v.blockIds_.assign blockId v.nextBlockIndex_
        nextBlockIndex_ := v.nextBlockIndex_ + 1
        voxelBlocks_ := v.voxelBlocks_ ++ [some (VoxelBlock.new v.voxelRes_ true)]
        meshes_ := v.meshes_ ++ [none] })

/-- The body of the loop of `Volume::AddBlocks` for one list element, on the pair of the
counter `numAllocated` and the volume. -/
def AddBlocksStep (blockId : BlockId) (st : Nat × Volume) : Nat × Volume :=
  if (st.2.blockIds_.find blockId).isSome then st
  else
    (st.1 + 1,
      { st.2 with
        blockIds_ := st.2.blockIds_.assign blockId st.2.nextBlockIndex_
        nextBlockIndex_ := st.2.nextBlockIndex_ + 1
        voxelBlocks_ := st.2.voxelBlocks_ ++ [some (VoxelBlock.new st.2.voxelRes_ true)]
        meshes_ := st.2.meshes_ ++ [none] })

/-- `Volume::AddBlocks`: the loop over the list, returning `numAllocated`. -/
def AddBlocks (v : Volume) (blockList : List BlockId) : Nat × Volume :=
  blockList.foldl (fun st blockId => AddBlocksStep blockId st) (0, v)

/-- `Volume::GetBlock`: null when the id is unknown, else `voxelBlocks_[blockIds_[id]].get()`. -/
def GetBlock (v : Volume) (blockId : BlockId) : Option VoxelBlock :=
  match v.blockIds_.find blockId with
  | none => none
  | some i => (v.voxelBlocks_.getD i none)

/-- `Volume::GetMesh`: null when the id is unknown, else `meshes_[blockIds_[id]].get()`. -/
def GetMesh (v : Volume) (blockId : BlockId) : Option Mesh :=
  match v.blockIds_.find blockId with
  | none => none
  | some i => (v.meshes_.getD i none)

/-- `Volume::NumBlocks() = blockIds_.size()`. -/
def NumBlocks (v : Volume) : Nat := v.blockIds_.size

/-- One call of the insertion interface of `Volume`. -/
inductive Insertion where
  | addBlock (blockId : BlockId)
  | addBlocks (blockList : List BlockId)

/-- The ids passed by a call, in order. -/
def Insertion.args : Insertion → List BlockId
  | .addBlock blockId => [blockId]
  | .addBlocks blockList => blockList

/-- The volume after one call of the insertion interface. -/
def Insertion.apply (v : Volume) : Insertion → Volume
  | .addBlock blockId => (v.AddBlock blockId).2
  | .addBlocks blockList => (v.AddBlocks blockList).2

/-- The volume after a sequence of `AddBlock` / `AddBlocks` calls. -/
def insertAll (v : Volume) (calls : List Insertion) : Volume :=
  calls.foldl Insertion.apply v

/-- The volume after a sequence of `AddBlock` calls. -/
def addBlockSeq (v : Volume) (ids : List BlockId) : Volume :=
  ids.foldl (fun w blockId => (w.AddBlock blockId).2) v

/-- The ids held by the block-id map, in insertion order. -/
def keys (v : Volume) : List BlockId := v.blockIds_.map Prod.fst

/-- The representation invariant of a volume built by the ids `args`, inserted in this
order: the map sends the `k`-th key to `k`, the arrays are as long as the map, the keys
are the distinct ids of `args`, in the order of their first occurrence. -/
structure Inv (v : Volume) (args : List BlockId) : Prop where
  find_eq : ∀ a, v.blockIds_.find a
    = if a ∈ v.keys then some (v.keys.indexOf a) else none
  nodup : v.keys.Nodup
  next_eq : v.nextBlockIndex_ = v.keys.length
  blocks_len : v.voxelBlocks_.length = v.keys.length
  meshes_len : v.meshes_.length = v.keys.length
  mem_iff : ∀ a, a ∈ v.keys ↔ a ∈ args
  order : ∀ a b, a ∈ v.keys → b ∈ v.keys →
    (v.keys.indexOf a < v.keys.indexOf b ↔ args.indexOf a < args.indexOf b)

end Volume

/-- The in-place mutation of the block that `GetBlock(blockId)` points to. -/
def Volume.writeBlock (v : Volume) (blockId : BlockId) (b : VoxelBlock) : Volume :=
  match v.blockIds_.find blockId with
  | none => v
  | some i => { v with voxelBlocks_ := v.voxelBlocks_.set i (some b) }

/-! ## The gradient pass (`Fusion::PackTSDF`, `Fusion::UpdateGradients`) -/

/-- `BLOCK_DIM = Index3d(1, blockSize, blockSize * blockSize)`. -/
def BLOCK_DIM : Index3d := ⟨1, (blockSize : Int), (blockSize : Int) * (blockSize : Int)⟩

/-- `PBLOCK_SIZE = Index3d(1, blockSize + 2, (blockSize + 2) * (blockSize + 2))`. -/
def PBLOCK_SIZE : Index3d :=
  ⟨1, (blockSize : Int) + 2, ((blockSize : Int) + 2) * ((blockSize : Int) + 2)⟩

/-- The subscript `Dot(Index3d(i, j, k), PBLOCK_SIZE)` into the padded buffer. -/
def packedIndex (i j k : Nat) : Nat := (Dot ⟨(i : Int), (j : Int), (k : Int)⟩ PBLOCK_SIZE).toNat

/-- The subscript `Dot(Index3d(i, j, k), BLOCK_DIM)` into an array of a block. -/
def blockIndex (i j k : Nat) : Nat := (Dot ⟨(i : Int), (j : Int), (k : Int)⟩ BLOCK_DIM).toNat

/-- `Fusion::PackTSDF(blockId, packedTSDF)`: the padded buffer after the call.  The six
face slabs are copied from the neighbour block across the face, or zeroed when
`GetBlock` returns null for it; then the block's own tsdf fills the interior.  The
caller has checked that `GetBlock(blockId)` is not null. -/
def PackTSDF (volume_ : Volume) (blockId : BlockId) (packedTSDF : Nat → ℚ) : Nat → ℚ :=
  let bMinusX := Index3d.sub blockId ⟨1, 0, 0⟩
  let bPlusX := Index3d.add blockId ⟨1, 0, 0⟩
  let bMinusY := Index3d.sub blockId ⟨0, 1, 0⟩
  let bPlusY := Index3d.add blockId ⟨0, 1, 0⟩
  let bMinusZ := Index3d.sub blockId ⟨0, 0, 1⟩
  let bPlusZ := Index3d.add blockId ⟨0, 0, 1⟩
  let TSDF : Nat → ℚ :=
    match volume_.GetBlock blockId with
    | some b => b.tsdf_
    | none => fun _ => 0
  let mXTSDF := (volume_.GetBlock bMinusX).map VoxelBlock.tsdf_
  let pXTSDF := (volume_.GetBlock bPlusX).map VoxelBlock.tsdf_
  let mYTSDF := (volume_.GetBlock bMinusY).map VoxelBlock.tsdf_
  let pYTSDF := (volume_.GetBlock bPlusY).map VoxelBlock.tsdf_
  let mZTSDF := (volume_.GetBlock bMinusZ).map VoxelBlock.tsdf_
  let pZTSDF := (volume_.GetBlock bPlusZ).map VoxelBlock.tsdf_
  -- Along X axis
  let p1 :=
    match mXTSDF with
    | some t => forLoop blockSize (fun k => forLoop blockSize (fun j p =>
        store p (packedIndex 0 (j + 1) (k + 1)) (t (blockIndex (blockSize - 1) j k)))) packedTSDF
    | none => forLoop blockSize (fun k => forLoop blockSize (fun j p =>
        store p (packedIndex 0 (j + 1) (k + 1)) 0)) packedTSDF
  let p2 :=
    match pXTSDF with
    | some t => forLoop blockSize (fun k => forLoop blockSize (fun j p =>
        store p (packedIndex (blockSize + 1) (j + 1) (k + 1)) (t (blockIndex 0 j k)))) p1
    | none => forLoop blockSize (fun k => forLoop blockSize (fun j p =>
        store p (packedIndex (blockSize + 1) (j + 1) (k + 1)) 0)) p1
  -- Along Y axis
  let p3 :=
    match mYTSDF with
    | some t => forLoop blockSize (fun k => forLoop blockSize (fun i p =>
        store p (packedIndex (i + 1) 0 (k + 1)) (t (blockIndex i (blockSize - 1) k)))) p2
    | none => forLoop blockSize (fun k => forLoop blockSize (fun i p =>
        store p (packedIndex (i + 1) 0 (k + 1)) 0)) p2
  let p4 :=
    match pYTSDF with
    | some t => forLoop blockSize (fun k => forLoop blockSize (fun i p =>
        store p (packedIndex (i + 1) (blockSize + 1) (k + 1)) (t (blockIndex i 0 k)))) p3
    | none => forLoop blockSize (fun k => forLoop blockSize (fun i p =>
        store p (packedIndex (i + 1) (blockSize + 1) (k + 1)) 0)) p3
  -- Along Z axis
  let p5 :=
    match mZTSDF with
    | some t => forLoop blockSize (fun j => forLoop blockSize (fun i p =>
        store p (packedIndex (i + 1) (j + 1) 0) (t (blockIndex i j (blockSize - 1))))) p4
    | none => forLoop blockSize (fun j => forLoop blockSize (fun i p =>
        store p (packedIndex (i + 1) (j + 1) 0) 0)) p4
  let p6 :=
    match pZTSDF with
    | some t => forLoop blockSize (fun j => forLoop blockSize (fun i p =>
        store p (packedIndex (i + 1) (j + 1) (blockSize + 1)) (t (blockIndex i j 0)))) p5
    | none => forLoop blockSize (fun j => forLoop blockSize (fun i p =>
        store p (packedIndex (i + 1) (j + 1) (blockSize + 1)) 0)) p5
  -- Inner block
  forLoop blockSize (fun k => forLoop blockSize (fun j => forLoop blockSize (fun i p =>
    store p (packedIndex (i + 1) (j + 1) (k + 1)) (TSDF (blockIndex i j k))))) p6

/-- The three nested loops of `UpdateGradients` / `UpdateAllGradients` over
`1 <= i, j, k < blockSize + 1`, writing the central differences of the padded buffer,
divided by `voxelRes_`, into the gradient array. -/
def gradientLoops (packedTSDF : Nat → ℚ) (voxelRes_ : ℚ) (gradPtr : Nat → Vec3f) :
    Nat → Vec3f :=
  forLoopFrom 1 (blockSize + 1) (fun k =>
    forLoopFrom 1 (blockSize + 1) (fun j =>
      forLoopFrom 1 (blockSize + 1) (fun i g =>
        let dx := packedTSDF (packedIndex (i + 1) j k) - packedTSDF (packedIndex (i - 1) j k)
        let dy := packedTSDF (packedIndex i (j + 1) k) - packedTSDF (packedIndex i (j - 1) k)
        let dz := packedTSDF (packedIndex i j (k + 1)) - packedTSDF (packedIndex i j (k - 1))
        store g (blockIndex (i - 1) (j - 1) (k - 1)) (Vec3f.sdiv ⟨dx, dy, dz⟩ voxelRes_))))
    gradPtr

/-- One iteration of the loop over the block list: skipped when `GetBlock` is null,
otherwise the block's tsdf is packed and its gradient array rewritten.  The state is the
volume and the scratch buffer `packedTSDF`. -/
def updateGradientsStep (voxelRes_ : ℚ) (st : Volume × (Nat → ℚ)) (blockId : BlockId) :
    Volume × (Nat → ℚ) :=
  match st.1.GetBlock blockId with
  | none => st
  | some block =>
    let packed := PackTSDF st.1 blockId st.2
    (st.1.writeBlock blockId
        { block with gradients_ := gradientLoops packed voxelRes_ block.gradients_ },
      packed)

/-- `Fusion::UpdateGradients()`: the loop over `newBlocks_`, from a scratch buffer of
arbitrary content. -/
def UpdateGradients (voxelRes_ : ℚ) (volume_ : Volume) (newBlocks_ : List BlockId)
    (packedTSDF : Nat → ℚ) : Volume × (Nat → ℚ) :=
  newBlocks_.foldl (updateGradientsStep voxelRes_) (volume_, packedTSDF)

/-- `Fusion::UpdateAllGradients()`: the same loop over `volume_.GetAllIds()`. -/
def UpdateAllGradients (voxelRes_ : ℚ) (volume_ : Volume) (packedTSDF : Nat → ℚ) :
    Volume × (Nat → ℚ) :=
  volume_.keys.foldl (updateGradientsStep voxelRes_) (volume_, packedTSDF)

/-- `VoxelBlock::TSDFAt(index)`. -/
def VoxelBlock.TSDFAt (b : VoxelBlock) (index : Index3d) : ℚ :=
  b.tsdf_ (voxelOffset index).toNat

/-- `VoxelBlock::GradientAt(index)`. -/
def VoxelBlock.GradientAt (b : VoxelBlock) (index : Index3d) : Vec3f :=
  b.gradients_ (voxelOffset index).toNat

/-- The central difference of a block's own tsdf at the voxel `(i, j, k)`, divided by
`voxelRes`. -/
def centralDifference (b : VoxelBlock) (voxelRes : ℚ) (i j k : Int) : Vec3f :=
  Vec3f.sdiv
    ⟨b.TSDFAt ⟨i + 1, j, k⟩ - b.TSDFAt ⟨i - 1, j, k⟩,
     b.TSDFAt ⟨i, j + 1, k⟩ - b.TSDFAt ⟨i, j - 1, k⟩,
     b.TSDFAt ⟨i, j, k + 1⟩ - b.TSDFAt ⟨i, j, k - 1⟩⟩
    voxelRes

/-- Every voxel `(i, j, k)` with `1 <= i, j, k <= 14` of the block stores the central
difference of the block's own tsdf. -/
def interiorGradientsAgree (b : VoxelBlock) (voxelRes : ℚ) : Prop :=
  ∀ i j k : Nat, 1 ≤ i → i ≤ 14 → 1 ≤ j → j ≤ 14 → 1 ≤ k → k ≤ 14 →
    b.GradientAt ⟨(i : Int), (j : Int), (k : Int)⟩
      = centralDifference b voxelRes (i : Int) (j : Int) (k : Int)

/-- A block whose tsdf at offset `n` is `n`. -/
def rampBlock : VoxelBlock :=
  { VoxelBlock.new (1 / 100) true with tsdf_ := fun n => (n : ℚ) }

/-- A volume holding the single block `rampBlock` at the id `(0, 0, 0)`. -/
def rampVolume : Volume :=
  { nextBlockIndex_ := 1
    voxelRes_ := 1 / 100
    blockIds_ := [(⟨0, 0, 0⟩, 0)]
    voxelBlocks_ := [some rampBlock]
    meshes_ := [none] }

/-! ## Further definitions for the sparse volume -/

/-- The number of distinct ids of `blockList` that the block-id map of `v` does not hold. -/
def Volume.distinctAbsent (v : Volume) (blockList : List BlockId) : Nat :=
  (blockList.toFinset.filter (fun id => v.blockIds_.find id = none)).card

/-! ## The PLY export (`Volume::ExportMeshes`) -/

/-- `Mesh::NumTriangles() = triangles_.Size()`. -/
def Mesh.NumTriangles (m : Mesh) : Nat := m.numTriangles

/-- `Mesh::NumPoints() = points_.Size()`. -/
def Mesh.NumPoints (m : Mesh) : Nat := m.points.length

/-- The conversion `(unsigned char) x` of a float: the fractional part is discarded
(truncation toward zero).  The conversion is only defined when the truncated value fits
the type; the model reduces it into `0 .. 255`. -/
def toUChar (x : ℚ) : Nat := (if 0 ≤ x then ⌊x⌋ else ⌈x⌉).toNat % 256

/-- One vertex line of the body, `"%f %f %f %f %f %f %u %u %u 255\n"`: position, normal,
the three colour bytes in the order they are printed, and the literal alpha. -/
structure PlyVertexLine where
  x : ℚ
  y : ℚ
  z : ℚ
  nx : ℚ
  ny : ℚ
  nz : ℚ
  c0 : Nat
  c1 : Nat
  c2 : Nat
  alpha : Nat
  deriving DecidableEq, Repr

/-- One face line, `"3 %lu %lu %lu\n"`: the literal count and the three vertex indices. -/
structure PlyFaceLine where
  count : Nat
  i0 : Nat
  i1 : Nat
  i2 : Nat
  deriving DecidableEq, Repr

/-- What `ExportMeshes` writes: the two counts declared by the header (`element vertex`,
`element face`), then the vertex lines and the face lines, in order. -/
structure PlyFile where
  elementVertex : Nat
  elementFace : Nat
  vertexLines : List PlyVertexLine
  faceLines : List PlyFaceLine
  deriving DecidableEq, Repr

/-- The vertex line printed for `vertexId` of a mesh. -/
def exportVertexLine (mesh : Mesh) (vertexId : Nat) : PlyVertexLine :=
  { x := (mesh.points.getD vertexId Vec3f.zero).x
    y := (mesh.points.getD vertexId Vec3f.zero).y
    z := (mesh.points.getD vertexId Vec3f.zero).z
    nx := (mesh.normals.getD vertexId Vec3f.zero).x
    ny := (mesh.normals.getD vertexId Vec3f.zero).y
    nz := (mesh.normals.getD vertexId Vec3f.zero).z
    c0 := toUChar (255 * (mesh.colors.getD vertexId Vec3f.zero).x)
    c1 := toUChar (255 * (mesh.colors.getD vertexId Vec3f.zero).y)
    c2 := toUChar (255 * (mesh.colors.getD vertexId Vec3f.zero).z)
    alpha := 255 }

/-- The face line printed for `face`. -/
def exportFaceLine (face : Nat) : PlyFaceLine := ⟨3, 3 * face, 3 * face + 1, 3 * face + 2⟩

/-- The first loop of `ExportMeshes`: `numTriangles` summed over the non-null meshes of the
slots `0 .. blockIds_.size() - 1`. -/
def exportNumTriangles (v : Volume) : Nat :=
  forLoop v.blockIds_.size (fun i numTriangles =>
    match v.meshes_.getD i none with
    | none => numTriangles
    | some mesh => numTriangles + mesh.NumTriangles) 0

/-- The second loop of `ExportMeshes`: the vertex lines, appended to the file. -/
def exportVertexLines (v : Volume) : List PlyVertexLine :=
  forLoop v.blockIds_.size (fun i out =>
    match v.meshes_.getD i none with
    | none => out
    | some mesh =>
      forLoop (3 * mesh.NumTriangles) (fun vertexId out => out ++ [exportVertexLine mesh vertexId])
        out) []

/-- The third loop of `ExportMeshes`, on the pair of `triangleOffset` and the face lines
written so far. -/
def exportFaceLines (v : Volume) : Nat × List PlyFaceLine :=
  forLoop v.blockIds_.size (fun i st =>
    match v.meshes_.getD i none with
    | none => st
    | some mesh =>
      (st.1 + mesh.NumTriangles,
        forLoopFrom st.1 (st.1 + mesh.NumTriangles) (fun face out => out ++ [exportFaceLine face])
          st.2)) (0, [])

/-- `Volume::ExportMeshes(filename)`: the content of the file, or `none` when `fopen`
fails (`fopenOk = false`), in which case nothing is written. -/
def Volume.ExportMeshes (v : Volume) (fopenOk : Bool) : Option PlyFile :=
  let numTriangles := exportNumTriangles v
  if !fopenOk then none
  else
    some
      { elementVertex := 3 * numTriangles
        elementFace := numTriangles
        vertexLines := exportVertexLines v
        faceLines := (exportFaceLines v).2 }

/-- The sum of `NumTriangles()` over the non-null cached meshes of the volume. -/
def cachedTriangles (v : Volume) : Nat :=
  ((v.meshes_.filterMap id).map Mesh.NumTriangles).sum

/-- A mesh of `n` triangles whose vertices all carry the colour `c`. -/
def flatMesh (n : Nat) (c : Color3f) : Mesh :=
  { points := List.replicate (3 * n) Vec3f.zero
    colors := List.replicate (3 * n) c
    normals := List.replicate (3 * n) Vec3f.zero
    numTriangles := n }

/-- A volume of three blocks: a cached mesh of two triangles, no mesh, a cached mesh of one
triangle. -/
def meshedVolume : Volume :=
  { nextBlockIndex_ := 3
    voxelRes_ := 1 / 100
    blockIds_ := [(⟨0, 0, 0⟩, 0), (⟨1, 0, 0⟩, 1), (⟨2, 0, 0⟩, 2)]
    voxelBlocks_ := [some (VoxelBlock.new (1 / 100) true), some (VoxelBlock.new (1 / 100) true),
      some (VoxelBlock.new (1 / 100) true)]
    meshes_ := [some (flatMesh 2 ⟨1 / 2, 0, 1⟩), none, some (flatMesh 1 ⟨1, 1, 1⟩)] }

/-! ## Lookup calls and the subscript of the block-id map -/

/-- `m[id]` (`std::unordered_map::operator[]`): the value stored for `id` and the map
afterwards; an unknown id is inserted first, with the value-initialised index `0`. -/
def BlockIdMap.subscript (m : BlockIdMap) (id : BlockId) : Nat × BlockIdMap :=
  match m.find id with
  | some i => (i, m)
  | none => (0, m ++ [(id, 0)])

/-- `Volume::GetBlock` as a call on the object: the returned pointer and the volume after
the call.  The subscript `blockIds_[blockId]` is only reached after the `find` test. -/
def Volume.GetBlockCall (v : Volume) (blockId : BlockId) : Option VoxelBlock × Volume :=
  if (v.blockIds_.find blockId).isNone then (none, v)
  else
    (v.voxelBlocks_.getD (v.blockIds_.subscript blockId).1 none,
      { v with blockIds_ := (v.blockIds_.subscript blockId).2 })

/-- `Volume::GetMesh` as a call on the object: the returned pointer and the volume after
the call. -/
def Volume.GetMeshCall (v : Volume) (blockId : BlockId) : Option Mesh × Volume :=
  if (v.blockIds_.find blockId).isNone then (none, v)
  else
    (v.meshes_.getD (v.blockIds_.subscript blockId).1 none,
      { v with blockIds_ := (v.blockIds_.subscript blockId).2 })

/-! ## The padded buffer, cell by cell -/

/-- What a face slab of the padded buffer receives for the subscript `n` of the neighbour
array `t`: the neighbour's tsdf there, or `0` when the neighbour pointer is null. -/
def slabValue (t : Option (Nat → ℚ)) (n : Nat) : ℚ :=
  match t with
  | some f => f n
  | none => 0

/-- The double loop that fills one face slab: `idx` and `val` take the inner and the outer
loop variable. -/
def slabLoop (idx : Nat → Nat → Nat) (val : Nat → Nat → ℚ) (a : Nat → ℚ) : Nat → ℚ :=
  forLoop blockSize (fun k => forLoop blockSize (fun j p => store p (idx j k) (val j k))) a

/-- The tsdf array of the block `GetBlock(id)`, or null. -/
def tsdfOf (v : Volume) (id : BlockId) : Option (Nat → ℚ) :=
  (v.GetBlock id).map VoxelBlock.tsdf_

/-- The content of the cell `(p, q, r)` of the padded buffer of the block `blockId` after
`PackTSDF`, for the cells of the six face slabs and of the interior: the cell stands for
the voxel `(p - 1, q - 1, r - 1)` of the block, which lies in the neighbour block across a
face when one coordinate is `-1` or `16`. -/
def paddedTsdf (v : Volume) (blockId : BlockId) (own : Nat → ℚ) (p q r : Nat) : ℚ :=
  if p = 0 then
    slabValue (tsdfOf v (Index3d.sub blockId ⟨1, 0, 0⟩)) (blockIndex 15 (q - 1) (r - 1))
  else if p = 17 then
    slabValue (tsdfOf v (Index3d.add blockId ⟨1, 0, 0⟩)) (blockIndex 0 (q - 1) (r - 1))
  else if q = 0 then
    slabValue (tsdfOf v (Index3d.sub blockId ⟨0, 1, 0⟩)) (blockIndex (p - 1) 15 (r - 1))
  else if q = 17 then
    slabValue (tsdfOf v (Index3d.add blockId ⟨0, 1, 0⟩)) (blockIndex (p - 1) 0 (r - 1))
  else if r = 0 then
    slabValue (tsdfOf v (Index3d.sub blockId ⟨0, 0, 1⟩)) (blockIndex (p - 1) (q - 1) 15)
  else if r = 17 then
    slabValue (tsdfOf v (Index3d.add blockId ⟨0, 0, 1⟩)) (blockIndex (p - 1) (q - 1) 0)
  else own (blockIndex (p - 1) (q - 1) (r - 1))

/-- The cell `(p, q, r)` belongs to a face slab or to the interior of the padded buffer:
at most one coordinate is `0` or `17`. -/
def paddedCell (p q r : Nat) : Prop :=
  p ≤ 17 ∧ q ≤ 17 ∧ r ≤ 17 ∧
  ((1 ≤ q ∧ q ≤ 16 ∧ 1 ≤ r ∧ r ≤ 16) ∨ (1 ≤ p ∧ p ≤ 16 ∧ 1 ≤ r ∧ r ≤ 16) ∨
    (1 ≤ p ∧ p ≤ 16 ∧ 1 ≤ q ∧ q ≤ 16))

/-- Every voxel `(i, j, k)` of the block stores the central difference of the padded
buffer around its cell `(i + 1, j + 1, k + 1)`, divided by `voxelRes`. -/
def gradientsAgree (volume_ : Volume) (blockId : BlockId) (blk : VoxelBlock) (voxelRes : ℚ) :
    Prop :=
  ∀ i j k : Nat, i < 16 → j < 16 → k < 16 →
    blk.gradients_ (blockIndex i j k) =
      Vec3f.sdiv
        ⟨paddedTsdf volume_ blockId blk.tsdf_ (i + 2) (j + 1) (k + 1)
            - paddedTsdf volume_ blockId blk.tsdf_ i (j + 1) (k + 1),
          paddedTsdf volume_ blockId blk.tsdf_ (i + 1) (j + 2) (k + 1)
            - paddedTsdf volume_ blockId blk.tsdf_ (i + 1) j (k + 1),
          paddedTsdf volume_ blockId blk.tsdf_ (i + 1) (j + 1) (k + 2)
            - paddedTsdf volume_ blockId blk.tsdf_ (i + 1) (j + 1) k⟩
        voxelRes

/-- The operand that a face voxel takes from across the face: the tsdf of the voxel
`index` of the block `neighbour` when that block exists, and `0` when it does not. -/
def faceOperand (v : Volume) (neighbour : BlockId) (index : Index3d) : ℚ :=
  match v.GetBlock neighbour with
  | some nb => nb.TSDFAt index
  | none => 0

/-- A block whose tsdf is `0` everywhere except at the voxel `(2, 1, 1)`, which holds the
sentinel `invalidTsdf`. -/
def spikeBlock : VoxelBlock :=
  { VoxelBlock.new (1 / 100) true with
    tsdf_ := fun n => if n = 274 then invalidTsdf else 0 }

/-- A volume holding the single block `spikeBlock` at the id `(0, 0, 0)`. -/
def spikeVolume : Volume :=
  { nextBlockIndex_ := 1
    voxelRes_ := 1 / 100
    blockIds_ := [(⟨0, 0, 0⟩, 0)]
    voxelBlocks_ := [some spikeBlock]
    meshes_ := [none] }

/-! ## Further definitions: index order and `VoxelBlock::Clear` -/

/-- `Index3d::operator==`: the three components are equal. -/
def Index3d.eq (a other : Index3d) : Bool :=
  (a.x == other.x) && (a.y == other.y) && (a.z == other.z)

/-- `VoxelBlock::Clear()`: the loop over `i < blockVolume_` that stores `invalidTsdf`, `0`
and `Vec3f(0.0f)` in the tsdf, weight and gradient slot `i`, and `Vec3f(0.0f)` in the
colour slot when `useColor_` holds. -/
def VoxelBlock.Clear (b : VoxelBlock) : VoxelBlock :=
  forLoop b.blockVolume_ (fun i blk =>
    { blk with
      tsdf_ := store blk.tsdf_ i invalidTsdf
      weights_ := store blk.weights_ i 0
      gradients_ := store blk.gradients_ i (Vec3f.splat 0)
      colors_ := if blk.useColor_ then store blk.colors_ i (Vec3f.splat 0) else blk.colors_ }) b

/-! ## Block files (`Volume::DumpAllBlocks`, `Volume::PreloadBlocks`) -/

/-- The character of the decimal digit `d`. -/
def digitChar (d : Nat) : Char := Char.ofNat (48 + d)

/-- The decimal digits of a natural number, most significant first, `0` for zero. -/
def showNat (n : Nat) : List Char :=
  if n = 0 then [digitChar 0] else (Nat.digits 10 n).reverse.map digitChar

/-- What `sprintf` writes for `%d`: a minus sign for a negative value, then the decimal
digits of the absolute value. -/
def showInt (n : Int) : List Char :=
  if n < 0 then '-' :: showNat n.natAbs else showNat n.natAbs

/-- The name of the file of a block inside its directory, `%d_%d_%d.gz`. -/
def blockEntryName (id : BlockId) : List Char :=
  showInt id.x ++ '_' :: (showInt id.y ++ '_' :: (showInt id.z ++ ['.', 'g', 'z']))

/-- The path `sprintf(filename, "%s/%d_%d_%d.gz", dir, id.x, id.y, id.z)` that
`DumpAllBlocks` opens for a block. -/
def dumpFileName (dir : List Char) (id : BlockId) : List Char :=
  dir ++ '/' :: blockEntryName id

/-- `Volume::DumpAllBlocks(dir)`: the paths of the files written, one per entry of the map
whose block is not null, when every `gzopen` and write succeeds. -/
def Volume.DumpAllBlocks (v : Volume) (dir : List Char) : List (List Char) :=
  (v.blockIds_.filter (fun e => (v.voxelBlocks_.getD e.2 none).isSome)).map
    (fun e => dumpFileName dir e.1)

/-- The loop of the lambda `splitString`, for a delimiter of one character (the three
calls pass ".", "/" and "_"): `piece` is the substring from `start` to the scan position;
an occurrence of the delimiter closes the piece, and the end of the input closes the last
one. -/
def splitStringFrom (delim : Char) : List Char → List Char → List (List Char)
  | [], piece => [piece]
  | c :: rest, piece =>
    if c = delim then piece :: splitStringFrom delim rest []
    else splitStringFrom delim rest (piece ++ [c])

/-- `splitString(input, delim)`. -/
def splitString (input : List Char) (delim : Char) : List (List Char) :=
  splitStringFrom delim input []

/-- `isspace` in the C locale: the space and the characters 9 to 13. -/
def isspace (c : Char) : Bool := c.toNat == 32 || (9 ≤ c.toNat && c.toNat ≤ 13)

/-- `std::stoi(s)`: white space is skipped, an optional sign is read, then the longest run
of decimal digits; `none` stands for the exceptions `std::invalid_argument` (no digit) and
`std::out_of_range` (the value does not fit `int`). -/
def stoi (s : List Char) : Option Int :=
  let s1 := s.dropWhile isspace
  let negative := s1.head? == some '-'
  let s2 := if s1.head? == some '-' || s1.head? == some '+' then s1.tail else s1
  let digits := s2.takeWhile Char.isDigit
  if digits = [] then none
  else
    let n : Nat := digits.foldl (fun acc c => 10 * acc + (c.toNat - 48)) 0
    let value : Int := if negative then -(n : Int) else (n : Int)
    if value < -2147483648 ∨ 2147483647 < value then none else some value

/-- What `PreloadBlocks` makes of one path of its list. -/
inductive ParsedName where
  | skipped
  | failed
  | parsed (blockId : BlockId)
  deriving DecidableEq, Repr

/-- The body of the loop of `PreloadBlocks` up to the construction of `blockId`: the path
is split on ".", and skipped unless the last piece is "gz"; the first piece is split on
"/", its last piece on "_", and the first three pieces of that go through `std::stoi`.
`failed` stands for an exception of `std::stoi` and for a subscript of `stringId` past
its end. -/
def parseBlockFile (filename : List Char) : ParsedName :=
  let splittedName := splitString filename '.'
  if splittedName.getLastD [] ≠ ['g', 'z'] then ParsedName.skipped
  else
    let stringId0 := splitString (splittedName.headD []) '/'
    let stringId := splitString (stringId0.getLastD []) '_'
    match stringId[0]? with
    | none => ParsedName.failed
    | some sx =>
      match stoi sx with
      | none => ParsedName.failed
      | some x =>
        match stringId[1]? with
        | none => ParsedName.failed
        | some sy =>
          match stoi sy with
          | none => ParsedName.failed
          | some y =>
            match stringId[2]? with
            | none => ParsedName.failed
            | some sz =>
              match stoi sz with
              | none => ParsedName.failed
              | some z => ParsedName.parsed ⟨x, y, z⟩

/-- `Volume::PreloadBlocks(dirName)` on the directory entries `entries` (the `d_name` of
`readdir`, in its order), as far as the block ids go: every path `dirName + "/" + entry`
that parses to an id has `AddBlock` called on it; `none` when an exception escapes.  The
content of the files, read into the arrays of the block, is not modelled. -/
def Volume.PreloadBlocks (v : Volume) (dirName : List Char) (entries : List (List Char)) :
    Option Volume :=
  entries.foldlM (fun w entry =>
    match parseBlockFile (dirName ++ '/' :: entry) with
    | ParsedName.skipped => some w
    | ParsedName.failed => none
    | ParsedName.parsed blockId => some (w.AddBlock blockId).2) v

/-- A fresh volume to which the block `(1, 2, 3)` was added. -/
def oneBlockVolume : Volume := ((Volume.new (1 / 100)).AddBlock ⟨1, 2, 3⟩).2

/-! ## The walk of `RaycastVoxels`, emplace by emplace -/

/-- The three axes of a block id. -/
inductive Axis where
  | x
  | y
  | z
  deriving DecidableEq, Repr

/-- The component of an id along an axis. -/
def Index3d.coord (a : Index3d) : Axis → Int
  | Axis.x => a.x
  | Axis.y => a.y
  | Axis.z => a.z

/-- The axis whose loop `RaycastVoxels(minId, maxId, .)` runs: the tests of its `if`
chain on `l = |dx|`, `m = |dy|`, `n = |dz|`. -/
def raycastDriver (minId maxId : Index3d) : Axis :=
  let l := |maxId.x - minId.x|
  let m := |maxId.y - minId.y|
  let n := |maxId.z - minId.z|
  if l ≥ m ∧ l ≥ n then Axis.x
  else if m ≥ l ∧ m ≥ n then Axis.y
  else Axis.z

/-- The loop variables of `RaycastVoxels(minId, maxId, foundIds)` after `i` iterations of
the loop that the call runs. -/
def raycastState (minId maxId : Index3d) (foundIds : Finset Index3d) (i : Nat) :
    RaycastState :=
  let dx := maxId.x - minId.x
  let dy := maxId.y - minId.y
  let dz := maxId.z - minId.z
  let incX := inc dx
  let incY := inc dy
  let incZ := inc dz
  let l := |dx|
  let m := |dy|
  let n := |dz|
  let dx2 := shl dx 1
  let dy2 := shl dy 1
  let dz2 := shl dz 2
  if l ≥ m ∧ l ≥ n then
    forLoop i (fun _ => raycastStepX incX incY incZ dx2 dy2 dz2) ⟨minId, dy2 - l, dz2 - l, foundIds⟩
  else if m ≥ l ∧ m ≥ n then
    forLoop i (fun _ => raycastStepY incX incY incZ dx2 dy2 dz2) ⟨minId, dx2 - m, dz2 - m, foundIds⟩
  else
    forLoop i (fun _ => raycastStepZ incX incY incZ dx2 dy2 dz2) ⟨minId, dy2 - n, dx2 - n, foundIds⟩

/-- The id passed to the `emplace` number `i` of the call, counted from `0`: the current
id at the head of iteration `i` of the loop for `i <= L`, where `L` is the absolute delta
of the driver axis, and the id reached after the loop, emplaced last, for `i = L + 1`. -/
def raycastEmitted (minId maxId : Index3d) (i : Nat) : Index3d :=
  (raycastState minId maxId ∅ i).id

/-- `L = max(|dx|, |dy|, |dz|)` for the endpoints `minId`, `maxId`. -/
def raycastLength (minId maxId : Index3d) : Nat :=
  (max |maxId.x - minId.x| (max |maxId.y - minId.y| |maxId.z - minId.z|)).toNat

/-- The id `c` lies in the axis-aligned box spanned by `a` and `b`: each component of `c`
lies between the corresponding components of `a` and `b`, inclusive. -/
def inBox (a b c : Index3d) : Prop :=
  (min a.x b.x ≤ c.x ∧ c.x ≤ max a.x b.x) ∧ (min a.y b.y ≤ c.y ∧ c.y ≤ max a.y b.y) ∧
    (min a.z b.z ≤ c.z ∧ c.z ≤ max a.z b.z)

instance (a b c : Index3d) : Decidable (inBox a b c) := by
  unfold inBox
  infer_instance

/-- The id `c` with its y and z components exchanged. -/
def swapYZ (c : Index3d) : Index3d := ⟨c.x, c.z, c.y⟩

/-- The cell `(p, q, r)` of the padded buffer is one of the six cells that the gradient
loops read for some voxel: `(i + 1, j, k)`, `(i - 1, j, k)`, `(i, j + 1, k)`,
`(i, j - 1, k)`, `(i, j, k + 1)` or `(i, j, k - 1)` with `1 <= i, j, k < blockSize + 1`. -/
def stencilCell (p q r : Nat) : Prop :=
  ∃ i j k : Nat, (1 ≤ i ∧ i < blockSize + 1) ∧ (1 ≤ j ∧ j < blockSize + 1) ∧
    (1 ≤ k ∧ k < blockSize + 1) ∧
    ((p = i + 1 ∧ q = j ∧ r = k) ∨ (p = i - 1 ∧ q = j ∧ r = k) ∨
      (p = i ∧ q = j + 1 ∧ r = k) ∨ (p = i ∧ q = j - 1 ∧ r = k) ∨
      (p = i ∧ q = j ∧ r = k + 1) ∨ (p = i ∧ q = j ∧ r = k - 1))

end fusion

namespace mc

/-! ## Marching Cubes (`marching_cubes/MarchingCubes.cpp`) -/

/-- `struct vertex_t { float x, y, z; }`. -/
structure vertex_t where
  x : ℚ
  y : ℚ
  z : ℚ
  deriving DecidableEq, Repr

/-- `#define ISOVALUE_MAX FLT_MAX`. -/
def ISOVALUE_MAX : ℚ := FLT_MAX

/-- `GRID_OFFSET(i, j, k, blockSize)`; `COLOR_ID` and `GRAD_ID` are the same expression. -/
def GRID_OFFSET (i j k blockSize : Nat) : Nat := i + j * blockSize + k * blockSize * blockSize

/-- `INVALID_CUBE`: some corner value equals `ISOVALUE_MAX`. -/
def INVALID_CUBE (tsdf0 tsdf1 tsdf2 tsdf3 tsdf4 tsdf5 tsdf6 tsdf7 : ℚ) : Bool :=
  tsdf0 == ISOVALUE_MAX || tsdf1 == ISOVALUE_MAX || tsdf2 == ISOVALUE_MAX
    || tsdf3 == ISOVALUE_MAX || tsdf4 == ISOVALUE_MAX || tsdf5 == ISOVALUE_MAX
    || tsdf6 == ISOVALUE_MAX || tsdf7 == ISOVALUE_MAX

/-- The value of the comparison `tsdf < isoValue` as an `int`. -/
def below (tsdf isoValue : ℚ) : Nat := if tsdf < isoValue then 1 else 0

/-- `CUBE_INDEX`: bit `n` is set when corner `n` is below the iso value. -/
def CUBE_INDEX (tsdf0 tsdf1 tsdf2 tsdf3 tsdf4 tsdf5 tsdf6 tsdf7 isoValue : ℚ) : Nat :=
  below tsdf0 isoValue ||| (below tsdf1 isoValue <<< 1) ||| (below tsdf2 isoValue <<< 2)
    ||| (below tsdf3 isoValue <<< 3) ||| (below tsdf4 isoValue <<< 4)
    ||| (below tsdf5 isoValue <<< 5) ||| (below tsdf6 isoValue <<< 6)
    ||| (below tsdf7 isoValue <<< 7)

/-- The constant `0.00001f` of `interpolate` and `normalize`, in exact arithmetic. -/
def epsilon : ℚ := 1 / 100000

/-- `interpolate(isoValue, v0, v1, tsdf0, tsdf1)`: the three clamped cases, then the linear
interpolation at `mu = (isoValue - tsdf0) / (tsdf1 - tsdf0)`. -/
def interpolate (isoValue : ℚ) (v0 v1 : vertex_t) (tsdf0 tsdf1 : ℚ) : vertex_t :=
  if |isoValue - tsdf0| < epsilon then v0
  else if |isoValue - tsdf1| < epsilon then v1
  else if |tsdf0 - tsdf1| < epsilon then v0
  else
    let mu := (isoValue - tsdf0) / (tsdf1 - tsdf0)
    ⟨v0.x + mu * (v1.x - v0.x), v0.y + mu * (v1.y - v0.y), v0.z + mu * (v1.z - v0.z)⟩

/-- `normalize(v)`, with the square root of `libm` as a parameter. -/
def normalize (sqrtf : ℚ → ℚ) (v : vertex_t) : vertex_t :=
  let n := epsilon + sqrtf (v.x * v.x + v.y * v.y + v.z * v.z)
  ⟨v.x / n, v.y / n, v.z / n⟩

/-- `get3DPos(i, j, k, org, voxelRes)`. -/
def get3DPos (i j k : Nat) (org : vertex_t) (voxelRes : ℚ) : vertex_t :=
  ⟨(i : ℚ) * voxelRes + org.x, (j : ℚ) * voxelRes + org.y, (k : ℚ) * voxelRes + org.z⟩

/-- What this translation unit takes from outside: the two tables of `tables.h` (each row of
`triTable` is its list of entries), the square root of `libm`, and the indeterminate
content of the uninitialised local arrays `v`, `c`, `g`. -/
structure Env where
  edgeTable : Nat → Nat
  triTable : Nat → List Int
  sqrtf : ℚ → ℚ
  indeterminate : Nat → vertex_t

/-- The three arrays of one block handed to `extractMesh`: tsdf, colours and gradients.
`Volume::ComputeMesh` sets the three pointers of a block together, and `extractMesh`
tests the tsdf pointer only. -/
structure BlockArrays where
  tsdf : Nat → ℚ
  rgba : Nat → vertex_t
  grad : Nat → vertex_t

/-- What a pass reads for one cube corner: `tsdfN`, `pN`, `*cN`, `*gN`. -/
structure Corner where
  tsdf : ℚ
  p : vertex_t
  c : vertex_t
  g : vertex_t
  deriving DecidableEq, Repr

/-- The eight corners of a cube, in the numbering of the passes. -/
structure Cube where
  n0 : Corner
  n1 : Corner
  n2 : Corner
  n3 : Corner
  n4 : Corner
  n5 : Corner
  n6 : Corner
  n7 : Corner
  deriving DecidableEq, Repr

/-- The reads `b.tsdf[GRID_OFFSET(i, j, k)]`, `get3DPos(i, j, k, org, voxelRes)`,
`b.rgba + COLOR_ID(i, j, k)` and `b.grad + GRAD_ID(i, j, k)` for one corner. -/
def cornerAt (b : BlockArrays) (org : vertex_t) (voxelRes : ℚ) (blockSize i j k : Nat) :
    Corner :=
  { tsdf := b.tsdf (GRID_OFFSET i j k blockSize)
    p := get3DPos i j k org voxelRes
    c := b.rgba (GRID_OFFSET i j k blockSize)
    g := b.grad (GRID_OFFSET i j k blockSize) }

/-- The two corners joined by cube edge `e`, in the order in which `INTERPOLATE_POINTS`
passes them to `interpolate`. -/
def edgeEnds (cube : Cube) : Nat → Corner × Corner
  | 0 => (cube.n0, cube.n1)
  | 1 => (cube.n1, cube.n2)
  | 2 => (cube.n2, cube.n3)
  | 3 => (cube.n3, cube.n0)
  | 4 => (cube.n4, cube.n5)
  | 5 => (cube.n5, cube.n6)
  | 6 => (cube.n6, cube.n7)
  | 7 => (cube.n7, cube.n4)
  | 8 => (cube.n0, cube.n4)
  | 9 => (cube.n1, cube.n5)
  | 10 => (cube.n2, cube.n6)
  | _ => (cube.n3, cube.n7)

/-- The vertex position that `INTERPOLATE_POINTS` computes on edge `e` of a cube. -/
def edgeVertex (isoValue : ℚ) (cube : Cube) (e : Nat) : vertex_t :=
  interpolate isoValue (edgeEnds cube e).1.p (edgeEnds cube e).2.p
    (edgeEnds cube e).1.tsdf (edgeEnds cube e).2.tsdf

/-- The colour that `INTERPOLATE_POINTS` computes on edge `e` of a cube. -/
def edgeColor (isoValue : ℚ) (cube : Cube) (e : Nat) : vertex_t :=
  interpolate isoValue (edgeEnds cube e).1.c (edgeEnds cube e).2.c
    (edgeEnds cube e).1.tsdf (edgeEnds cube e).2.tsdf

/-- The normal that `INTERPOLATE_POINTS` computes on edge `e` of a cube. -/
def edgeNormal (sqrtf : ℚ → ℚ) (isoValue : ℚ) (cube : Cube) (e : Nat) : vertex_t :=
  normalize sqrtf (interpolate isoValue (edgeEnds cube e).1.g (edgeEnds cube e).2.g
    (edgeEnds cube e).1.tsdf (edgeEnds cube e).2.tsdf)

/-- The test `edgeTable[cubeIndex] & (1 << e)` for the edges `e = 0, ..., 11`. -/
def edgeFlag (env : Env) (cubeIndex e : Nat) : Bool :=
  decide (e < 12) && (env.edgeTable cubeIndex &&& 2 ^ e != 0)

/-- The array `v` after `INTERPOLATE_POINTS`. -/
def interpolatedV (env : Env) (isoValue : ℚ) (cubeIndex : Nat) (cube : Cube) (e : Nat) :
    vertex_t :=
  if edgeFlag env cubeIndex e then edgeVertex isoValue cube e else env.indeterminate e

/-- The array `c` after `INTERPOLATE_POINTS`. -/
def interpolatedC (env : Env) (isoValue : ℚ) (cubeIndex : Nat) (cube : Cube) (e : Nat) :
    vertex_t :=
  if edgeFlag env cubeIndex e then edgeColor isoValue cube e else env.indeterminate e

/-- The array `g` after `INTERPOLATE_POINTS`. -/
def interpolatedG (env : Env) (isoValue : ℚ) (cubeIndex : Nat) (cube : Cube) (e : Nat) :
    vertex_t :=
  if edgeFlag env cubeIndex e then edgeNormal env.sqrtf isoValue cube e
  else env.indeterminate e

/-- One emitted triangle: nine floats in each of `triangles`, `colors` and `normals`. -/
structure Triangle where
  v0 : vertex_t
  v1 : vertex_t
  v2 : vertex_t
  c0 : vertex_t
  c1 : vertex_t
  c2 : vertex_t
  g0 : vertex_t
  g1 : vertex_t
  g2 : vertex_t
  deriving DecidableEq, Repr

/-- `EXPORT_TRIANGLES`: the loop `for (id = 0; triTable[cubeIndex][id] != -1; id += 3)`
over the rest of the row, emitting one triangle per step. -/
def EXPORT_TRIANGLES (v c g : Nat → vertex_t) : List Int → List Triangle
  | a :: b :: d :: rest =>
    if a = -1 then []
    else
      { v0 := v a.toNat, v1 := v b.toNat, v2 := v d.toNat
        c0 := c a.toNat, c1 := c b.toNat, c2 := c d.toNat
        g0 := g a.toNat, g1 := g b.toNat, g2 := g d.toNat } :: EXPORT_TRIANGLES v c g rest
  | _ => []

/-- The body that every pass runs on a gathered cube: `continue` when `INVALID_CUBE` holds
or `cubeIndex == 0`, else `INTERPOLATE_POINTS` and `EXPORT_TRIANGLES`. -/
def processCube (env : Env) (isoValue : ℚ) (cube : Cube) : List Triangle :=
  if INVALID_CUBE cube.n0.tsdf cube.n1.tsdf cube.n2.tsdf cube.n3.tsdf cube.n4.tsdf
      cube.n5.tsdf cube.n6.tsdf cube.n7.tsdf then []
  else
    let cubeIndex := CUBE_INDEX cube.n0.tsdf cube.n1.tsdf cube.n2.tsdf cube.n3.tsdf
      cube.n4.tsdf cube.n5.tsdf cube.n6.tsdf cube.n7.tsdf isoValue
    if cubeIndex = 0 then []
    else
      EXPORT_TRIANGLES (interpolatedV env isoValue cubeIndex cube)
        (interpolatedC env isoValue cubeIndex cube) (interpolatedG env isoValue cubeIndex cube)
        (env.triTable cubeIndex)

/-- The origin `{org.x + voxelRes * blockSize * ax, ...}` of the neighbour block shifted by
one block along the axes whose flag is set. -/
def shiftedOrg (org : vertex_t) (voxelRes : ℚ) (blockSize : Nat) (ax ay az : Bool) : vertex_t :=
  ⟨if ax then org.x + voxelRes * (blockSize : ℚ) else org.x,
   if ay then org.y + voxelRes * (blockSize : ℚ) else org.y,
   if az then org.z + voxelRes * (blockSize : ℚ) else org.z⟩

/-- The cube of `extractInnerMesh` at `(i, j, k)`. -/
def innerCube (b : BlockArrays) (voxelRes : ℚ) (org : vertex_t) (blockSize i j k : Nat) : Cube :=
  { n0 := cornerAt b org voxelRes blockSize i j k
    n1 := cornerAt b org voxelRes blockSize i (j + 1) k
    n2 := cornerAt b org voxelRes blockSize (i + 1) (j + 1) k
    n3 := cornerAt b org voxelRes blockSize (i + 1) j k
    n4 := cornerAt b org voxelRes blockSize i j (k + 1)
    n5 := cornerAt b org voxelRes blockSize i (j + 1) (k + 1)
    n6 := cornerAt b org voxelRes blockSize (i + 1) (j + 1) (k + 1)
    n7 := cornerAt b org voxelRes blockSize (i + 1) j (k + 1) }

/-- `extractInnerMesh`: the cubes `(i, j, k)` with `0 <= i, j, k < blockSize - 1`. -/
def extractInnerMesh (env : Env) (b : BlockArrays) (voxelRes : ℚ) (org : vertex_t)
    (blockSize : Nat) (isoValue : ℚ) : List Triangle :=
  forLoop (blockSize - 1) (fun k => forLoop (blockSize - 1) (fun j =>
    forLoop (blockSize - 1) (fun i out =>
      out ++ processCube env isoValue (innerCube b voxelRes org blockSize i j k)))) []

/-- The cube of `extractXFaceMesh` at `(j, k)`, with `i0 = blockSize - 1`, `i1 = 0`. -/
def xFaceCube (bi bf : BlockArrays) (voxelRes : ℚ) (org : vertex_t) (blockSize j k : Nat) :
    Cube :=
  let i0 := blockSize - 1
  let i1 := 0
  let org0 := org
  let org1 := shiftedOrg org voxelRes blockSize true false false
  { n0 := cornerAt bi org0 voxelRes blockSize i0 j k
    n1 := cornerAt bi org0 voxelRes blockSize i0 (j + 1) k
    n2 := cornerAt bf org1 voxelRes blockSize i1 (j + 1) k
    n3 := cornerAt bf org1 voxelRes blockSize i1 j k
    n4 := cornerAt bi org0 voxelRes blockSize i0 j (k + 1)
    n5 := cornerAt bi org0 voxelRes blockSize i0 (j + 1) (k + 1)
    n6 := cornerAt bf org1 voxelRes blockSize i1 (j + 1) (k + 1)
    n7 := cornerAt bf org1 voxelRes blockSize i1 j (k + 1) }

/-- `extractXFaceMesh`. -/
def extractXFaceMesh (env : Env) (bi bf : BlockArrays) (voxelRes : ℚ) (org : vertex_t)
    (blockSize : Nat) (isoValue : ℚ) : List Triangle :=
  forLoop (blockSize - 1) (fun k => forLoop (blockSize - 1) (fun j out =>
    out ++ processCube env isoValue (xFaceCube bi bf voxelRes org blockSize j k))) []

/-- The cube of `extractYFaceMesh` at `(i, k)`, with `j0 = blockSize - 1`, `j1 = 0`. -/
def yFaceCube (bi bf : BlockArrays) (voxelRes : ℚ) (org : vertex_t) (blockSize i k : Nat) :
    Cube :=
  let j0 := blockSize - 1
  let j1 := 0
  let org0 := org
  let org1 := shiftedOrg org voxelRes blockSize false true false
  { n0 := cornerAt bi org0 voxelRes blockSize i j0 k
    n1 := cornerAt bf org1 voxelRes blockSize i j1 k
    n2 := cornerAt bf org1 voxelRes blockSize (i + 1) j1 k
    n3 := cornerAt bi org0 voxelRes blockSize (i + 1) j0 k
    n4 := cornerAt bi org0 voxelRes blockSize i j0 (k + 1)
    n5 := cornerAt bf org1 voxelRes blockSize i j1 (k + 1)
    n6 := cornerAt bf org1 voxelRes blockSize (i + 1) j1 (k + 1)
    n7 := cornerAt bi org0 voxelRes blockSize (i + 1) j0 (k + 1) }

/-- `extractYFaceMesh`. -/
def extractYFaceMesh (env : Env) (bi bf : BlockArrays) (voxelRes : ℚ) (org : vertex_t)
    (blockSize : Nat) (isoValue : ℚ) : List Triangle :=
  forLoop (blockSize - 1) (fun k => forLoop (blockSize - 1) (fun i out =>
    out ++ processCube env isoValue (yFaceCube bi bf voxelRes org blockSize i k))) []

/-- The cube of `extractZFaceMesh` at `(i, j)`, with `k0 = blockSize - 1`, `k1 = 0`. -/
def zFaceCube (bi bf : BlockArrays) (voxelRes : ℚ) (org : vertex_t) (blockSize i j : Nat) :
    Cube :=
  let k0 := blockSize - 1
  let k1 := 0
  let org0 := org
  let org1 := shiftedOrg org voxelRes blockSize false false true
  { n0 := cornerAt bi org0 voxelRes blockSize i j k0
    n1 := cornerAt bi org0 voxelRes blockSize i (j + 1) k0
    n2 := cornerAt bi org0 voxelRes blockSize (i + 1) (j + 1) k0
    n3 := cornerAt bi org0 voxelRes blockSize (i + 1) j k0
    n4 := cornerAt bf org1 voxelRes blockSize i j k1
    n5 := cornerAt bf org1 voxelRes blockSize i (j + 1) k1
    n6 := cornerAt bf org1 voxelRes blockSize (i + 1) (j + 1) k1
    n7 := cornerAt bf org1 voxelRes blockSize (i + 1) j k1 }

/-- `extractZFaceMesh`. -/
def extractZFaceMesh (env : Env) (bi bf : BlockArrays) (voxelRes : ℚ) (org : vertex_t)
    (blockSize : Nat) (isoValue : ℚ) : List Triangle :=
  forLoop (blockSize - 1) (fun j => forLoop (blockSize - 1) (fun i out =>
    out ++ processCube env isoValue (zFaceCube bi bf voxelRes org blockSize i j))) []

/-- The cube of `extractXYEdgeMesh` at `k`. -/
def xyEdgeCube (bi bx by' bxy : BlockArrays) (voxelRes : ℚ) (org : vertex_t)
    (blockSize k : Nat) : Cube :=
  let orgi := org
  let orgx := shiftedOrg org voxelRes blockSize true false false
  let orgy := shiftedOrg org voxelRes blockSize false true false
  let orgxy := shiftedOrg org voxelRes blockSize true true false
  { n0 := cornerAt bi orgi voxelRes blockSize (blockSize - 1) (blockSize - 1) k
    n1 := cornerAt by' orgy voxelRes blockSize (blockSize - 1) 0 k
    n2 := cornerAt bxy orgxy voxelRes blockSize 0 0 k
    n3 := cornerAt bx orgx voxelRes blockSize 0 (blockSize - 1) k
    n4 := cornerAt bi orgi voxelRes blockSize (blockSize - 1) (blockSize - 1) (k + 1)
    n5 := cornerAt by' orgy voxelRes blockSize (blockSize - 1) 0 (k + 1)
    n6 := cornerAt bxy orgxy voxelRes blockSize 0 0 (k + 1)
    n7 := cornerAt bx orgx voxelRes blockSize 0 (blockSize - 1) (k + 1) }

/-- `extractXYEdgeMesh`. -/
def extractXYEdgeMesh (env : Env) (bi bx by' bxy : BlockArrays) (voxelRes : ℚ) (org : vertex_t)
    (blockSize : Nat) (isoValue : ℚ) : List Triangle :=
  forLoop (blockSize - 1) (fun k out =>
    out ++ processCube env isoValue (xyEdgeCube bi bx by' bxy voxelRes org blockSize k)) []

/-- The cube of `extractXZEdgeMesh` at `j`. -/
def xzEdgeCube (bi bx bz bxz : BlockArrays) (voxelRes : ℚ) (org : vertex_t)
    (blockSize j : Nat) : Cube :=
  let orgi := org
  let orgx := shiftedOrg org voxelRes blockSize true false false
  let orgz := shiftedOrg org voxelRes blockSize false false true
  let orgxz := shiftedOrg org voxelRes blockSize true false true
  { n0 := cornerAt bi orgi voxelRes blockSize (blockSize - 1) j (blockSize - 1)
    n1 := cornerAt bi orgi voxelRes blockSize (blockSize - 1) (j + 1) (blockSize - 1)
    n2 := cornerAt bx orgx voxelRes blockSize 0 (j + 1) (blockSize - 1)
    n3 := cornerAt bx orgx voxelRes blockSize 0 j (blockSize - 1)
    n4 := cornerAt bz orgz voxelRes blockSize (blockSize - 1) j 0
    n5 := cornerAt bz orgz voxelRes blockSize (blockSize - 1) (j + 1) 0
    n6 := cornerAt bxz orgxz voxelRes blockSize 0 (j + 1) 0
    n7 := cornerAt bxz orgxz voxelRes blockSize 0 j 0 }

/-- `extractXZEdgeMesh`. -/
def extractXZEdgeMesh (env : Env) (bi bx bz bxz : BlockArrays) (voxelRes : ℚ) (org : vertex_t)
    (blockSize : Nat) (isoValue : ℚ) : List Triangle :=
  forLoop (blockSize - 1) (fun j out =>
    out ++ processCube env isoValue (xzEdgeCube bi bx bz bxz voxelRes org blockSize j)) []

/-- The cube of `extractYZEdgeMesh` at `i`. -/
def yzEdgeCube (bi by' bz byz : BlockArrays) (voxelRes : ℚ) (org : vertex_t)
    (blockSize i : Nat) : Cube :=
  let orgi := org
  let orgy := shiftedOrg org voxelRes blockSize false true false
  let orgz := shiftedOrg org voxelRes blockSize false false true
  let orgyz := shiftedOrg org voxelRes blockSize false true true
  { n0 := cornerAt bi orgi voxelRes blockSize i (blockSize - 1) (blockSize - 1)
    n1 := cornerAt by' orgy voxelRes blockSize i 0 (blockSize - 1)
    n2 := cornerAt by' orgy voxelRes blockSize (i + 1) 0 (blockSize - 1)
    n3 := cornerAt bi orgi voxelRes blockSize (i + 1) (blockSize - 1) (blockSize - 1)
    n4 := cornerAt bz orgz voxelRes blockSize i (blockSize - 1) 0
    n5 := cornerAt byz orgyz voxelRes blockSize i 0 0
    n6 := cornerAt byz orgyz voxelRes blockSize (i + 1) 0 0
    n7 := cornerAt bz orgz voxelRes blockSize (i + 1) (blockSize - 1) 0 }

/-- `extractYZEdgeMesh`. -/
def extractYZEdgeMesh (env : Env) (bi by' bz byz : BlockArrays) (voxelRes : ℚ) (org : vertex_t)
    (blockSize : Nat) (isoValue : ℚ) : List Triangle :=
  forLoop (blockSize - 1) (fun i out =>
    out ++ processCube env isoValue (yzEdgeCube bi by' bz byz voxelRes org blockSize i)) []

/-- The single cube of `extractXYZCornerMesh`. -/
def xyzCornerCube (bi bx by' bz bxy bxz byz bxyz : BlockArrays) (voxelRes : ℚ) (org : vertex_t)
    (blockSize : Nat) : Cube :=
  let orgi := org
  let orgx := shiftedOrg org voxelRes blockSize true false false
  let orgy := shiftedOrg org voxelRes blockSize false true false
  let orgz := shiftedOrg org voxelRes blockSize false false true
  let orgxy := shiftedOrg org voxelRes blockSize true true false
  let orgxz := shiftedOrg org voxelRes blockSize true false true
  let orgyz := shiftedOrg org voxelRes blockSize false true true
  let orgxyz := shiftedOrg org voxelRes blockSize true true true
  { n0 := cornerAt bi orgi voxelRes blockSize (blockSize - 1) (blockSize - 1) (blockSize - 1)
    n1 := cornerAt by' orgy voxelRes blockSize (blockSize - 1) 0 (blockSize - 1)
    n2 := cornerAt bxy orgxy voxelRes blockSize 0 0 (blockSize - 1)
    n3 := cornerAt bx orgx voxelRes blockSize 0 (blockSize - 1) (blockSize - 1)
    n4 := cornerAt bz orgz voxelRes blockSize (blockSize - 1) (blockSize - 1) 0
    n5 := cornerAt byz orgyz voxelRes blockSize (blockSize - 1) 0 0
    n6 := cornerAt bxyz orgxyz voxelRes blockSize 0 0 0
    n7 := cornerAt bxz orgxz voxelRes blockSize 0 (blockSize - 1) 0 }

/-- `extractXYZCornerMesh`. -/
def extractXYZCornerMesh (env : Env) (bi bx by' bz bxy bxz byz bxyz : BlockArrays)
    (voxelRes : ℚ) (org : vertex_t) (blockSize : Nat) (isoValue : ℚ) : List Triangle :=
  processCube env isoValue (xyzCornerCube bi bx by' bz bxy bxz byz bxyz voxelRes org blockSize)

/-- The triangles of an optional pass: none when a required neighbour is null. -/
def optionalPass (pass : Option (List Triangle)) : List Triangle := pass.getD []

/-- `spf::mc::extractMesh`: the emitted triangles, in order; the returned `numTriangles` is
the length of the list.  Every pass writes at `triangles + 9 * numTriangles`, that is it
appends to what the earlier passes wrote. -/
def extractMesh (env : Env) (tsdf xx yy zz xy xz yz xyz : Option BlockArrays) (blockSize : Nat)
    (voxelRes : ℚ) (blockPos : vertex_t) : List Triangle :=
  let org := blockPos
  match tsdf with
  | none => []
  | some b =>
    let t0 := extractInnerMesh env b voxelRes org blockSize 0
    let t1 := t0 ++ optionalPass (xx.map fun bx => extractXFaceMesh env b bx voxelRes org blockSize 0)
    let t2 := t1 ++ optionalPass (yy.map fun by' => extractYFaceMesh env b by' voxelRes org blockSize 0)
    let t3 := t2 ++ optionalPass (zz.map fun bz => extractZFaceMesh env b bz voxelRes org blockSize 0)
    let t4 := t3 ++ optionalPass (xx.bind fun bx => yy.bind fun by' => xy.map fun bxy =>
      extractXYEdgeMesh env b bx by' bxy voxelRes org blockSize 0)
    let t5 := t4 ++ optionalPass (xx.bind fun bx => zz.bind fun bz => xz.map fun bxz =>
      extractXZEdgeMesh env b bx bz bxz voxelRes org blockSize 0)
    let t6 := t5 ++ optionalPass (yy.bind fun by' => zz.bind fun bz => yz.map fun byz =>
      extractYZEdgeMesh env b by' bz byz voxelRes org blockSize 0)
    t6 ++ optionalPass (xx.bind fun bx => yy.bind fun by' => zz.bind fun bz =>
      xy.bind fun bxy => xz.bind fun bxz => yz.bind fun byz => xyz.map fun bxyz =>
        extractXYZCornerMesh env b bx by' bz bxy bxz byz bxyz voxelRes org blockSize 0)

/-- Edge `e1` of `cube1` and edge `e2` of `cube2` are the same geometric edge: they join
the same two corner positions, carrying the same tsdf values, in the same or in the
opposite order. -/
def sharesEdge (cube1 : Cube) (e1 : Nat) (cube2 : Cube) (e2 : Nat) : Prop :=
  ((edgeEnds cube1 e1).1.p = (edgeEnds cube2 e2).1.p ∧
    (edgeEnds cube1 e1).1.tsdf = (edgeEnds cube2 e2).1.tsdf ∧
    (edgeEnds cube1 e1).2.p = (edgeEnds cube2 e2).2.p ∧
    (edgeEnds cube1 e1).2.tsdf = (edgeEnds cube2 e2).2.tsdf) ∨
  ((edgeEnds cube1 e1).1.p = (edgeEnds cube2 e2).2.p ∧
    (edgeEnds cube1 e1).1.tsdf = (edgeEnds cube2 e2).2.tsdf ∧
    (edgeEnds cube1 e1).2.p = (edgeEnds cube2 e2).1.p ∧
    (edgeEnds cube1 e1).2.tsdf = (edgeEnds cube2 e2).1.tsdf)

/-- Edge `e` of the cube is crossed by the iso surface: exactly one of its two corners is
below the iso value, as in `CUBE_INDEX`. -/
def edgeCrossed (isoValue : ℚ) (cube : Cube) (e : Nat) : Prop :=
  ((edgeEnds cube e).1.tsdf < isoValue ∧ ¬ (edgeEnds cube e).2.tsdf < isoValue) ∨
  (¬ (edgeEnds cube e).1.tsdf < isoValue ∧ (edgeEnds cube e).2.tsdf < isoValue)

/-- Both corner values of edge `e` are within `epsilon` of the iso value. -/
def edgeBothClamped (isoValue : ℚ) (cube : Cube) (e : Nat) : Prop :=
  |isoValue - (edgeEnds cube e).1.tsdf| < epsilon ∧
    |isoValue - (edgeEnds cube e).2.tsdf| < epsilon

/-- The origin `org = (float) blockSize * voxelRes_ * Vec3f(b0.x, b0.y, b0.z)` that
`Volume::ComputeMesh` passes to `extractMesh` for the block `blockId`. -/
def blockOrigin (voxelRes : ℚ) (blockId : fusion.BlockId) : vertex_t :=
  ⟨(fusion.blockSize : ℚ) * voxelRes * (blockId.x : ℚ),
   (fusion.blockSize : ℚ) * voxelRes * (blockId.y : ℚ),
   (fusion.blockSize : ℚ) * voxelRes * (blockId.z : ℚ)⟩

/-- An environment for examples: empty tables, the identity for the square root. -/
def exampleEnv : Env :=
  { edgeTable := fun _ => 0
    triTable := fun _ => [-1]
    sqrtf := fun q => q
    indeterminate := fun _ => ⟨0, 0, 0⟩ }

/-- Every one of the 4096 tsdf values of the block is `invalidTsdf`. -/
def allInvalid (b : BlockArrays) : Prop := ∀ n, n < 4096 → b.tsdf n = fusion.invalidTsdf

/-- A block filled with `invalidTsdf`. -/
def invalidBlock : BlockArrays :=
  { tsdf := fun _ => fusion.invalidTsdf
    rgba := fun _ => ⟨0, 0, 0⟩
    grad := fun _ => ⟨0, 0, 0⟩ }

/-- A block whose tsdf is `1` everywhere except at the voxels `(1, 0, 0)` and `(1, 1, 0)`,
which hold `lo` and `hi`. -/
def edgeExample (lo hi : ℚ) : BlockArrays :=
  { tsdf := fun n => if n = 1 then lo else if n = 17 then hi else 1
    rgba := fun _ => ⟨0, 0, 0⟩
    grad := fun _ => ⟨0, 0, 0⟩ }

/-! ## The passes of `extractMesh` against one kernel on the adjoined grid -/

/-- The block among the eight that holds the voxels of the layer told by the flags: `fx`,
`fy`, `fz` say on which axes the voxel lies across the face of the block. -/
def layerBlock (bi bx by' bz bxy bxz byz bxyz : BlockArrays) (fx fy fz : Bool) : BlockArrays :=
  match fx, fy, fz with
  | false, false, false => bi
  | true, false, false => bx
  | false, true, false => by'
  | false, false, true => bz
  | true, true, false => bxy
  | true, false, true => bxz
  | false, true, true => byz
  | true, true, true => bxyz

/-- The block that holds the voxel `(i, j, k)` of the `17^3` grid: the block itself where
`i, j, k < 16`, and the neighbour across the faces on which a coordinate is `16`. -/
def adjoinedBlock (bi bx by' bz bxy bxz byz bxyz : BlockArrays) (i j k : Nat) : BlockArrays :=
  layerBlock bi bx by' bz bxy bxz byz bxyz (decide (i = 16)) (decide (j = 16)) (decide (k = 16))

/-- The `17^3` grid obtained by adjoining to the `16^3` voxels of a block the first voxel
layers of its seven +x/+y/+z neighbours, as arrays of row length 17: the voxel
`(i, j, k)`, `0 <= i, j, k <= 16`, stored at `i + 17 * j + 17 * 17 * k`, is the voxel
`(i mod 16, j mod 16, k mod 16)` of the block that holds it.  This is the reference grid
against which the passes are compared; the source has no such array. -/
def adjoinedGrid (bi bx by' bz bxy bxz byz bxyz : BlockArrays) : BlockArrays :=
  let src := fun (n : Nat) =>
    adjoinedBlock bi bx by' bz bxy bxz byz bxyz (n % 17) (n / 17 % 17) (n / 289)
  let loc := fun (n : Nat) => GRID_OFFSET (n % 17 % 16) (n / 17 % 17 % 16) (n / 289 % 16) 16
  { tsdf := fun n => (src n).tsdf (loc n)
    rgba := fun n => (src n).rgba (loc n)
    grad := fun n => (src n).grad (loc n) }

/-- The origins `(i, j, k)` of the cubes of `extractInnerMesh`, in the order of its
loops. -/
def innerCubes : List (Nat × Nat × Nat) :=
  (List.range 15).flatMap (fun k => (List.range 15).flatMap (fun j =>
    (List.range 15).map (fun i => (i, j, k))))

/-- The origins of the cubes of `extractXFaceMesh`. -/
def xFaceCubes : List (Nat × Nat × Nat) :=
  (List.range 15).flatMap (fun k => (List.range 15).map (fun j => (15, j, k)))

/-- The origins of the cubes of `extractYFaceMesh`. -/
def yFaceCubes : List (Nat × Nat × Nat) :=
  (List.range 15).flatMap (fun k => (List.range 15).map (fun i => (i, 15, k)))

/-- The origins of the cubes of `extractZFaceMesh`. -/
def zFaceCubes : List (Nat × Nat × Nat) :=
  (List.range 15).flatMap (fun j => (List.range 15).map (fun i => (i, j, 15)))

/-- The origins of the cubes of `extractXYEdgeMesh`. -/
def xyEdgeCubes : List (Nat × Nat × Nat) := (List.range 15).map (fun k => (15, 15, k))

/-- The origins of the cubes of `extractXZEdgeMesh`. -/
def xzEdgeCubes : List (Nat × Nat × Nat) := (List.range 15).map (fun j => (15, j, 15))

/-- The origins of the cubes of `extractYZEdgeMesh`. -/
def yzEdgeCubes : List (Nat × Nat × Nat) := (List.range 15).map (fun i => (i, 15, 15))

/-- The origins of the cubes that the eight passes of `extractMesh` process, in order. -/
def passCubes : List (Nat × Nat × Nat) :=
  innerCubes ++ xFaceCubes ++ yFaceCubes ++ zFaceCubes ++ xyEdgeCubes ++ xzEdgeCubes
    ++ yzEdgeCubes ++ [(15, 15, 15)]

/-- The cube with origin `c` that the kernel of `extractInnerMesh` forms on the adjoined
grid: its corner `n` is the grid voxel at `c` plus the canonical offset of `n`, at the
position `org + voxelRes * (c + offset)`. -/
def gridCube (bi bx by' bz bxy bxz byz bxyz : BlockArrays) (voxelRes : ℚ) (org : vertex_t)
    (c : Nat × Nat × Nat) : Cube :=
  innerCube (adjoinedGrid bi bx by' bz bxy bxz byz bxyz) voxelRes org 17 c.1 c.2.1 c.2.2

/-- The origins of the `16^3` cubes of the adjoined grid, in the order in which the loops
of `extractInnerMesh` visit them when run on the grid with `blockSize = 17`. -/
def gridCubes : List (Nat × Nat × Nat) :=
  (List.range 16).flatMap (fun k => (List.range 16).flatMap (fun j =>
    (List.range 16).map (fun i => (i, j, k))))

end mc

namespace data_types

/-! ## Point extraction (`data_types/RGBDFrame.hpp`, `PointTypes.hpp`, `Buffer.hpp`) -/

/-- `class Buffer<T>`: size, capacity and the array. -/
structure Buffer (T : Type) where
  size_ : Nat
  capacity_ : Nat
  data_ : Nat → T

/-- `Buffer(capacity)`: size 0 over a fresh array, whose content `fill` is not specified. -/
def Buffer.new {T : Type} (capacity : Nat) (fill : Nat → T) : Buffer T :=
  { size_ := 0, capacity_ := capacity, data_ := fill }

/-- `Buffer::IncSize(n)`: `size_ += n`. -/
def Buffer.IncSize {T : Type} (b : Buffer T) (n : Nat) : Buffer T :=
  { b with size_ := b.size_ + n }

/-- `Buffer::operator[]` used as an assignment target. -/
def Buffer.set {T : Type} (b : Buffer T) (i : Nat) (v : T) : Buffer T :=
  { b with data_ := store b.data_ i v }

/-- `Buffer::Clear()`: `size_ = 0`. -/
def Buffer.Clear {T : Type} (b : Buffer T) : Buffer T := { b with size_ := 0 }

/-- `struct PointXYZRGB<float>`. -/
structure PointXYZRGB where
  xyz : Vec3f
  rgb : Vec3f
  deriving DecidableEq, Repr

/-- `PointXYZRGB::maxScalar = std::numeric_limits<float>::max()`. -/
def maxScalar : ℚ := FLT_MAX

namespace PointXYZRGB

/-- `InvalidPoint() = PointXYZRGB{VecType{maxScalar}, VecType{0}}`. -/
def InvalidPoint : PointXYZRGB := ⟨Vec3f.splat maxScalar, Vec3f.splat 0⟩

/-- `operator!=`: `(p0.xyz != p1.xyz) || (p0.rgb != p1.rgb)`. -/
def ne (p0 p1 : PointXYZRGB) : Bool := Vec3f.ne p0.xyz p1.xyz || Vec3f.ne p0.rgb p1.rgb

/-- `isValid()`: `*this != InvalidPoint()`. -/
def isValid (p : PointXYZRGB) : Bool := ne p InvalidPoint

end PointXYZRGB

/-- `class PointList<PointXYZRGB<T>>`. -/
structure PointList where
  size_ : Nat
  capacity_ : Nat
  xyzData_ : Buffer Vec3f
  rgbData_ : Buffer Vec3f

namespace PointList

/-- `PointList(capacity)`. -/
def new (capacity : Nat) (fill : Nat → Vec3f) : PointList :=
  { size_ := 0, capacity_ := capacity, xyzData_ := Buffer.new capacity fill,
    rgbData_ := Buffer.new capacity fill }

/-- `PointList::AddPoint(p)`: both buffers grow by one, `p` is stored at `size_`, and
`size_` is incremented. -/
def AddPoint (l : PointList) (p : PointXYZRGB) : PointList :=
  let xyz := (l.xyzData_.IncSize 1).set l.size_ p.xyz
  let rgb := (l.rgbData_.IncSize 1).set l.size_ p.rgb
  { l with xyzData_ := xyz, rgbData_ := rgb, size_ := l.size_ + 1 }

/-- `PointList::Clear()`. -/
def Clear (l : PointList) : PointList :=
  { l with size_ := 0, xyzData_ := l.xyzData_.Clear, rgbData_ := l.rgbData_.Clear }

/-- `PointList::Size()`. -/
def Size (l : PointList) : Nat := l.size_

end PointList

/-- `class PointCloud<PointXYZRGB<float>>`: a wrapper of its point list. -/
structure PointCloud where
  points_ : PointList

namespace PointCloud

/-- `PointCloud(size)`. -/
def new (size : Nat) (fill : Nat → Vec3f) : PointCloud := ⟨PointList.new size fill⟩

/-- `PointCloud::AddPoint`. -/
def AddPoint (cloud : PointCloud) (point : PointXYZRGB) : PointCloud :=
  ⟨cloud.points_.AddPoint point⟩

/-- `PointCloud::Clear`. -/
def Clear (cloud : PointCloud) : PointCloud := ⟨cloud.points_.Clear⟩

/-- `PointCloud::Size`. -/
def Size (cloud : PointCloud) : Nat := cloud.points_.Size

/-- The point stored at position `i`: `Points()[i]` and `Colors()[i]`. -/
def pointAt (cloud : PointCloud) (i : Nat) : PointXYZRGB :=
  ⟨cloud.points_.xyzData_.data_ i, cloud.points_.rgbData_.data_ i⟩

end PointCloud

/-- `class Image<T>` over unsigned integer samples. -/
structure Image where
  width_ : Nat
  height_ : Nat
  channels_ : Nat
  data_ : Nat → Nat

/-- `Image::operator()(i, j, c)`: the sample at
`c * width_ * height_ + i * width_ + j`. -/
def Image.get (img : Image) (i j c : Nat) : Nat :=
  img.data_ (c * img.width_ * img.height_ + i * img.width_ + j)

/-- `struct CameraIntrinsics<float>`. -/
structure CameraIntrinsics where
  fx : ℚ
  fy : ℚ
  cx : ℚ
  cy : ℚ

/-- `class RGBDFrame<uint16_t, uint8_t>`. -/
structure RGBDFrame where
  width_ : Nat
  height_ : Nat
  depthImage_ : Image
  filteredDepthImage_ : Image
  colorImage_ : Image

namespace RGBDFrame

/-- The lambda `getPosition(u, v)` of `ExtractPoints`. -/
def getPosition (f : RGBDFrame) (intrinsics : CameraIntrinsics) (near far scale : ℚ)
    (u v : Nat) : Vec3f :=
  let invFy := 1 / intrinsics.fy
  let invFx := 1 / intrinsics.fx
  let depth := f.depthImage_.get v u 0
  let z := (depth : ℚ) / scale
  if depth = 0 then Vec3f.splat FLT_MAX
  else if z ≤ near ∨ z > far then Vec3f.splat FLT_MAX
  else
    let x := ((u : ℚ) - intrinsics.cx) * (z * invFx)
    let y := ((v : ℚ) - intrinsics.cy) * (z * invFy)
    ⟨x, y, z⟩

/-- The lambda `getColor(u, v)` of `ExtractPoints`. -/
def getColor (f : RGBDFrame) (u v : Nat) : Vec3f :=
  let index := v * f.width_ + u
  let r := (f.colorImage_.data_ (3 * index) : ℚ)
  let g := (f.colorImage_.data_ (3 * index + 1) : ℚ)
  let b := (f.colorImage_.data_ (3 * index + 2) : ℚ)
  Vec3f.sdiv ⟨r, g, b⟩ 255

/-- `RGBDFrame::ExtractPoints(PointCloud&, intrinsics, near, far, scale)`: the cloud after
the two loops over the pixels, each pixel being added when `isValid()` holds. -/
def ExtractPoints (f : RGBDFrame) (cloud : PointCloud) (intrinsics : CameraIntrinsics)
    (near far scale : ℚ) : PointCloud :=
  forLoop f.height_ (fun v => forLoop f.width_ (fun u cl =>
    let p : PointXYZRGB := ⟨getPosition f intrinsics near far scale u v, getColor f u v⟩
    if p.isValid then cl.AddPoint p else cl)) cloud

end RGBDFrame

/-- A frame of one pixel with depth `depth` and the colour bytes `r`, `g`, `b`. -/
def onePixelFrame (depth r g b : Nat) : RGBDFrame :=
  { width_ := 1
    height_ := 1
    depthImage_ := ⟨1, 1, 1, fun _ => depth⟩
    filteredDepthImage_ := ⟨1, 1, 1, fun _ => 0⟩
    colorImage_ := ⟨1, 1, 3, fun n => if n = 0 then r else if n = 1 then g else b⟩ }

/-! ## Capacity of buffers and point lists (`Buffer.hpp`, `PointTypes.hpp`) -/

/-- The `std::runtime_error` thrown by `Buffer::Resize` and `PointList::Resize` when the
requested size exceeds the capacity. -/
inductive CapacityError where
  | capacityExceeded
  deriving DecidableEq, Repr

/-- `Buffer::Resize(size)`: throws when `size > capacity_`, otherwise `size_ = size`. -/
def Buffer.Resize {T : Type} (b : Buffer T) (size : Nat) : Except CapacityError (Buffer T) :=
  if size > b.capacity_ then .error CapacityError.capacityExceeded
  else .ok { b with size_ := size }

/-- `PointList::Resize(size)`: throws when `size > capacity_`, otherwise sets `size_` and
resizes both buffers. -/
def PointList.Resize (l : PointList) (size : Nat) : Except CapacityError PointList :=
  if size > l.capacity_ then .error CapacityError.capacityExceeded
  else
    match l.xyzData_.Resize size with
    | .error e => .error e
    | .ok xyz =>
      match l.rgbData_.Resize size with
      | .error e => .error e
      | .ok rgb => .ok { l with size_ := size, xyzData_ := xyz, rgbData_ := rgb }

/-- A point list of capacity 1 after two calls of `AddPoint`. -/
def overfullList (p q : PointXYZRGB) : PointList :=
  ((PointList.new 1 (fun _ => Vec3f.zero)).AddPoint p).AddPoint q

end data_types

namespace fusion

/-! ## Mesh extraction for the blocks (`Volume::ComputeMesh`, `Volume::RecomputeMeshes`) -/

/-- `maxMeshSize_ = 2 * BlockProperties<float, 16>::blockVolume`. -/
def maxMeshSize_ : Nat := 2 * blockVolume

/-- A `Vec3f` read through the cast of its array to `float *`. -/
def toVertex (p : Vec3f) : mc.vertex_t := ⟨p.x, p.y, p.z⟩

/-- Three floats of a scratch array read back as a `Vec3f`. -/
def ofVertex (p : mc.vertex_t) : Vec3f := ⟨p.x, p.y, p.z⟩

/-- The arrays `TSDF()`, `Colors()`, `Gradients()` of a block, as `extractMesh` takes
them. -/
def VoxelBlock.arrays (b : VoxelBlock) : mc.BlockArrays :=
  { tsdf := b.tsdf_
    rgba := fun n => toVertex (b.colors_ n)
    grad := fun n => toVertex (b.gradients_ n) }

/-- The arrays of the neighbour `n` in `ComputeMesh`: set when
`blockIds_.find(n) != blockIds_.end()`, from `voxelBlocks_[blockIds_[n]]`, which the code
dereferences without a null test. -/
def neighbourArrays (v : Volume) (n : BlockId) : Option mc.BlockArrays :=
  match v.blockIds_.find n with
  | none => none
  | some i => (v.voxelBlocks_.getD i none).map VoxelBlock.arrays

/-- The triangles that the call of `extractMesh` in `ComputeMesh` emits for the block
`blockId`, whose arrays are those of `block`. -/
def blockTriangles (env : mc.Env) (v : Volume) (blockId : BlockId) (block : VoxelBlock) :
    List mc.Triangle :=
  mc.extractMesh env (some block.arrays)
    (neighbourArrays v (Index3d.add blockId ⟨1, 0, 0⟩))
    (neighbourArrays v (Index3d.add blockId ⟨0, 1, 0⟩))
    (neighbourArrays v (Index3d.add blockId ⟨0, 0, 1⟩))
    (neighbourArrays v (Index3d.add blockId ⟨1, 1, 0⟩))
    (neighbourArrays v (Index3d.add blockId ⟨1, 0, 1⟩))
    (neighbourArrays v (Index3d.add blockId ⟨0, 1, 1⟩))
    (neighbourArrays v (Index3d.add blockId ⟨1, 1, 1⟩))
    blockSize v.voxelRes_ (mc.blockOrigin v.voxelRes_ blockId)

/-- The mesh `new MeshType(3 * numTriangles, numTriangles)` after `Resize` and the three
`memcpy` from the scratch mesh: three vertices, colours and normals per triangle. -/
def meshOfTriangles (ts : List mc.Triangle) : Mesh :=
  { points := ts.flatMap (fun t => [ofVertex t.v0, ofVertex t.v1, ofVertex t.v2])
    colors := ts.flatMap (fun t => [ofVertex t.c0, ofVertex t.c1, ofVertex t.c2])
    normals := ts.flatMap (fun t => [ofVertex t.g0, ofVertex t.g1, ofVertex t.g2])
    numTriangles := ts.length }

/-- The `std::runtime_error` thrown by `PointList::Resize` / `Buffer::Resize` when the
requested size exceeds the capacity. -/
inductive MeshError where
  | capacityExceeded
  deriving DecidableEq, Repr

/-- `Volume::ComputeMesh(blockId, tmp)`: the returned `numTriangles` and the volume after
the call, or the exception of `tmp.Resize`.  `extractMesh` writes into the scratch arrays
of `tmp`, of capacity `3 * maxMeshSize_` points, without a bound test; `tmp.Resize` then
throws when `numTriangles` exceeds `maxMeshSize_`. -/
def Volume.ComputeMesh (env : mc.Env) (v : Volume) (blockId : BlockId) :
    Except MeshError (Nat × Volume) :=
  let id := (v.blockIds_.subscript blockId).1
  let v1 : Volume := { v with blockIds_ := (v.blockIds_.subscript blockId).2 }
  match v1.voxelBlocks_.getD id none with
  | none => .ok (0, v1)
  | some block =>
    let ts := blockTriangles env v1 blockId block
    let numTriangles := ts.length
    if 3 * numTriangles > 3 * maxMeshSize_ ∨ numTriangles > maxMeshSize_ then
      .error MeshError.capacityExceeded
    else if numTriangles > 0 then
      .ok (numTriangles, { v1 with meshes_ := v1.meshes_.set id (some (meshOfTriangles ts)) })
    else
      .ok (numTriangles, { v1 with meshes_ := v1.meshes_.set id none })

/-- `Volume::RecomputeMeshes(blockList)`: `ComputeMesh` on every element of the list,
in order. -/
def Volume.RecomputeMeshes (env : mc.Env) (v : Volume) (blockList : List BlockId) :
    Except MeshError Volume :=
  blockList.foldlM (fun w blockId => (Volume.ComputeMesh env w blockId).map Prod.snd) v

/-- `Volume::RecomputeAllMeshes()`: `ComputeMesh` on every id of the map. -/
def Volume.RecomputeAllMeshes (env : mc.Env) (v : Volume) : Except MeshError Volume :=
  Volume.RecomputeMeshes env v v.keys

/-- The state of a volume that the insertion interface maintains: distinct ids have
distinct indices, every index of the map has a block, and there is one mesh slot per
block. -/
structure Volume.WellFormed (v : Volume) : Prop where
  inj : ∀ a b k, v.blockIds_.find a = some k → v.blockIds_.find b = some k → a = b
  block : ∀ a k, v.blockIds_.find a = some k → ∃ blk, v.voxelBlocks_[k]? = some (some blk)
  meshes_len : v.voxelBlocks_.length = v.meshes_.length

/-- The triangles extracted for the block `b` of the volume `v`; none when `b` has no
block. -/
def trianglesOf (env : mc.Env) (v : Volume) (b : BlockId) : List mc.Triangle :=
  match v.GetBlock b with
  | some block => blockTriangles env v b block
  | none => []

/-- What the cache of `w` holds for the block `b` once `ComputeMesh` has processed `b` in
a volume with the blocks of `v`: nothing when the extraction gave no triangle, otherwise
a mesh of exactly the `n` extracted triangles, with `3n` vertices, colours and normals;
and `n` is within the budget `2 * 16^3`. -/
def cachedAfter (env : mc.Env) (v w : Volume) (b : BlockId) : Prop :=
  (trianglesOf env v b).length ≤ 2 * 16 ^ 3 ∧
  ((trianglesOf env v b).length = 0 → w.GetMesh b = none) ∧
  (0 < (trianglesOf env v b).length →
    ∃ mesh, w.GetMesh b = some mesh ∧ mesh = meshOfTriangles (trianglesOf env v b) ∧
      mesh.NumTriangles = (trianglesOf env v b).length ∧
      mesh.NumPoints = 3 * (trianglesOf env v b).length ∧
      mesh.colors.length = 3 * (trianglesOf env v b).length ∧
      mesh.normals.length = 3 * (trianglesOf env v b).length)

/-- The volumes `w` and `v` hold the same map, blocks and voxel size, and as many mesh
slots: they differ in the cached meshes only. -/
def Volume.sameBlocks (w v : Volume) : Prop :=
  w.blockIds_ = v.blockIds_ ∧ w.voxelBlocks_ = v.voxelBlocks_ ∧ w.voxelRes_ = v.voxelRes_ ∧
    w.meshes_.length = v.meshes_.length

/-- The mesh slot content that `ComputeMesh` stores for the block `b`. -/
def meshResult (env : mc.Env) (v : Volume) (b : BlockId) : Option Mesh :=
  if 0 < (trianglesOf env v b).length then some (meshOfTriangles (trianglesOf env v b))
  else none

/-! ## The integrator (`Fusion::IntegratePointCloud`, both variants) -/

/-- What the integrator takes from `libm`: `sqrtf`, `expf` and the constant `M_PI`. -/
structure IntegratorEnv where
  sqrtf : ℚ → ℚ
  expf : ℚ → ℚ
  M_PI : ℚ

/-- The marching loop `for (float dist = tau_; dist > -tau_; dist -= step) body(dist)`,
entered at `dist`, in exact arithmetic: the difference `dist - step` is kept unrounded
(`marchLoopFloat` below rounds it as the `float` of the source does).  `fuel` bounds the
number of iterations: the result is `none` when the bound is reached while the test
`dist > -tau_` still holds. -/
def marchLoop {σ : Type} (tau_ step : ℚ) (body : ℚ → σ → σ) : Nat → ℚ → σ → Option σ
  | 0, dist, s => if dist > -tau_ then none else some s
  | fuel + 1, dist, s =>
    if dist > -tau_ then marchLoop tau_ step body fuel (dist - step) (body dist s) else some s

/-- The body of the marching loop for the sample `(org, u, rgb)` at the distance `dist`:
the position `org - dist * u` is mapped to its block and voxel, the iteration is skipped
(`continue`) when `GetBlock` is null, and otherwise the running update is applied to the
slot `offset` of that block. -/
def integrateAt (env : IntegratorEnv) (voxelRes_ tau_ : ℚ) (org u : Vec3f) (rgb : Color3f)
    (dist : ℚ) (volume_ : Volume) : Volume :=
  let sigma := tau_
  let tsdfFact := 1 / (2 * sigma * sigma)
  let coeff := 1 / (sigma * env.sqrtf (2 * env.M_PI))
  let pos := Vec3f.sub org (Vec3f.smul dist u)
  let id := GetId pos voxelRes_
  let voxelId := GetVoxelId pos voxelRes_
  let voxelPos := GetVoxelPos (GetVoxelAbsolutePos id voxelId) voxelRes_
  let tsdf :=
    if Vec3f.Dot u (Vec3f.sub org voxelPos) ≥ 0 then Vec3f.Dist env.sqrtf voxelPos org
    else -(Vec3f.Dist env.sqrtf voxelPos org)
  match volume_.GetBlock id with
  | none => volume_
  | some voxelBlock =>
    let offset := (voxelOffset voxelId).toNat
    let weight := coeff * env.expf (-(tsdf * tsdf) * tsdfFact)
    volume_.writeBlock id (integrateSample voxelBlock offset weight tsdf rgb)

/-- The marching loop of one sample, with `step = 0.5f * voxelRes_`. -/
def integrateRay (env : IntegratorEnv) (voxelRes_ tau_ : ℚ) (fuel : Nat) (org u : Vec3f)
    (rgb : Color3f) (volume_ : Volume) : Option Volume :=
  marchLoop tau_ (1 / 2 * voxelRes_) (integrateAt env voxelRes_ tau_ org u rgb) fuel tau_
    volume_

/-! ## The marching distance in `float` arithmetic -/

/-- Rounding to the nearest integer, a tie going to the even one. -/
def roundHalfEven (q : ℚ) : Int :=
  if q - ⌊q⌋ < 1 / 2 then ⌊q⌋
  else if 1 / 2 < q - ⌊q⌋ then ⌊q⌋ + 1
  else if ⌊q⌋ % 2 = 0 then ⌊q⌋ else ⌊q⌋ + 1

/-- The binary exponent of the spacing of `float` values around `q` (IEEE 754 binary32:
24 significant bits, least normal exponent `-126`): `floor(log2 |q|) - 23`, and `-149`
in the subnormal range. -/
def floatUlpExp (q : ℚ) : Int := max (Int.log 2 |q| - 23) (-149)

/-- The `float` that an operation with the exact result `q` returns: the multiple of
`2 ^ floatUlpExp q` nearest to `q`, ties to even (the default rounding of IEEE 754).
Overflow is not modelled: a result of magnitude `2^128` or more stays a finite value of
that magnitude where the machine returns an infinity of the same sign. -/
def roundFloat (q : ℚ) : ℚ := (roundHalfEven (q / 2 ^ floatUlpExp q) : ℚ) * 2 ^ floatUlpExp q

/-- `const float step = 0.5f * voxelRes_;` -/
def marchStep (voxelRes_ : ℚ) : ℚ := roundFloat (1 / 2 * voxelRes_)

/-- The marching loop `for (float dist = tau_; dist > -tau_; dist -= step) body(dist)`,
entered at `dist`, with the `float` subtraction of the source: `dist -= step` stores the
rounded difference.  The test `dist > -tau_` is exact (the negation of a `float` is a
`float`).  `fuel` bounds the number of iterations: the result is `none` when the bound
is reached while the test still holds.  A difference that overflows is only ever
compared with `-tau_`, where the finite value of `roundFloat` and the infinity of the
machine give the same answer. -/
def marchLoopFloat {σ : Type} (tau_ step : ℚ) (body : ℚ → σ → σ) : Nat → ℚ → σ → Option σ
  | 0, dist, s => if dist > -tau_ then none else some s
  | fuel + 1, dist, s =>
    if dist > -tau_ then
      marchLoopFloat tau_ step body fuel (roundFloat (dist - step)) (body dist s)
    else some s

/-- The marching loop of one sample as the source runs it: `step` and `dist` are `float`
values.  The body is the one of `integrateRay`. -/
def integrateRayFloat (env : IntegratorEnv) (voxelRes_ tau_ : ℚ) (fuel : Nat) (org u : Vec3f)
    (rgb : Color3f) (volume_ : Volume) : Option Volume :=
  marchLoopFloat tau_ (marchStep voxelRes_) (integrateAt env voxelRes_ tau_ org u rgb) fuel tau_
    volume_

/-! ## The integrator, continued -/

/-- `Fusion::IntegratePointCloud(inputCloud, cameraCenter)`: the loop over the points of
the cloud, each marched along `u = Normalize(org - cameraCenter)`. -/
def IntegratePointCloud (env : IntegratorEnv) (voxelRes_ tau_ : ℚ) (fuel : Nat)
    (volume_ : Volume) (inputCloud : data_types.PointCloud) (cameraCenter : Point3f) :
    Option Volume :=
  (List.range inputCloud.Size).foldlM (fun v i =>
    let org := inputCloud.points_.xyzData_.data_ i
    let rgb := inputCloud.points_.rgbData_.data_ i
    let u := Vec3f.Normalize env.sqrtf (Vec3f.sub org cameraCenter)
    integrateRay env voxelRes_ tau_ fuel org u rgb v) volume_

/-- `OrderedPointCloud<PointXYZRGBN<float>>`: `Points(i, j)`, `Colors(i, j)` and
`Normals(i, j)` read the arrays at `i * width_ + j`. -/
structure OrderedPointCloud where
  width_ : Nat
  height_ : Nat
  points : Nat → Vec3f
  colors : Nat → Vec3f
  normals : Nat → Vec3f

/-- The body of the two pixel loops of the OPC variant: the pixel is skipped when its
point is invalid (`org.x == FLT_MAX`), or its normal is zero or has a component
`FLT_MAX`; otherwise its ray is marched along the stored normal. -/
def integratePixel (env : IntegratorEnv) (voxelRes_ tau_ : ℚ) (fuel : Nat)
    (opc : OrderedPointCloud) (i j : Nat) (v : Volume) : Option Volume :=
  let org := opc.points (i * opc.width_ + j)
  let u := opc.normals (i * opc.width_ + j)
  if org.x = FLT_MAX then some v
  else if u.x = 0 ∧ u.y = 0 ∧ u.z = 0 then some v
  else if u.x = FLT_MAX ∨ u.y = FLT_MAX ∨ u.z = FLT_MAX then some v
  else integrateRay env voxelRes_ tau_ fuel org u (opc.colors (i * opc.width_ + j)) v

/-- `Fusion::IntegratePointCloud(opc)`: the loops over `i < Height()` and `j < Width()`. -/
def IntegratePointCloudOPC (env : IntegratorEnv) (voxelRes_ tau_ : ℚ) (fuel : Nat)
    (volume_ : Volume) (opc : OrderedPointCloud) : Option Volume :=
  (List.range opc.height_).foldlM (fun v i =>
    (List.range opc.width_).foldlM (fun w j =>
      integratePixel env voxelRes_ tau_ fuel opc i j w) v) volume_

/-- The blocks `b` and `b'` differ at most in their tsdf, weight and colour arrays. -/
def VoxelBlock.sameFrame (b b' : VoxelBlock) : Prop :=
  b'.voxelRes_ = b.voxelRes_ ∧ b'.blockVolume_ = b.blockVolume_ ∧
    b'.useColor_ = b.useColor_ ∧ b'.gradients_ = b.gradients_

/-- The slots `o` and `o'` of the block array are both null, or hold blocks that differ
at most in their tsdf, weight and colour arrays. -/
def slotFrame (o o' : Option VoxelBlock) : Prop :=
  match o, o' with
  | none, none => True
  | some b, some b' => VoxelBlock.sameFrame b b'
  | _, _ => False

/-- The frame of the integrator: the map, the counter, the voxel size and the cached
meshes of `v'` are those of `v`, the block array has the same length, and slot by slot
the blocks differ at most in their tsdf, weight and colour arrays. -/
def Volume.integratorFrame (v v' : Volume) : Prop :=
  v'.blockIds_ = v.blockIds_ ∧ v'.nextBlockIndex_ = v.nextBlockIndex_ ∧
    v'.voxelRes_ = v.voxelRes_ ∧ v'.meshes_ = v.meshes_ ∧
    v'.voxelBlocks_.length = v.voxelBlocks_.length ∧
    ∀ k, k < v.voxelBlocks_.length →
      slotFrame (v.voxelBlocks_.getD k none) (v'.voxelBlocks_.getD k none)

/-- The number of positions the marching loop visits: the least `N` with
`tau - N * (0.5 * voxelRes) <= -tau`. -/
def marchCount (voxelRes_ tau_ : ℚ) : Nat := ⌈4 * tau_ / voxelRes_⌉.toNat

/-! ## Start-up (`Fusion::Fusion`, `main`, `getParams`) -/

/-- `class Fusion`: the fields that the constructor sets. -/
structure Fusion where
  voxelRes_ : ℚ
  tau_ : ℚ
  maxDepthMapWidth_ : Nat
  maxDepthMapHeight_ : Nat
  volume_ : Volume
  newBlocks_ : List BlockId

/-- `Fusion::Fusion(voxelRes, integrationDistance, maxDepthMapWidth, maxDepthMapHeight)`:
the member initialiser list, with an empty body. -/
def Fusion.new (voxelRes integrationDistance : ℚ) (maxDepthMapWidth maxDepthMapHeight : Nat) :
    Fusion :=
  { voxelRes_ := voxelRes
    tau_ := integrationDistance
    maxDepthMapWidth_ := maxDepthMapWidth
    maxDepthMapHeight_ := maxDepthMapHeight
    volume_ := Volume.new voxelRes
    newBlocks_ := [] }

/-- The fields of `struct CameraParameters` that reach the engine. -/
structure CameraParameters where
  cameraWidth : Nat
  cameraHeight : Nat
  deriving DecidableEq, Repr

/-- `FR1_PARAMS`, `ICL1_PARAMS` and `SYNTHETIC_0_PARAMS` all have the size 640 x 480. -/
def KINECT_PARAMS : CameraParameters := ⟨640, 480⟩

/-- The `std::runtime_error("Unknown dataset type")` thrown by `getParams`. -/
inductive StartupError where
  | unknownDatasetType
  deriving DecidableEq, Repr

/-- `getParams(datasetType)`: one of the three parameter sets, or the exception. -/
def getParams (datasetType : String) : Except StartupError CameraParameters :=
  if datasetType = "fr1" then .ok KINECT_PARAMS
  else if datasetType = "icl1" then .ok KINECT_PARAMS
  else if datasetType = "synthetic0" then .ok KINECT_PARAMS
  else .error StartupError.unknownDatasetType

/-- The start of `main` up to the construction of the engine:
`new Instance(getParams(datasetType), params, datasetDir)` with `params.voxelRes` and
`params.tau` taken from the flags, whose constructor builds
`fusion(fusionParams.voxelRes, fusionParams.tau, params.cameraWidth, params.cameraHeight)`. -/
def programStart (datasetType : String) (FLAGS_voxelRes FLAGS_tau : ℚ) :
    Except StartupError Fusion :=
  match getParams datasetType with
  | .error e => .error e
  | .ok params =>
    .ok (Fusion.new FLAGS_voxelRes FLAGS_tau params.cameraWidth params.cameraHeight)

/-! ## Normal estimation on an ordered cloud (`OrderedPointCloud::EstimateNormals`) -/

/-- The number of values of `size_t`: subscripts and loop bounds wrap modulo `2 ^ 64`. -/
def sizeModulus : Nat := 2 ^ 64

/-- The subscript `i * width_ + j` of `Points(i, j)`, in `size_t` arithmetic. -/
def OrderedPointCloud.subscript (opc : OrderedPointCloud) (i j : Nat) : Nat :=
  (i * opc.width_ + j) % sizeModulus

/-- The lambda `isValid` of `EstimateNormals`: `v != VecType{max}`. -/
def isValidPoint (v : Vec3f) : Bool := Vec3f.ne v (Vec3f.splat FLT_MAX)

/-- The subscripts at which the body of the loops of `EstimateNormals` reads the point
array for the pixel `(i, j)`: that of `p = Points(i, j)`, and, when `p` is valid, those
of `tmp00 = Points(i - 1, j)`, `tmp01 = Points(i + 1, j)`, `tmp10 = Points(i, j - 1)` and
`tmp11 = Points(i, j + 1)`, each tested by `isValid`; `i - 1`, `i + 1`, `j - 1` and
`j + 1` are computed in `size_t`. -/
def normalReads (opc : OrderedPointCloud) (i j : Nat) : List Nat :=
  if isValidPoint (opc.points (opc.subscript i j)) then
    [opc.subscript i j,
      opc.subscript ((i + sizeModulus - 1) % sizeModulus) j,
      opc.subscript ((i + 1) % sizeModulus) j,
      opc.subscript i ((j + sizeModulus - 1) % sizeModulus),
      opc.subscript i ((j + 1) % sizeModulus)]
  else [opc.subscript i j]

/-- The reads of the point array by the first loop nest of `EstimateNormals`, in order:
`for (i = 0; i < height_; i++) for (j = 1; j < width_ - 1; j++)`, with `width_ - 1`
computed in `size_t`.  The normals that the body stores are not modelled. -/
def EstimateNormalsReads (opc : OrderedPointCloud) : List Nat :=
  forLoop opc.height_ (fun i acc =>
    forLoopFrom 1 ((opc.width_ + sizeModulus - 1) % sizeModulus) (fun j acc' =>
      acc' ++ normalReads opc i j) acc) []

/-- An ordered cloud of one row of three points, all at the origin. -/
def threePixelRow : OrderedPointCloud :=
  { width_ := 3
    height_ := 1
    points := fun _ => ⟨0, 0, 0⟩
    colors := fun _ => ⟨0, 0, 0⟩
    normals := fun _ => ⟨0, 0, 0⟩ }

/-! ## A frame (`Fusion::GetBlocksIntersecting`, `Fusion::IntegrateDepthMap`,
`Fusion::UpdateMeshes`) -/

/-- `a <= b` in the order of `std::set<BlockId>`: `b < a` does not hold. -/
def Index3d.le (a b : Index3d) : Prop := Index3d.lt b a = false

instance : DecidableRel Index3d.le := fun a b => by
  unfold Index3d.le
  infer_instance

instance : IsTotal Index3d Index3d.le where
  total a b := by
    unfold Index3d.le Index3d.lt
    split_ifs <;> simp <;> omega

instance : IsTrans Index3d Index3d.le where
  trans a b c := by
    have key : ∀ p q : Index3d, Index3d.lt p q = false ↔
        ¬ (p.x < q.x ∨ (p.x = q.x ∧ (p.y < q.y ∨ (p.y = q.y ∧ p.z < q.z)))) := by
      intro p q
      unfold Index3d.lt
      split_ifs <;> simp <;> omega
    unfold Index3d.le
    rw [key, key, key]
    omega

instance : IsAntisymm Index3d Index3d.le where
  antisymm a b := by
    have key : ∀ p q : Index3d, Index3d.lt p q = false ↔
        ¬ (p.x < q.x ∨ (p.x = q.x ∧ (p.y < q.y ∨ (p.y = q.y ∧ p.z < q.z)))) := by
      intro p q
      unfold Index3d.lt
      split_ifs <;> simp <;> omega
    obtain ⟨ax, ay, az⟩ := a
    obtain ⟨bx, by', bz⟩ := b
    unfold Index3d.le
    rw [key, key]
    simp only [Index3d.mk.injEq]
    omega

/-- `Fusion::GetBlocksIntersecting(inputCloud, cameraCenter)`: the set
`intersectingBlocks_` after the call, from the empty set.  The threads of the parallel
loop fill sets of their own, which are merged at the end; the model runs the loop in
order on one set. -/
def GetBlocksIntersecting (env : IntegratorEnv) (voxelRes_ tau_ : ℚ)
    (inputCloud : data_types.PointCloud) (cameraCenter : Point3f) : Finset Index3d :=
  forLoop inputCloud.Size (fun i foundIds =>
    let org := inputCloud.points_.xyzData_.data_ i
    let u := Vec3f.Normalize env.sqrtf (Vec3f.sub org cameraCenter)
    let first := Vec3f.sub org (Vec3f.smul tau_ u)
    let last := Vec3f.add org (Vec3f.smul tau_ u)
    RaycastVoxels (GetId first voxelRes_) (GetId last voxelRes_) foundIds) ∅

/-- One frame of the program: the part of `Fusion::IntegrateDepthMap` that follows the
extraction of the points (`newBlocks_` is filled from `intersectingBlocks_` in the order
of the set, the blocks are added, the cloud is integrated), then the call of
`UpdateGradients()` that `UpdateMeshes()` makes.  The result is the volume and the list
`newBlocks_` of the frame; `none` when the marching loop runs out of fuel. -/
def integrateFrame (env : IntegratorEnv) (voxelRes_ tau_ : ℚ) (fuel : Nat) (volume_ : Volume)
    (inputCloud : data_types.PointCloud) (cameraCenter : Point3f) (packedTSDF : Nat → ℚ) :
    Option (Volume × List BlockId) :=
  let intersectingBlocks_ := GetBlocksIntersecting env voxelRes_ tau_ inputCloud cameraCenter
  let newBlocks_ := intersectingBlocks_.sort Index3d.le
  let allocated := (volume_.AddBlocks newBlocks_).2
  match IntegratePointCloud env voxelRes_ tau_ fuel allocated inputCloud cameraCenter with
  | none => none
  | some integrated =>
    some ((UpdateGradients voxelRes_ integrated newBlocks_ packedTSDF).1, newBlocks_)

/-- Rational stand-ins for `libm` in examples: `Rat.sqrt` is the exact root of the square
of a rational, `1 / (1 - q)` stands for `expf(q)` at `q <= 0` (1 at 0, positive and at
most 1), and `355 / 113` for `M_PI`. -/
def libmExample : IntegratorEnv :=
  { sqrtf := Rat.sqrt
    expf := fun q => 1 / (1 - q)
    M_PI := 355 / 113 }

/-- The cloud of the single point `p` with the colour `rgb`. -/
def onePointCloud (p : Vec3f) (rgb : Color3f) : data_types.PointCloud :=
  (data_types.PointCloud.new 1 (fun _ => Vec3f.zero)).AddPoint ⟨p, rgb⟩

end fusion

end spf

/-! # Properties -/

namespace spf

namespace fusion

/-! ## Block index arithmetic -/

theorem blockShift_eq : blockShift = 4 := by
  simp [blockShift, blockSize, getShift]

theorem tmod_sixteen (a : Int) :
    Int.tmod a 16 = if 0 ≤ a then a % 16 else -((-a) % 16) := by
  split
  · next h => exact Int.tmod_eq_emod h (by norm_num)
  · next h =>
    obtain ⟨n, rfl⟩ : ∃ n : Nat, a = -((n : Int) + 1) := ⟨(-a - 1).toNat, by omega⟩
    have e1 : (-((n : Int) + 1)) = Int.negSucc n := by
      rw [Int.negSucc_eq]
    rw [e1]
    show -((((n + 1) % 16 : Nat)) : Int) = _
    rw [← e1]
    omega

theorem Mod_sixteen (a : Int) : Mod a 16 = a % 16 := by
  unfold Mod
  have h0 := tmod_sixteen a
  have h3 : (0 : Int) ≤ Int.tmod a 16 + 16 := by
    rw [h0]; split <;> omega
  rw [Int.tmod_eq_emod h3 (by norm_num), h0]
  split <;> omega

theorem shiftRight_blockShift (a : Int) : a >>> blockShift = a / 16 := by
  rw [blockShift_eq, Int.shiftRight_eq_div_pow]; norm_num

theorem floor_div_sixteen (a : Int) : ⌊(a : ℚ) / 16⌋ = a / 16 := by
  have := Rat.floor_intCast_div_natCast a 16
  simpa using this

/-- C10: for every point `p` and resolution `voxelRes`, with `v = floor(p / voxelRes)` on
each axis, every component of `GetVoxelId p` lies in `[0, 16)`, every component of
`GetId p` is the floor of `v / 16` (rounding toward minus infinity), and
`GetVoxelAbsolutePos (GetId p) (GetVoxelId p) = 16 * GetId p + GetVoxelId p = v`. -/
theorem GetId_GetVoxelId_decompose (p : Point3f) (voxelRes : ℚ) :
    ((0 ≤ (GetVoxelId p voxelRes).x ∧ (GetVoxelId p voxelRes).x < 16) ∧
      (0 ≤ (GetVoxelId p voxelRes).y ∧ (GetVoxelId p voxelRes).y < 16) ∧
      (0 ≤ (GetVoxelId p voxelRes).z ∧ (GetVoxelId p voxelRes).z < 16)) ∧
    ((GetId p voxelRes).x = ⌊((floorDiv p.x voxelRes : Int) : ℚ) / 16⌋ ∧
      (GetId p voxelRes).y = ⌊((floorDiv p.y voxelRes : Int) : ℚ) / 16⌋ ∧
      (GetId p voxelRes).z = ⌊((floorDiv p.z voxelRes : Int) : ℚ) / 16⌋) ∧
    GetVoxelAbsolutePos (GetId p voxelRes) (GetVoxelId p voxelRes)
      = Index3d.add (Index3d.smul 16 (GetId p voxelRes)) (GetVoxelId p voxelRes) ∧
    GetVoxelAbsolutePos (GetId p voxelRes) (GetVoxelId p voxelRes)
      = ⟨floorDiv p.x voxelRes, floorDiv p.y voxelRes, floorDiv p.z voxelRes⟩ := by
  have hb : ((blockSize : Nat) : Int) = 16 := rfl
  refine ⟨?_, ?_, ?_, ?_⟩
  · simp only [GetVoxelId, hb, Mod_sixteen]
    omega
  · simp only [GetId, shiftRight_blockShift, floor_div_sixteen]
    exact ⟨trivial, trivial, trivial⟩
  · simp only [GetVoxelAbsolutePos, hb]
  · simp only [GetVoxelAbsolutePos, GetId, GetVoxelId, hb, Mod_sixteen, shiftRight_blockShift,
      Index3d.add, Index3d.smul, Index3d.mk.injEq]
    omega

/-! ## The integrator's running update -/

theorem integrateSample_weight (b : VoxelBlock) (offset : Nat) (w t : ℚ) (c : Color3f) :
    (integrateSample b offset w t c).weights_ offset = b.weights_ offset + w := by
  simp [integrateSample, store]

theorem integrateSample_moment (b : VoxelBlock) (offset : Nat) (w t : ℚ) (c : Color3f)
    (h : w + b.weights_ offset ≠ 0) :
    (integrateSample b offset w t c).weights_ offset * (integrateSample b offset w t c).tsdf_ offset
      = b.weights_ offset * b.tsdf_ offset + w * t := by
  simp only [integrateSample, store, if_true]
  field_simp
  ring

theorem integrateSamples_sums (samples : List Sample) :
    ∀ (b : VoxelBlock) (offset : Nat), 0 ≤ b.weights_ offset →
      (∀ s ∈ samples, 0 < s.weight) →
      (integrateSamples b offset samples).weights_ offset
          = b.weights_ offset + weightTotal samples ∧
      (integrateSamples b offset samples).weights_ offset
          * (integrateSamples b offset samples).tsdf_ offset
          = b.weights_ offset * b.tsdf_ offset + momentTotal samples := by
  induction samples with
  | nil => intro b offset _ _; simp [integrateSamples, weightTotal, momentTotal]
  | cons s rest ih =>
    intro b offset hb hpos
    have hs : 0 < s.weight := hpos s (List.mem_cons_self _ _)
    have hrest : ∀ s' ∈ rest, 0 < s'.weight := fun s' h => hpos s' (List.mem_cons_of_mem _ h)
    have hw := integrateSample_weight b offset s.weight s.tsdf s.rgb
    have hm := integrateSample_moment b offset s.weight s.tsdf s.rgb (by linarith)
    have h0 : 0 ≤ (integrateSample b offset s.weight s.tsdf s.rgb).weights_ offset := by
      rw [hw]; linarith
    obtain ⟨i1, i2⟩ := ih (integrateSample b offset s.weight s.tsdf s.rgb) offset h0 hrest
    have e : integrateSamples b offset (s :: rest)
        = integrateSamples (integrateSample b offset s.weight s.tsdf s.rgb) offset rest := rfl
    rw [e]
    refine ⟨?_, ?_⟩
    · rw [i1, hw]
      simp only [weightTotal, List.map_cons, List.sum_cons]
      ring
    · rw [i2, hm]
      simp only [momentTotal, List.map_cons, List.sum_cons]
      ring

theorem weightTotal_pos (samples : List Sample) (hne : samples ≠ [])
    (hpos : ∀ s ∈ samples, 0 < s.weight) : 0 < weightTotal samples := by
  induction samples with
  | nil => exact absurd rfl hne
  | cons s rest ih =>
    have hs : 0 < s.weight := hpos s (List.mem_cons_self _ _)
    simp only [weightTotal, List.map_cons, List.sum_cons]
    by_cases hr : rest = []
    · subst hr; simpa using hs
    · have := ih hr (fun s' h => hpos s' (List.mem_cons_of_mem _ h))
      simp only [weightTotal] at this
      linarith

theorem momentTotal_bounds (samples : List Sample) (lo hi : ℚ)
    (hpos : ∀ s ∈ samples, 0 < s.weight)
    (hb : ∀ s ∈ samples, lo ≤ s.tsdf ∧ s.tsdf ≤ hi) :
    lo * weightTotal samples ≤ momentTotal samples ∧
      momentTotal samples ≤ hi * weightTotal samples := by
  induction samples with
  | nil => simp [weightTotal, momentTotal]
  | cons s rest ih =>
    have hs : 0 < s.weight := hpos s (List.mem_cons_self _ _)
    obtain ⟨b1, b2⟩ := hb s (List.mem_cons_self _ _)
    obtain ⟨i1, i2⟩ := ih (fun s' h => hpos s' (List.mem_cons_of_mem _ h))
      (fun s' h => hb s' (List.mem_cons_of_mem _ h))
    simp only [weightTotal, momentTotal, List.map_cons, List.sum_cons] at *
    constructor <;> nlinarith

theorem exists_extreme_samples (samples : List Sample) (hne : samples ≠ []) :
    ∃ smin ∈ samples, ∃ smax ∈ samples,
      ∀ s ∈ samples, smin.tsdf ≤ s.tsdf ∧ s.tsdf ≤ smax.tsdf := by
  have hN : samples.toFinset.Nonempty := by
    obtain ⟨a, ha⟩ := List.exists_mem_of_ne_nil samples hne
    exact ⟨a, List.mem_toFinset.mpr ha⟩
  obtain ⟨smin, hmin, hmin'⟩ := Finset.exists_min_image samples.toFinset Sample.tsdf hN
  obtain ⟨smax, hmax, hmax'⟩ := Finset.exists_max_image samples.toFinset Sample.tsdf hN
  refine ⟨smin, List.mem_toFinset.mp hmin, smax, List.mem_toFinset.mp hmax, fun s hs => ?_⟩
  exact ⟨hmin' s (List.mem_toFinset.mpr hs), hmax' s (List.mem_toFinset.mpr hs)⟩

theorem integrateSamples_of_zero_weight (b : VoxelBlock) (offset : Nat) (samples : List Sample)
    (hb : b.weights_ offset = 0) (hne : samples ≠ []) (hpos : ∀ s ∈ samples, 0 < s.weight) :
    (integrateSamples b offset samples).weights_ offset = weightTotal samples ∧
      (integrateSamples b offset samples).tsdf_ offset
        = momentTotal samples / weightTotal samples := by
  obtain ⟨h1, h2⟩ := integrateSamples_sums samples b offset (by rw [hb]) hpos
  have hW := weightTotal_pos samples hne hpos
  rw [hb] at h1 h2
  simp only [zero_add, zero_mul] at h1 h2
  refine ⟨h1, ?_⟩
  rw [h1] at h2
  rw [eq_div_iff (ne_of_gt hW), mul_comm]
  exact h2

/-- C1: starting from a freshly constructed voxel block (weight 0, tsdf `invalidTsdf`) and
applying the running update on one slot for `n ≥ 1` samples of positive weight, the stored
weight is the sum of the `w_i`, the stored tsdf is `(Σ w_i t_i) / (Σ w_i)`, it lies between
the least and the greatest `t_i`, and the result is the same whatever initial tsdf value
stands in place of `invalidTsdf`. -/
theorem integrateSamples_fresh_weighted_mean (voxelRes : ℚ) (useColor : Bool) (offset : Nat)
    (samples : List Sample) (hne : samples ≠ []) (hpos : ∀ s ∈ samples, 0 < s.weight) :
    ((VoxelBlock.new voxelRes useColor).weights_ offset = 0 ∧
      (VoxelBlock.new voxelRes useColor).tsdf_ offset = invalidTsdf) ∧
    (integrateSamples (VoxelBlock.new voxelRes useColor) offset samples).weights_ offset
      = (samples.map Sample.weight).sum ∧
    (integrateSamples (VoxelBlock.new voxelRes useColor) offset samples).tsdf_ offset
      = (samples.map (fun s => s.weight * s.tsdf)).sum / (samples.map Sample.weight).sum ∧
    (∃ smin ∈ samples, ∃ smax ∈ samples,
      (∀ s ∈ samples, smin.tsdf ≤ s.tsdf ∧ s.tsdf ≤ smax.tsdf) ∧
      smin.tsdf
        ≤ (integrateSamples (VoxelBlock.new voxelRes useColor) offset samples).tsdf_ offset ∧
      (integrateSamples (VoxelBlock.new voxelRes useColor) offset samples).tsdf_ offset
        ≤ smax.tsdf) ∧
    (∀ init : Nat → ℚ,
      (integrateSamples { VoxelBlock.new voxelRes useColor with tsdf_ := init }
          offset samples).tsdf_ offset
        = (integrateSamples (VoxelBlock.new voxelRes useColor) offset samples).tsdf_ offset ∧
      (integrateSamples { VoxelBlock.new voxelRes useColor with tsdf_ := init }
          offset samples).weights_ offset
        = (integrateSamples (VoxelBlock.new voxelRes useColor) offset samples).weights_ offset) := by
  obtain ⟨hw, ht⟩ := integrateSamples_of_zero_weight (VoxelBlock.new voxelRes useColor) offset
    samples rfl hne hpos
  have hW := weightTotal_pos samples hne hpos
  refine ⟨⟨rfl, rfl⟩, hw, ht, ?_, ?_⟩
  · obtain ⟨smin, hmin, smax, hmax, hext⟩ := exists_extreme_samples samples hne
    obtain ⟨b1, b2⟩ := momentTotal_bounds samples smin.tsdf smax.tsdf hpos hext
    refine ⟨smin, hmin, smax, hmax, hext, ?_, ?_⟩
    · rw [ht, le_div_iff₀ hW]; exact b1
    · rw [ht, div_le_iff₀ hW]; exact b2
  · intro init
    obtain ⟨hw', ht'⟩ := integrateSamples_of_zero_weight
      { VoxelBlock.new voxelRes useColor with tsdf_ := init } offset samples rfl hne hpos
    exact ⟨by rw [ht', ht], by rw [hw', hw]⟩

/-- Witness for C1: two samples of weights 1 and 3 with distances 2 and -2 leave the weight
4 and the tsdf -1. -/
theorem integrateSamples_fresh_weighted_mean_witness :
    ([⟨1, 2, Vec3f.zero⟩, ⟨3, -2, Vec3f.zero⟩] : List Sample) ≠ [] ∧
      (∀ s ∈ ([⟨1, 2, Vec3f.zero⟩, ⟨3, -2, Vec3f.zero⟩] : List Sample), 0 < s.weight) ∧
      (integrateSamples (VoxelBlock.new (1 / 100) true) 0
        [⟨1, 2, Vec3f.zero⟩, ⟨3, -2, Vec3f.zero⟩]).weights_ 0 = 4 ∧
      (integrateSamples (VoxelBlock.new (1 / 100) true) 0
        [⟨1, 2, Vec3f.zero⟩, ⟨3, -2, Vec3f.zero⟩]).tsdf_ 0 = -1 := by
  have hne : ([⟨1, 2, Vec3f.zero⟩, ⟨3, -2, Vec3f.zero⟩] : List Sample) ≠ [] := by simp
  have hpos : ∀ s ∈ ([⟨1, 2, Vec3f.zero⟩, ⟨3, -2, Vec3f.zero⟩] : List Sample),
      0 < s.weight := by
    intro s hs
    simp only [List.mem_cons, List.mem_singleton, List.not_mem_nil, or_false] at hs
    rcases hs with rfl | rfl <;> norm_num
  have h := integrateSamples_fresh_weighted_mean (1 / 100) true 0
    [⟨1, 2, Vec3f.zero⟩, ⟨3, -2, Vec3f.zero⟩] hne hpos
  refine ⟨hne, hpos, ?_, ?_⟩
  · rw [h.2.1]; norm_num
  · rw [h.2.2.1]; norm_num

/-! ## The sparse volume -/

theorem BlockIdMap.find_append_singleton (m : BlockIdMap) (id a : BlockId) (n : Nat) :
    BlockIdMap.find (m ++ [(id, n)]) a
      = (BlockIdMap.find m a).or (if a = id then some n else none) := by
  unfold BlockIdMap.find
  rw [List.lookup_append]
  congr 1
  by_cases h : a = id
  · subst h; simp [List.lookup]
  · have hne : (a == id) = false := by simpa using h
    simp [List.lookup, hne, h]

theorem Volume.AddBlock_of_known (v : Volume) (id : BlockId)
    (h : (v.blockIds_.find id).isSome = true) : (v.AddBlock id).2 = v := by
  simp [Volume.AddBlock, h]

theorem Volume.AddBlock_of_unknown (v : Volume) (id : BlockId)
    (h : (v.blockIds_.find id).isSome = false) :
    (v.AddBlock id).2 =
      { v with
        blockIds_ := v.blockIds_ ++ [(id, v.nextBlockIndex_)]
        nextBlockIndex_ := v.nextBlockIndex_ + 1
        voxelBlocks_ := v.voxelBlocks_ ++ [some (VoxelBlock.new v.voxelRes_ true)]
        meshes_ := v.meshes_ ++ [none] } := by
  simp [Volume.AddBlock, BlockIdMap.assign, h]

theorem Volume.Inv_new (voxelRes : ℚ) : Volume.Inv (Volume.new voxelRes) [] := by
  constructor <;> simp [Volume.new, Volume.keys, BlockIdMap.find]

theorem Volume.Inv_AddBlock (v : Volume) (args : List BlockId) (id : BlockId)
    (hv : Volume.Inv v args) : Volume.Inv (v.AddBlock id).2 (args ++ [id]) := by
  by_cases hk : id ∈ v.keys
  · -- the id is known: the volume is unchanged
    have hsome : (v.blockIds_.find id).isSome = true := by
      rw [hv.find_eq id, if_pos hk]; rfl
    rw [Volume.AddBlock_of_known v id hsome]
    have hargs : id ∈ args := (hv.mem_iff id).mp hk
    refine ⟨hv.find_eq, hv.nodup, hv.next_eq, hv.blocks_len, hv.meshes_len, ?_, ?_⟩
    · intro a
      rw [hv.mem_iff a, List.mem_append, List.mem_singleton]
      constructor
      · exact fun h => Or.inl h
      · rintro (h | rfl)
        · exact h
        · exact hargs
    · intro a b ha hb
      rw [List.indexOf_append_of_mem ((hv.mem_iff a).mp ha),
        List.indexOf_append_of_mem ((hv.mem_iff b).mp hb)]
      exact hv.order a b ha hb
  · -- the id is new: one entry, one block and one mesh slot are appended
    have hnone : (v.blockIds_.find id).isSome = false := by
      rw [hv.find_eq id, if_neg hk]; rfl
    have hargs : id ∉ args := fun h => hk ((hv.mem_iff id).mpr h)
    rw [Volume.AddBlock_of_unknown v id hnone]
    have hkeys : Volume.keys
        { v with
          blockIds_ := v.blockIds_ ++ [(id, v.nextBlockIndex_)]
          nextBlockIndex_ := v.nextBlockIndex_ + 1
          voxelBlocks_ := v.voxelBlocks_ ++ [some (VoxelBlock.new v.voxelRes_ true)]
          meshes_ := v.meshes_ ++ [none] } = v.keys ++ [id] := by
      simp [Volume.keys]
    refine ⟨?_, ?_, ?_, ?_, ?_, ?_, ?_⟩
    · intro a
      rw [hkeys]
      show BlockIdMap.find (v.blockIds_ ++ [(id, v.nextBlockIndex_)]) a = _
      rw [BlockIdMap.find_append_singleton, hv.find_eq a]
      by_cases ha : a ∈ v.keys
      · rw [if_pos ha, if_pos (List.mem_append_left _ ha), List.indexOf_append_of_mem ha]
        rfl
      · rw [if_neg ha]
        by_cases hai : a = id
        · subst hai
          rw [if_pos rfl, if_pos (List.mem_append_right _ (List.mem_singleton_self a)),
            List.indexOf_append_of_not_mem ha, hv.next_eq]
          simp
        · rw [if_neg hai, if_neg]
          · rfl
          · rw [List.mem_append, List.mem_singleton]
            exact fun h => h.elim ha hai
    · rw [hkeys]
      refine List.Nodup.append hv.nodup (List.nodup_singleton id) ?_
      intro a ha ha'
      rw [List.mem_singleton] at ha'
      exact hk (ha' ▸ ha)
    · rw [hkeys]; simp [hv.next_eq]
    · rw [hkeys]; simp [hv.blocks_len]
    · rw [hkeys]; simp [hv.meshes_len]
    · intro a
      rw [hkeys, List.mem_append, List.mem_append, hv.mem_iff a]
    · intro a b ha hb
      rw [hkeys] at ha hb ⊢
      rw [List.mem_append, List.mem_singleton] at ha hb
      by_cases ha' : a ∈ v.keys
      · have haA := (hv.mem_iff a).mp ha'
        rw [List.indexOf_append_of_mem ha', List.indexOf_append_of_mem haA]
        by_cases hb' : b ∈ v.keys
        · have hbA := (hv.mem_iff b).mp hb'
          rw [List.indexOf_append_of_mem hb', List.indexOf_append_of_mem hbA]
          exact hv.order a b ha' hb'
        · have hbi : b = id := hb.resolve_left hb'
          subst hbi
          rw [List.indexOf_append_of_not_mem hb', List.indexOf_append_of_not_mem hargs]
          have h1 : List.indexOf a v.keys < v.keys.length := List.indexOf_lt_length.mpr ha'
          have h2 : List.indexOf a args < args.length := List.indexOf_lt_length.mpr haA
          constructor <;> intro _ <;> omega
      · have hai : a = id := ha.resolve_left ha'
        subst hai
        rw [List.indexOf_append_of_not_mem ha', List.indexOf_append_of_not_mem hargs]
        by_cases hb' : b ∈ v.keys
        · have hbA := (hv.mem_iff b).mp hb'
          rw [List.indexOf_append_of_mem hb', List.indexOf_append_of_mem hbA]
          have h1 : List.indexOf b v.keys < v.keys.length := List.indexOf_lt_length.mpr hb'
          have h2 : List.indexOf b args < args.length := List.indexOf_lt_length.mpr hbA
          constructor <;> intro _ <;> omega
        · have hbi : b = a := hb.resolve_left hb'
          subst hbi
          rw [List.indexOf_append_of_not_mem hb', List.indexOf_append_of_not_mem hargs]
          constructor <;> intro h <;> exact absurd h (lt_irrefl _)

theorem Volume.Inv_addBlockSeq (v : Volume) (args ids : List BlockId) (hv : Volume.Inv v args) :
    Volume.Inv (Volume.addBlockSeq v ids) (args ++ ids) := by
  induction ids using List.reverseRecOn with
  | nil => simpa [Volume.addBlockSeq] using hv
  | append_singleton l a ih =>
    have e : Volume.addBlockSeq v (l ++ [a]) = ((Volume.addBlockSeq v l).AddBlock a).2 := by
      simp [Volume.addBlockSeq, List.foldl_append]
    rw [e, ← List.append_assoc]
    exact Volume.Inv_AddBlock _ _ a ih

theorem Volume.AddBlocksStep_snd (id : BlockId) (st : Nat × Volume) :
    (Volume.AddBlocksStep id st).2 = (st.2.AddBlock id).2 := by
  unfold Volume.AddBlocksStep Volume.AddBlock
  split <;> rfl

theorem Volume.AddBlocks_snd_aux (ids : List BlockId) :
    ∀ st : Nat × Volume,
      (ids.foldl (fun st blockId => Volume.AddBlocksStep blockId st) st).2
        = Volume.addBlockSeq st.2 ids := by
  induction ids with
  | nil => intro st; rfl
  | cons a l ih =>
    intro st
    simp only [List.foldl_cons, Volume.addBlockSeq]
    rw [ih (Volume.AddBlocksStep a st), Volume.AddBlocksStep_snd]
    rfl

theorem Volume.AddBlocks_snd (v : Volume) (ids : List BlockId) :
    (v.AddBlocks ids).2 = Volume.addBlockSeq v ids :=
  Volume.AddBlocks_snd_aux ids (0, v)

theorem Volume.insertAll_eq_addBlockSeq (calls : List Volume.Insertion) :
    ∀ v : Volume, Volume.insertAll v calls
      = Volume.addBlockSeq v (calls.flatMap Volume.Insertion.args) := by
  induction calls with
  | nil => intro v; rfl
  | cons c rest ih =>
    intro v
    have e : Volume.insertAll v (c :: rest) = Volume.insertAll (Volume.Insertion.apply v c) rest :=
      rfl
    rw [e, ih, List.flatMap_cons]
    cases c with
    | addBlock id =>
      simp [Volume.Insertion.apply, Volume.Insertion.args, Volume.addBlockSeq]
    | addBlocks l =>
      simp only [Volume.Insertion.apply, Volume.Insertion.args, Volume.AddBlocks_snd]
      simp [Volume.addBlockSeq, List.foldl_append]

theorem Volume.Inv_insertAll (voxelRes : ℚ) (calls : List Volume.Insertion) :
    Volume.Inv (Volume.insertAll (Volume.new voxelRes) calls)
      (calls.flatMap Volume.Insertion.args) := by
  rw [Volume.insertAll_eq_addBlockSeq]
  simpa using Volume.Inv_addBlockSeq (Volume.new voxelRes) [] _ (Volume.Inv_new voxelRes)

theorem Volume.find_AddBlock (v : Volume) (id a : BlockId) (k : Nat)
    (h : v.blockIds_.find a = some k) : (v.AddBlock id).2.blockIds_.find a = some k := by
  by_cases hs : (v.blockIds_.find id).isSome = true
  · rw [Volume.AddBlock_of_known v id hs]; exact h
  · have hs' : (v.blockIds_.find id).isSome = false := by simpa using hs
    rw [Volume.AddBlock_of_unknown v id hs']
    show BlockIdMap.find (v.blockIds_ ++ [(id, v.nextBlockIndex_)]) a = some k
    rw [BlockIdMap.find_append_singleton, h]
    rfl

theorem Volume.find_addBlockSeq (ids : List BlockId) :
    ∀ (v : Volume) (a : BlockId) (k : Nat), v.blockIds_.find a = some k →
      (Volume.addBlockSeq v ids).blockIds_.find a = some k := by
  induction ids with
  | nil => intro v a k h; exact h
  | cons id rest ih =>
    intro v a k h
    exact ih (v.AddBlock id).2 a k (Volume.find_AddBlock v id a k h)

/-- C2: for every finite sequence of `AddBlock` calls on a freshly constructed volume,
`NumBlocks()` afterwards is the number of distinct block ids of the sequence. -/
theorem NumBlocks_addBlockSeq (voxelRes : ℚ) (ids : List BlockId) :
    (Volume.addBlockSeq (Volume.new voxelRes) ids).NumBlocks = ids.toFinset.card := by
  have hv := Volume.Inv_addBlockSeq (Volume.new voxelRes) [] ids (Volume.Inv_new voxelRes)
  rw [List.nil_append] at hv
  have hset : (Volume.addBlockSeq (Volume.new voxelRes) ids).keys.toFinset = ids.toFinset := by
    ext a
    rw [List.mem_toFinset, List.mem_toFinset]
    exact hv.mem_iff a
  rw [← hset, List.toFinset_card_of_nodup hv.nodup]
  simp [Volume.NumBlocks, BlockIdMap.size, Volume.keys]

/-- C3: after any sequence of `AddBlock` and `AddBlocks` calls on a fresh volume, the
block-id map, the voxel-block array and the mesh array have the same length `n`; the
indices stored in the map are exactly `0 .. n-1`, one per id, the ids of the map are the
ids that were passed, and an id passed earlier for the first time has the smaller index;
`GetBlock id` is the array element at the index stored for `id`; and the index stored for
an id is unchanged by any later insertions. -/
theorem insertAll_dense_indices (voxelRes : ℚ) (calls : List Volume.Insertion) :
    ((Volume.insertAll (Volume.new voxelRes) calls).blockIds_.size
        = (Volume.insertAll (Volume.new voxelRes) calls).voxelBlocks_.length ∧
      (Volume.insertAll (Volume.new voxelRes) calls).voxelBlocks_.length
        = (Volume.insertAll (Volume.new voxelRes) calls).meshes_.length) ∧
    (∀ k, k < (Volume.insertAll (Volume.new voxelRes) calls).NumBlocks ↔
      ∃ id, (Volume.insertAll (Volume.new voxelRes) calls).blockIds_.find id = some k) ∧
    (∀ a b k, (Volume.insertAll (Volume.new voxelRes) calls).blockIds_.find a = some k →
      (Volume.insertAll (Volume.new voxelRes) calls).blockIds_.find b = some k → a = b) ∧
    (∀ id, ((Volume.insertAll (Volume.new voxelRes) calls).blockIds_.find id).isSome = true ↔
      id ∈ calls.flatMap Volume.Insertion.args) ∧
    (∀ a b ka kb, (Volume.insertAll (Volume.new voxelRes) calls).blockIds_.find a = some ka →
      (Volume.insertAll (Volume.new voxelRes) calls).blockIds_.find b = some kb →
      (ka < kb ↔ (calls.flatMap Volume.Insertion.args).indexOf a
        < (calls.flatMap Volume.Insertion.args).indexOf b)) ∧
    (∀ id k, (Volume.insertAll (Volume.new voxelRes) calls).blockIds_.find id = some k →
      (Volume.insertAll (Volume.new voxelRes) calls).voxelBlocks_[k]?
        = some ((Volume.insertAll (Volume.new voxelRes) calls).GetBlock id)) ∧
    (∀ (later : List Volume.Insertion) id k,
      (Volume.insertAll (Volume.new voxelRes) calls).blockIds_.find id = some k →
      (Volume.insertAll (Volume.insertAll (Volume.new voxelRes) calls) later).blockIds_.find id
        = some k) := by
  have hv := Volume.Inv_insertAll voxelRes calls
  generalize Volume.insertAll (Volume.new voxelRes) calls = v at hv ⊢
  generalize calls.flatMap Volume.Insertion.args = args at hv ⊢
  have hlen : v.blockIds_.size = v.keys.length := by simp [BlockIdMap.size, Volume.keys]
  have hfind : ∀ id k, v.blockIds_.find id = some k →
      id ∈ v.keys ∧ k = v.keys.indexOf id := by
    intro id k h
    rw [hv.find_eq id] at h
    by_cases hm : id ∈ v.keys
    · rw [if_pos hm] at h
      exact ⟨hm, (Option.some.inj h).symm⟩
    · rw [if_neg hm] at h
      exact absurd h (by simp)
  refine ⟨⟨?_, ?_⟩, ?_, ?_, ?_, ?_, ?_, ?_⟩
  · rw [hlen, hv.blocks_len]
  · rw [hv.blocks_len, hv.meshes_len]
  · intro k
    unfold Volume.NumBlocks
    rw [hlen]
    constructor
    · intro hk
      refine ⟨v.keys.get ⟨k, hk⟩, ?_⟩
      rw [hv.find_eq, if_pos (List.get_mem _ _ _)]
      congr 1
      exact List.indexOf_getElem hv.nodup k hk
    · rintro ⟨id, h⟩
      obtain ⟨hm, rfl⟩ := hfind id k h
      exact List.indexOf_lt_length.mpr hm
  · intro a b k ha hb
    obtain ⟨hma, hka⟩ := hfind a k ha
    obtain ⟨hmb, hkb⟩ := hfind b k hb
    exact (List.indexOf_inj hma hmb).mp (hka.symm.trans hkb)
  · intro id
    rw [hv.find_eq id, ← hv.mem_iff id]
    by_cases hm : id ∈ v.keys
    · simp [hm]
    · simp [hm]
  · intro a b ka kb ha hb
    obtain ⟨hma, rfl⟩ := hfind a ka ha
    obtain ⟨hmb, rfl⟩ := hfind b kb hb
    exact hv.order a b hma hmb
  · intro id k h
    obtain ⟨hm, rfl⟩ := hfind id _ h
    have hk : List.indexOf id v.keys < v.voxelBlocks_.length := by
      rw [hv.blocks_len]; exact List.indexOf_lt_length.mpr hm
    unfold Volume.GetBlock
    rw [h]
    show _ = some (v.voxelBlocks_.getD (List.indexOf id v.keys) none)
    rw [List.getD_eq_getElem?_getD, List.getElem?_eq_getElem hk]
    rfl
  · intro later id k h
    rw [Volume.insertAll_eq_addBlockSeq]
    exact Volume.find_addBlockSeq _ v id k h

/-! ## The raycast allocator -/

theorem forLoop_succ {σ : Type} (n : Nat) (body : Nat → σ → σ) (s : σ) :
    forLoop (n + 1) body s = body n (forLoop n body s) := by
  simp [forLoop, List.range_succ, List.foldl_append]

theorem forLoop_invariant {σ : Type} (P : Nat → σ → Prop) (n : Nat) (body : Nat → σ → σ)
    (s : σ) (h0 : P 0 s) (hstep : ∀ i st, i < n → P i st → P (i + 1) (body i st)) :
    P n (forLoop n body s) := by
  induction n with
  | zero => simpa [forLoop] using h0
  | succ k ih =>
    rw [forLoop_succ]
    exact hstep k _ (Nat.lt_succ_self k)
      (ih (fun i st hi hP => hstep i st (Nat.lt_succ_of_lt hi) hP))

theorem shl_zero (n : Nat) : shl 0 n = 0 := by simp [shl]

/-- Along a segment parallel to the x axis the x-driven loop emits every id between the
endpoints. -/
theorem raycast_loopX_axis (a : Index3d) (incX dx2 l : Int) (hl : 0 ≤ l) (S : Finset Index3d)
    (n : Nat) :
    (forLoop n (fun _ => raycastStepX incX 0 0 dx2 0 0) ⟨a, 0 - l, 0 - l, S⟩).id
        = ⟨a.x + n * incX, a.y, a.z⟩ ∧
      (forLoop n (fun _ => raycastStepX incX 0 0 dx2 0 0) ⟨a, 0 - l, 0 - l, S⟩).err1 = 0 - l ∧
      (forLoop n (fun _ => raycastStepX incX 0 0 dx2 0 0) ⟨a, 0 - l, 0 - l, S⟩).err2 = 0 - l ∧
      ∀ j : Nat, j < n → (⟨a.x + j * incX, a.y, a.z⟩ : Index3d)
        ∈ (forLoop n (fun _ => raycastStepX incX 0 0 dx2 0 0) ⟨a, 0 - l, 0 - l, S⟩).foundIds := by
  refine forLoop_invariant
    (fun i (st : RaycastState) => st.id = ⟨a.x + i * incX, a.y, a.z⟩ ∧ st.err1 = 0 - l ∧ st.err2 = 0 - l ∧
      ∀ j : Nat, j < i → (⟨a.x + j * incX, a.y, a.z⟩ : Index3d) ∈ st.foundIds)
    n _ _ ?_ ?_
  · refine ⟨by simp, rfl, rfl, fun j hj => absurd hj (Nat.not_lt_zero j)⟩
  · rintro i st _ ⟨hid, h1, h2, hf⟩
    have n1 : ¬ st.err1 > 0 := by rw [h1]; omega
    have n2 : ¬ st.err2 > 0 := by rw [h2]; omega
    simp only [raycastStepX, if_neg n1, if_neg n2, add_zero]
    refine ⟨?_, h1, h2, ?_⟩
    · rw [hid]; simp only [Index3d.mk.injEq, and_true]; push_cast; ring
    · intro j hj
      rcases Nat.lt_succ_iff_lt_or_eq.mp hj with h | rfl
      · exact Finset.mem_insert_of_mem (hf j h)
      · rw [hid]; exact Finset.mem_insert_self _ _

/-- Along a segment parallel to the y axis the y-driven loop emits every id between the
endpoints. -/
theorem raycast_loopY_axis (a : Index3d) (incY dy2 m : Int) (hm : 0 ≤ m) (S : Finset Index3d)
    (n : Nat) :
    (forLoop n (fun _ => raycastStepY 0 incY 0 0 dy2 0) ⟨a, 0 - m, 0 - m, S⟩).id
        = ⟨a.x, a.y + n * incY, a.z⟩ ∧
      (forLoop n (fun _ => raycastStepY 0 incY 0 0 dy2 0) ⟨a, 0 - m, 0 - m, S⟩).err1 = 0 - m ∧
      (forLoop n (fun _ => raycastStepY 0 incY 0 0 dy2 0) ⟨a, 0 - m, 0 - m, S⟩).err2 = 0 - m ∧
      ∀ j : Nat, j < n → (⟨a.x, a.y + j * incY, a.z⟩ : Index3d)
        ∈ (forLoop n (fun _ => raycastStepY 0 incY 0 0 dy2 0) ⟨a, 0 - m, 0 - m, S⟩).foundIds := by
  refine forLoop_invariant
    (fun i (st : RaycastState) => st.id = ⟨a.x, a.y + i * incY, a.z⟩ ∧ st.err1 = 0 - m ∧ st.err2 = 0 - m ∧
      ∀ j : Nat, j < i → (⟨a.x, a.y + j * incY, a.z⟩ : Index3d) ∈ st.foundIds)
    n _ _ ?_ ?_
  · refine ⟨by simp, rfl, rfl, fun j hj => absurd hj (Nat.not_lt_zero j)⟩
  · rintro i st _ ⟨hid, h1, h2, hf⟩
    have n1 : ¬ st.err1 > 0 := by rw [h1]; omega
    have n2 : ¬ st.err2 > 0 := by rw [h2]; omega
    simp only [raycastStepY, if_neg n1, if_neg n2, add_zero]
    refine ⟨?_, h1, h2, ?_⟩
    · rw [hid]; simp only [Index3d.mk.injEq, and_true, true_and]; push_cast; ring
    · intro j hj
      rcases Nat.lt_succ_iff_lt_or_eq.mp hj with h | rfl
      · exact Finset.mem_insert_of_mem (hf j h)
      · rw [hid]; exact Finset.mem_insert_self _ _

/-- Along a segment parallel to the z axis the z-driven loop emits every id between the
endpoints. -/
theorem raycast_loopZ_axis (a : Index3d) (incZ dz2 n' : Int) (hn : 0 ≤ n') (S : Finset Index3d)
    (n : Nat) :
    (forLoop n (fun _ => raycastStepZ 0 0 incZ 0 0 dz2) ⟨a, 0 - n', 0 - n', S⟩).id
        = ⟨a.x, a.y, a.z + n * incZ⟩ ∧
      (forLoop n (fun _ => raycastStepZ 0 0 incZ 0 0 dz2) ⟨a, 0 - n', 0 - n', S⟩).err1 = 0 - n' ∧
      (forLoop n (fun _ => raycastStepZ 0 0 incZ 0 0 dz2) ⟨a, 0 - n', 0 - n', S⟩).err2 = 0 - n' ∧
      ∀ j : Nat, j < n → (⟨a.x, a.y, a.z + j * incZ⟩ : Index3d)
        ∈ (forLoop n (fun _ => raycastStepZ 0 0 incZ 0 0 dz2) ⟨a, 0 - n', 0 - n', S⟩).foundIds := by
  refine forLoop_invariant
    (fun i (st : RaycastState) => st.id = ⟨a.x, a.y, a.z + i * incZ⟩ ∧ st.err1 = 0 - n' ∧ st.err2 = 0 - n' ∧
      ∀ j : Nat, j < i → (⟨a.x, a.y, a.z + j * incZ⟩ : Index3d) ∈ st.foundIds)
    n _ _ ?_ ?_
  · refine ⟨by simp, rfl, rfl, fun j hj => absurd hj (Nat.not_lt_zero j)⟩
  · rintro i st _ ⟨hid, h1, h2, hf⟩
    have n1 : ¬ st.err1 > 0 := by rw [h1]; omega
    have n2 : ¬ st.err2 > 0 := by rw [h2]; omega
    simp only [raycastStepZ, if_neg n1, if_neg n2, add_zero]
    refine ⟨?_, h1, h2, ?_⟩
    · rw [hid]; simp only [Index3d.mk.injEq, true_and]; push_cast; ring
    · intro j hj
      rcases Nat.lt_succ_iff_lt_or_eq.mp hj with h | rfl
      · exact Finset.mem_insert_of_mem (hf j h)
      · rw [hid]; exact Finset.mem_insert_self _ _

/-- On an axis where the endpoints agree, a crossed cell has the coordinate of the
endpoints. -/
theorem crossed_coord_of_eq (a c : Int) (t : ℚ)
    (h1 : (c : ℚ) < segmentPoint a a t) (h2 : segmentPoint a a t < (c : ℚ) + 1) : c = a := by
  simp only [segmentPoint, sub_self, mul_zero, add_zero] at h1 h2
  have e1 : ((c : Int) : ℚ) < ((a + 1 : Int) : ℚ) := by push_cast; linarith
  have e2 : ((a : Int) : ℚ) < ((c + 1 : Int) : ℚ) := by push_cast; linarith
  have e1' := Int.cast_lt.mp e1
  have e2' := Int.cast_lt.mp e2
  omega

/-- On the driver axis, a crossed cell is one of the steps from `a` to `b`. -/
theorem crossed_coord_steps (a b c : Int) (t : ℚ) (ht0 : 0 ≤ t) (ht1 : t ≤ 1)
    (h1 : (c : ℚ) < segmentPoint a b t) (h2 : segmentPoint a b t < (c : ℚ) + 1) :
    ∃ j : Nat, j < |b - a|.toNat + 1 ∧ c = a + j * inc (b - a) := by
  simp only [segmentPoint] at h1 h2
  rcases le_or_lt a b with hab | hab
  · -- the segment runs in the positive direction
    have hd : (0 : ℚ) ≤ (b : ℚ) - a := by
      have : ((a : Int) : ℚ) ≤ b := Int.cast_le.mpr hab
      linarith
    have hp1 : t * ((b : ℚ) - a) ≤ (b : ℚ) - a := by nlinarith
    have hp0 : 0 ≤ t * ((b : ℚ) - a) := mul_nonneg ht0 hd
    have e1 : ((c : Int) : ℚ) < ((b + 1 : Int) : ℚ) := by push_cast; linarith
    have e2 : ((a : Int) : ℚ) < ((c + 1 : Int) : ℚ) := by push_cast; linarith
    have e1' := Int.cast_lt.mp e1
    have e2' := Int.cast_lt.mp e2
    refine ⟨(c - a).toNat, ?_, ?_⟩
    · rw [abs_of_nonneg (by omega)]; omega
    · by_cases hz : b - a = 0
      · simp only [inc, if_pos hz, mul_zero, add_zero]; omega
      · have hneg : ¬ b - a < 0 := by omega
        simp only [inc, if_neg hz, if_neg hneg, mul_one]
        omega
  · -- the segment runs in the negative direction
    have hd : (b : ℚ) - a ≤ 0 := by
      have : ((b : Int) : ℚ) ≤ a := Int.cast_le.mpr (le_of_lt hab)
      linarith
    have hp1 : (b : ℚ) - a ≤ t * ((b : ℚ) - a) := by nlinarith
    have hp0 : t * ((b : ℚ) - a) ≤ 0 := mul_nonpos_of_nonneg_of_nonpos ht0 hd
    have e1 : ((c : Int) : ℚ) < ((a + 1 : Int) : ℚ) := by push_cast; linarith
    have e2 : ((b : Int) : ℚ) < ((c + 1 : Int) : ℚ) := by push_cast; linarith
    have e1' := Int.cast_lt.mp e1
    have e2' := Int.cast_lt.mp e2
    refine ⟨(a - c).toNat, ?_, ?_⟩
    · rw [abs_of_neg (by omega)]; omega
    · have hz : ¬ b - a = 0 := by omega
      have hneg : b - a < 0 := by omega
      simp only [inc, if_neg hz, if_pos hneg]
      omega

theorem inc_zero : inc 0 = 0 := by simp [inc]

theorem RaycastVoxels_axis_x (a b : Index3d) (S : Finset Index3d) (hy : a.y = b.y)
    (hz : a.z = b.z) (j : Nat) (hj : j < |b.x - a.x|.toNat + 1) :
    (⟨a.x + j * inc (b.x - a.x), a.y, a.z⟩ : Index3d) ∈ RaycastVoxels a b S := by
  have hcond : |b.x - a.x| ≥ |b.y - a.y| ∧ |b.x - a.x| ≥ |b.z - a.z| := by
    rw [← hy, ← hz]; simp
  simp only [RaycastVoxels, if_pos hcond]
  rw [← hy, ← hz]
  simp only [sub_self, inc_zero, shl_zero]
  exact Finset.mem_insert_of_mem
    ((raycast_loopX_axis a (inc (b.x - a.x)) (shl (b.x - a.x) 1) |b.x - a.x| (abs_nonneg _) S
      (|b.x - a.x|.toNat + 1)).2.2.2 j hj)

theorem RaycastVoxels_axis_y (a b : Index3d) (S : Finset Index3d) (hx : a.x = b.x)
    (hz : a.z = b.z) (hne : b.y - a.y ≠ 0) (j : Nat) (hj : j < |b.y - a.y|.toNat + 1) :
    (⟨a.x, a.y + j * inc (b.y - a.y), a.z⟩ : Index3d) ∈ RaycastVoxels a b S := by
  have hpos : 0 < |b.y - a.y| := abs_pos.mpr hne
  have hcond1 : ¬ (|b.x - a.x| ≥ |b.y - a.y| ∧ |b.x - a.x| ≥ |b.z - a.z|) := by
    rw [← hx]; simp only [sub_self, abs_zero]; omega
  have hcond2 : |b.y - a.y| ≥ |b.x - a.x| ∧ |b.y - a.y| ≥ |b.z - a.z| := by
    rw [← hx, ← hz]; simp
  simp only [RaycastVoxels, if_neg hcond1, if_pos hcond2]
  rw [← hx, ← hz]
  simp only [sub_self, inc_zero, shl_zero]
  exact Finset.mem_insert_of_mem
    ((raycast_loopY_axis a (inc (b.y - a.y)) (shl (b.y - a.y) 1) |b.y - a.y| (abs_nonneg _) S
      (|b.y - a.y|.toNat + 1)).2.2.2 j hj)

theorem RaycastVoxels_axis_z (a b : Index3d) (S : Finset Index3d) (hx : a.x = b.x)
    (hy : a.y = b.y) (hne : b.z - a.z ≠ 0) (j : Nat) (hj : j < |b.z - a.z|.toNat + 1) :
    (⟨a.x, a.y, a.z + j * inc (b.z - a.z)⟩ : Index3d) ∈ RaycastVoxels a b S := by
  have hpos : 0 < |b.z - a.z| := abs_pos.mpr hne
  have hcond1 : ¬ (|b.x - a.x| ≥ |b.y - a.y| ∧ |b.x - a.x| ≥ |b.z - a.z|) := by
    rw [← hx]; simp only [sub_self, abs_zero]; omega
  have hcond2 : ¬ (|b.y - a.y| ≥ |b.x - a.x| ∧ |b.y - a.y| ≥ |b.z - a.z|) := by
    rw [← hy]; simp only [sub_self, abs_zero]; omega
  simp only [RaycastVoxels, if_neg hcond1, if_neg hcond2]
  rw [← hx, ← hy]
  simp only [sub_self, inc_zero, shl_zero]
  exact Finset.mem_insert_of_mem
    ((raycast_loopZ_axis a (inc (b.z - a.z)) (shl (b.z - a.z) 2) |b.z - a.z| (abs_nonneg _) S
      (|b.z - a.z|.toNat + 1)).2.2.2 j hj)

/-- Evaluation for C4: for `a = (0,0,0)` and `b = (1,-1,0)` the call emits
`(0,0,0), (1,0,0), (2,0,0)`, and for `a = (0,0,0)` and `b = (2,0,1)` it emits
`(0,0,0), (1,0,1), (2,0,2), (3,0,3)`; in both cases the endpoint `b` is not in the output. -/
theorem RaycastVoxels_misses_endpoint :
    (RaycastVoxels ⟨0, 0, 0⟩ ⟨1, -1, 0⟩ ∅ = {⟨0, 0, 0⟩, ⟨1, 0, 0⟩, ⟨2, 0, 0⟩} ∧
      (⟨1, -1, 0⟩ : Index3d) ∉ RaycastVoxels ⟨0, 0, 0⟩ ⟨1, -1, 0⟩ ∅) ∧
    (RaycastVoxels ⟨0, 0, 0⟩ ⟨2, 0, 1⟩ ∅
        = {⟨0, 0, 0⟩, ⟨1, 0, 1⟩, ⟨2, 0, 2⟩, ⟨3, 0, 3⟩} ∧
      (⟨2, 0, 1⟩ : Index3d) ∉ RaycastVoxels ⟨0, 0, 0⟩ ⟨2, 0, 1⟩ ∅) := by
  decide

/-- The first endpoint is always emitted. -/
theorem RaycastVoxels_first_endpoint (a b : Index3d) (S : Finset Index3d) :
    a ∈ RaycastVoxels a b S := by
  have hX : ∀ (i1 i2 i3 d1 d2 d3 e1 e2 : Int) (n : Nat),
      a ∈ (forLoop (n + 1) (fun _ => raycastStepX i1 i2 i3 d1 d2 d3) ⟨a, e1, e2, S⟩).foundIds := by
    intro i1 i2 i3 d1 d2 d3 e1 e2 n
    induction n with
    | zero => exact Finset.mem_insert_self a S
    | succ k ih => rw [forLoop_succ]; exact Finset.mem_insert_of_mem ih
  have hY : ∀ (i1 i2 i3 d1 d2 d3 e1 e2 : Int) (n : Nat),
      a ∈ (forLoop (n + 1) (fun _ => raycastStepY i1 i2 i3 d1 d2 d3) ⟨a, e1, e2, S⟩).foundIds := by
    intro i1 i2 i3 d1 d2 d3 e1 e2 n
    induction n with
    | zero => exact Finset.mem_insert_self a S
    | succ k ih => rw [forLoop_succ]; exact Finset.mem_insert_of_mem ih
  have hZ : ∀ (i1 i2 i3 d1 d2 d3 e1 e2 : Int) (n : Nat),
      a ∈ (forLoop (n + 1) (fun _ => raycastStepZ i1 i2 i3 d1 d2 d3) ⟨a, e1, e2, S⟩).foundIds := by
    intro i1 i2 i3 d1 d2 d3 e1 e2 n
    induction n with
    | zero => exact Finset.mem_insert_self a S
    | succ k ih => rw [forLoop_succ]; exact Finset.mem_insert_of_mem ih
  simp only [RaycastVoxels]
  split
  · exact Finset.mem_insert_of_mem (hX _ _ _ _ _ _ _ _ _)
  · split
    · exact Finset.mem_insert_of_mem (hY _ _ _ _ _ _ _ _ _)
    · exact Finset.mem_insert_of_mem (hZ _ _ _ _ _ _ _ _ _)

/-- Counterexample for C5: the segment joining the centres of the cells of `(0,0,0)` and
`(2,1,0)` passes through the point `(1.75, 1.125, 0.5)` inside the cell of `(1,1,0)`, and
`RaycastVoxels` does not emit `(1,1,0)`. -/
theorem RaycastVoxels_skips_crossed_cell :
    segmentCrossesCell ⟨0, 0, 0⟩ ⟨2, 1, 0⟩ ⟨1, 1, 0⟩ ∧
      (⟨1, 1, 0⟩ : Index3d) ∉ RaycastVoxels ⟨0, 0, 0⟩ ⟨2, 1, 0⟩ ∅ := by
  refine ⟨⟨5 / 8, by norm_num, by norm_num, ?_, ?_, ?_⟩, by decide⟩ <;>
    simp only [segmentPoint] <;> norm_num

/-- C5, amended: when the block ids `a` and `b` differ along at most one axis,
`RaycastVoxels a b` emits every block id whose unit cell is crossed by the segment joining
the centres of the cells of `a` and `b`. -/
theorem RaycastVoxels_axis_aligned_cover (a b c : BlockId) (S : Finset Index3d)
    (haxis : (a.y = b.y ∧ a.z = b.z) ∨ (a.x = b.x ∧ a.z = b.z) ∨ (a.x = b.x ∧ a.y = b.y))
    (hc : segmentCrossesCell a b c) : c ∈ RaycastVoxels a b S := by
  obtain ⟨t, ht0, ht1, ⟨hx1, hx2⟩, ⟨hy1, hy2⟩, ⟨hz1, hz2⟩⟩ := hc
  rcases haxis with ⟨hy, hz⟩ | ⟨hx, hz⟩ | ⟨hx, hy⟩
  · rw [← hy] at hy1 hy2
    rw [← hz] at hz1 hz2
    have ey := crossed_coord_of_eq a.y c.y t hy1 hy2
    have ez := crossed_coord_of_eq a.z c.z t hz1 hz2
    obtain ⟨j, hj, ex⟩ := crossed_coord_steps a.x b.x c.x t ht0 ht1 hx1 hx2
    have hmem := RaycastVoxels_axis_x a b S hy hz j hj
    have ec : c = ⟨a.x + j * inc (b.x - a.x), a.y, a.z⟩ := by
      cases c; simp only [Index3d.mk.injEq] at *; exact ⟨ex, ey, ez⟩
    rw [ec]; exact hmem
  · rw [← hx] at hx1 hx2
    rw [← hz] at hz1 hz2
    have ex := crossed_coord_of_eq a.x c.x t hx1 hx2
    have ez := crossed_coord_of_eq a.z c.z t hz1 hz2
    by_cases hne : b.y - a.y = 0
    · have hy : a.y = b.y := by omega
      rw [← hy] at hy1 hy2
      have ey := crossed_coord_of_eq a.y c.y t hy1 hy2
      have ec : c = a := by
        cases c; cases a; simp only [Index3d.mk.injEq] at *; exact ⟨ex, ey, ez⟩
      rw [ec]; exact RaycastVoxels_first_endpoint a b S
    · obtain ⟨j, hj, ey⟩ := crossed_coord_steps a.y b.y c.y t ht0 ht1 hy1 hy2
      have hmem := RaycastVoxels_axis_y a b S hx hz hne j hj
      have ec : c = ⟨a.x, a.y + j * inc (b.y - a.y), a.z⟩ := by
        cases c; simp only [Index3d.mk.injEq] at *; exact ⟨ex, ey, ez⟩
      rw [ec]; exact hmem
  · rw [← hx] at hx1 hx2
    rw [← hy] at hy1 hy2
    have ex := crossed_coord_of_eq a.x c.x t hx1 hx2
    have ey := crossed_coord_of_eq a.y c.y t hy1 hy2
    by_cases hne : b.z - a.z = 0
    · have hz : a.z = b.z := by omega
      rw [← hz] at hz1 hz2
      have ez := crossed_coord_of_eq a.z c.z t hz1 hz2
      have ec : c = a := by
        cases c; cases a; simp only [Index3d.mk.injEq] at *; exact ⟨ex, ey, ez⟩
      rw [ec]; exact RaycastVoxels_first_endpoint a b S
    · obtain ⟨j, hj, ez⟩ := crossed_coord_steps a.z b.z c.z t ht0 ht1 hz1 hz2
      have hmem := RaycastVoxels_axis_z a b S hx hy hne j hj
      have ec : c = ⟨a.x, a.y, a.z + j * inc (b.z - a.z)⟩ := by
        cases c; simp only [Index3d.mk.injEq] at *; exact ⟨ex, ey, ez⟩
      rw [ec]; exact hmem

/-- Witness for C5, amended: the cell of `(2,0,0)` on the way from `(0,0,0)` to `(3,0,0)`. -/
theorem RaycastVoxels_axis_aligned_cover_witness :
    segmentCrossesCell ⟨0, 0, 0⟩ ⟨3, 0, 0⟩ ⟨2, 0, 0⟩ ∧
      (⟨2, 0, 0⟩ : Index3d) ∈ RaycastVoxels ⟨0, 0, 0⟩ ⟨3, 0, 0⟩ ∅ :=
  have hc : segmentCrossesCell ⟨0, 0, 0⟩ ⟨3, 0, 0⟩ ⟨2, 0, 0⟩ := by
    refine ⟨2 / 3, by norm_num, by norm_num, ?_, ?_, ?_⟩ <;>
      simp only [segmentPoint] <;> norm_num
  ⟨hc, RaycastVoxels_axis_aligned_cover ⟨0, 0, 0⟩ ⟨3, 0, 0⟩ ⟨2, 0, 0⟩ ∅
    (Or.inl ⟨rfl, rfl⟩) hc⟩

/-! ## The gradient pass -/

theorem applyWrites_append {α : Type} (a : Nat → α) (ws ws' : List (Nat × α)) :
    applyWrites a (ws ++ ws') = applyWrites (applyWrites a ws) ws' := by
  simp [applyWrites, List.foldl_append]

theorem store_eq_applyWrites {α : Type} (a : Nat → α) (p : Nat) (v : α) :
    store a p v = applyWrites a [(p, v)] := rfl

theorem forLoop_applyWrites {α : Type} (n : Nat) (W : Nat → List (Nat × α)) (a : Nat → α) :
    forLoop n (fun i b => applyWrites b (W i)) a = applyWrites a ((List.range n).flatMap W) := by
  induction n with
  | zero => rfl
  | succ k ih =>
    rw [forLoop_succ, ih, List.range_succ, List.flatMap_append, applyWrites_append]
    simp

theorem forLoop_applyWrites_fun {α : Type} (n : Nat) (W : Nat → List (Nat × α)) :
    forLoop n (fun i b => applyWrites b (W i))
      = fun a => applyWrites a ((List.range n).flatMap W) :=
  funext (forLoop_applyWrites n W)

theorem forLoopFrom_applyWrites {α : Type} (lo hi : Nat) (W : Nat → List (Nat × α))
    (a : Nat → α) :
    forLoopFrom lo hi (fun i b => applyWrites b (W i)) a
      = applyWrites a ((List.range (hi - lo)).flatMap (fun i => W (lo + i))) := by
  unfold forLoopFrom
  exact forLoop_applyWrites (hi - lo) (fun i => W (lo + i)) a

theorem applyWrites_miss {α : Type} (ws : List (Nat × α)) :
    ∀ (a : Nat → α) (p : Nat), (∀ w ∈ ws, w.1 ≠ p) → applyWrites a ws p = a p := by
  induction ws with
  | nil => intro a p _; rfl
  | cons w rest ih =>
    intro a p h
    have e : applyWrites a (w :: rest) = applyWrites (store a w.1 w.2) rest := rfl
    rw [e, ih _ p (fun w' hw' => h w' (List.mem_cons_of_mem _ hw'))]
    have hne : p ≠ w.1 := fun hp => h w (List.mem_cons_self _ _) hp.symm
    simp [store, hne]

theorem applyWrites_same {α : Type} (ws : List (Nat × α)) :
    ∀ (a : Nat → α) (p : Nat) (v : α), (∀ w ∈ ws, w.1 = p → w.2 = v) → a p = v →
      applyWrites a ws p = v := by
  induction ws with
  | nil => intro a p v _ h; exact h
  | cons w rest ih =>
    intro a p v h ha
    have e : applyWrites a (w :: rest) = applyWrites (store a w.1 w.2) rest := rfl
    rw [e]
    refine ih _ p v (fun w' hw' => h w' (List.mem_cons_of_mem _ hw')) ?_
    by_cases hp : p = w.1
    · simp only [store, if_pos hp]
      exact h w (List.mem_cons_self _ _) hp.symm
    · simp only [store, if_neg hp]
      exact ha

theorem applyWrites_hit {α : Type} (ws : List (Nat × α)) :
    ∀ (a : Nat → α) (p : Nat) (v : α), (p, v) ∈ ws → (∀ w ∈ ws, w.1 = p → w.2 = v) →
      applyWrites a ws p = v := by
  induction ws with
  | nil => intro a p v hm _; exact absurd hm (List.not_mem_nil _)
  | cons w rest ih =>
    intro a p v hm h
    have e : applyWrites a (w :: rest) = applyWrites (store a w.1 w.2) rest := rfl
    rw [e]
    rcases List.mem_cons.mp hm with hw | hr
    · refine applyWrites_same rest _ p v (fun w' hw' => h w' (List.mem_cons_of_mem _ hw')) ?_
      rw [← hw]
      simp [store]
    · exact ih _ p v hr (fun w' hw' => h w' (List.mem_cons_of_mem _ hw'))

theorem packedIndex_eq (i j k : Nat) : packedIndex i j k = i + 18 * j + 324 * k := by
  simp only [packedIndex, Dot, PBLOCK_SIZE, blockSize]
  omega

theorem blockIndex_eq (i j k : Nat) : blockIndex i j k = i + 16 * j + 256 * k := by
  simp only [blockIndex, Dot, BLOCK_DIM, blockSize]
  omega

/-- Three nested store loops leave at the subscript of `(i, j, k)` the value written for
`(i, j, k)`, when the subscript map is injective on the loop ranges. -/
theorem tripleLoop_store {α : Type} (nk nj ni : Nat) (idx : Nat → Nat → Nat → Nat)
    (val : Nat → Nat → Nat → α) (a : Nat → α)
    (hinj : ∀ i j k i' j' k', i < ni → j < nj → k < nk → i' < ni → j' < nj → k' < nk →
      idx i j k = idx i' j' k' → i = i' ∧ j = j' ∧ k = k')
    (i j k : Nat) (hi : i < ni) (hj : j < nj) (hk : k < nk) :
    forLoop nk (fun k => forLoop nj (fun j => forLoop ni (fun i b =>
      store b (idx i j k) (val i j k)))) a (idx i j k) = val i j k := by
  simp only [store_eq_applyWrites, forLoop_applyWrites_fun]
  apply applyWrites_hit
  · simp only [List.mem_flatMap, List.mem_range, List.mem_singleton]
    exact ⟨k, hk, j, hj, i, hi, rfl⟩
  · intro w hw hp
    simp only [List.mem_flatMap, List.mem_range, List.mem_singleton] at hw
    obtain ⟨k', hk', j', hj', i', hi', rfl⟩ := hw
    obtain ⟨rfl, rfl, rfl⟩ := hinj i' j' k' i j k hi' hj' hk' hi hj hk hp
    rfl

/-- The same for loops that start at `lo`. -/
theorem tripleLoopFrom_store {α : Type} (lo hi : Nat) (idx : Nat → Nat → Nat → Nat)
    (val : Nat → Nat → Nat → α) (a : Nat → α)
    (hinj : ∀ i j k i' j' k', i < hi - lo → j < hi - lo → k < hi - lo → i' < hi - lo →
      j' < hi - lo → k' < hi - lo →
      idx (lo + i) (lo + j) (lo + k) = idx (lo + i') (lo + j') (lo + k') →
      i = i' ∧ j = j' ∧ k = k')
    (i j k : Nat) (hi' : i < hi - lo) (hj : j < hi - lo) (hk : k < hi - lo) :
    forLoopFrom lo hi (fun k => forLoopFrom lo hi (fun j => forLoopFrom lo hi (fun i b =>
      store b (idx i j k) (val i j k)))) a (idx (lo + i) (lo + j) (lo + k))
      = val (lo + i) (lo + j) (lo + k) := by
  unfold forLoopFrom
  exact tripleLoop_store (hi - lo) (hi - lo) (hi - lo)
    (fun i j k => idx (lo + i) (lo + j) (lo + k)) (fun i j k => val (lo + i) (lo + j) (lo + k))
    a hinj i j k hi' hj hk

/-- After `PackTSDF` the interior of the padded buffer is the block's own tsdf. -/
theorem PackTSDF_interior (volume_ : Volume) (blockId : BlockId) (packedTSDF : Nat → ℚ)
    (block : VoxelBlock) (hb : volume_.GetBlock blockId = some block)
    (i j k : Nat) (hi : i < 16) (hj : j < 16) (hk : k < 16) :
    PackTSDF volume_ blockId packedTSDF (packedIndex (i + 1) (j + 1) (k + 1))
      = block.tsdf_ (blockIndex i j k) := by
  unfold PackTSDF
  simp only [hb]
  exact tripleLoop_store 16 16 16 (fun i j k => packedIndex (i + 1) (j + 1) (k + 1))
    (fun i j k => block.tsdf_ (blockIndex i j k)) _
    (by
      intro i j k i' j' k' h1 h2 h3 h4 h5 h6 h
      simp only [packedIndex_eq] at h
      omega)
    i j k hi hj hk

/-- After the gradient loops the slot of the voxel `(i - 1, j - 1, k - 1)` holds the
central difference of the padded buffer around `(i, j, k)`. -/
theorem gradientLoops_at (packedTSDF : Nat → ℚ) (voxelRes_ : ℚ) (gradPtr : Nat → Vec3f)
    (i j k : Nat) (hi : i < 16) (hj : j < 16) (hk : k < 16) :
    gradientLoops packedTSDF voxelRes_ gradPtr (blockIndex i j k)
      = Vec3f.sdiv
          ⟨packedTSDF (packedIndex (i + 2) (j + 1) (k + 1))
              - packedTSDF (packedIndex i (j + 1) (k + 1)),
            packedTSDF (packedIndex (i + 1) (j + 2) (k + 1))
              - packedTSDF (packedIndex (i + 1) j (k + 1)),
            packedTSDF (packedIndex (i + 1) (j + 1) (k + 2))
              - packedTSDF (packedIndex (i + 1) (j + 1) k)⟩
          voxelRes_ := by
  have h := tripleLoopFrom_store 1 (blockSize + 1)
    (fun i j k => blockIndex (i - 1) (j - 1) (k - 1))
    (fun i j k => Vec3f.sdiv
      ⟨packedTSDF (packedIndex (i + 1) j k) - packedTSDF (packedIndex (i - 1) j k),
        packedTSDF (packedIndex i (j + 1) k) - packedTSDF (packedIndex i (j - 1) k),
        packedTSDF (packedIndex i j (k + 1)) - packedTSDF (packedIndex i j (k - 1))⟩
      voxelRes_)
    gradPtr
    (by
      intro i j k i' j' k' h1 h2 h3 h4 h5 h6 h
      simp only [blockIndex_eq, blockSize] at h h1 h2 h3 h4 h5 h6
      omega)
    i j k (by simpa [blockSize] using hi) (by simpa [blockSize] using hj)
    (by simpa [blockSize] using hk)
  have e1 : 1 + i - 1 = i := by omega
  have e2 : 1 + j - 1 = j := by omega
  have e3 : 1 + k - 1 = k := by omega
  have e4 : 1 + i + 1 = i + 2 := by omega
  have e5 : 1 + j + 1 = j + 2 := by omega
  have e6 : 1 + k + 1 = k + 2 := by omega
  have e7 : 1 + i = i + 1 := by omega
  have e8 : 1 + j = j + 1 := by omega
  have e9 : 1 + k = k + 1 := by omega
  simp only [e1, e2, e3, e4, e5, e6] at h
  simp only [e7, e8, e9] at h
  exact h

theorem voxelOffset_toNat (i j k : Nat) :
    (voxelOffset ⟨(i : Int), (j : Int), (k : Int)⟩).toNat = blockIndex i j k := by
  rw [blockIndex_eq]
  simp only [voxelOffset, blockSize]
  omega

theorem voxelOffset_pred_x (i j k : Nat) (h : 1 ≤ i) :
    (voxelOffset ⟨(i : Int) - 1, (j : Int), (k : Int)⟩).toNat = blockIndex (i - 1) j k := by
  rw [blockIndex_eq]
  simp only [voxelOffset, blockSize]
  omega

theorem voxelOffset_pred_y (i j k : Nat) (h : 1 ≤ j) :
    (voxelOffset ⟨(i : Int), (j : Int) - 1, (k : Int)⟩).toNat = blockIndex i (j - 1) k := by
  rw [blockIndex_eq]
  simp only [voxelOffset, blockSize]
  omega

theorem voxelOffset_pred_z (i j k : Nat) (h : 1 ≤ k) :
    (voxelOffset ⟨(i : Int), (j : Int), (k : Int) - 1⟩).toNat = blockIndex i j (k - 1) := by
  rw [blockIndex_eq]
  simp only [voxelOffset, blockSize]
  omega

theorem voxelOffset_succ_x (i j k : Nat) :
    (voxelOffset ⟨(i : Int) + 1, (j : Int), (k : Int)⟩).toNat = blockIndex (i + 1) j k := by
  rw [blockIndex_eq]
  simp only [voxelOffset, blockSize]
  omega

theorem voxelOffset_succ_y (i j k : Nat) :
    (voxelOffset ⟨(i : Int), (j : Int) + 1, (k : Int)⟩).toNat = blockIndex i (j + 1) k := by
  rw [blockIndex_eq]
  simp only [voxelOffset, blockSize]
  omega

theorem voxelOffset_succ_z (i j k : Nat) :
    (voxelOffset ⟨(i : Int), (j : Int), (k : Int) + 1⟩).toNat = blockIndex i j (k + 1) := by
  rw [blockIndex_eq]
  simp only [voxelOffset, blockSize]
  omega

/-- One iteration of the gradient pass leaves the processed block with interior gradients
that agree with its own tsdf, whatever the neighbours and the scratch buffer are. -/
theorem gradient_step_interior (volume_ : Volume) (blockId : BlockId) (packedTSDF : Nat → ℚ)
    (voxelRes_ : ℚ) (block : VoxelBlock) (hb : volume_.GetBlock blockId = some block) :
    interiorGradientsAgree
      { block with
        gradients_ := gradientLoops (PackTSDF volume_ blockId packedTSDF) voxelRes_
          block.gradients_ }
      voxelRes_ := by
  intro i j k hi1 hi2 hj1 hj2 hk1 hk2
  simp only [VoxelBlock.GradientAt, centralDifference, VoxelBlock.TSDFAt, voxelOffset_toNat,
    voxelOffset_pred_x i j k hi1, voxelOffset_pred_y i j k hj1, voxelOffset_pred_z i j k hk1,
    voxelOffset_succ_x, voxelOffset_succ_y, voxelOffset_succ_z]
  rw [gradientLoops_at _ _ _ i j k (by omega) (by omega) (by omega)]
  have hx1 := PackTSDF_interior volume_ blockId packedTSDF block hb (i + 1) j k
    (by omega) (by omega) (by omega)
  have hx0 := PackTSDF_interior volume_ blockId packedTSDF block hb (i - 1) j k
    (by omega) (by omega) (by omega)
  have hy1 := PackTSDF_interior volume_ blockId packedTSDF block hb i (j + 1) k
    (by omega) (by omega) (by omega)
  have hy0 := PackTSDF_interior volume_ blockId packedTSDF block hb i (j - 1) k
    (by omega) (by omega) (by omega)
  have hz1 := PackTSDF_interior volume_ blockId packedTSDF block hb i j (k + 1)
    (by omega) (by omega) (by omega)
  have hz0 := PackTSDF_interior volume_ blockId packedTSDF block hb i j (k - 1)
    (by omega) (by omega) (by omega)
  have ei : i - 1 + 1 = i := by omega
  have ej : j - 1 + 1 = j := by omega
  have ek : k - 1 + 1 = k := by omega
  rw [ei] at hx0
  rw [ej] at hy0
  rw [ek] at hz0
  rw [hx1, hx0, hy1, hy0, hz1, hz0]

theorem Volume.GetBlock_writeBlock (v : Volume) (id' : BlockId) (b' blk2 : VoxelBlock)
    (h2 : v.GetBlock id' = some blk2) (id : BlockId) :
    (v.writeBlock id' b').GetBlock id
      = if v.blockIds_.find id = v.blockIds_.find id' then some b' else v.GetBlock id := by
  unfold Volume.GetBlock at h2
  cases hf' : v.blockIds_.find id' with
  | none => rw [hf'] at h2; exact absurd h2 (by simp)
  | some i' =>
    rw [hf'] at h2
    simp only [List.getD_eq_getElem?_getD] at h2
    have hi' : i' < v.voxelBlocks_.length := by
      by_contra hc
      rw [List.getElem?_eq_none (by omega)] at h2
      simp at h2
    simp only [Volume.writeBlock, hf', Volume.GetBlock]
    cases hf : v.blockIds_.find id with
    | none => simp
    | some i =>
      simp only [List.getD_eq_getElem?_getD, Option.some.injEq]
      by_cases hii : i = i'
      · subst hii
        simp [hi']
      · rw [if_neg hii, List.getElem?_set_ne (fun h => hii h.symm)]

theorem UpdateGradients_keeps (voxelRes_ : ℚ) (t : Nat → ℚ) (b : BlockId) :
    ∀ (l : List BlockId) (st : Volume × (Nat → ℚ)),
      (∃ blk, st.1.GetBlock b = some blk ∧ blk.tsdf_ = t ∧
        (interiorGradientsAgree blk voxelRes_ ∨ b ∈ l)) →
      ∃ blk', (l.foldl (updateGradientsStep voxelRes_) st).1.GetBlock b = some blk' ∧
        blk'.tsdf_ = t ∧ interiorGradientsAgree blk' voxelRes_ := by
  intro l
  induction l with
  | nil =>
    rintro st ⟨blk, h1, h2, h3⟩
    exact ⟨blk, h1, h2, h3.resolve_right (List.not_mem_nil b)⟩
  | cons b' rest ih =>
    rintro st ⟨blk, h1, h2, h3⟩
    rw [List.foldl_cons]
    apply ih
    unfold updateGradientsStep
    cases hb' : st.1.GetBlock b' with
    | none =>
      refine ⟨blk, h1, h2, ?_⟩
      rcases h3 with h3 | h3
      · exact Or.inl h3
      · rcases List.mem_cons.mp h3 with rfl | hr
        · rw [hb'] at h1; exact absurd h1 (by simp)
        · exact Or.inr hr
    | some block2 =>
      simp only
      rw [Volume.GetBlock_writeBlock st.1 b' _ block2 hb' b]
      by_cases hf : st.1.blockIds_.find b = st.1.blockIds_.find b'
      · rw [if_pos hf]
        have hsame : st.1.GetBlock b = st.1.GetBlock b' := by
          unfold Volume.GetBlock; rw [hf]
        rw [h1, hb'] at hsame
        have hblk : blk = block2 := Option.some.inj hsame
        subst hblk
        exact ⟨_, rfl, h2, Or.inl (gradient_step_interior st.1 b' st.2 voxelRes_ blk hb')⟩
      · rw [if_neg hf]
        refine ⟨blk, h1, h2, ?_⟩
        rcases h3 with h3 | h3
        · exact Or.inl h3
        · rcases List.mem_cons.mp h3 with rfl | hr
          · exact absurd rfl hf
          · exact Or.inr hr

/-- C6: after the gradient pass has processed a block, for every voxel `(i, j, k)` with
`1 <= i, j, k <= 14` the stored gradient is
`(tsdf[i+1,j,k] - tsdf[i-1,j,k], tsdf[i,j+1,k] - tsdf[i,j-1,k], tsdf[i,j,k+1] - tsdf[i,j,k-1])
/ voxelRes`, computed from the block's own tsdf array (which the pass leaves unchanged),
for every volume, that is whichever neighbour blocks exist. -/
theorem UpdateGradients_interior (voxelRes_ : ℚ) (volume_ : Volume) (newBlocks_ : List BlockId)
    (packedTSDF : Nat → ℚ) (blockId : BlockId) (block : VoxelBlock)
    (hmem : blockId ∈ newBlocks_) (hb : volume_.GetBlock blockId = some block)
    (i j k : Nat) (hi : 1 ≤ i ∧ i ≤ 14) (hj : 1 ≤ j ∧ j ≤ 14) (hk : 1 ≤ k ∧ k ≤ 14) :
    ∃ block', (UpdateGradients voxelRes_ volume_ newBlocks_ packedTSDF).1.GetBlock blockId
        = some block' ∧
      block'.tsdf_ = block.tsdf_ ∧
      block'.GradientAt ⟨(i : Int), (j : Int), (k : Int)⟩
        = Vec3f.sdiv
            ⟨block.TSDFAt ⟨(i : Int) + 1, j, k⟩ - block.TSDFAt ⟨(i : Int) - 1, j, k⟩,
             block.TSDFAt ⟨i, (j : Int) + 1, k⟩ - block.TSDFAt ⟨i, (j : Int) - 1, k⟩,
             block.TSDFAt ⟨i, j, (k : Int) + 1⟩ - block.TSDFAt ⟨i, j, (k : Int) - 1⟩⟩
            voxelRes_ := by
  obtain ⟨block', h1, h2, h3⟩ := UpdateGradients_keeps voxelRes_ block.tsdf_ blockId newBlocks_
    (volume_, packedTSDF) ⟨block, hb, rfl, Or.inr hmem⟩
  refine ⟨block', h1, h2, ?_⟩
  rw [h3 i j k hi.1 hi.2 hj.1 hj.2 hk.1 hk.2]
  simp only [centralDifference, VoxelBlock.TSDFAt, h2]

/-- Witness for C6: a volume of one block whose tsdf at offset `n` is `n`; the gradient of
the voxel `(1, 1, 1)` becomes `(2, 32, 512) / voxelRes`. -/
theorem UpdateGradients_interior_witness :
    ((⟨0, 0, 0⟩ : BlockId) ∈ [(⟨0, 0, 0⟩ : BlockId)]) ∧
      rampVolume.GetBlock ⟨0, 0, 0⟩ = some rampBlock ∧
      ∃ block', (UpdateGradients (1 / 100) rampVolume [⟨0, 0, 0⟩] (fun _ => 0)).1.GetBlock
          ⟨0, 0, 0⟩ = some block' ∧
        block'.GradientAt ⟨1, 1, 1⟩ = ⟨200, 3200, 51200⟩ := by
  refine ⟨List.mem_singleton_self _, rfl, ?_⟩
  obtain ⟨block', h1, _, h3⟩ := UpdateGradients_interior (1 / 100) rampVolume [⟨0, 0, 0⟩]
    (fun _ => 0) ⟨0, 0, 0⟩ rampBlock (List.mem_singleton_self _) rfl 1 1 1
    ⟨by decide, by decide⟩ ⟨by decide, by decide⟩ ⟨by decide, by decide⟩
  refine ⟨block', h1, ?_⟩
  have h3' : block'.GradientAt ⟨1, 1, 1⟩ = _ := h3
  rw [h3']
  have e1 : Int.toNat 274 = 274 := rfl
  have e2 : Int.toNat 272 = 272 := rfl
  have e3 : Int.toNat 289 = 289 := rfl
  have e4 : Int.toNat 257 = 257 := rfl
  have e5 : Int.toNat 529 = 529 := rfl
  have e6 : Int.toNat 17 = 17 := rfl
  norm_num [VoxelBlock.TSDFAt, rampBlock, voxelOffset, blockSize, Vec3f.sdiv, e1, e2, e3, e4,
    e5, e6]

/-! ## Insertion and lookup in the sparse volume -/

theorem Volume.distinctAbsent_cons_known (v : Volume) (a : BlockId) (l : List BlockId)
    (h : (v.blockIds_.find a).isSome = true) :
    v.distinctAbsent (a :: l) = v.distinctAbsent l := by
  unfold Volume.distinctAbsent
  have hne : ¬ v.blockIds_.find a = none := by
    intro h0; rw [h0] at h; exact absurd h (by simp)
  rw [List.toFinset_cons, Finset.filter_insert, if_neg hne]

theorem Volume.distinctAbsent_cons_unknown (v : Volume) (a : BlockId) (l : List BlockId)
    (h : (v.blockIds_.find a).isSome = false) :
    v.distinctAbsent (a :: l) = (v.AddBlock a).2.distinctAbsent l + 1 := by
  have h0 : v.blockIds_.find a = none := by simpa using h
  unfold Volume.distinctAbsent
  rw [Volume.AddBlock_of_unknown v a h, List.toFinset_cons, Finset.filter_insert, if_pos h0]
  have e : l.toFinset.filter
      (fun id => BlockIdMap.find (v.blockIds_ ++ [(a, v.nextBlockIndex_)]) id = none)
      = (l.toFinset.filter (fun id => v.blockIds_.find id = none)).erase a := by
    ext b
    rw [Finset.mem_filter, Finset.mem_erase, Finset.mem_filter,
      BlockIdMap.find_append_singleton]
    by_cases hb : b = a
    · subst hb; simp [h0]
    · simp [hb]
  show (insert a (l.toFinset.filter (fun id => v.blockIds_.find id = none))).card
    = (l.toFinset.filter
      (fun id => BlockIdMap.find (v.blockIds_ ++ [(a, v.nextBlockIndex_)]) id = none)).card + 1
  rw [e, ← Finset.card_insert_of_not_mem
    (Finset.not_mem_erase a (l.toFinset.filter (fun id => v.blockIds_.find id = none)))]
  congr 1
  ext b
  simp only [Finset.mem_insert, Finset.mem_erase]
  by_cases hb : b = a
  · simp [hb]
  · simp [hb]

theorem Volume.AddBlocks_fst_aux (ids : List BlockId) :
    ∀ st : Nat × Volume,
      (ids.foldl (fun st blockId => Volume.AddBlocksStep blockId st) st).1
        = st.1 + st.2.distinctAbsent ids := by
  induction ids with
  | nil => intro st; simp [Volume.distinctAbsent]
  | cons a l ih =>
    intro st
    rw [List.foldl_cons, ih (Volume.AddBlocksStep a st), Volume.AddBlocksStep_snd]
    by_cases hs : (st.2.blockIds_.find a).isSome = true
    · rw [Volume.distinctAbsent_cons_known st.2 a l hs, Volume.AddBlock_of_known st.2 a hs]
      simp [Volume.AddBlocksStep, hs]
    · have hs' : (st.2.blockIds_.find a).isSome = false := by simpa using hs
      rw [Volume.distinctAbsent_cons_unknown st.2 a l hs']
      simp only [Volume.AddBlocksStep, hs', Bool.false_eq_true, if_false]
      omega

/-- C11: `AddBlock(id)` returns true exactly when `id` was not in the block-id map before
the call.  When it returns true, exactly one block in its construction state and one null
mesh slot are appended, `id` is mapped to the old `nextBlockIndex_`, every other id keeps
its entry, and `nextBlockIndex_` grows by one.  When it returns false, the volume (map,
blocks and mesh slots) is unchanged. -/
theorem AddBlock_spec (v : Volume) (id : BlockId) :
    ((v.AddBlock id).1 = true ↔ v.blockIds_.find id = none) ∧
    ((v.AddBlock id).1 = true →
      (v.AddBlock id).2.voxelBlocks_
          = v.voxelBlocks_ ++ [some (VoxelBlock.new v.voxelRes_ true)] ∧
      (v.AddBlock id).2.meshes_ = v.meshes_ ++ [none] ∧
      (v.AddBlock id).2.blockIds_.find id = some v.nextBlockIndex_ ∧
      (∀ a, a ≠ id → (v.AddBlock id).2.blockIds_.find a = v.blockIds_.find a) ∧
      (v.AddBlock id).2.NumBlocks = v.NumBlocks + 1 ∧
      (v.AddBlock id).2.nextBlockIndex_ = v.nextBlockIndex_ + 1 ∧
      (v.AddBlock id).2.voxelRes_ = v.voxelRes_) ∧
    ((v.AddBlock id).1 = false → (v.AddBlock id).2 = v) := by
  by_cases hs : (v.blockIds_.find id).isSome = true
  · have h1 : (v.AddBlock id).1 = false := by simp [Volume.AddBlock, hs]
    have hne : ¬ v.blockIds_.find id = none := by
      intro h0; rw [h0] at hs; exact absurd hs (by simp)
    refine ⟨?_, ?_, ?_⟩
    · rw [h1]; simp [hne]
    · intro h; rw [h1] at h; exact absurd h (by simp)
    · intro _; exact Volume.AddBlock_of_known v id hs
  · have hs' : (v.blockIds_.find id).isSome = false := by simpa using hs
    have h0 : v.blockIds_.find id = none := by simpa using hs'
    have h1 : (v.AddBlock id).1 = true := by simp [Volume.AddBlock, hs']
    refine ⟨?_, ?_, ?_⟩
    · rw [h1]; simp [h0]
    · intro _
      rw [Volume.AddBlock_of_unknown v id hs']
      refine ⟨rfl, rfl, ?_, ?_, ?_, rfl, rfl⟩
      · show BlockIdMap.find (v.blockIds_ ++ [(id, v.nextBlockIndex_)]) id = _
        rw [BlockIdMap.find_append_singleton, h0]; simp
      · intro a ha
        show BlockIdMap.find (v.blockIds_ ++ [(id, v.nextBlockIndex_)]) a = _
        rw [BlockIdMap.find_append_singleton, if_neg ha]; simp
      · simp [Volume.NumBlocks, BlockIdMap.size]
    · intro h; rw [h1] at h; exact absurd h (by simp)

/-- C12: for every volume state and every id list, duplicates allowed, `AddBlocks(list)`
returns the number of distinct ids of the list that were absent before the call, and
leaves the volume in the state that calling `AddBlock` on each element in order leaves. -/
theorem AddBlocks_refines_AddBlock_sequence (v : Volume) (blockList : List BlockId) :
    (v.AddBlocks blockList).1 = v.distinctAbsent blockList ∧
    (v.AddBlocks blockList).2 = Volume.addBlockSeq v blockList := by
  refine ⟨?_, Volume.AddBlocks_snd v blockList⟩
  have h := Volume.AddBlocks_fst_aux blockList (0, v)
  simpa [Volume.AddBlocks] using h

/-! ## Order of two samples in the running update -/

theorem store_store_same {α : Type} (a : Nat → α) (i : Nat) (x y : α) :
    store (store a i x) i y = store a i y := by
  funext n
  unfold store
  by_cases h : n = i <;> simp [h]

theorem store_same {α : Type} (a : Nat → α) (i : Nat) (x : α) : store a i x i = x := by
  simp [store]

theorem running_mean_two (W T w1 t1 w2 t2 : ℚ) (hW : 0 ≤ W) (h1 : 0 < w1) (h2 : 0 < w2) :
    ((W + w1) * ((W * T + w1 * t1) / (w1 + W)) + w2 * t2) / (w2 + (W + w1))
      = (W * T + w1 * t1 + w2 * t2) / (W + w1 + w2) := by
  have hA : w1 + W ≠ 0 := by positivity
  have hB : w2 + (W + w1) ≠ 0 := by positivity
  have hC : W + w1 + w2 ≠ 0 := by positivity
  field_simp
  ring

theorem integrateSample_twice (b : VoxelBlock) (offset : Nat) (w1 t1 w2 t2 : ℚ)
    (c1 c2 : Color3f) (hw : 0 ≤ b.weights_ offset) (h1 : 0 < w1) (h2 : 0 < w2) :
    integrateSample (integrateSample b offset w1 t1 c1) offset w2 t2 c2 =
      { b with
        tsdf_ := store b.tsdf_ offset
          ((b.weights_ offset * b.tsdf_ offset + w1 * t1 + w2 * t2)
            / (b.weights_ offset + w1 + w2))
        colors_ := store b.colors_ offset
          ⟨(b.weights_ offset * (b.colors_ offset).x + w1 * c1.x + w2 * c2.x)
              / (b.weights_ offset + w1 + w2),
            (b.weights_ offset * (b.colors_ offset).y + w1 * c1.y + w2 * c2.y)
              / (b.weights_ offset + w1 + w2),
            (b.weights_ offset * (b.colors_ offset).z + w1 * c1.z + w2 * c2.z)
              / (b.weights_ offset + w1 + w2)⟩
        weights_ := store b.weights_ offset (b.weights_ offset + w1 + w2) } := by
  unfold integrateSample
  simp only [store_store_same, store_same, Vec3f.sdiv, Vec3f.add, Vec3f.smul]
  simp only [running_mean_two _ _ _ _ _ _ hw h1 h2]

/-- C14: in exact arithmetic, running the update for two samples `(w1, t1, c1)` and
`(w2, t2, c2)` with `w1, w2 > 0` on a voxel whose prior weight is `>= 0` (a fresh voxel
included) gives the same tsdf, colour and weight, and the same block, in either order. -/
theorem integrateSamples_two_commute (b : VoxelBlock) (offset : Nat) (s1 s2 : Sample)
    (hw : 0 ≤ b.weights_ offset) (h1 : 0 < s1.weight) (h2 : 0 < s2.weight) :
    (integrateSamples b offset [s1, s2]).tsdf_ offset
        = (integrateSamples b offset [s2, s1]).tsdf_ offset ∧
    (integrateSamples b offset [s1, s2]).colors_ offset
        = (integrateSamples b offset [s2, s1]).colors_ offset ∧
    (integrateSamples b offset [s1, s2]).weights_ offset
        = (integrateSamples b offset [s2, s1]).weights_ offset ∧
    integrateSamples b offset [s1, s2] = integrateSamples b offset [s2, s1] := by
  have e : integrateSamples b offset [s1, s2] = integrateSamples b offset [s2, s1] := by
    have hd : b.weights_ offset + s1.weight + s2.weight
        = b.weights_ offset + s2.weight + s1.weight := by ring
    have hn : ∀ x a c : ℚ, x + s1.weight * a + s2.weight * c
        = x + s2.weight * c + s1.weight * a := by intros; ring
    show integrateSample (integrateSample b offset s1.weight s1.tsdf s1.rgb) offset
        s2.weight s2.tsdf s2.rgb
      = integrateSample (integrateSample b offset s2.weight s2.tsdf s2.rgb) offset
        s1.weight s1.tsdf s1.rgb
    rw [integrateSample_twice b offset _ _ _ _ _ _ hw h1 h2,
      integrateSample_twice b offset _ _ _ _ _ _ hw h2 h1, hd]
    simp only [hn]
  exact ⟨by rw [e], by rw [e], by rw [e], e⟩

theorem integrateSamples_two_commute_witness :
    0 ≤ (VoxelBlock.new (1 / 100) true).weights_ 0 ∧
    (0 : ℚ) < (⟨1, 1 / 2, ⟨1, 0, 0⟩⟩ : Sample).weight ∧
    (0 : ℚ) < (⟨2, -1 / 2, ⟨0, 1, 0⟩⟩ : Sample).weight ∧
    integrateSamples (VoxelBlock.new (1 / 100) true) 0
        [⟨1, 1 / 2, ⟨1, 0, 0⟩⟩, ⟨2, -1 / 2, ⟨0, 1, 0⟩⟩]
      = integrateSamples (VoxelBlock.new (1 / 100) true) 0
        [⟨2, -1 / 2, ⟨0, 1, 0⟩⟩, ⟨1, 1 / 2, ⟨1, 0, 0⟩⟩] :=
  ⟨by simp [VoxelBlock.new], by norm_num, by norm_num,
    (integrateSamples_two_commute (VoxelBlock.new (1 / 100) true) 0
      ⟨1, 1 / 2, ⟨1, 0, 0⟩⟩ ⟨2, -1 / 2, ⟨0, 1, 0⟩⟩
      (by simp [VoxelBlock.new]) (by norm_num) (by norm_num)).2.2.2⟩

/-! ## The PLY export -/

theorem forLoop_congr {σ : Type} (n : Nat) (f g : Nat → σ → σ) (s : σ)
    (h : ∀ i st, i < n → f i st = g i st) : forLoop n f s = forLoop n g s := by
  induction n with
  | zero => rfl
  | succ k ih =>
    rw [forLoop_succ, forLoop_succ, ih (fun i st hi => h i st (Nat.lt_succ_of_lt hi)),
      h k _ (Nat.lt_succ_self k)]

/-- A loop over the slots of a list is the fold of the list. -/
theorem forLoop_getD_eq_foldl {α σ : Type} (d : α) (f : α → σ → σ) (l : List α) (s : σ) :
    forLoop l.length (fun i st => f (l.getD i d) st) s = l.foldl (fun st a => f a st) s := by
  induction l using List.reverseRecOn with
  | nil => rfl
  | append_singleton l a ih =>
    rw [List.length_append, List.length_singleton, forLoop_succ, List.foldl_append]
    have e : forLoop l.length (fun i st => f ((l ++ [a]).getD i d) st) s
        = forLoop l.length (fun i st => f (l.getD i d) st) s := by
      apply forLoop_congr
      intro i st hi
      simp [List.getD_eq_getElem?_getD, List.getElem?_append_left hi]
    rw [e, ih]
    simp [List.getD_eq_getElem?_getD]

theorem forLoop_append_length {α : Type} (n : Nat) (g : Nat → α) (out : List α) :
    forLoop n (fun i o => o ++ [g i]) out = out ++ (List.range n).map g := by
  induction n with
  | zero => simp [forLoop]
  | succ k ih => rw [forLoop_succ, ih, List.range_succ]; simp

theorem exportNumTriangles_eq (v : Volume) (h : v.blockIds_.size = v.meshes_.length) :
    exportNumTriangles v = cachedTriangles v := by
  unfold exportNumTriangles cachedTriangles
  rw [h]
  rw [forLoop_getD_eq_foldl none (fun (m : Option Mesh) (numTriangles : Nat) =>
    match m with
    | none => numTriangles
    | some mesh => numTriangles + mesh.NumTriangles) v.meshes_ 0]
  generalize v.meshes_ = ms
  induction ms using List.reverseRecOn with
  | nil => rfl
  | append_singleton l a ih =>
    rw [List.foldl_append, ih]
    cases a <;> simp [List.filterMap_append]

theorem exportVertexLines_length (v : Volume) (h : v.blockIds_.size = v.meshes_.length) :
    (exportVertexLines v).length = 3 * cachedTriangles v := by
  unfold exportVertexLines cachedTriangles
  rw [h]
  rw [forLoop_getD_eq_foldl none (fun (m : Option Mesh) (out : List PlyVertexLine) =>
    match m with
    | none => out
    | some mesh =>
      forLoop (3 * mesh.NumTriangles) (fun vertexId out => out ++ [exportVertexLine mesh vertexId])
        out) v.meshes_ []]
  generalize v.meshes_ = ms
  induction ms using List.reverseRecOn with
  | nil => rfl
  | append_singleton l a ih =>
    rw [List.foldl_append]
    cases a with
    | none => simpa [List.filterMap_append] using ih
    | some mesh =>
      simp only [List.foldl_cons, List.foldl_nil]
      rw [forLoop_append_length, List.length_append, ih]
      simp [List.filterMap_append]
      ring

theorem exportFaceLines_eq (v : Volume) (h : v.blockIds_.size = v.meshes_.length) :
    exportFaceLines v
      = (cachedTriangles v, (List.range (cachedTriangles v)).map exportFaceLine) := by
  unfold exportFaceLines cachedTriangles
  rw [h]
  rw [forLoop_getD_eq_foldl none (fun (m : Option Mesh) (st : Nat × List PlyFaceLine) =>
    match m with
    | none => st
    | some mesh =>
      (st.1 + mesh.NumTriangles,
        forLoopFrom st.1 (st.1 + mesh.NumTriangles) (fun face out => out ++ [exportFaceLine face])
          st.2)) v.meshes_ (0, [])]
  generalize v.meshes_ = ms
  induction ms using List.reverseRecOn with
  | nil => rfl
  | append_singleton l a ih =>
    rw [List.foldl_append, ih]
    cases a with
    | none => simp [List.filterMap_append]
    | some mesh =>
      simp only [List.foldl_cons, List.foldl_nil, forLoopFrom, Nat.add_sub_cancel_left]
      rw [forLoop_append_length _ (fun i => exportFaceLine (_ + i))]
      simp only [List.filterMap_append, List.map_append, List.sum_append, List.filterMap_cons,
        List.filterMap_nil, id, List.map_cons, List.map_nil, List.sum_cons, List.sum_nil,
        Nat.add_zero]
      congr 1
      rw [List.range_add, List.map_append, List.map_map]
      rfl

theorem exportVertexLines_eq (v : Volume) (h : v.blockIds_.size = v.meshes_.length) :
    exportVertexLines v
      = (v.meshes_.filterMap id).flatMap
          (fun mesh => (List.range (3 * mesh.NumTriangles)).map (exportVertexLine mesh)) := by
  unfold exportVertexLines
  rw [h]
  rw [forLoop_getD_eq_foldl none (fun (m : Option Mesh) (out : List PlyVertexLine) =>
    match m with
    | none => out
    | some mesh =>
      forLoop (3 * mesh.NumTriangles) (fun vertexId out => out ++ [exportVertexLine mesh vertexId])
        out) v.meshes_ []]
  generalize v.meshes_ = ms
  induction ms using List.reverseRecOn with
  | nil => rfl
  | append_singleton l a ih =>
    rw [List.foldl_append, ih]
    cases a with
    | none => simp [List.filterMap_append]
    | some mesh =>
      simp only [List.foldl_cons, List.foldl_nil]
      rw [forLoop_append_length]
      simp [List.filterMap_append, List.flatMap_append]

theorem toUChar_of_unit (c : ℚ) (h0 : 0 ≤ c) (h1 : c ≤ 1) :
    ((toUChar (255 * c) : Nat) : Int) = ⌊255 * c⌋ ∧ toUChar (255 * c) ≤ 255 := by
  have hx : (0 : ℚ) ≤ 255 * c := by positivity
  have hf0 : 0 ≤ ⌊255 * c⌋ := Int.floor_nonneg.mpr hx
  have hf1 : ⌊255 * c⌋ ≤ 255 := by
    have : (255 : ℚ) * c ≤ ((255 : Int) : ℚ) := by push_cast; linarith
    exact Int.le_of_lt_add_one (Int.floor_lt.mpr (by push_cast; linarith))
  unfold toUChar
  rw [if_pos hx]
  omega

/-- C19: with the slot arrays as long as the map, `ExportMeshes` writes a header that
declares `3T` vertices and `T` faces, `T` being the sum of `NumTriangles()` over the
non-null cached meshes, then exactly `3T` vertex lines and `T` face lines; the `t`-th face
line is `3 3t 3t+1 3t+2`, so every face index is below `3T`. -/
theorem ExportMeshes_counts (v : Volume) (h : v.blockIds_.size = v.meshes_.length) :
    ∃ f, v.ExportMeshes true = some f ∧
      f.elementVertex = 3 * cachedTriangles v ∧
      f.elementFace = cachedTriangles v ∧
      f.vertexLines.length = 3 * cachedTriangles v ∧
      f.faceLines.length = cachedTriangles v ∧
      (∀ t, t < cachedTriangles v →
        f.faceLines[t]? = some ⟨3, 3 * t, 3 * t + 1, 3 * t + 2⟩) ∧
      (∀ l ∈ f.faceLines, l.count = 3 ∧ l.i0 < 3 * cachedTriangles v ∧
        l.i1 < 3 * cachedTriangles v ∧ l.i2 < 3 * cachedTriangles v) := by
  refine ⟨_, rfl, ?_, ?_, ?_, ?_, ?_, ?_⟩
  · show 3 * exportNumTriangles v = _
    rw [exportNumTriangles_eq v h]
  · exact exportNumTriangles_eq v h
  · exact exportVertexLines_length v h
  · show (exportFaceLines v).2.length = _
    rw [exportFaceLines_eq v h]; simp
  · intro t ht
    show (exportFaceLines v).2[t]? = _
    rw [exportFaceLines_eq v h]
    simp [ht, exportFaceLine]
  · intro l hl
    have hl' : l ∈ (exportFaceLines v).2 := hl
    rw [exportFaceLines_eq v h] at hl'
    simp only [List.mem_map, List.mem_range] at hl'
    obtain ⟨t, ht, rfl⟩ := hl'
    show 3 = 3 ∧ 3 * t < 3 * cachedTriangles v ∧ 3 * t + 1 < 3 * cachedTriangles v ∧
      3 * t + 2 < 3 * cachedTriangles v
    omega

theorem ExportMeshes_counts_witness :
    meshedVolume.blockIds_.size = meshedVolume.meshes_.length ∧
    ∃ f, meshedVolume.ExportMeshes true = some f ∧
      f.elementVertex = 3 * cachedTriangles meshedVolume ∧
      f.elementFace = cachedTriangles meshedVolume ∧
      f.vertexLines.length = 3 * cachedTriangles meshedVolume ∧
      f.faceLines.length = cachedTriangles meshedVolume ∧
      (∀ t, t < cachedTriangles meshedVolume →
        f.faceLines[t]? = some ⟨3, 3 * t, 3 * t + 1, 3 * t + 2⟩) ∧
      (∀ l ∈ f.faceLines, l.count = 3 ∧ l.i0 < 3 * cachedTriangles meshedVolume ∧
        l.i1 < 3 * cachedTriangles meshedVolume ∧ l.i2 < 3 * cachedTriangles meshedVolume) :=
  ⟨rfl, ExportMeshes_counts meshedVolume rfl⟩

/-- C20, amended: every vertex line of the exported file carries the alpha 255,
and its three colour bytes are the truncations `(unsigned char)(255 * c)` of the channels
of a vertex of a cached mesh; for a channel `c` in `[0, 1]` the byte is `floor(255 * c)`,
which is at most 255. -/
theorem ExportMeshes_colour_bytes (v : Volume) (h : v.blockIds_.size = v.meshes_.length) :
    ∃ f, v.ExportMeshes true = some f ∧
      ∀ line ∈ f.vertexLines, line.alpha = 255 ∧
        ∃ mesh vertexId, some mesh ∈ v.meshes_ ∧ vertexId < 3 * mesh.NumTriangles ∧
          line = exportVertexLine mesh vertexId ∧
          (0 ≤ (mesh.colors.getD vertexId Vec3f.zero).x →
            (mesh.colors.getD vertexId Vec3f.zero).x ≤ 1 →
            (line.c0 : Int) = ⌊255 * (mesh.colors.getD vertexId Vec3f.zero).x⌋ ∧
              line.c0 ≤ 255) ∧
          (0 ≤ (mesh.colors.getD vertexId Vec3f.zero).y →
            (mesh.colors.getD vertexId Vec3f.zero).y ≤ 1 →
            (line.c1 : Int) = ⌊255 * (mesh.colors.getD vertexId Vec3f.zero).y⌋ ∧
              line.c1 ≤ 255) ∧
          (0 ≤ (mesh.colors.getD vertexId Vec3f.zero).z →
            (mesh.colors.getD vertexId Vec3f.zero).z ≤ 1 →
            (line.c2 : Int) = ⌊255 * (mesh.colors.getD vertexId Vec3f.zero).z⌋ ∧
              line.c2 ≤ 255) := by
  refine ⟨_, rfl, ?_⟩
  intro line hline
  have hl : line ∈ exportVertexLines v := hline
  rw [exportVertexLines_eq v h] at hl
  simp only [List.mem_flatMap, List.mem_filterMap, id, List.mem_map, List.mem_range] at hl
  obtain ⟨mesh, ⟨m, hm, rfl⟩, vertexId, hlt, rfl⟩ := hl
  refine ⟨rfl, mesh, vertexId, hm, hlt, rfl, ?_, ?_, ?_⟩
  · intro h0 h1; exact toUChar_of_unit _ h0 h1
  · intro h0 h1; exact toUChar_of_unit _ h0 h1
  · intro h0 h1; exact toUChar_of_unit _ h0 h1

theorem ExportMeshes_colour_bytes_witness :
    meshedVolume.blockIds_.size = meshedVolume.meshes_.length ∧
    ∃ f, meshedVolume.ExportMeshes true = some f ∧
      ∀ line ∈ f.vertexLines, line.alpha = 255 :=
  ⟨rfl, by
    obtain ⟨f, hf, hall⟩ := ExportMeshes_colour_bytes meshedVolume rfl
    exact ⟨f, hf, fun line hl => (hall line hl).1⟩⟩

/-- Counterexample for C20: the colour channel `1 / 2` is exported as the byte 127, while
`round(255 / 2)` is 128: the first vertex line of the export of `meshedVolume`. -/
theorem ExportMeshes_colour_not_rounded :
    ∃ f, meshedVolume.ExportMeshes true = some f ∧
      (f.vertexLines.head?.map PlyVertexLine.c0) = some 127 ∧
      (meshedVolume.meshes_.head?.bind id).map (fun m => (m.colors.head?.map Vec3f.x))
        = some (some (1 / 2)) ∧
      round (255 * (1 / 2 : ℚ)) = 128 := by
  refine ⟨_, rfl, ?_, ?_, ?_⟩
  · show (exportVertexLines meshedVolume).head?.map PlyVertexLine.c0 = some 127
    rw [exportVertexLines_eq meshedVolume rfl]
    simp [meshedVolume, flatMesh, Mesh.NumTriangles, List.range_succ, exportVertexLine,
      toUChar]
    norm_num
    rfl
  · simp [meshedVolume, flatMesh]
  · rw [round_eq]
    norm_num

/-! ## Mesh extraction for the blocks -/

theorem BlockIdMap.subscript_of_find (m : BlockIdMap) (id : BlockId) (k : Nat)
    (h : m.find id = some k) : m.subscript id = (k, m) := by
  simp [BlockIdMap.subscript, h]

theorem meshOfTriangles_sizes (ts : List mc.Triangle) :
    (meshOfTriangles ts).NumTriangles = ts.length ∧
    (meshOfTriangles ts).NumPoints = 3 * ts.length ∧
    (meshOfTriangles ts).colors.length = 3 * ts.length ∧
    (meshOfTriangles ts).normals.length = 3 * ts.length := by
  refine ⟨rfl, ?_, ?_, ?_⟩
  · unfold Mesh.NumPoints meshOfTriangles
    induction ts with
    | nil => rfl
    | cons t l ih => simp only [List.flatMap_cons, List.length_append, List.length_cons,
        List.length_nil] at ih ⊢; omega
  · unfold meshOfTriangles
    induction ts with
    | nil => rfl
    | cons t l ih => simp only [List.flatMap_cons, List.length_append, List.length_cons,
        List.length_nil] at ih ⊢; omega
  · unfold meshOfTriangles
    induction ts with
    | nil => rfl
    | cons t l ih => simp only [List.flatMap_cons, List.length_append, List.length_cons,
        List.length_nil] at ih ⊢; omega

/-- The mesh slot content that `ComputeMesh` leaves for a block with triangles `ts`. -/
theorem Volume.ComputeMesh_of_known (env : mc.Env) (v : Volume) (blockId : BlockId) (k : Nat)
    (block : VoxelBlock) (hfind : v.blockIds_.find blockId = some k)
    (hblk : v.voxelBlocks_[k]? = some (some block)) :
    Volume.ComputeMesh env v blockId =
      if maxMeshSize_ < (blockTriangles env v blockId block).length then
        .error MeshError.capacityExceeded
      else
        .ok ((blockTriangles env v blockId block).length,
          { v with meshes_ := (v.meshes_.set k
              (if 0 < (blockTriangles env v blockId block).length then
                some (meshOfTriangles (blockTriangles env v blockId block)) else none)) }) := by
  have hg : v.voxelBlocks_.getD k none = some block := by
    rw [List.getD_eq_getElem?_getD, hblk]; rfl
  have e : (⟨v.nextBlockIndex_, v.voxelRes_, v.blockIds_, v.voxelBlocks_, v.meshes_⟩ : Volume)
      = v := rfl
  unfold Volume.ComputeMesh
  simp only [BlockIdMap.subscript_of_find _ _ _ hfind, hg, e]
  by_cases hcap : maxMeshSize_ < (blockTriangles env v blockId block).length
  · rw [if_pos hcap, if_pos (Or.inr hcap)]
  · rw [if_neg hcap, if_neg (by omega)]
    by_cases hpos : 0 < (blockTriangles env v blockId block).length
    · rw [if_pos hpos, if_pos hpos]
    · rw [if_neg hpos, if_neg hpos]

theorem Volume.RecomputeMeshes_cons (env : mc.Env) (w : Volume) (a : BlockId)
    (l : List BlockId) :
    Volume.RecomputeMeshes env w (a :: l) =
      match Volume.ComputeMesh env w a with
      | .error e => .error e
      | .ok r => Volume.RecomputeMeshes env r.2 l := by
  unfold Volume.RecomputeMeshes
  rw [List.foldlM_cons]
  cases h : Volume.ComputeMesh env w a with
  | error e => rfl
  | ok r => rfl

theorem Volume.sameBlocks_refl (v : Volume) : Volume.sameBlocks v v := ⟨rfl, rfl, rfl, rfl⟩

theorem Volume.GetBlock_congr (w v : Volume) (h : Volume.sameBlocks w v) (b : BlockId) :
    w.GetBlock b = v.GetBlock b := by
  unfold Volume.GetBlock
  rw [h.1, h.2.1]

theorem blockTriangles_congr (env : mc.Env) (w v : Volume) (h : Volume.sameBlocks w v)
    (b : BlockId) (blk : VoxelBlock) :
    blockTriangles env w b blk = blockTriangles env v b blk := by
  unfold blockTriangles neighbourArrays
  rw [h.1, h.2.1, h.2.2.1]

theorem Volume.GetBlock_of_find (v : Volume) (a : BlockId) (k : Nat) (blk : VoxelBlock)
    (hfind : v.blockIds_.find a = some k) (hblk : v.voxelBlocks_[k]? = some (some blk)) :
    v.GetBlock a = some blk := by
  unfold Volume.GetBlock
  rw [hfind]
  show v.voxelBlocks_.getD k none = some blk
  rw [List.getD_eq_getElem?_getD, hblk]; rfl

theorem Volume.GetMesh_set (w : Volume) (k : Nat) (x : Option Mesh) (b : BlockId)
    (hk : k < w.meshes_.length) :
    Volume.GetMesh { w with meshes_ := w.meshes_.set k x } b
      = if w.blockIds_.find b = some k then x else w.GetMesh b := by
  unfold Volume.GetMesh
  cases hb : w.blockIds_.find b with
  | none => simp
  | some i =>
    show (w.meshes_.set k x).getD i none = if some i = some k then x else w.meshes_.getD i none
    by_cases hik : i = k
    · subst hik
      rw [if_pos rfl, List.getD_eq_getElem?_getD, List.getElem?_set]
      simp [hk]
    · rw [if_neg (fun h => hik (Option.some.inj h)), List.getD_eq_getElem?_getD,
        List.getD_eq_getElem?_getD, List.getElem?_set_ne (fun h => hik h.symm)]

/-- One call of `ComputeMesh` on a known block of a volume that has the blocks of `v`. -/
theorem Volume.ComputeMesh_step (env : mc.Env) (v w : Volume) (hv : v.WellFormed)
    (hw : Volume.sameBlocks w v) (a : BlockId)
    (ha : (v.blockIds_.find a).isSome = true) :
    ∃ k, v.blockIds_.find a = some k ∧ k < w.meshes_.length ∧
      Volume.ComputeMesh env w a =
        if maxMeshSize_ < (trianglesOf env v a).length then .error MeshError.capacityExceeded
        else .ok ((trianglesOf env v a).length,
          { w with meshes_ := (w.meshes_.set k (meshResult env v a)) }) := by
  obtain ⟨k, hk⟩ := Option.isSome_iff_exists.mp ha
  obtain ⟨blk, hblk⟩ := hv.block a k hk
  have hlen : k < w.meshes_.length := by
    rw [hw.2.2.2, ← hv.meshes_len]
    by_contra hcon
    rw [List.getElem?_eq_none (by omega)] at hblk
    exact absurd hblk (by simp)
  have hT : trianglesOf env v a = blockTriangles env v a blk := by
    unfold trianglesOf
    rw [Volume.GetBlock_of_find v a k blk hk hblk]
  refine ⟨k, hk, hlen, ?_⟩
  rw [Volume.ComputeMesh_of_known env w a k blk (by rw [hw.1]; exact hk)
    (by rw [hw.2.1]; exact hblk), blockTriangles_congr env w v hw, ← hT]
  rfl

theorem Volume.RecomputeMeshes_aux (env : mc.Env) (v : Volume) (hv : v.WellFormed)
    (l : List BlockId) :
    ∀ w, Volume.sameBlocks w v → (∀ a ∈ l, (v.blockIds_.find a).isSome = true) →
      (∀ v', Volume.RecomputeMeshes env w l = .ok v' →
        Volume.sameBlocks v' v ∧
        (∀ a ∈ l, (trianglesOf env v a).length ≤ maxMeshSize_) ∧
        ∀ b, v'.GetMesh b = if b ∈ l then meshResult env v b else w.GetMesh b) ∧
      ((∀ a ∈ l, (trianglesOf env v a).length ≤ maxMeshSize_) →
        ∃ v', Volume.RecomputeMeshes env w l = .ok v') := by
  induction l with
  | nil =>
    intro w hw _
    refine ⟨?_, fun _ => ⟨w, rfl⟩⟩
    intro v' h
    have e : v' = w := by
      have : (Except.ok w : Except MeshError Volume) = Except.ok v' := h
      exact (Except.ok.inj this).symm
    subst e
    exact ⟨hw, by simp, by simp⟩
  | cons a l ih =>
    intro w hw hknown
    obtain ⟨k, hk, hlen, hstep⟩ :=
      Volume.ComputeMesh_step env v w hv hw a (hknown a (List.mem_cons_self a l))
    have hknown' : ∀ x ∈ l, (v.blockIds_.find x).isSome = true :=
      fun x hx => hknown x (List.mem_cons_of_mem a hx)
    rw [Volume.RecomputeMeshes_cons, hstep]
    by_cases hcap : maxMeshSize_ < (trianglesOf env v a).length
    · rw [if_pos hcap]
      refine ⟨fun v' h => absurd h (by simp), ?_⟩
      intro hall
      exact absurd (hall a (List.mem_cons_self a l)) (by omega)
    · rw [if_neg hcap]
      have hw1 : Volume.sameBlocks
          { w with meshes_ := (w.meshes_.set k (meshResult env v a)) } v :=
        ⟨hw.1, hw.2.1, hw.2.2.1, by simpa using hw.2.2.2⟩
      obtain ⟨ih1, ih2⟩ := ih _ hw1 hknown'
      refine ⟨?_, ?_⟩
      · intro v' h
        obtain ⟨hs, hb, hm⟩ := ih1 v' h
        refine ⟨hs, ?_, ?_⟩
        · intro x hx
          rcases List.mem_cons.mp hx with rfl | hx'
          · omega
          · exact hb x hx'
        · intro b
          rw [hm b, Volume.GetMesh_set w k _ b hlen]
          by_cases hbl : b ∈ l
          · rw [if_pos hbl, if_pos (List.mem_cons_of_mem a hbl)]
          · rw [if_neg hbl]
            by_cases hba : b = a
            · subst hba
              rw [hw.1, if_pos hk, if_pos (List.mem_cons_self b l)]
            · have hne : ¬ w.blockIds_.find b = some k := by
                rw [hw.1]
                intro hbk
                exact hba (hv.inj b a k hbk hk)
              rw [if_neg hne, if_neg]
              intro hmem
              rcases List.mem_cons.mp hmem with h1 | h1
              · exact hba h1
              · exact hbl h1
      · intro hall
        exact ih2 (fun x hx => hall x (List.mem_cons_of_mem a hx))

theorem maxMeshSize_eq : maxMeshSize_ = 2 * 16 ^ 3 := by
  norm_num [maxMeshSize_, blockVolume, blockSize]

theorem cachedAfter_of_GetMesh (env : mc.Env) (v w : Volume) (b : BlockId)
    (hlen : (trianglesOf env v b).length ≤ maxMeshSize_)
    (hm : w.GetMesh b = meshResult env v b) : cachedAfter env v w b := by
  refine ⟨by rw [← maxMeshSize_eq]; exact hlen, ?_, ?_⟩
  · intro h0
    rw [hm, meshResult, if_neg (by omega)]
  · intro hpos
    rw [hm, meshResult, if_pos hpos]
    exact ⟨_, rfl, rfl, meshOfTriangles_sizes _⟩

theorem Volume.find_isSome_of_mem_keys (v : Volume) (a : BlockId) (h : a ∈ v.keys) :
    (v.blockIds_.find a).isSome = true := by
  unfold Volume.keys at h
  unfold BlockIdMap.find
  generalize v.blockIds_ = m at h
  induction m with
  | nil => simp at h
  | cons e rest ih =>
    by_cases hae : a = e.1
    · subst hae; simp [List.lookup]
    · have hne : (a == e.1) = false := by simpa using hae
      have hmem : a ∈ List.map Prod.fst rest := by
        simp only [List.map_cons, List.mem_cons] at h
        exact h.resolve_left hae
      simp only [List.lookup, hne]
      exact ih hmem

theorem Volume.mem_keys_of_find (v : Volume) (a : BlockId)
    (h : (v.blockIds_.find a).isSome = true) : a ∈ v.keys := by
  unfold Volume.keys
  unfold BlockIdMap.find at h
  generalize v.blockIds_ = m at h
  induction m with
  | nil => simp [List.lookup] at h
  | cons e rest ih =>
    by_cases hae : a = e.1
    · subst hae; simp
    · have hne : (a == e.1) = false := by simpa using hae
      simp only [List.lookup, hne] at h
      simp only [List.map_cons, List.mem_cons]
      exact Or.inr (ih h)

/-- C18: on a well-formed volume, when `RecomputeMeshes` (on a list of ids of the volume)
or `RecomputeAllMeshes` returns, every block `b` it processed has `GetMesh(b)` null if
the extraction gave 0 triangles, and otherwise a mesh holding exactly the `n` extracted
triangles, with `3n` vertices, where `n <= 2 * 16^3`; what was cached before plays no
part.  The call returns exactly when no processed block exceeds the budget
`maxMeshSize_`; otherwise `tmp.Resize` throws. -/
theorem RecomputeMeshes_caches (env : mc.Env) (v : Volume) (hv : v.WellFormed) :
    (∀ blockList, (∀ a ∈ blockList, (v.blockIds_.find a).isSome = true) →
      (∀ v', v.RecomputeMeshes env blockList = .ok v' →
        ∀ b ∈ blockList, cachedAfter env v v' b) ∧
      ((∃ v', v.RecomputeMeshes env blockList = .ok v') ↔
        ∀ a ∈ blockList, (trianglesOf env v a).length ≤ maxMeshSize_)) ∧
    (∀ v', v.RecomputeAllMeshes env = .ok v' →
      ∀ b, (v.blockIds_.find b).isSome = true → cachedAfter env v v' b) ∧
    ((∃ v', v.RecomputeAllMeshes env = .ok v') ↔
      ∀ a, (v.blockIds_.find a).isSome = true →
        (trianglesOf env v a).length ≤ maxMeshSize_) := by
  have key : ∀ blockList, (∀ a ∈ blockList, (v.blockIds_.find a).isSome = true) →
      (∀ v', v.RecomputeMeshes env blockList = .ok v' →
        ∀ b ∈ blockList, cachedAfter env v v' b) ∧
      ((∃ v', v.RecomputeMeshes env blockList = .ok v') ↔
        ∀ a ∈ blockList, (trianglesOf env v a).length ≤ maxMeshSize_) := by
    intro blockList hknown
    obtain ⟨h1, h2⟩ :=
      Volume.RecomputeMeshes_aux env v hv blockList v (Volume.sameBlocks_refl v) hknown
    refine ⟨?_, ?_, h2⟩
    · intro v' h b hb
      obtain ⟨_, hbound, hm⟩ := h1 v' h
      exact cachedAfter_of_GetMesh env v v' b (hbound b hb) (by rw [hm b, if_pos hb])
    · rintro ⟨v', h⟩
      exact (h1 v' h).2.1
  have hkeys := key v.keys (fun a ha => Volume.find_isSome_of_mem_keys v a ha)
  refine ⟨key, ?_, ?_⟩
  · intro v' h b hb
    exact hkeys.1 v' h b (Volume.mem_keys_of_find v b hb)
  · constructor
    · intro h a ha
      exact hkeys.2.mp h a (Volume.mem_keys_of_find v a ha)
    · intro h
      exact hkeys.2.mpr (fun a ha => h a (Volume.find_isSome_of_mem_keys v a ha))

theorem Volume.blocks_ne_none_AddBlock (v : Volume) (id : BlockId)
    (h : ∀ x ∈ v.voxelBlocks_, x ≠ none) : ∀ x ∈ (v.AddBlock id).2.voxelBlocks_, x ≠ none := by
  by_cases hs : (v.blockIds_.find id).isSome = true
  · rw [Volume.AddBlock_of_known v id hs]; exact h
  · have hs' : (v.blockIds_.find id).isSome = false := by simpa using hs
    rw [Volume.AddBlock_of_unknown v id hs']
    intro x hx
    have hx' : x ∈ v.voxelBlocks_ ++ [some (VoxelBlock.new v.voxelRes_ true)] := hx
    rcases List.mem_append.mp hx' with h1 | h1
    · exact h x h1
    · rw [List.mem_singleton] at h1
      rw [h1]; simp

theorem Volume.blocks_ne_none_addBlockSeq (ids : List BlockId) :
    ∀ v : Volume, (∀ x ∈ v.voxelBlocks_, x ≠ none) →
      ∀ x ∈ (Volume.addBlockSeq v ids).voxelBlocks_, x ≠ none := by
  induction ids with
  | nil => intro v h; exact h
  | cons a l ih =>
    intro v h
    exact ih (v.AddBlock a).2 (Volume.blocks_ne_none_AddBlock v a h)

theorem Volume.meshes_none_AddBlock (v : Volume) (id : BlockId)
    (h : ∀ x ∈ v.meshes_, x = none) : ∀ x ∈ (v.AddBlock id).2.meshes_, x = none := by
  by_cases hs : (v.blockIds_.find id).isSome = true
  · rw [Volume.AddBlock_of_known v id hs]; exact h
  · have hs' : (v.blockIds_.find id).isSome = false := by simpa using hs
    rw [Volume.AddBlock_of_unknown v id hs']
    intro x hx
    have hx' : x ∈ v.meshes_ ++ [none] := hx
    rcases List.mem_append.mp hx' with h1 | h1
    · exact h x h1
    · rw [List.mem_singleton] at h1
      exact h1

theorem Volume.meshes_none_addBlockSeq (ids : List BlockId) :
    ∀ v : Volume, (∀ x ∈ v.meshes_, x = none) →
      ∀ x ∈ (Volume.addBlockSeq v ids).meshes_, x = none := by
  induction ids with
  | nil => intro v h; exact h
  | cons a l ih =>
    intro v h
    exact ih (v.AddBlock a).2 (Volume.meshes_none_AddBlock v a h)

theorem Volume.find_of_Inv (v : Volume) (args : List BlockId) (hv : Volume.Inv v args)
    (id : BlockId) (k : Nat) (h : v.blockIds_.find id = some k) :
    id ∈ v.keys ∧ k = v.keys.indexOf id := by
  rw [hv.find_eq id] at h
  by_cases hm : id ∈ v.keys
  · rw [if_pos hm] at h
    exact ⟨hm, (Option.some.inj h).symm⟩
  · rw [if_neg hm] at h
    exact absurd h (by simp)

theorem Volume.WellFormed_of_Inv (v : Volume) (args : List BlockId) (hv : Volume.Inv v args)
    (hblocks : ∀ x ∈ v.voxelBlocks_, x ≠ none) : v.WellFormed := by
  refine ⟨?_, ?_, ?_⟩
  · intro a b k ha hb
    obtain ⟨hma, hka⟩ := Volume.find_of_Inv v args hv a k ha
    obtain ⟨hmb, hkb⟩ := Volume.find_of_Inv v args hv b k hb
    exact (List.indexOf_inj hma hmb).mp (hka.symm.trans hkb)
  · intro a k ha
    obtain ⟨hma, hka⟩ := Volume.find_of_Inv v args hv a k ha
    have hk : k < v.voxelBlocks_.length := by
      rw [hv.blocks_len, hka]; exact List.indexOf_lt_length.mpr hma
    have hmem : v.voxelBlocks_[k] ∈ v.voxelBlocks_ := List.getElem_mem hk
    have hne := hblocks _ hmem
    obtain ⟨blk, hblk⟩ := Option.ne_none_iff_exists.mp hne
    exact ⟨blk, by rw [List.getElem?_eq_getElem hk, ← hblk]⟩
  · rw [hv.blocks_len, hv.meshes_len]

theorem Volume.WellFormed_insertAll (voxelRes : ℚ) (calls : List Volume.Insertion) :
    (Volume.insertAll (Volume.new voxelRes) calls).WellFormed := by
  refine Volume.WellFormed_of_Inv _ _ (Volume.Inv_insertAll voxelRes calls) ?_
  rw [Volume.insertAll_eq_addBlockSeq]
  exact Volume.blocks_ne_none_addBlockSeq _ _ (by simp [Volume.new])

theorem Volume.WellFormed_insertAll_blocks (voxelRes : ℚ) (calls : List Volume.Insertion) :
    ∀ x ∈ (Volume.insertAll (Volume.new voxelRes) calls).voxelBlocks_, x ≠ none := by
  rw [Volume.insertAll_eq_addBlockSeq]
  exact Volume.blocks_ne_none_addBlockSeq _ _ (by simp [Volume.new])

theorem Volume.GetBlockCall_eq (v : Volume) (id : BlockId) :
    v.GetBlockCall id = (v.GetBlock id, v) := by
  unfold Volume.GetBlockCall Volume.GetBlock
  cases h : v.blockIds_.find id with
  | none => simp
  | some k => simp [BlockIdMap.subscript, h]

theorem Volume.GetMeshCall_eq (v : Volume) (id : BlockId) :
    v.GetMeshCall id = (v.GetMesh id, v) := by
  unfold Volume.GetMeshCall Volume.GetMesh
  cases h : v.blockIds_.find id with
  | none => simp
  | some k => simp [BlockIdMap.subscript, h]

/-- C13: on a volume built by inserting the ids `args`, `GetBlock(id)` is null exactly when
`id` was never added, and `GetMesh(id)` is null exactly when `id` was never added or the
mesh slot of its block holds no cached mesh; neither call changes the volume. -/
theorem GetBlock_GetMesh_null (v : Volume) (args : List BlockId) (hv : Volume.Inv v args)
    (hblocks : ∀ x ∈ v.voxelBlocks_, x ≠ none) (id : BlockId) :
    (v.GetBlock id = none ↔ id ∉ args) ∧
    (v.GetMesh id = none ↔
      id ∉ args ∨ ∃ k, v.blockIds_.find id = some k ∧ v.meshes_[k]? = some none) ∧
    v.GetBlockCall id = (v.GetBlock id, v) ∧
    v.GetMeshCall id = (v.GetMesh id, v) := by
  have hwf := Volume.WellFormed_of_Inv v args hv hblocks
  refine ⟨?_, ?_, Volume.GetBlockCall_eq v id, Volume.GetMeshCall_eq v id⟩
  · by_cases hm : id ∈ v.keys
    · have hf : v.blockIds_.find id = some (v.keys.indexOf id) := by
        rw [hv.find_eq id, if_pos hm]
      obtain ⟨blk, hblk⟩ := hwf.block id _ hf
      rw [Volume.GetBlock_of_find v id _ blk hf hblk]
      simp [(hv.mem_iff id).mp hm]
    · have hf : v.blockIds_.find id = none := by rw [hv.find_eq id, if_neg hm]
      have hg : v.GetBlock id = none := by simp [Volume.GetBlock, hf]
      have hna : id ∉ args := fun h => hm ((hv.mem_iff id).mpr h)
      rw [hg]
      exact ⟨fun _ => hna, fun _ => rfl⟩
  · by_cases hm : id ∈ v.keys
    · have hf : v.blockIds_.find id = some (v.keys.indexOf id) := by
        rw [hv.find_eq id, if_pos hm]
      have hk : v.keys.indexOf id < v.meshes_.length := by
        rw [hv.meshes_len]; exact List.indexOf_lt_length.mpr hm
      have hg : v.GetMesh id = v.meshes_[v.keys.indexOf id] := by
        unfold Volume.GetMesh
        rw [hf]
        show v.meshes_.getD _ none = _
        rw [List.getD_eq_getElem?_getD, List.getElem?_eq_getElem hk]; rfl
      rw [hg]
      constructor
      · intro h0
        exact Or.inr ⟨_, hf, by rw [List.getElem?_eq_getElem hk, h0]⟩
      · rintro (h1 | ⟨k, hk1, hk2⟩)
        · exact absurd ((hv.mem_iff id).mp hm) h1
        · rw [hf] at hk1
          have hkk := Option.some.inj hk1
          subst hkk
          rw [List.getElem?_eq_getElem hk] at hk2
          exact Option.some.inj hk2
    · have hf : v.blockIds_.find id = none := by rw [hv.find_eq id, if_neg hm]
      have hg : v.GetMesh id = none := by simp [Volume.GetMesh, hf]
      have hna : id ∉ args := fun h => hm ((hv.mem_iff id).mpr h)
      rw [hg]
      exact ⟨fun _ => Or.inl hna, fun _ => rfl⟩

theorem GetBlock_GetMesh_null_witness :
    Volume.Inv (Volume.insertAll (Volume.new (1 / 100)) [Volume.Insertion.addBlock ⟨0, 0, 0⟩])
      [⟨0, 0, 0⟩] ∧
    (∀ x ∈ (Volume.insertAll (Volume.new (1 / 100))
      [Volume.Insertion.addBlock ⟨0, 0, 0⟩]).voxelBlocks_, x ≠ none) ∧
    ((Volume.insertAll (Volume.new (1 / 100))
        [Volume.Insertion.addBlock ⟨0, 0, 0⟩]).GetBlock ⟨1, 0, 0⟩ = none ↔
      (⟨1, 0, 0⟩ : BlockId) ∉ ([⟨0, 0, 0⟩] : List BlockId)) :=
  ⟨Volume.Inv_insertAll (1 / 100) [Volume.Insertion.addBlock ⟨0, 0, 0⟩],
    (Volume.WellFormed_insertAll_blocks (1 / 100) [Volume.Insertion.addBlock ⟨0, 0, 0⟩]),
    (GetBlock_GetMesh_null _ [⟨0, 0, 0⟩]
      (Volume.Inv_insertAll (1 / 100) [Volume.Insertion.addBlock ⟨0, 0, 0⟩])
      (Volume.WellFormed_insertAll_blocks (1 / 100) [Volume.Insertion.addBlock ⟨0, 0, 0⟩])
      ⟨1, 0, 0⟩).1⟩

theorem RecomputeMeshes_caches_witness :
    (Volume.insertAll (Volume.new (1 / 100))
      [Volume.Insertion.addBlock ⟨0, 0, 0⟩]).WellFormed ∧
    ((∃ v', (Volume.insertAll (Volume.new (1 / 100))
        [Volume.Insertion.addBlock ⟨0, 0, 0⟩]).RecomputeAllMeshes mc.exampleEnv = .ok v') ↔
      ∀ a, ((Volume.insertAll (Volume.new (1 / 100))
          [Volume.Insertion.addBlock ⟨0, 0, 0⟩]).blockIds_.find a).isSome = true →
        (trianglesOf mc.exampleEnv (Volume.insertAll (Volume.new (1 / 100))
          [Volume.Insertion.addBlock ⟨0, 0, 0⟩]) a).length ≤ maxMeshSize_) :=
  ⟨Volume.WellFormed_insertAll (1 / 100) [Volume.Insertion.addBlock ⟨0, 0, 0⟩],
    (RecomputeMeshes_caches mc.exampleEnv _
      (Volume.WellFormed_insertAll (1 / 100) [Volume.Insertion.addBlock ⟨0, 0, 0⟩])).2.2⟩

/-! ## The padded buffer, cell by cell -/

theorem PackTSDF_eq_chain (volume_ : Volume) (blockId : BlockId) (packedTSDF : Nat → ℚ)
    (block : VoxelBlock) (hb : volume_.GetBlock blockId = some block) :
    PackTSDF volume_ blockId packedTSDF =
      forLoop blockSize (fun k => forLoop blockSize (fun j => forLoop blockSize (fun i p =>
        store p (packedIndex (i + 1) (j + 1) (k + 1)) (block.tsdf_ (blockIndex i j k)))))
      (slabLoop (fun i j => packedIndex (i + 1) (j + 1) 17)
        (fun i j => slabValue (tsdfOf volume_ (Index3d.add blockId ⟨0, 0, 1⟩)) (blockIndex i j 0))
      (slabLoop (fun i j => packedIndex (i + 1) (j + 1) 0)
        (fun i j => slabValue (tsdfOf volume_ (Index3d.sub blockId ⟨0, 0, 1⟩)) (blockIndex i j 15))
      (slabLoop (fun i k => packedIndex (i + 1) 17 (k + 1))
        (fun i k => slabValue (tsdfOf volume_ (Index3d.add blockId ⟨0, 1, 0⟩)) (blockIndex i 0 k))
      (slabLoop (fun i k => packedIndex (i + 1) 0 (k + 1))
        (fun i k => slabValue (tsdfOf volume_ (Index3d.sub blockId ⟨0, 1, 0⟩)) (blockIndex i 15 k))
      (slabLoop (fun j k => packedIndex 17 (j + 1) (k + 1))
        (fun j k => slabValue (tsdfOf volume_ (Index3d.add blockId ⟨1, 0, 0⟩)) (blockIndex 0 j k))
      (slabLoop (fun j k => packedIndex 0 (j + 1) (k + 1))
        (fun j k => slabValue (tsdfOf volume_ (Index3d.sub blockId ⟨1, 0, 0⟩)) (blockIndex 15 j k))
        packedTSDF)))))) := by
  unfold PackTSDF tsdfOf
  simp only [hb]
  generalize Option.map VoxelBlock.tsdf_ (volume_.GetBlock (Index3d.sub blockId ⟨1, 0, 0⟩)) = f1
  generalize Option.map VoxelBlock.tsdf_ (volume_.GetBlock (Index3d.add blockId ⟨1, 0, 0⟩)) = f2
  generalize Option.map VoxelBlock.tsdf_ (volume_.GetBlock (Index3d.sub blockId ⟨0, 1, 0⟩)) = f3
  generalize Option.map VoxelBlock.tsdf_ (volume_.GetBlock (Index3d.add blockId ⟨0, 1, 0⟩)) = f4
  generalize Option.map VoxelBlock.tsdf_ (volume_.GetBlock (Index3d.sub blockId ⟨0, 0, 1⟩)) = f5
  generalize Option.map VoxelBlock.tsdf_ (volume_.GetBlock (Index3d.add blockId ⟨0, 0, 1⟩)) = f6
  cases f1 <;> cases f2 <;> cases f3 <;> cases f4 <;> cases f5 <;> cases f6 <;> rfl

theorem slabLoop_hit (idx : Nat → Nat → Nat) (val : Nat → Nat → ℚ) (a : Nat → ℚ)
    (hinj : ∀ j k j' k', j < 16 → k < 16 → j' < 16 → k' < 16 → idx j k = idx j' k' →
      j = j' ∧ k = k')
    (j k : Nat) (hj : j < 16) (hk : k < 16) : slabLoop idx val a (idx j k) = val j k := by
  unfold slabLoop
  simp only [store_eq_applyWrites, forLoop_applyWrites_fun]
  apply applyWrites_hit
  · simp only [List.mem_flatMap, List.mem_range, List.mem_singleton, blockSize]
    exact ⟨k, hk, j, hj, rfl⟩
  · intro w hw hp
    simp only [List.mem_flatMap, List.mem_range, List.mem_singleton, blockSize] at hw
    obtain ⟨k', hk', j', hj', rfl⟩ := hw
    obtain ⟨rfl, rfl⟩ := hinj j' k' j k hj' hk' hj hk hp
    rfl

theorem slabLoop_miss (idx : Nat → Nat → Nat) (val : Nat → Nat → ℚ) (a : Nat → ℚ) (p : Nat)
    (h : ∀ j k, j < 16 → k < 16 → idx j k ≠ p) : slabLoop idx val a p = a p := by
  unfold slabLoop
  simp only [store_eq_applyWrites, forLoop_applyWrites_fun]
  apply applyWrites_miss
  intro w hw
  simp only [List.mem_flatMap, List.mem_range, List.mem_singleton, blockSize] at hw
  obtain ⟨k', hk', j', hj', rfl⟩ := hw
  exact h j' k' hj' hk'

theorem tripleLoop_miss {α : Type} (idx : Nat → Nat → Nat → Nat) (val : Nat → Nat → Nat → α)
    (a : Nat → α) (p : Nat)
    (h : ∀ i j k, i < 16 → j < 16 → k < 16 → idx i j k ≠ p) :
    forLoop blockSize (fun k => forLoop blockSize (fun j => forLoop blockSize (fun i b =>
      store b (idx i j k) (val i j k)))) a p = a p := by
  simp only [store_eq_applyWrites, forLoop_applyWrites_fun]
  apply applyWrites_miss
  intro w hw
  simp only [List.mem_flatMap, List.mem_range, List.mem_singleton, blockSize] at hw
  obtain ⟨k', hk', j', hj', i', hi', rfl⟩ := hw
  exact h i' j' k' hi' hj' hk'

theorem PackTSDF_slab_mX (volume_ : Volume) (blockId : BlockId) (packedTSDF : Nat → ℚ)
    (block : VoxelBlock) (hb : volume_.GetBlock blockId = some block)
    (j k : Nat) (hj : j < 16) (hk : k < 16) :
    PackTSDF volume_ blockId packedTSDF (packedIndex 0 (j + 1) (k + 1))
      = slabValue (tsdfOf volume_ (Index3d.sub blockId ⟨1, 0, 0⟩)) (blockIndex 15 j k) := by
  rw [PackTSDF_eq_chain volume_ blockId packedTSDF block hb,
    tripleLoop_miss _ _ _ _ (by intro a b c _ _ _; simp only [packedIndex_eq]; omega),
    slabLoop_miss _ _ _ _ (by intro a b _ _; simp only [packedIndex_eq]; omega),
    slabLoop_miss _ _ _ _ (by intro a b _ _; simp only [packedIndex_eq]; omega),
    slabLoop_miss _ _ _ _ (by intro a b _ _; simp only [packedIndex_eq]; omega),
    slabLoop_miss _ _ _ _ (by intro a b _ _; simp only [packedIndex_eq]; omega),
    slabLoop_miss _ _ _ _ (by intro a b _ _; simp only [packedIndex_eq]; omega)]
  exact slabLoop_hit (fun j k => packedIndex 0 (j + 1) (k + 1)) _ _
    (by intro a b c d _ _ _ _ h; simp only [packedIndex_eq] at h; omega) j k hj hk

theorem PackTSDF_slab_pX (volume_ : Volume) (blockId : BlockId) (packedTSDF : Nat → ℚ)
    (block : VoxelBlock) (hb : volume_.GetBlock blockId = some block)
    (j k : Nat) (hj : j < 16) (hk : k < 16) :
    PackTSDF volume_ blockId packedTSDF (packedIndex 17 (j + 1) (k + 1))
      = slabValue (tsdfOf volume_ (Index3d.add blockId ⟨1, 0, 0⟩)) (blockIndex 0 j k) := by
  rw [PackTSDF_eq_chain volume_ blockId packedTSDF block hb,
    tripleLoop_miss _ _ _ _ (by intro a b c _ _ _; simp only [packedIndex_eq]; omega),
    slabLoop_miss _ _ _ _ (by intro a b _ _; simp only [packedIndex_eq]; omega),
    slabLoop_miss _ _ _ _ (by intro a b _ _; simp only [packedIndex_eq]; omega),
    slabLoop_miss _ _ _ _ (by intro a b _ _; simp only [packedIndex_eq]; omega),
    slabLoop_miss _ _ _ _ (by intro a b _ _; simp only [packedIndex_eq]; omega)]
  exact slabLoop_hit (fun j k => packedIndex 17 (j + 1) (k + 1)) _ _
    (by intro a b c d _ _ _ _ h; simp only [packedIndex_eq] at h; omega) j k hj hk

theorem PackTSDF_slab_mY (volume_ : Volume) (blockId : BlockId) (packedTSDF : Nat → ℚ)
    (block : VoxelBlock) (hb : volume_.GetBlock blockId = some block)
    (i k : Nat) (hi : i < 16) (hk : k < 16) :
    PackTSDF volume_ blockId packedTSDF (packedIndex (i + 1) 0 (k + 1))
      = slabValue (tsdfOf volume_ (Index3d.sub blockId ⟨0, 1, 0⟩)) (blockIndex i 15 k) := by
  rw [PackTSDF_eq_chain volume_ blockId packedTSDF block hb,
    tripleLoop_miss _ _ _ _ (by intro a b c _ _ _; simp only [packedIndex_eq]; omega),
    slabLoop_miss _ _ _ _ (by intro a b _ _; simp only [packedIndex_eq]; omega),
    slabLoop_miss _ _ _ _ (by intro a b _ _; simp only [packedIndex_eq]; omega),
    slabLoop_miss _ _ _ _ (by intro a b _ _; simp only [packedIndex_eq]; omega)]
  exact slabLoop_hit (fun i k => packedIndex (i + 1) 0 (k + 1)) _ _
    (by intro a b c d _ _ _ _ h; simp only [packedIndex_eq] at h; omega) i k hi hk

theorem PackTSDF_slab_pY (volume_ : Volume) (blockId : BlockId) (packedTSDF : Nat → ℚ)
    (block : VoxelBlock) (hb : volume_.GetBlock blockId = some block)
    (i k : Nat) (hi : i < 16) (hk : k < 16) :
    PackTSDF volume_ blockId packedTSDF (packedIndex (i + 1) 17 (k + 1))
      = slabValue (tsdfOf volume_ (Index3d.add blockId ⟨0, 1, 0⟩)) (blockIndex i 0 k) := by
  rw [PackTSDF_eq_chain volume_ blockId packedTSDF block hb,
    tripleLoop_miss _ _ _ _ (by intro a b c _ _ _; simp only [packedIndex_eq]; omega),
    slabLoop_miss _ _ _ _ (by intro a b _ _; simp only [packedIndex_eq]; omega),
    slabLoop_miss _ _ _ _ (by intro a b _ _; simp only [packedIndex_eq]; omega)]
  exact slabLoop_hit (fun i k => packedIndex (i + 1) 17 (k + 1)) _ _
    (by intro a b c d _ _ _ _ h; simp only [packedIndex_eq] at h; omega) i k hi hk

theorem PackTSDF_slab_mZ (volume_ : Volume) (blockId : BlockId) (packedTSDF : Nat → ℚ)
    (block : VoxelBlock) (hb : volume_.GetBlock blockId = some block)
    (i j : Nat) (hi : i < 16) (hj : j < 16) :
    PackTSDF volume_ blockId packedTSDF (packedIndex (i + 1) (j + 1) 0)
      = slabValue (tsdfOf volume_ (Index3d.sub blockId ⟨0, 0, 1⟩)) (blockIndex i j 15) := by
  rw [PackTSDF_eq_chain volume_ blockId packedTSDF block hb,
    tripleLoop_miss _ _ _ _ (by intro a b c _ _ _; simp only [packedIndex_eq]; omega),
    slabLoop_miss _ _ _ _ (by intro a b _ _; simp only [packedIndex_eq]; omega)]
  exact slabLoop_hit (fun i j => packedIndex (i + 1) (j + 1) 0) _ _
    (by intro a b c d _ _ _ _ h; simp only [packedIndex_eq] at h; omega) i j hi hj

theorem PackTSDF_slab_pZ (volume_ : Volume) (blockId : BlockId) (packedTSDF : Nat → ℚ)
    (block : VoxelBlock) (hb : volume_.GetBlock blockId = some block)
    (i j : Nat) (hi : i < 16) (hj : j < 16) :
    PackTSDF volume_ blockId packedTSDF (packedIndex (i + 1) (j + 1) 17)
      = slabValue (tsdfOf volume_ (Index3d.add blockId ⟨0, 0, 1⟩)) (blockIndex i j 0) := by
  rw [PackTSDF_eq_chain volume_ blockId packedTSDF block hb,
    tripleLoop_miss _ _ _ _ (by intro a b c _ _ _; simp only [packedIndex_eq]; omega)]
  exact slabLoop_hit (fun i j => packedIndex (i + 1) (j + 1) 17) _ _
    (by intro a b c d _ _ _ _ h; simp only [packedIndex_eq] at h; omega) i j hi hj

/-- After `PackTSDF` every cell of the six face slabs and of the interior holds the tsdf
of the voxel it stands for, or `0` across a face whose neighbour block does not exist. -/
theorem PackTSDF_cell (volume_ : Volume) (blockId : BlockId) (packedTSDF : Nat → ℚ)
    (block : VoxelBlock) (hb : volume_.GetBlock blockId = some block)
    (p q r : Nat) (hc : paddedCell p q r) :
    PackTSDF volume_ blockId packedTSDF (packedIndex p q r)
      = paddedTsdf volume_ blockId block.tsdf_ p q r := by
  obtain ⟨hp, hq, hr, hreg⟩ := hc
  unfold paddedTsdf
  by_cases hp0 : p = 0
  · subst hp0
    obtain ⟨j, rfl⟩ : ∃ j, q = j + 1 := ⟨q - 1, by omega⟩
    obtain ⟨k, rfl⟩ : ∃ k, r = k + 1 := ⟨r - 1, by omega⟩
    rw [if_pos rfl]
    exact PackTSDF_slab_mX volume_ blockId packedTSDF block hb j k (by omega) (by omega)
  rw [if_neg hp0]
  by_cases hp17 : p = 17
  · subst hp17
    obtain ⟨j, rfl⟩ : ∃ j, q = j + 1 := ⟨q - 1, by omega⟩
    obtain ⟨k, rfl⟩ : ∃ k, r = k + 1 := ⟨r - 1, by omega⟩
    rw [if_pos rfl]
    exact PackTSDF_slab_pX volume_ blockId packedTSDF block hb j k (by omega) (by omega)
  rw [if_neg hp17]
  obtain ⟨i, rfl⟩ : ∃ i, p = i + 1 := ⟨p - 1, by omega⟩
  by_cases hq0 : q = 0
  · subst hq0
    obtain ⟨k, rfl⟩ : ∃ k, r = k + 1 := ⟨r - 1, by omega⟩
    rw [if_pos rfl]
    exact PackTSDF_slab_mY volume_ blockId packedTSDF block hb i k (by omega) (by omega)
  rw [if_neg hq0]
  by_cases hq17 : q = 17
  · subst hq17
    obtain ⟨k, rfl⟩ : ∃ k, r = k + 1 := ⟨r - 1, by omega⟩
    rw [if_pos rfl]
    exact PackTSDF_slab_pY volume_ blockId packedTSDF block hb i k (by omega) (by omega)
  rw [if_neg hq17]
  obtain ⟨j, rfl⟩ : ∃ j, q = j + 1 := ⟨q - 1, by omega⟩
  by_cases hr0 : r = 0
  · subst hr0
    rw [if_pos rfl]
    exact PackTSDF_slab_mZ volume_ blockId packedTSDF block hb i j (by omega) (by omega)
  rw [if_neg hr0]
  by_cases hr17 : r = 17
  · subst hr17
    rw [if_pos rfl]
    exact PackTSDF_slab_pZ volume_ blockId packedTSDF block hb i j (by omega) (by omega)
  rw [if_neg hr17]
  obtain ⟨k, rfl⟩ : ∃ k, r = k + 1 := ⟨r - 1, by omega⟩
  exact PackTSDF_interior volume_ blockId packedTSDF block hb i j k (by omega) (by omega)
    (by omega)

theorem paddedTsdf_congr (w v : Volume) (h : ∀ id, tsdfOf w id = tsdfOf v id)
    (blockId : BlockId) (own : Nat → ℚ) (p q r : Nat) :
    paddedTsdf w blockId own p q r = paddedTsdf v blockId own p q r := by
  unfold paddedTsdf
  simp only [h]

/-- One iteration of the gradient pass leaves the processed block with gradients that
are the central differences of its padded buffer. -/
theorem gradient_step_all (w volume_ : Volume) (h : ∀ id, tsdfOf w id = tsdfOf volume_ id)
    (blockId : BlockId) (packedTSDF : Nat → ℚ) (voxelRes_ : ℚ) (block : VoxelBlock)
    (hb : w.GetBlock blockId = some block) :
    gradientsAgree volume_ blockId
      { block with
        gradients_ := gradientLoops (PackTSDF w blockId packedTSDF) voxelRes_
          block.gradients_ }
      voxelRes_ := by
  intro i j k hi hj hk
  show gradientLoops (PackTSDF w blockId packedTSDF) voxelRes_ block.gradients_
    (blockIndex i j k) = _
  rw [gradientLoops_at _ _ _ i j k hi hj hk,
    PackTSDF_cell w blockId packedTSDF block hb (i + 2) (j + 1) (k + 1)
      (by unfold paddedCell; omega),
    PackTSDF_cell w blockId packedTSDF block hb i (j + 1) (k + 1)
      (by unfold paddedCell; omega),
    PackTSDF_cell w blockId packedTSDF block hb (i + 1) (j + 2) (k + 1)
      (by unfold paddedCell; omega),
    PackTSDF_cell w blockId packedTSDF block hb (i + 1) j (k + 1)
      (by unfold paddedCell; omega),
    PackTSDF_cell w blockId packedTSDF block hb (i + 1) (j + 1) (k + 2)
      (by unfold paddedCell; omega),
    PackTSDF_cell w blockId packedTSDF block hb (i + 1) (j + 1) k
      (by unfold paddedCell; omega)]
  simp only [paddedTsdf_congr w volume_ h]

theorem Volume.writeBlock_blockIds (v : Volume) (id : BlockId) (b : VoxelBlock) :
    (v.writeBlock id b).blockIds_ = v.blockIds_ := by
  unfold Volume.writeBlock
  split <;> rfl

theorem UpdateGradients_all_keeps (voxelRes_ : ℚ) (volume_ : Volume) (b : BlockId)
    (hinj : ∀ a c k, volume_.blockIds_.find a = some k → volume_.blockIds_.find c = some k →
      a = c) :
    ∀ (l : List BlockId) (st : Volume × (Nat → ℚ)),
      st.1.blockIds_ = volume_.blockIds_ → (∀ id, tsdfOf st.1 id = tsdfOf volume_ id) →
      (∃ blk, st.1.GetBlock b = some blk ∧ (gradientsAgree volume_ b blk voxelRes_ ∨ b ∈ l)) →
      ∃ blk', (l.foldl (updateGradientsStep voxelRes_) st).1.GetBlock b = some blk' ∧
        tsdfOf volume_ b = some blk'.tsdf_ ∧ gradientsAgree volume_ b blk' voxelRes_ := by
  intro l
  induction l with
  | nil =>
    rintro st _ hview ⟨blk, h1, h3⟩
    refine ⟨blk, h1, ?_, h3.resolve_right (List.not_mem_nil b)⟩
    rw [← hview b]
    simp [tsdfOf, h1]
  | cons b' rest ih =>
    rintro st hids hview ⟨blk, h1, h3⟩
    rw [List.foldl_cons]
    unfold updateGradientsStep
    cases hb' : st.1.GetBlock b' with
    | none =>
      apply ih _ hids hview
      refine ⟨blk, h1, ?_⟩
      rcases h3 with h3 | h3
      · exact Or.inl h3
      · rcases List.mem_cons.mp h3 with rfl | hr
        · rw [hb'] at h1; exact absurd h1 (by simp)
        · exact Or.inr hr
    | some block2 =>
      simp only
      apply ih
      · show (st.1.writeBlock b' _).blockIds_ = _
        rw [Volume.writeBlock_blockIds]; exact hids
      · intro id
        rw [← hview id]
        unfold tsdfOf
        show Option.map VoxelBlock.tsdf_ ((st.1.writeBlock b' _).GetBlock id) = _
        rw [Volume.GetBlock_writeBlock st.1 b' _ block2 hb' id]
        by_cases hf : st.1.blockIds_.find id = st.1.blockIds_.find b'
        · rw [if_pos hf]
          have hsame : st.1.GetBlock id = st.1.GetBlock b' := by
            unfold Volume.GetBlock; rw [hf]
          rw [hsame, hb']
          rfl
        · rw [if_neg hf]
      · show ∃ blk, (st.1.writeBlock b' _).GetBlock b = some blk ∧ _
        rw [Volume.GetBlock_writeBlock st.1 b' _ block2 hb' b]
        by_cases hf : st.1.blockIds_.find b = st.1.blockIds_.find b'
        · rw [if_pos hf]
          have hbb : b = b' := by
            cases hk : st.1.blockIds_.find b with
            | none =>
              have : st.1.GetBlock b = none := by simp [Volume.GetBlock, hk]
              rw [this] at h1; exact absurd h1 (by simp)
            | some k =>
              rw [hids] at hk hf
              exact hinj b b' k hk (by rw [← hf]; exact hk)
          subst hbb
          exact ⟨_, rfl, Or.inl (gradient_step_all st.1 volume_ hview b st.2 voxelRes_ block2 hb')⟩
        · rw [if_neg hf]
          refine ⟨blk, h1, ?_⟩
          rcases h3 with h3 | h3
          · exact Or.inl h3
          · rcases List.mem_cons.mp h3 with rfl | hr
            · exact absurd rfl hf
            · exact Or.inr hr

/-- After the gradient pass every voxel of a processed block stores the central difference
of the padded buffer, which holds the stored tsdf of each axis neighbour as it is. -/
theorem UpdateGradients_all (voxelRes_ : ℚ) (volume_ : Volume) (newBlocks_ : List BlockId)
    (packedTSDF : Nat → ℚ) (blockId : BlockId) (block : VoxelBlock)
    (hinj : ∀ a c k, volume_.blockIds_.find a = some k → volume_.blockIds_.find c = some k →
      a = c)
    (hmem : blockId ∈ newBlocks_) (hb : volume_.GetBlock blockId = some block) :
    ∃ block', (UpdateGradients voxelRes_ volume_ newBlocks_ packedTSDF).1.GetBlock blockId
        = some block' ∧
      block'.tsdf_ = block.tsdf_ ∧ gradientsAgree volume_ blockId block' voxelRes_ := by
  obtain ⟨block', h1, h2, h3⟩ := UpdateGradients_all_keeps voxelRes_ volume_ blockId hinj
    newBlocks_ (volume_, packedTSDF) rfl (fun _ => rfl) ⟨block, hb, Or.inr hmem⟩
  refine ⟨block', h1, ?_, h3⟩
  simp only [tsdfOf, hb, Option.map_some', Option.some.injEq] at h2
  exact h2.symm

theorem GradientAt_nat (blk : VoxelBlock) (i j k : Nat) :
    blk.GradientAt ⟨(i : Int), (j : Int), (k : Int)⟩ = blk.gradients_ (blockIndex i j k) := by
  unfold VoxelBlock.GradientAt
  rw [voxelOffset_toNat]

theorem TSDFAt_nat (blk : VoxelBlock) (i j k : Nat) :
    blk.TSDFAt ⟨(i : Int), (j : Int), (k : Int)⟩ = blk.tsdf_ (blockIndex i j k) := by
  unfold VoxelBlock.TSDFAt
  rw [voxelOffset_toNat]

theorem slabValue_tsdfOf (v : Volume) (n : BlockId) (i j k : Nat) :
    slabValue (tsdfOf v n) (blockIndex i j k)
      = faceOperand v n ⟨(i : Int), (j : Int), (k : Int)⟩ := by
  unfold tsdfOf faceOperand
  cases v.GetBlock n with
  | none => rfl
  | some nb => simp only [Option.map_some', slabValue]; rw [TSDFAt_nat]

theorem paddedTsdf_own (v : Volume) (blockId : BlockId) (own : Nat → ℚ) (i j k : Nat)
    (hi : i < 16) (hj : j < 16) (hk : k < 16) :
    paddedTsdf v blockId own (i + 1) (j + 1) (k + 1) = own (blockIndex i j k) := by
  unfold paddedTsdf
  rw [if_neg (by omega), if_neg (by omega), if_neg (by omega), if_neg (by omega),
    if_neg (by omega), if_neg (by omega)]
  rfl

theorem paddedTsdf_mX (v : Volume) (blockId : BlockId) (own : Nat → ℚ) (j k : Nat) :
    paddedTsdf v blockId own 0 (j + 1) (k + 1)
      = faceOperand v (Index3d.sub blockId ⟨1, 0, 0⟩) ⟨15, (j : Int), (k : Int)⟩ := by
  unfold paddedTsdf
  rw [if_pos rfl]
  exact slabValue_tsdfOf v _ 15 j k

theorem paddedTsdf_pX (v : Volume) (blockId : BlockId) (own : Nat → ℚ) (j k : Nat) :
    paddedTsdf v blockId own 17 (j + 1) (k + 1)
      = faceOperand v (Index3d.add blockId ⟨1, 0, 0⟩) ⟨0, (j : Int), (k : Int)⟩ := by
  unfold paddedTsdf
  rw [if_neg (by omega), if_pos rfl]
  exact slabValue_tsdfOf v _ 0 j k

theorem paddedTsdf_mY (v : Volume) (blockId : BlockId) (own : Nat → ℚ) (i k : Nat)
    (hi : i < 16) :
    paddedTsdf v blockId own (i + 1) 0 (k + 1)
      = faceOperand v (Index3d.sub blockId ⟨0, 1, 0⟩) ⟨(i : Int), 15, (k : Int)⟩ := by
  unfold paddedTsdf
  rw [if_neg (by omega), if_neg (by omega), if_pos rfl]
  exact slabValue_tsdfOf v _ i 15 k

theorem paddedTsdf_pY (v : Volume) (blockId : BlockId) (own : Nat → ℚ) (i k : Nat)
    (hi : i < 16) :
    paddedTsdf v blockId own (i + 1) 17 (k + 1)
      = faceOperand v (Index3d.add blockId ⟨0, 1, 0⟩) ⟨(i : Int), 0, (k : Int)⟩ := by
  unfold paddedTsdf
  rw [if_neg (by omega), if_neg (by omega), if_neg (by omega), if_pos rfl]
  exact slabValue_tsdfOf v _ i 0 k

theorem paddedTsdf_mZ (v : Volume) (blockId : BlockId) (own : Nat → ℚ) (i j : Nat)
    (hi : i < 16) (hj : j < 16) :
    paddedTsdf v blockId own (i + 1) (j + 1) 0
      = faceOperand v (Index3d.sub blockId ⟨0, 0, 1⟩) ⟨(i : Int), (j : Int), 15⟩ := by
  unfold paddedTsdf
  rw [if_neg (by omega), if_neg (by omega), if_neg (by omega), if_neg (by omega), if_pos rfl]
  exact slabValue_tsdfOf v _ i j 15

theorem paddedTsdf_pZ (v : Volume) (blockId : BlockId) (own : Nat → ℚ) (i j : Nat)
    (hi : i < 16) (hj : j < 16) :
    paddedTsdf v blockId own (i + 1) (j + 1) 17
      = faceOperand v (Index3d.add blockId ⟨0, 0, 1⟩) ⟨(i : Int), (j : Int), 0⟩ := by
  unfold paddedTsdf
  rw [if_neg (by omega), if_neg (by omega), if_neg (by omega), if_neg (by omega),
    if_neg (by omega), if_pos rfl]
  exact slabValue_tsdfOf v _ i j 0

/-- C15: after the gradient pass has processed a block of a volume whose map gives distinct
ids distinct indices, a voxel on a face of the block has, as the out-of-block operand of
its central difference along the axis of that face, `faceOperand`: the tsdf of the
adjacent voxel of the neighbour block across the face when that block exists, and `0` when
it does not.  For the face `i = 0`: `gradient.x = (tsdf[1,j,k] - operand) / voxelRes`. -/
theorem UpdateGradients_face_operand (voxelRes_ : ℚ) (volume_ : Volume)
    (newBlocks_ : List BlockId) (packedTSDF : Nat → ℚ) (blockId : BlockId) (block : VoxelBlock)
    (hinj : ∀ a c k, volume_.blockIds_.find a = some k → volume_.blockIds_.find c = some k →
      a = c)
    (hmem : blockId ∈ newBlocks_) (hb : volume_.GetBlock blockId = some block)
    (a b : Nat) (ha : a < 16) (hb' : b < 16) :
    ∃ block', (UpdateGradients voxelRes_ volume_ newBlocks_ packedTSDF).1.GetBlock blockId
        = some block' ∧
      block'.tsdf_ = block.tsdf_ ∧
      (block'.GradientAt ⟨0, a, b⟩).x
        = (block.TSDFAt ⟨1, a, b⟩
            - faceOperand volume_ (Index3d.sub blockId ⟨1, 0, 0⟩) ⟨15, a, b⟩) / voxelRes_ ∧
      (block'.GradientAt ⟨15, a, b⟩).x
        = (faceOperand volume_ (Index3d.add blockId ⟨1, 0, 0⟩) ⟨0, a, b⟩
            - block.TSDFAt ⟨14, a, b⟩) / voxelRes_ ∧
      (block'.GradientAt ⟨a, 0, b⟩).y
        = (block.TSDFAt ⟨a, 1, b⟩
            - faceOperand volume_ (Index3d.sub blockId ⟨0, 1, 0⟩) ⟨a, 15, b⟩) / voxelRes_ ∧
      (block'.GradientAt ⟨a, 15, b⟩).y
        = (faceOperand volume_ (Index3d.add blockId ⟨0, 1, 0⟩) ⟨a, 0, b⟩
            - block.TSDFAt ⟨a, 14, b⟩) / voxelRes_ ∧
      (block'.GradientAt ⟨a, b, 0⟩).z
        = (block.TSDFAt ⟨a, b, 1⟩
            - faceOperand volume_ (Index3d.sub blockId ⟨0, 0, 1⟩) ⟨a, b, 15⟩) / voxelRes_ ∧
      (block'.GradientAt ⟨a, b, 15⟩).z
        = (faceOperand volume_ (Index3d.add blockId ⟨0, 0, 1⟩) ⟨a, b, 0⟩
            - block.TSDFAt ⟨a, b, 14⟩) / voxelRes_ := by
  obtain ⟨block', h1, h2, h3⟩ := UpdateGradients_all voxelRes_ volume_ newBlocks_ packedTSDF
    blockId block hinj hmem hb
  have g0ab := GradientAt_nat block' 0 a b
  have g15ab := GradientAt_nat block' 15 a b
  have ga0b := GradientAt_nat block' a 0 b
  have ga15b := GradientAt_nat block' a 15 b
  have gab0 := GradientAt_nat block' a b 0
  have gab15 := GradientAt_nat block' a b 15
  have t1ab := TSDFAt_nat block 1 a b
  have t14ab := TSDFAt_nat block 14 a b
  have ta1b := TSDFAt_nat block a 1 b
  have ta14b := TSDFAt_nat block a 14 b
  have tab1 := TSDFAt_nat block a b 1
  have tab14 := TSDFAt_nat block a b 14
  simp only [Nat.cast_zero, Nat.cast_ofNat] at g0ab g15ab ga0b ga15b gab0 gab15
  simp only [Nat.cast_one, Nat.cast_ofNat] at t1ab t14ab ta1b ta14b tab1 tab14
  refine ⟨block', h1, h2, ?_, ?_, ?_, ?_, ?_, ?_⟩
  · rw [g0ab, h3 0 a b (by omega) ha hb', t1ab, h2]
    simp only [Vec3f.sdiv]
    rw [paddedTsdf_own volume_ blockId block.tsdf_ 1 a b (by omega) ha hb',
      paddedTsdf_mX]
  · rw [g15ab, h3 15 a b (by omega) ha hb', t14ab, h2]
    simp only [Vec3f.sdiv]
    rw [paddedTsdf_own volume_ blockId block.tsdf_ 14 a b (by omega) ha hb',
      paddedTsdf_pX]
  · rw [ga0b, h3 a 0 b ha (by omega) hb', ta1b, h2]
    simp only [Vec3f.sdiv]
    rw [paddedTsdf_own volume_ blockId block.tsdf_ a 1 b ha (by omega) hb',
      paddedTsdf_mY volume_ blockId block.tsdf_ a b ha]
  · rw [ga15b, h3 a 15 b ha (by omega) hb', ta14b, h2]
    simp only [Vec3f.sdiv]
    rw [paddedTsdf_own volume_ blockId block.tsdf_ a 14 b ha (by omega) hb',
      paddedTsdf_pY volume_ blockId block.tsdf_ a b ha]
  · rw [gab0, h3 a b 0 ha hb' (by omega), tab1, h2]
    simp only [Vec3f.sdiv]
    rw [paddedTsdf_own volume_ blockId block.tsdf_ a b 1 ha hb' (by omega),
      paddedTsdf_mZ volume_ blockId block.tsdf_ a b ha hb']
  · rw [gab15, h3 a b 15 ha hb' (by omega), tab14, h2]
    simp only [Vec3f.sdiv]
    rw [paddedTsdf_own volume_ blockId block.tsdf_ a b 14 ha hb' (by omega),
      paddedTsdf_pZ volume_ blockId block.tsdf_ a b ha hb']

theorem BlockIdMap.find_singleton_inj (c : BlockId) (n : Nat) (a b : BlockId) (k : Nat)
    (ha : BlockIdMap.find [(c, n)] a = some k) (hb : BlockIdMap.find [(c, n)] b = some k) :
    a = b := by
  have key : ∀ x : BlockId, BlockIdMap.find [(c, n)] x = some k → x = c := by
    intro x hx
    by_contra hne
    have hbeq : (x == c) = false := by simpa using hne
    simp [BlockIdMap.find, List.lookup, hbeq] at hx
  rw [key a ha, key b hb]

theorem UpdateGradients_face_operand_witness :
    (∀ a c k, rampVolume.blockIds_.find a = some k → rampVolume.blockIds_.find c = some k →
      a = c) ∧
    ((⟨0, 0, 0⟩ : BlockId) ∈ [(⟨0, 0, 0⟩ : BlockId)]) ∧
    rampVolume.GetBlock ⟨0, 0, 0⟩ = some rampBlock ∧
    rampVolume.GetBlock ⟨-1, 0, 0⟩ = none ∧
    ∃ block', (UpdateGradients (1 / 100) rampVolume [⟨0, 0, 0⟩] (fun _ => 0)).1.GetBlock
        ⟨0, 0, 0⟩ = some block' ∧
      (block'.GradientAt ⟨0, 1, 1⟩).x = (rampBlock.TSDFAt ⟨1, 1, 1⟩ - 0) / (1 / 100) := by
  refine ⟨BlockIdMap.find_singleton_inj _ _, List.mem_singleton_self _, rfl, rfl, ?_⟩
  obtain ⟨block', h1, _, hx, _⟩ := UpdateGradients_face_operand (1 / 100) rampVolume
    [⟨0, 0, 0⟩] (fun _ => 0) ⟨0, 0, 0⟩ rampBlock (BlockIdMap.find_singleton_inj _ _)
    (List.mem_singleton_self _) rfl 1 1 (by decide) (by decide)
  refine ⟨block', h1, ?_⟩
  simp only [Nat.cast_one] at hx
  rw [hx]
  rfl

/-- Counterexample for C16: the INVALID sentinel of a neighbour enters the central
difference as it is.  In a block whose voxel `(2, 1, 1)` holds `invalidTsdf` and whose
other voxels hold `0`, the gradient of the voxel `(1, 1, 1)` has the x component
`(invalidTsdf - 0) / voxelRes`, not `(0 - 0) / voxelRes`. -/
theorem UpdateGradients_invalid_not_zero :
    spikeBlock.TSDFAt ⟨2, 1, 1⟩ = invalidTsdf ∧
    spikeBlock.TSDFAt ⟨0, 1, 1⟩ = 0 ∧
    ∃ block', (UpdateGradients (1 / 100) spikeVolume [⟨0, 0, 0⟩] (fun _ => 0)).1.GetBlock
        ⟨0, 0, 0⟩ = some block' ∧
      (block'.GradientAt ⟨1, 1, 1⟩).x = (invalidTsdf - 0) / (1 / 100) ∧
      (block'.GradientAt ⟨1, 1, 1⟩).x ≠ (0 - 0) / (1 / 100) := by
  have e274 : blockIndex 2 1 1 = 274 := by rw [blockIndex_eq]
  have e272 : blockIndex 0 1 1 = 272 := by rw [blockIndex_eq]
  have t2 : spikeBlock.TSDFAt ⟨2, 1, 1⟩ = invalidTsdf := by
    have h := TSDFAt_nat spikeBlock 2 1 1
    simp only [Nat.cast_one, Nat.cast_ofNat] at h
    rw [h, e274]
    simp [spikeBlock]
  have t0 : spikeBlock.TSDFAt ⟨0, 1, 1⟩ = 0 := by
    have h := TSDFAt_nat spikeBlock 0 1 1
    simp only [Nat.cast_one, Nat.cast_zero] at h
    rw [h, e272]
    simp [spikeBlock]
  refine ⟨t2, t0, ?_⟩
  obtain ⟨block', h1, h2, h3⟩ := UpdateGradients_all (1 / 100) spikeVolume [⟨0, 0, 0⟩]
    (fun _ => 0) ⟨0, 0, 0⟩ spikeBlock (BlockIdMap.find_singleton_inj _ _)
    (List.mem_singleton_self _) rfl
  have hg := GradientAt_nat block' 1 1 1
  simp only [Nat.cast_one] at hg
  have hx : (block'.GradientAt ⟨1, 1, 1⟩).x = (invalidTsdf - 0) / (1 / 100) := by
    rw [hg, h3 1 1 1 (by decide) (by decide) (by decide), h2]
    simp only [Vec3f.sdiv]
    rw [paddedTsdf_own spikeVolume ⟨0, 0, 0⟩ spikeBlock.tsdf_ 2 1 1 (by decide) (by decide)
        (by decide),
      paddedTsdf_own spikeVolume ⟨0, 0, 0⟩ spikeBlock.tsdf_ 0 1 1 (by decide) (by decide)
        (by decide), e274, e272]
    simp [spikeBlock]
  refine ⟨block', h1, hx, ?_⟩
  rw [hx]
  norm_num [invalidTsdf, FLT_MAX]

/-- C16, amended: the gradient pass has no test for the INVALID sentinel.  After
it has processed a block, every voxel stores the central differences of the padded
buffer, whose cells hold the stored tsdf of the axis neighbours (of the same block, or of
the neighbour block across a face, or `0` when that block does not exist); when such a
neighbour holds `invalidTsdf`, the operand is `invalidTsdf` itself. -/
theorem UpdateGradients_invalid_neighbour (voxelRes_ : ℚ) (volume_ : Volume)
    (newBlocks_ : List BlockId) (packedTSDF : Nat → ℚ) (blockId : BlockId) (block : VoxelBlock)
    (hinj : ∀ a c k, volume_.blockIds_.find a = some k → volume_.blockIds_.find c = some k →
      a = c)
    (hmem : blockId ∈ newBlocks_) (hb : volume_.GetBlock blockId = some block)
    (i j k : Nat) (hi : i < 16) (hj : j < 16) (hk : k < 16) :
    ∃ block', (UpdateGradients voxelRes_ volume_ newBlocks_ packedTSDF).1.GetBlock blockId
        = some block' ∧
      block'.GradientAt ⟨i, j, k⟩ =
        Vec3f.sdiv
          ⟨paddedTsdf volume_ blockId block.tsdf_ (i + 2) (j + 1) (k + 1)
              - paddedTsdf volume_ blockId block.tsdf_ i (j + 1) (k + 1),
            paddedTsdf volume_ blockId block.tsdf_ (i + 1) (j + 2) (k + 1)
              - paddedTsdf volume_ blockId block.tsdf_ (i + 1) j (k + 1),
            paddedTsdf volume_ blockId block.tsdf_ (i + 1) (j + 1) (k + 2)
              - paddedTsdf volume_ blockId block.tsdf_ (i + 1) (j + 1) k⟩
          voxelRes_ ∧
      (paddedTsdf volume_ blockId block.tsdf_ (i + 2) (j + 1) (k + 1) = invalidTsdf →
        (block'.GradientAt ⟨i, j, k⟩).x
          = (invalidTsdf - paddedTsdf volume_ blockId block.tsdf_ i (j + 1) (k + 1))
            / voxelRes_) ∧
      (paddedTsdf volume_ blockId block.tsdf_ i (j + 1) (k + 1) = invalidTsdf →
        (block'.GradientAt ⟨i, j, k⟩).x
          = (paddedTsdf volume_ blockId block.tsdf_ (i + 2) (j + 1) (k + 1) - invalidTsdf)
            / voxelRes_) ∧
      (paddedTsdf volume_ blockId block.tsdf_ (i + 1) (j + 2) (k + 1) = invalidTsdf →
        (block'.GradientAt ⟨i, j, k⟩).y
          = (invalidTsdf - paddedTsdf volume_ blockId block.tsdf_ (i + 1) j (k + 1))
            / voxelRes_) ∧
      (paddedTsdf volume_ blockId block.tsdf_ (i + 1) j (k + 1) = invalidTsdf →
        (block'.GradientAt ⟨i, j, k⟩).y
          = (paddedTsdf volume_ blockId block.tsdf_ (i + 1) (j + 2) (k + 1) - invalidTsdf)
            / voxelRes_) ∧
      (paddedTsdf volume_ blockId block.tsdf_ (i + 1) (j + 1) (k + 2) = invalidTsdf →
        (block'.GradientAt ⟨i, j, k⟩).z
          = (invalidTsdf - paddedTsdf volume_ blockId block.tsdf_ (i + 1) (j + 1) k)
            / voxelRes_) ∧
      (paddedTsdf volume_ blockId block.tsdf_ (i + 1) (j + 1) k = invalidTsdf →
        (block'.GradientAt ⟨i, j, k⟩).z
          = (paddedTsdf volume_ blockId block.tsdf_ (i + 1) (j + 1) (k + 2) - invalidTsdf)
            / voxelRes_) := by
  obtain ⟨block', h1, h2, h3⟩ := UpdateGradients_all voxelRes_ volume_ newBlocks_ packedTSDF
    blockId block hinj hmem hb
  have hg : block'.GradientAt ⟨i, j, k⟩ = _ :=
    (GradientAt_nat block' i j k).trans (h3 i j k hi hj hk)
  rw [h2] at hg
  refine ⟨block', h1, hg, ?_, ?_, ?_, ?_, ?_, ?_⟩ <;>
  · intro hinv
    rw [hg]
    simp only [Vec3f.sdiv, hinv]

theorem UpdateGradients_invalid_neighbour_witness :
    (∀ a c k, spikeVolume.blockIds_.find a = some k → spikeVolume.blockIds_.find c = some k →
      a = c) ∧
    ((⟨0, 0, 0⟩ : BlockId) ∈ [(⟨0, 0, 0⟩ : BlockId)]) ∧
    spikeVolume.GetBlock ⟨0, 0, 0⟩ = some spikeBlock ∧
    ∃ block', (UpdateGradients (1 / 100) spikeVolume [⟨0, 0, 0⟩] (fun _ => 0)).1.GetBlock
        ⟨0, 0, 0⟩ = some block' ∧
      (paddedTsdf spikeVolume ⟨0, 0, 0⟩ spikeBlock.tsdf_ 3 2 2 = invalidTsdf →
        (block'.GradientAt ⟨1, 1, 1⟩).x
          = (invalidTsdf - paddedTsdf spikeVolume ⟨0, 0, 0⟩ spikeBlock.tsdf_ 1 2 2)
            / (1 / 100)) := by
  refine ⟨BlockIdMap.find_singleton_inj _ _, List.mem_singleton_self _, rfl, ?_⟩
  obtain ⟨block', h1, _, hx, _⟩ := UpdateGradients_invalid_neighbour (1 / 100) spikeVolume
    [⟨0, 0, 0⟩] (fun _ => 0) ⟨0, 0, 0⟩ spikeBlock (BlockIdMap.find_singleton_inj _ _)
    (List.mem_singleton_self _) rfl 1 1 1 (by decide) (by decide) (by decide)
  simp only [Nat.cast_one] at hx
  exact ⟨block', h1, hx⟩

/-! ## Single-block raycast, index order, voxel offsets, `Clear` -/

/-- C22: for every block id `a` and every set `S`, `RaycastVoxels(a, a, S)` adds exactly
the single id `a` to `S`. -/
theorem RaycastVoxels_same_endpoint (a : BlockId) (S : Finset Index3d) :
    RaycastVoxels a a S = insert a S := by
  simp [RaycastVoxels, forLoop, raycastStepX, inc, shl, List.range_succ]

/-- C24: `operator<` on `Index3d` is the lexicographic order on `(x, y, z)`; it is
irreflexive and transitive, `operator==` is equality of ids, and for any two ids exactly
one of `a < b`, `a == b`, `b < a` holds. -/
theorem Index3d_lt_strict_total :
    (∀ a b : Index3d, Index3d.lt a b = true ↔
      (a.x < b.x ∨ (a.x = b.x ∧ (a.y < b.y ∨ (a.y = b.y ∧ a.z < b.z))))) ∧
    (∀ a b : Index3d, Index3d.eq a b = true ↔ a = b) ∧
    (∀ a : Index3d, Index3d.lt a a = false) ∧
    (∀ a b c : Index3d, Index3d.lt a b = true → Index3d.lt b c = true →
      Index3d.lt a c = true) ∧
    (∀ a b : Index3d,
      (Index3d.lt a b = true ∧ Index3d.eq a b = false ∧ Index3d.lt b a = false) ∨
      (Index3d.lt a b = false ∧ Index3d.eq a b = true ∧ Index3d.lt b a = false) ∨
      (Index3d.lt a b = false ∧ Index3d.eq a b = false ∧ Index3d.lt b a = true)) := by
  have hlt : ∀ a b : Index3d, Index3d.lt a b = true ↔
      (a.x < b.x ∨ (a.x = b.x ∧ (a.y < b.y ∨ (a.y = b.y ∧ a.z < b.z)))) := by
    intro a b
    unfold Index3d.lt
    by_cases h1 : a.x < b.x
    · simp [h1]
    · by_cases h2 : a.x = b.x
      · by_cases h3 : a.y < b.y
        · simp [h2, h3]
        · by_cases h4 : a.y = b.y
          · by_cases h5 : a.z < b.z
            · simp [h2, h4, h5]
            · simp [h2, h4, h5]
          · simp [h2, h3, h4]
      · simp [h1, h2]
  have heq : ∀ a b : Index3d, Index3d.eq a b = true ↔ a = b := by
    intro a b
    cases a; cases b
    simp [Index3d.eq]
    tauto
  have hltf : ∀ a b : Index3d, Index3d.lt a b = false ↔
      ¬ (a.x < b.x ∨ (a.x = b.x ∧ (a.y < b.y ∨ (a.y = b.y ∧ a.z < b.z)))) := by
    intro a b
    rw [← hlt a b]
    simp
  have heqf : ∀ a b : Index3d, Index3d.eq a b = false ↔
      ¬ (a.x = b.x ∧ a.y = b.y ∧ a.z = b.z) := by
    intro a b
    cases a; cases b
    simp [Index3d.eq]
  have heqt : ∀ a b : Index3d, Index3d.eq a b = true ↔
      (a.x = b.x ∧ a.y = b.y ∧ a.z = b.z) := by
    intro a b
    cases a; cases b
    simp [Index3d.eq]
    tauto
  refine ⟨hlt, heq, ?_, ?_, ?_⟩
  · intro a
    rw [hltf]
    omega
  · intro a b c hab hbc
    rw [hlt] at hab hbc ⊢
    omega
  · intro a b
    simp only [hlt, hltf, heqt, heqf]
    omega

/-- C25: for voxel ids with `0 <= i, j, k < 16` the offset `i + 16 * j + 256 * k` used by
`TSDFAt`, `WeightAt`, `GradientAt`, `ColorAt` and by the integrator lies in `[0, 4096)`;
distinct voxel ids give distinct offsets, and every offset of `[0, 4096)` is reached. -/
theorem voxelOffset_bijection :
    (∀ i j k : Int, 0 ≤ i → i < 16 → 0 ≤ j → j < 16 → 0 ≤ k → k < 16 →
      voxelOffset ⟨i, j, k⟩ = i + 16 * j + 256 * k ∧
      0 ≤ voxelOffset ⟨i, j, k⟩ ∧ voxelOffset ⟨i, j, k⟩ < 4096) ∧
    (∀ i j k i' j' k' : Int, 0 ≤ i → i < 16 → 0 ≤ j → j < 16 → 0 ≤ k → k < 16 →
      0 ≤ i' → i' < 16 → 0 ≤ j' → j' < 16 → 0 ≤ k' → k' < 16 →
      voxelOffset ⟨i, j, k⟩ = voxelOffset ⟨i', j', k'⟩ → i = i' ∧ j = j' ∧ k = k') ∧
    (∀ n : Int, 0 ≤ n → n < 4096 →
      ∃ i j k : Int, 0 ≤ i ∧ i < 16 ∧ 0 ≤ j ∧ j < 16 ∧ 0 ≤ k ∧ k < 16 ∧
        voxelOffset ⟨i, j, k⟩ = n) := by
  have hb : ((blockSize : Nat) : Int) = 16 := rfl
  refine ⟨?_, ?_, ?_⟩
  · intro i j k _ _ _ _ _ _
    simp only [voxelOffset, hb]
    omega
  · intro i j k i' j' k' _ _ _ _ _ _ _ _ _ _ _ _ h
    simp only [voxelOffset, hb] at h
    omega
  · intro n h0 h1
    refine ⟨n % 16, n / 16 % 16, n / 256, ?_⟩
    simp only [voxelOffset, hb]
    omega

theorem VoxelBlock.Clear_loop (b : VoxelBlock) (n : Nat) :
    forLoop n (fun i (blk : VoxelBlock) =>
      { blk with
        tsdf_ := store blk.tsdf_ i invalidTsdf
        weights_ := store blk.weights_ i 0
        gradients_ := store blk.gradients_ i (Vec3f.splat 0)
        colors_ := if blk.useColor_ then store blk.colors_ i (Vec3f.splat 0)
          else blk.colors_ }) b
      = { b with
          tsdf_ := fun i => if i < n then invalidTsdf else b.tsdf_ i
          weights_ := fun i => if i < n then 0 else b.weights_ i
          gradients_ := fun i => if i < n then Vec3f.splat 0 else b.gradients_ i
          colors_ := fun i => if b.useColor_ = true ∧ i < n then Vec3f.splat 0
            else b.colors_ i } := by
  induction n with
  | zero => simp [forLoop]
  | succ k ih =>
    rw [forLoop_succ, ih]
    simp only
    congr 1
    · funext i
      unfold store
      by_cases h1 : i = k
      · simp [h1]
      · have : i < k + 1 ↔ i < k := by omega
        simp [h1, this]
    · funext i
      unfold store
      by_cases h1 : i = k
      · simp [h1]
      · have : i < k + 1 ↔ i < k := by omega
        simp [h1, this]
    · funext i
      unfold store
      by_cases h1 : i = k
      · simp [h1]
      · have : i < k + 1 ↔ i < k := by omega
        simp [h1, this]
    · funext i
      by_cases hc : b.useColor_ = true
      · unfold store
        by_cases h1 : i = k
        · simp [h1, hc]
        · have : i < k + 1 ↔ i < k := by omega
          simp [h1, this, hc]
      · simp [hc]

theorem VoxelBlock.Clear_eq (b : VoxelBlock) :
    b.Clear = { b with
      tsdf_ := fun i => if i < b.blockVolume_ then invalidTsdf else b.tsdf_ i
      weights_ := fun i => if i < b.blockVolume_ then 0 else b.weights_ i
      gradients_ := fun i => if i < b.blockVolume_ then Vec3f.splat 0 else b.gradients_ i
      colors_ := fun i => if b.useColor_ = true ∧ i < b.blockVolume_ then Vec3f.splat 0
        else b.colors_ i } :=
  VoxelBlock.Clear_loop b b.blockVolume_

/-- C23: a newly constructed block has `blockVolume_ = 4096`, tsdf `invalidTsdf` and
weight, colour and gradient zero in every slot.  `Clear()` on a block of 4096 slots in any
state leaves the scalars as they are and every slot `i < 4096` of the tsdf, weight and
gradient arrays, and of the colour array when the block has one (`useColor_`), in the
construction state; and `Clear` is idempotent. -/
theorem VoxelBlock_new_and_Clear :
    (∀ (voxelRes : ℚ) (useColor : Bool),
      (VoxelBlock.new voxelRes useColor).blockVolume_ = 4096 ∧
      ∀ i, (VoxelBlock.new voxelRes useColor).tsdf_ i = invalidTsdf ∧
        (VoxelBlock.new voxelRes useColor).weights_ i = 0 ∧
        (VoxelBlock.new voxelRes useColor).colors_ i = ⟨0, 0, 0⟩ ∧
        (VoxelBlock.new voxelRes useColor).gradients_ i = ⟨0, 0, 0⟩) ∧
    (∀ b : VoxelBlock, b.blockVolume_ = 4096 →
      b.Clear.voxelRes_ = b.voxelRes_ ∧ b.Clear.blockVolume_ = b.blockVolume_ ∧
      b.Clear.useColor_ = b.useColor_ ∧
      ∀ i, i < 4096 →
        b.Clear.tsdf_ i = (VoxelBlock.new b.voxelRes_ b.useColor_).tsdf_ i ∧
        b.Clear.weights_ i = (VoxelBlock.new b.voxelRes_ b.useColor_).weights_ i ∧
        b.Clear.gradients_ i = (VoxelBlock.new b.voxelRes_ b.useColor_).gradients_ i ∧
        (b.useColor_ = true →
          b.Clear.colors_ i = (VoxelBlock.new b.voxelRes_ b.useColor_).colors_ i)) ∧
    (∀ b : VoxelBlock, b.Clear.Clear = b.Clear) ∧
    (∀ (voxelRes : ℚ) (useColor : Bool),
      (VoxelBlock.new voxelRes useColor).Clear = VoxelBlock.new voxelRes useColor) := by
  refine ⟨?_, ?_, ?_, ?_⟩
  · intro voxelRes useColor
    refine ⟨by norm_num [VoxelBlock.new, blockVolume, blockSize], ?_⟩
    intro i
    exact ⟨rfl, rfl, rfl, rfl⟩
  · intro b hb
    rw [VoxelBlock.Clear_eq, hb]
    refine ⟨rfl, rfl, rfl, ?_⟩
    intro i hi
    refine ⟨?_, ?_, ?_, ?_⟩
    · simp [hi, VoxelBlock.new]
    · simp [hi, VoxelBlock.new]
    · simp [hi, VoxelBlock.new, Vec3f.splat, Vec3f.zero]
    · intro hc
      simp [hi, hc, VoxelBlock.new, Vec3f.splat, Vec3f.zero]
  · intro b
    rw [VoxelBlock.Clear_eq b.Clear, VoxelBlock.Clear_eq b]
    simp only
    congr 1
    · funext i; by_cases h : i < b.blockVolume_ <;> simp [h]
    · funext i; by_cases h : i < b.blockVolume_ <;> simp [h]
    · funext i; by_cases h : i < b.blockVolume_ <;> simp [h]
    · funext i
      by_cases h : b.useColor_ = true ∧ i < b.blockVolume_
      · simp [h]
      · simp [h]
  · intro voxelRes useColor
    rw [VoxelBlock.Clear_eq]
    simp only [VoxelBlock.new]
    congr 1
    · funext i; simp
    · funext i; simp
    · funext i; simp [Vec3f.splat, Vec3f.zero]
    · funext i; simp [Vec3f.splat, Vec3f.zero]

/-! ## The marching loop and the frame of the integrator -/

theorem marchLoop_steps {σ : Type} (tau_ step : ℚ) (body : ℚ → σ → σ) (N : Nat) :
    ∀ (fuel : Nat) (dist : ℚ) (s : σ), N ≤ fuel →
      (∀ k : Nat, k < N → dist - k * step > -tau_) → ¬ (dist - N * step > -tau_) →
      marchLoop tau_ step body fuel dist s
        = some ((List.range N).foldl (fun st (k : Nat) => body (dist - (k : ℚ) * step) st) s) := by
  induction N with
  | zero =>
    intro fuel dist s _ _ hstop
    have h : ¬ dist > -tau_ := by simpa using hstop
    cases fuel <;> simp [marchLoop, h]
  | succ n ih =>
    intro fuel dist s hfuel hgo hstop
    obtain ⟨f, rfl⟩ : ∃ f, fuel = f + 1 := ⟨fuel - 1, by omega⟩
    have h0 : dist > -tau_ := by simpa using hgo 0 (Nat.succ_pos n)
    rw [marchLoop, if_pos h0]
    rw [ih f (dist - step) (body dist s) (by omega)
      (by
        intro k hk
        have := hgo (k + 1) (by omega)
        push_cast at this
        linarith)
      (by
        intro hcon
        apply hstop
        push_cast
        linarith)]
    congr 1
    rw [List.range_succ_eq_map, List.foldl_cons, List.foldl_map]
    simp only [Nat.cast_zero, zero_mul, sub_zero]
    congr 1
    funext st k
    congr 1
    push_cast
    ring

theorem marchCount_spec (voxelRes_ tau_ : ℚ) (hv : 0 < voxelRes_) :
    (∀ k : Nat, k < marchCount voxelRes_ tau_ →
      tau_ - (k : ℚ) * (1 / 2 * voxelRes_) > -tau_) ∧
    ¬ (tau_ - (marchCount voxelRes_ tau_ : ℚ) * (1 / 2 * voxelRes_) > -tau_) := by
  unfold marchCount
  constructor
  · intro k hk
    have hk' : (k : Int) < ⌈4 * tau_ / voxelRes_⌉ := by omega
    have hlt : (k : ℚ) < 4 * tau_ / voxelRes_ := by
      have := Int.lt_ceil.mp hk'
      simpa using this
    rw [lt_div_iff₀ hv] at hlt
    linarith
  · intro hcon
    have hle : 4 * tau_ / voxelRes_ ≤ ((⌈4 * tau_ / voxelRes_⌉.toNat : Nat) : ℚ) := by
      have h1 : 4 * tau_ / voxelRes_ ≤ ((⌈4 * tau_ / voxelRes_⌉ : Int) : ℚ) := Int.le_ceil _
      have h2 : ⌈4 * tau_ / voxelRes_⌉ ≤ ((⌈4 * tau_ / voxelRes_⌉.toNat : Nat) : Int) :=
        Int.self_le_toNat _
      have h3 : ((⌈4 * tau_ / voxelRes_⌉ : Int) : ℚ)
          ≤ (((⌈4 * tau_ / voxelRes_⌉.toNat : Nat) : Int) : ℚ) := by exact_mod_cast h2
      have h4 : (((⌈4 * tau_ / voxelRes_⌉.toNat : Nat) : Int) : ℚ)
          = ((⌈4 * tau_ / voxelRes_⌉.toNat : Nat) : ℚ) := by push_cast; rfl
      linarith
    rw [div_le_iff₀ hv] at hle
    linarith

/-- In exact arithmetic, for `voxelRes > 0` and `tau > 0` the marching loop terminates after
`ceil(4 * tau / voxelRes)` iterations: with at least that much fuel it returns, having run
its body at `dist = tau - k * (0.5 * voxelRes)` for `k = 0, 1, ..., N - 1` in this order.
Every visited `dist` is above `-tau`, and `tau - N * (0.5 * voxelRes) <= -tau`, so a
position at `dist = -tau` is not visited. -/
theorem marchLoop_terminates (voxelRes_ tau_ : ℚ) (hv : 0 < voxelRes_) (ht : 0 < tau_)
    (fuel : Nat) (hfuel : marchCount voxelRes_ tau_ ≤ fuel) :
    (∀ (σ : Type) (body : ℚ → σ → σ) (s : σ),
      marchLoop tau_ (1 / 2 * voxelRes_) body fuel tau_ s
        = some ((List.range (marchCount voxelRes_ tau_)).foldl
            (fun st (k : Nat) => body (tau_ - (k : ℚ) * (1 / 2 * voxelRes_)) st) s)) ∧
    marchLoop tau_ (1 / 2 * voxelRes_) (fun dist visited => visited ++ [dist]) fuel tau_ []
      = some ((List.range (marchCount voxelRes_ tau_)).map
          (fun (k : Nat) => tau_ - (k : ℚ) * (1 / 2 * voxelRes_))) ∧
    ((marchCount voxelRes_ tau_ : Nat) : Int) = ⌈4 * tau_ / voxelRes_⌉ ∧
    0 < marchCount voxelRes_ tau_ ∧
    (∀ k : Nat, k < marchCount voxelRes_ tau_ →
      tau_ - (k : ℚ) * (1 / 2 * voxelRes_) > -tau_) ∧
    tau_ - (marchCount voxelRes_ tau_ : ℚ) * (1 / 2 * voxelRes_) ≤ -tau_ := by
  obtain ⟨hgo, hstop⟩ := marchCount_spec voxelRes_ tau_ hv
  have hall : ∀ (σ : Type) (body : ℚ → σ → σ) (s : σ),
      marchLoop tau_ (1 / 2 * voxelRes_) body fuel tau_ s
        = some ((List.range (marchCount voxelRes_ tau_)).foldl
            (fun st (k : Nat) => body (tau_ - (k : ℚ) * (1 / 2 * voxelRes_)) st) s) :=
    fun σ body s => marchLoop_steps tau_ (1 / 2 * voxelRes_) body _ fuel tau_ s hfuel hgo hstop
  have hpos : 0 < 4 * tau_ / voxelRes_ := by positivity
  have hceil : 0 < ⌈4 * tau_ / voxelRes_⌉ := Int.ceil_pos.mpr hpos
  refine ⟨hall, ?_, ?_, ?_, hgo, not_lt.mp hstop⟩
  · rw [hall]
    congr 1
    generalize marchCount voxelRes_ tau_ = N
    induction N with
    | zero => rfl
    | succ n ih => rw [List.range_succ, List.foldl_append, ih]; simp
  · unfold marchCount
    omega
  · unfold marchCount
    omega

theorem marchLoop_terminates_witness :
    (0 : ℚ) < 1 ∧ (0 : ℚ) < 1 ∧ marchCount 1 1 ≤ 4 ∧
    marchLoop 1 (1 / 2 * 1) (fun dist visited => visited ++ [dist]) 4 1 []
      = some ((List.range (marchCount 1 1)).map (fun (k : Nat) => 1 - (k : ℚ) * (1 / 2 * 1))) :=
  have h4 : marchCount 1 1 ≤ 4 := by
    unfold marchCount
    norm_num
  ⟨by norm_num, by norm_num, h4,
    (marchLoop_terminates 1 1 (by norm_num) (by norm_num) 4 h4).2.1⟩

/-! ## The marching loop in `float` arithmetic -/

theorem log_two_eq (r : ℚ) (e : ℤ) (h1 : (2 : ℚ) ^ e ≤ r) (h2 : r < (2 : ℚ) ^ (e + 1)) :
    Int.log 2 r = e := by
  have hr : 0 < r := lt_of_lt_of_le (zpow_pos (by norm_num) e) h1
  have a1 : e ≤ Int.log 2 r := by
    rw [← Int.zpow_le_iff_le_log (by norm_num) hr]
    simpa using h1
  have a2 : Int.log 2 r < e + 1 := by
    rw [← Int.lt_zpow_iff_log_lt (by norm_num) hr]
    simpa using h2
  omega

theorem roundHalfEven_intCast (m : ℤ) : roundHalfEven (m : ℚ) = m := by
  simp [roundHalfEven]

/-- Evaluation of `roundFloat` at a value of the normal range whose binade is known. -/
theorem roundFloat_eval (q : ℚ) (e m : ℤ) (h1 : (2 : ℚ) ^ e ≤ |q|)
    (h2 : |q| < (2 : ℚ) ^ (e + 1)) (he : -126 ≤ e)
    (hm : roundHalfEven (q / 2 ^ (e - 23)) = m) :
    roundFloat q = (m : ℚ) * 2 ^ (e - 23) := by
  have hu : floatUlpExp q = e - 23 := by
    unfold floatUlpExp
    rw [log_two_eq _ e h1 h2]
    omega
  unfold roundFloat
  rw [hu, hm]

theorem roundFloat_zero : roundFloat 0 = 0 := by
  simp [roundFloat, roundHalfEven]

/-- A power of two of the normal range is a `float`. -/
theorem roundFloat_two_zpow (e : ℤ) (he : -126 ≤ e) : roundFloat ((2 : ℚ) ^ e) = 2 ^ e := by
  have hpos : (0 : ℚ) < 2 ^ e := zpow_pos (by norm_num) e
  have hq : (2 : ℚ) ^ e / 2 ^ (e - 23) = ((2 ^ 23 : ℤ) : ℚ) := by
    rw [← zpow_sub₀ (by norm_num : (2 : ℚ) ≠ 0)]
    have : e - (e - 23) = 23 := by omega
    rw [this]
    norm_num
  rw [roundFloat_eval _ e (2 ^ 23) (by rw [abs_of_pos hpos])
    (by rw [abs_of_pos hpos]; exact zpow_lt_zpow_right₀ (by norm_num) (by omega)) he
    (by rw [hq, roundHalfEven_intCast])]
  have : ((2 ^ 23 : ℤ) : ℚ) = (2 : ℚ) ^ (23 : ℤ) := by norm_num
  rw [this, ← zpow_add₀ (by norm_num : (2 : ℚ) ≠ 0)]
  congr 1
  omega

/-- The decrement of `1.0f` by `2^-31` is absorbed: the exact difference lies above the
midpoint of the two neighbouring `float` values `1 - 2^-24` and `1`. -/
theorem roundFloat_absorbs : roundFloat (1 - 1 / 2 ^ 31) = 1 := by
  have hm : roundHalfEven ((1 - 1 / 2 ^ 31 : ℚ) / 2 ^ ((-1 : ℤ) - 23)) = 2 ^ 24 := by
    have hv : ((1 - 1 / 2 ^ 31 : ℚ) / 2 ^ ((-1 : ℤ) - 23)) = 16777216 - 1 / 128 := by
      norm_num [zpow_neg]
    have hf : ⌊(16777216 - 1 / 128 : ℚ)⌋ = 16777215 := by
      rw [Int.floor_eq_iff]
      norm_num
    rw [hv]
    unfold roundHalfEven
    rw [hf]
    norm_num
  rw [roundFloat_eval _ (-1) (2 ^ 24) (by rw [abs_of_pos (by norm_num)]; norm_num [zpow_neg])
    (by rw [abs_of_pos (by norm_num)]; norm_num) (by norm_num) hm]
  norm_num [zpow_neg]

theorem roundHalfEven_near (y : ℚ) : |(roundHalfEven y : ℚ) - y| ≤ 1 / 2 := by
  have h1 : (⌊y⌋ : ℚ) ≤ y := Int.floor_le y
  have h2 : y < ⌊y⌋ + 1 := Int.lt_floor_add_one y
  unfold roundHalfEven
  rw [abs_le]
  split_ifs with a b c
  · constructor <;> linarith
  · push_cast; constructor <;> linarith
  · have : y - ⌊y⌋ = 1 / 2 := le_antisymm (not_lt.mp b) (not_lt.mp a)
    constructor <;> linarith
  · have : y - ⌊y⌋ = 1 / 2 := le_antisymm (not_lt.mp b) (not_lt.mp a)
    push_cast; constructor <;> linarith

/-- The rounding error of a `float` operation is at most half the spacing: `|q| / 2^24`
in the normal range, `2^-150` in the subnormal range. -/
theorem roundFloat_error (q : ℚ) :
    |roundFloat q - q| ≤ max (|q| / 2 ^ 24) (1 / 2 ^ 150) := by
  by_cases hq0 : q = 0
  · subst hq0
    rw [roundFloat_zero, sub_zero, abs_zero]
    exact le_trans (by norm_num) (le_max_right _ _)
  have hu : (0 : ℚ) < 2 ^ floatUlpExp q := zpow_pos (by norm_num) _
  have herr : |roundFloat q - q| ≤ 2 ^ floatUlpExp q / 2 := by
    have h := roundHalfEven_near (q / 2 ^ floatUlpExp q)
    have e : roundFloat q - q
        = ((roundHalfEven (q / 2 ^ floatUlpExp q) : ℚ) - q / 2 ^ floatUlpExp q)
          * 2 ^ floatUlpExp q := by
      unfold roundFloat
      field_simp
    rw [e, abs_mul, abs_of_pos hu]
    calc |(roundHalfEven (q / 2 ^ floatUlpExp q) : ℚ) - q / 2 ^ floatUlpExp q|
          * 2 ^ floatUlpExp q
        ≤ 1 / 2 * 2 ^ floatUlpExp q := mul_le_mul_of_nonneg_right h hu.le
      _ = 2 ^ floatUlpExp q / 2 := by ring
  by_cases hsub : Int.log 2 |q| - 23 ≤ -149
  · have hexp : floatUlpExp q = -149 := by
      unfold floatUlpExp
      omega
    rw [hexp] at herr
    refine le_trans herr (le_trans ?_ (le_max_right _ _))
    norm_num [zpow_neg]
  · have hexp : floatUlpExp q = Int.log 2 |q| - 23 := by
      unfold floatUlpExp
      omega
    have hq : 0 < |q| := abs_pos.mpr hq0
    have hlog : (2 : ℚ) ^ Int.log 2 |q| ≤ |q| := by
      have := Int.zpow_log_le_self (by norm_num : 1 < 2) hq
      simpa using this
    rw [hexp, zpow_sub₀ (by norm_num : (2 : ℚ) ≠ 0)] at herr
    refine le_trans herr (le_trans ?_ (le_max_left _ _))
    have e23 : (2 : ℚ) ^ (23 : ℤ) = 2 ^ 23 := by norm_num
    rw [e23]
    calc (2 : ℚ) ^ Int.log 2 |q| / 2 ^ 23 / 2 ≤ |q| / 2 ^ 23 / 2 := by gcongr
      _ = |q| / 2 ^ 24 := by ring

/-- When the step is not absorbed, an iteration of the `float` loop lowers `dist` by at
least half the step. -/
theorem roundFloat_descends (tau_ step dist : ℚ) (hstep : tau_ / 2 ^ 22 ≤ step)
    (hmin : 1 / 2 ^ 149 ≤ step) (hd1 : dist ≤ tau_) (hd2 : dist > -tau_) :
    roundFloat (dist - step) ≤ dist - step / 2 := by
  have hs : 0 < step := lt_of_lt_of_le (by norm_num) hmin
  have herr := roundFloat_error (dist - step)
  have habs : |dist - step| ≤ tau_ + step := by
    rw [abs_le]; constructor <;> linarith
  have hbound : max (|dist - step| / 2 ^ 24) (1 / 2 ^ 150) ≤ step / 2 := by
    apply max_le
    · have h22 : tau_ ≤ 2 ^ 22 * step := by
        rw [div_le_iff₀ (by norm_num)] at hstep
        linarith
      rw [div_le_iff₀ (by norm_num)]
      linarith
    · linarith
  have := (abs_le.mp (le_trans herr hbound)).2
  linarith

/-- The `float` loop returns when the step is not absorbed: for `step >= tau / 2^22` (and
positive, hence at least the least positive `float`) it ends within `4 * tau / step`
iterations. -/
theorem marchLoopFloat_returns {σ : Type} (tau_ step : ℚ) (body : ℚ → σ → σ)
    (hstep : tau_ / 2 ^ 22 ≤ step) (hmin : 1 / 2 ^ 149 ≤ step) :
    ∀ (fuel : Nat) (dist : ℚ) (s : σ), dist ≤ tau_ → dist + tau_ ≤ fuel * (step / 2) →
      ∃ s', marchLoopFloat tau_ step body fuel dist s = some s' := by
  intro fuel
  induction fuel with
  | zero =>
    intro dist s _ h
    have : ¬ dist > -tau_ := by
      simp only [Nat.cast_zero, zero_mul] at h
      intro h'
      linarith
    exact ⟨s, by simp [marchLoopFloat, this]⟩
  | succ n ih =>
    intro dist s hd h
    by_cases h0 : dist > -tau_
    · have hnext := roundFloat_descends tau_ step dist hstep hmin hd h0
      have hs : 0 < step := lt_of_lt_of_le (by norm_num) hmin
      obtain ⟨s', hs'⟩ := ih (roundFloat (dist - step)) (body dist s) (by linarith)
        (by push_cast at h; linarith)
      exact ⟨s', by rw [marchLoopFloat, if_pos h0]; exact hs'⟩
    · exact ⟨s, by simp [marchLoopFloat, h0]⟩

theorem marchLoopFloat_stuck {σ : Type} (tau_ step : ℚ) (body : ℚ → σ → σ) (dist : ℚ)
    (hd : dist > -tau_) (hfix : roundFloat (dist - step) = dist) :
    ∀ (fuel : Nat) (s : σ), marchLoopFloat tau_ step body fuel dist s = none := by
  intro fuel
  induction fuel with
  | zero => intro s; simp [marchLoopFloat, hd]
  | succ n ih =>
    intro s
    rw [marchLoopFloat, if_pos hd, hfix]
    exact ih _

/-- C30: the marching loop of the source, with its `float` loop variable, at
`tau_ = 1.0f` and `voxelRes_ = 2^-30` (both positive, both `float` values).  The step is
`0.5f * voxelRes_ = 2^-31`, the difference `1 - 2^-31` rounds back to `1.0f`, so `dist`
never leaves `tau_` and the test `dist > -tau_` holds at every iteration: no bound on the
number of iterations lets the loop return, whatever its body.  In exact arithmetic the
same loop ends after `ceil(4 * tau / voxelRes) = 2^32` iterations. -/
theorem marchLoopFloat_never_returns :
    roundFloat 1 = 1 ∧ roundFloat (1 / 2 ^ 30) = 1 / 2 ^ 30 ∧
    (0 : ℚ) < 1 / 2 ^ 30 ∧ (0 : ℚ) < 1 ∧
    marchStep (1 / 2 ^ 30) = 1 / 2 ^ 31 ∧
    roundFloat (1 - marchStep (1 / 2 ^ 30)) = 1 ∧
    (∀ (σ : Type) (body : ℚ → σ → σ) (fuel : Nat) (s : σ),
      marchLoopFloat 1 (marchStep (1 / 2 ^ 30)) body fuel 1 s = none) ∧
    (∀ (env : IntegratorEnv) (fuel : Nat) (org u : Vec3f) (rgb : Color3f) (volume_ : Volume),
      integrateRayFloat env (1 / 2 ^ 30) 1 fuel org u rgb volume_ = none) ∧
    marchCount (1 / 2 ^ 30) 1 = 2 ^ 32 := by
  have h1 : roundFloat 1 = 1 := by
    have := roundFloat_two_zpow 0 (by norm_num)
    simpa using this
  have h30 : roundFloat (1 / 2 ^ 30) = 1 / 2 ^ 30 := by
    have := roundFloat_two_zpow (-30) (by norm_num)
    have e : (2 : ℚ) ^ (-30 : ℤ) = 1 / 2 ^ 30 := by norm_num [zpow_neg]
    rwa [e] at this
  have hstep : marchStep (1 / 2 ^ 30) = 1 / 2 ^ 31 := by
    have := roundFloat_two_zpow (-31) (by norm_num)
    have e : (2 : ℚ) ^ (-31 : ℤ) = 1 / 2 ^ 31 := by norm_num [zpow_neg]
    rw [e] at this
    unfold marchStep
    have e2 : (1 / 2 * (1 / 2 ^ 30) : ℚ) = 1 / 2 ^ 31 := by norm_num
    rw [e2, this]
  have habs : roundFloat (1 - marchStep (1 / 2 ^ 30)) = 1 := by
    rw [hstep]; exact roundFloat_absorbs
  refine ⟨h1, h30, by norm_num, by norm_num, hstep, habs, ?_, ?_, ?_⟩
  · intro σ body fuel s
    exact marchLoopFloat_stuck 1 _ body 1 (by norm_num) habs fuel s
  · intro env fuel org u rgb volume_
    exact marchLoopFloat_stuck 1 _ _ 1 (by norm_num) habs fuel volume_
  · unfold marchCount
    norm_num
    rfl

/-- A value `m * 2^(e - 23)` with a 24-bit significand `m` and `e >= -126` is a `float`:
rounding returns it unchanged. -/
theorem roundFloat_representable (m e : ℤ) (hm1 : 2 ^ 23 ≤ |m|) (hm2 : |m| < 2 ^ 24)
    (he : -126 ≤ e) : roundFloat ((m : ℚ) * 2 ^ (e - 23)) = (m : ℚ) * 2 ^ (e - 23) := by
  have hu : (0 : ℚ) < 2 ^ (e - 23) := zpow_pos (by norm_num) _
  have habs : |(m : ℚ) * 2 ^ (e - 23)| = (|m| : ℤ) * 2 ^ (e - 23) := by
    rw [abs_mul, abs_of_pos hu, Int.cast_abs]
  have h23 : (2 : ℚ) ^ e = 2 ^ 23 * 2 ^ (e - 23) := by
    have : (2 : ℚ) ^ 23 = 2 ^ (23 : ℤ) := by norm_num
    rw [this, ← zpow_add₀ (by norm_num : (2 : ℚ) ≠ 0)]
    congr 1
    omega
  have h24 : (2 : ℚ) ^ (e + 1) = 2 ^ 24 * 2 ^ (e - 23) := by
    have : (2 : ℚ) ^ 24 = 2 ^ (24 : ℤ) := by norm_num
    rw [this, ← zpow_add₀ (by norm_num : (2 : ℚ) ≠ 0)]
    congr 1
    omega
  apply roundFloat_eval _ e m
  · rw [habs, h23]
    apply mul_le_mul_of_nonneg_right _ hu.le
    exact_mod_cast hm1
  · rw [habs, h24]
    apply mul_lt_mul_of_pos_right _ hu
    exact_mod_cast hm2
  · exact he
  · rw [mul_div_assoc, div_self hu.ne', mul_one, roundHalfEven_intCast]

/-- Where no rounding occurs the `float` loop is the exact one: at `tau_ = 1.0f` and
`voxelRes_ = 1.0f` it visits `1, 1/2, 0, -1/2` and returns. -/
theorem marchLoopFloat_unit_example :
    marchStep 1 = 1 / 2 ∧
    marchLoopFloat 1 (marchStep 1) (fun dist visited => visited ++ [dist]) 4 1 []
      = some [1, 1 / 2, 0, -(1 / 2)] ∧
    marchLoop 1 (1 / 2 * 1) (fun dist visited => visited ++ [dist]) 4 1 []
      = some [1, 1 / 2, 0, -(1 / 2)] := by
  have hhalf : roundFloat (1 / 2) = 1 / 2 := by
    have := roundFloat_two_zpow (-1) (by norm_num)
    have e : (2 : ℚ) ^ (-1 : ℤ) = 1 / 2 := by norm_num [zpow_neg]
    rwa [e] at this
  have hnhalf : roundFloat (-(1 / 2)) = -(1 / 2) := by
    have := roundFloat_representable (-(2 ^ 23)) (-1) (by norm_num) (by norm_num) (by norm_num)
    have e : (((-(2 ^ 23) : ℤ) : ℚ)) * 2 ^ ((-1 : ℤ) - 23) = -(1 / 2) := by
      norm_num [zpow_neg]
    rwa [e] at this
  have hneg : roundFloat (-1) = -1 := by
    have := roundFloat_representable (-(2 ^ 23)) 0 (by norm_num) (by norm_num) (by norm_num)
    have e : (((-(2 ^ 23) : ℤ) : ℚ)) * 2 ^ ((0 : ℤ) - 23) = -1 := by
      norm_num [zpow_neg]
    rwa [e] at this
  have hstep : marchStep 1 = 1 / 2 := by
    unfold marchStep
    rw [mul_one, hhalf]
  refine ⟨hstep, ?_, ?_⟩
  · rw [hstep]
    have e1 : (1 - 1 / 2 : ℚ) = 1 / 2 := by norm_num
    have e2 : (1 / 2 - 1 / 2 : ℚ) = 0 := by norm_num
    have e3 : (0 - 1 / 2 : ℚ) = -(1 / 2) := by norm_num
    have e4 : (-(1 / 2) - 1 / 2 : ℚ) = -1 := by norm_num
    simp only [marchLoopFloat, e1, e2, e3, e4, hhalf, hnhalf, hneg, roundFloat_zero]
    norm_num
  · norm_num [marchLoop]

theorem slotFrame_refl (o : Option VoxelBlock) : slotFrame o o := by
  cases o with
  | none => trivial
  | some b => exact ⟨rfl, rfl, rfl, rfl⟩

theorem slotFrame_trans (o1 o2 o3 : Option VoxelBlock) (h12 : slotFrame o1 o2)
    (h23 : slotFrame o2 o3) : slotFrame o1 o3 := by
  cases o1 <;> cases o2 <;> cases o3 <;> simp only [slotFrame] at h12 h23 ⊢
  obtain ⟨a1, a2, a3, a4⟩ := h12
  obtain ⟨b1, b2, b3, b4⟩ := h23
  exact ⟨b1.trans a1, b2.trans a2, b3.trans a3, b4.trans a4⟩

theorem Volume.integratorFrame_refl (v : Volume) : Volume.integratorFrame v v :=
  ⟨rfl, rfl, rfl, rfl, rfl, fun _ _ => slotFrame_refl _⟩

theorem Volume.integratorFrame_trans (v1 v2 v3 : Volume) (h12 : Volume.integratorFrame v1 v2)
    (h23 : Volume.integratorFrame v2 v3) : Volume.integratorFrame v1 v3 := by
  obtain ⟨a1, a2, a3, a4, a5, a6⟩ := h12
  obtain ⟨b1, b2, b3, b4, b5, b6⟩ := h23
  refine ⟨b1.trans a1, b2.trans a2, b3.trans a3, b4.trans a4, b5.trans a5, ?_⟩
  intro k hk
  exact slotFrame_trans _ _ _ (a6 k hk) (b6 k (by omega))

theorem Volume.integratorFrame_writeBlock (v : Volume) (id : BlockId) (blk b' : VoxelBlock)
    (hb : v.GetBlock id = some blk) (hf : VoxelBlock.sameFrame blk b') :
    Volume.integratorFrame v (v.writeBlock id b') := by
  unfold Volume.GetBlock at hb
  unfold Volume.writeBlock
  cases hfind : v.blockIds_.find id with
  | none => exact Volume.integratorFrame_refl v
  | some i =>
    rw [hfind] at hb
    have hb' : v.voxelBlocks_.getD i none = some blk := hb
    refine ⟨rfl, rfl, rfl, rfl, by simp, ?_⟩
    intro k hk
    show slotFrame (v.voxelBlocks_.getD k none) ((v.voxelBlocks_.set i (some b')).getD k none)
    by_cases hki : k = i
    · subst hki
      rw [hb', List.getD_eq_getElem?_getD, List.getElem?_set]
      simp only [hk, if_true, Option.getD_some]
      exact hf
    · rw [List.getD_eq_getElem?_getD (v.voxelBlocks_.set i (some b')),
        List.getElem?_set_ne (fun h => hki h.symm), ← List.getD_eq_getElem?_getD]
      exact slotFrame_refl _

theorem integrateSample_sameFrame (b : VoxelBlock) (offset : Nat) (w t : ℚ) (c : Color3f) :
    VoxelBlock.sameFrame b (integrateSample b offset w t c) := ⟨rfl, rfl, rfl, rfl⟩

theorem integrateAt_frame (env : IntegratorEnv) (voxelRes_ tau_ : ℚ) (org u : Vec3f)
    (rgb : Color3f) (dist : ℚ) (v : Volume) :
    Volume.integratorFrame v (integrateAt env voxelRes_ tau_ org u rgb dist v) := by
  unfold integrateAt
  simp only
  cases hb : v.GetBlock (GetId (Vec3f.sub org (Vec3f.smul dist u)) voxelRes_) with
  | none => exact Volume.integratorFrame_refl v
  | some blk =>
    exact Volume.integratorFrame_writeBlock v _ blk _ hb (integrateSample_sameFrame _ _ _ _ _)

theorem marchLoop_invariant {σ : Type} (P : σ → Prop) (tau_ step : ℚ) (body : ℚ → σ → σ)
    (hbody : ∀ d s, P s → P (body d s)) :
    ∀ (fuel : Nat) (dist : ℚ) (s s' : σ), P s → marchLoop tau_ step body fuel dist s = some s' →
      P s' := by
  intro fuel
  induction fuel with
  | zero =>
    intro dist s s' hP h
    unfold marchLoop at h
    by_cases hd : dist > -tau_
    · rw [if_pos hd] at h; exact absurd h (by simp)
    · rw [if_neg hd] at h
      exact (Option.some.inj h) ▸ hP
  | succ f ih =>
    intro dist s s' hP h
    unfold marchLoop at h
    by_cases hd : dist > -tau_
    · rw [if_pos hd] at h
      exact ih _ _ _ (hbody dist s hP) h
    · rw [if_neg hd] at h
      exact (Option.some.inj h) ▸ hP

theorem foldlM_option_invariant {α σ : Type} (P : σ → Prop) (f : σ → α → Option σ)
    (hf : ∀ s a s', P s → f s a = some s' → P s') :
    ∀ (l : List α) (s s' : σ), P s → l.foldlM f s = some s' → P s' := by
  intro l
  induction l with
  | nil =>
    intro s s' hP h
    have e : s = s' := by simpa using h
    exact e ▸ hP
  | cons a rest ih =>
    intro s s' hP h
    rw [List.foldlM_cons] at h
    cases hfa : f s a with
    | none => rw [hfa] at h; exact absurd h (by simp)
    | some s1 =>
      rw [hfa] at h
      exact ih s1 s' (hf s a s1 hP hfa) h

theorem foldlM_option_total {α σ : Type} (f : σ → α → Option σ)
    (hf : ∀ s a, ∃ s', f s a = some s') :
    ∀ (l : List α) (s : σ), ∃ s', l.foldlM f s = some s' := by
  intro l
  induction l with
  | nil => intro s; exact ⟨s, rfl⟩
  | cons a rest ih =>
    intro s
    obtain ⟨s1, h1⟩ := hf s a
    obtain ⟨s2, h2⟩ := ih s1
    exact ⟨s2, by rw [List.foldlM_cons, h1]; exact h2⟩

theorem integrateRay_frame (env : IntegratorEnv) (voxelRes_ tau_ : ℚ) (fuel : Nat)
    (org u : Vec3f) (rgb : Color3f) (v0 v v' : Volume) (h0 : Volume.integratorFrame v0 v)
    (h : integrateRay env voxelRes_ tau_ fuel org u rgb v = some v') :
    Volume.integratorFrame v0 v' :=
  marchLoop_invariant (Volume.integratorFrame v0) tau_ (1 / 2 * voxelRes_)
    (integrateAt env voxelRes_ tau_ org u rgb)
    (fun d s hs => Volume.integratorFrame_trans v0 s _ hs (integrateAt_frame _ _ _ _ _ _ d s))
    fuel tau_ v v' h0 h

theorem integrateRay_total (env : IntegratorEnv) (voxelRes_ tau_ : ℚ) (hv : 0 < voxelRes_)
    (fuel : Nat) (hfuel : marchCount voxelRes_ tau_ ≤ fuel) (org u : Vec3f) (rgb : Color3f)
    (v : Volume) : ∃ v', integrateRay env voxelRes_ tau_ fuel org u rgb v = some v' := by
  obtain ⟨hgo, hstop⟩ := marchCount_spec voxelRes_ tau_ hv
  exact ⟨_, marchLoop_steps tau_ (1 / 2 * voxelRes_) _ _ fuel tau_ v hfuel hgo hstop⟩

theorem integratePixel_frame (env : IntegratorEnv) (voxelRes_ tau_ : ℚ) (fuel : Nat)
    (opc : OrderedPointCloud) (i j : Nat) (v0 v v' : Volume)
    (h0 : Volume.integratorFrame v0 v)
    (h : integratePixel env voxelRes_ tau_ fuel opc i j v = some v') :
    Volume.integratorFrame v0 v' := by
  unfold integratePixel at h
  simp only at h
  split_ifs at h
  · exact (Option.some.inj h) ▸ h0
  · exact (Option.some.inj h) ▸ h0
  · exact (Option.some.inj h) ▸ h0
  · exact integrateRay_frame env voxelRes_ tau_ fuel _ _ _ v0 v v' h0 h

theorem integratePixel_total (env : IntegratorEnv) (voxelRes_ tau_ : ℚ) (hv : 0 < voxelRes_)
    (fuel : Nat) (hfuel : marchCount voxelRes_ tau_ ≤ fuel) (opc : OrderedPointCloud)
    (i j : Nat) (v : Volume) :
    ∃ v', integratePixel env voxelRes_ tau_ fuel opc i j v = some v' := by
  unfold integratePixel
  simp only
  split_ifs
  · exact ⟨v, rfl⟩
  · exact ⟨v, rfl⟩
  · exact ⟨v, rfl⟩
  · exact integrateRay_total env voxelRes_ tau_ hv fuel hfuel _ _ _ v

theorem Volume.integratorFrame_GetBlock (v v' : Volume) (h : Volume.integratorFrame v v')
    (id : BlockId) : slotFrame (v.GetBlock id) (v'.GetBlock id) := by
  obtain ⟨h1, _, _, _, h5, h6⟩ := h
  unfold Volume.GetBlock
  rw [h1]
  cases v.blockIds_.find id with
  | none => trivial
  | some k =>
    show slotFrame (v.voxelBlocks_.getD k none) (v'.voxelBlocks_.getD k none)
    by_cases hk : k < v.voxelBlocks_.length
    · exact h6 k hk
    · rw [List.getD_eq_getElem?_getD, List.getD_eq_getElem?_getD,
        List.getElem?_eq_none (by omega), List.getElem?_eq_none (by omega)]
      trivial

/-- C28: both variants of `IntegratePointCloud`, when they return, leave a volume within
the frame of the integrator: the map, the number of blocks, the counter and every cached
mesh are unchanged, no block appears or disappears, and in every block the gradients
and the scalars are unchanged, so that only tsdf, weight and colour slots of allocated
blocks can differ.  An iteration whose position falls in a block that `GetBlock` does
not find leaves the volume as it is.  For `voxelRes > 0` both variants return, given
fuel for the `marchCount` iterations of each ray. -/
theorem IntegratePointCloud_frame (env : IntegratorEnv) (voxelRes_ tau_ : ℚ) (fuel : Nat)
    (volume_ : Volume) (inputCloud : data_types.PointCloud) (cameraCenter : Point3f)
    (opc : OrderedPointCloud) :
    (∀ v', IntegratePointCloud env voxelRes_ tau_ fuel volume_ inputCloud cameraCenter
        = some v' → Volume.integratorFrame volume_ v') ∧
    (∀ v', IntegratePointCloudOPC env voxelRes_ tau_ fuel volume_ opc = some v' →
      Volume.integratorFrame volume_ v') ∧
    (∀ v', Volume.integratorFrame volume_ v' →
      v'.NumBlocks = volume_.NumBlocks ∧
      v'.voxelBlocks_.length = volume_.voxelBlocks_.length ∧
      v'.meshes_ = volume_.meshes_ ∧
      (∀ id, v'.GetMesh id = volume_.GetMesh id) ∧
      (∀ id, v'.GetBlock id = none ↔ volume_.GetBlock id = none) ∧
      (∀ id b b', volume_.GetBlock id = some b → v'.GetBlock id = some b' →
        b'.gradients_ = b.gradients_ ∧ b'.voxelRes_ = b.voxelRes_ ∧
        b'.blockVolume_ = b.blockVolume_ ∧ b'.useColor_ = b.useColor_)) ∧
    (∀ (org u : Vec3f) (rgb : Color3f) (dist : ℚ),
      volume_.GetBlock (GetId (Vec3f.sub org (Vec3f.smul dist u)) voxelRes_) = none →
      integrateAt env voxelRes_ tau_ org u rgb dist volume_ = volume_) ∧
    (0 < voxelRes_ → marchCount voxelRes_ tau_ ≤ fuel →
      (∃ v', IntegratePointCloud env voxelRes_ tau_ fuel volume_ inputCloud cameraCenter
        = some v') ∧
      ∃ v', IntegratePointCloudOPC env voxelRes_ tau_ fuel volume_ opc = some v') := by
  refine ⟨?_, ?_, ?_, ?_, ?_⟩
  · intro v' h
    exact foldlM_option_invariant (Volume.integratorFrame volume_) _
      (fun s i s' hs hstep => integrateRay_frame env voxelRes_ tau_ fuel _ _ _ volume_ s s'
        hs hstep)
      _ volume_ v' (Volume.integratorFrame_refl volume_) h
  · intro v' h
    exact foldlM_option_invariant (Volume.integratorFrame volume_) _
      (fun s i s' hs hrow =>
        foldlM_option_invariant (Volume.integratorFrame volume_) _
          (fun w j w' hw hpix =>
            integratePixel_frame env voxelRes_ tau_ fuel opc i j volume_ w w' hw hpix)
          _ s s' hs hrow)
      _ volume_ v' (Volume.integratorFrame_refl volume_) h
  · intro v' h
    have hg := Volume.integratorFrame_GetBlock volume_ v' h
    obtain ⟨h1, _, _, h4, h5, _⟩ := h
    refine ⟨by unfold Volume.NumBlocks; rw [h1], h5, h4, ?_, ?_, ?_⟩
    · intro id
      unfold Volume.GetMesh
      rw [h1, h4]
    · intro id
      have hs := hg id
      cases hb : volume_.GetBlock id with
      | none =>
        cases hb' : v'.GetBlock id with
        | none => simp
        | some b' => rw [hb, hb'] at hs; exact hs.elim
      | some b =>
        cases hb' : v'.GetBlock id with
        | none => rw [hb, hb'] at hs; exact hs.elim
        | some b' => simp
    · intro id b b' hb hb'
      have := hg id
      rw [hb, hb'] at this
      exact ⟨this.2.2.2, this.1, this.2.1, this.2.2.1⟩
  · intro org u rgb dist hnone
    unfold integrateAt
    simp only [hnone]
  · intro hv hfuel
    constructor
    · exact foldlM_option_total _
        (fun s i => integrateRay_total env voxelRes_ tau_ hv fuel hfuel _ _ _ s) _ volume_
    · exact foldlM_option_total _
        (fun s i => foldlM_option_total _
          (fun w j => integratePixel_total env voxelRes_ tau_ hv fuel hfuel opc i j w) _ s)
        _ volume_

/-! ## Start-up -/

/-- Counterexample for C27: started with the dataset type `fr1`, `voxelRes = 0` and
`tau = -1`, the program constructs the engine, which holds these two values. -/
theorem programStart_accepts_nonpositive :
    programStart "fr1" 0 (-1) = .ok (Fusion.new 0 (-1) 640 480) ∧
    (Fusion.new 0 (-1) 640 480).voxelRes_ = 0 ∧
    (Fusion.new 0 (-1) 640 480).tau_ = -1 := by
  refine ⟨?_, rfl, rfl⟩
  simp [programStart, getParams, KINECT_PARAMS]

/-- C27, amended: neither the constructor of the engine nor the start of the program
tests `voxelRes` or `tau`.  The constructor stores the two values it is given, whatever
their sign, over an empty volume; the start of the program fails exactly when the dataset
type is not one of `fr1`, `icl1`, `synthetic0`, and otherwise constructs the engine with
the values of the flags. -/
theorem programStart_checks_dataset_only (datasetType : String) (voxelRes tau : ℚ) :
    (∀ w h : Nat, (Fusion.new voxelRes tau w h).voxelRes_ = voxelRes ∧
      (Fusion.new voxelRes tau w h).tau_ = tau ∧
      (Fusion.new voxelRes tau w h).volume_ = Volume.new voxelRes) ∧
    ((datasetType = "fr1" ∨ datasetType = "icl1" ∨ datasetType = "synthetic0") →
      programStart datasetType voxelRes tau = .ok (Fusion.new voxelRes tau 640 480)) ∧
    (¬ (datasetType = "fr1" ∨ datasetType = "icl1" ∨ datasetType = "synthetic0") →
      programStart datasetType voxelRes tau = .error StartupError.unknownDatasetType) := by
  refine ⟨fun w h => ⟨rfl, rfl, rfl⟩, ?_, ?_⟩
  · rintro (h | h | h) <;> subst h <;> simp [programStart, getParams, KINECT_PARAMS]
  · intro h
    have h1 : ¬ datasetType = "fr1" := fun e => h (Or.inl e)
    have h2 : ¬ datasetType = "icl1" := fun e => h (Or.inr (Or.inl e))
    have h3 : ¬ datasetType = "synthetic0" := fun e => h (Or.inr (Or.inr e))
    simp [programStart, getParams, h1, h2, h3]

/-! ## Block files -/

theorem dumpFileName_example :
    dumpFileName ['.', '/'] ⟨1, 2, 3⟩
      = ['.', '/', '/', '1', '_', '2', '_', '3', '.', 'g', 'z'] := by
  have h1 : showInt 1 = ['1'] := by
    norm_num [showInt, showNat, digitChar]
  have h2 : showInt 2 = ['2'] := by
    norm_num [showInt, showNat, digitChar]
  have h3 : showInt 3 = ['3'] := by
    norm_num [showInt, showNat, digitChar]
  simp only [dumpFileName, blockEntryName, h1, h2, h3]
  rfl

/-- Evaluation for C21: with the output directory `./`, the default of the program,
`DumpAllBlocks` writes the block `(1, 2, 3)` to `.//1_2_3.gz`; `PreloadBlocks` on the same
directory splits that path on "." first, takes the empty piece before the first dot as
the stem, and fails in `std::stoi` instead of finding the id `(1, 2, 3)`. -/
theorem PreloadBlocks_dot_directory :
    oneBlockVolume.DumpAllBlocks ['.', '/']
      = [['.', '/', '/', '1', '_', '2', '_', '3', '.', 'g', 'z']] ∧
    ['.', '/'] ++ '/' :: blockEntryName ⟨1, 2, 3⟩
      = ['.', '/', '/', '1', '_', '2', '_', '3', '.', 'g', 'z'] ∧
    splitString ['.', '/', '/', '1', '_', '2', '_', '3', '.', 'g', 'z'] '.'
      = [[], ['/', '/', '1', '_', '2', '_', '3'], ['g', 'z']] ∧
    parseBlockFile ['.', '/', '/', '1', '_', '2', '_', '3', '.', 'g', 'z']
      = ParsedName.failed ∧
    (Volume.new (1 / 100)).PreloadBlocks ['.', '/']
      [['.'], ['.', '.'], blockEntryName ⟨1, 2, 3⟩] = none := by
  have hname := dumpFileName_example
  have hparse : parseBlockFile ['.', '/', '/', '1', '_', '2', '_', '3', '.', 'g', 'z']
      = ParsedName.failed := by decide
  refine ⟨?_, hname, by decide, hparse, ?_⟩
  · have e : oneBlockVolume.DumpAllBlocks ['.', '/'] = [dumpFileName ['.', '/'] ⟨1, 2, 3⟩] := by
      rfl
    rw [e, hname]
  · have e3 : ['.', '/'] ++ '/' :: blockEntryName ⟨1, 2, 3⟩
        = ['.', '/', '/', '1', '_', '2', '_', '3', '.', 'g', 'z'] := hname
    have e1 : parseBlockFile (['.', '/'] ++ '/' :: ['.']) = ParsedName.skipped := by decide
    have e2 : parseBlockFile (['.', '/'] ++ '/' :: ['.', '.']) = ParsedName.skipped := by decide
    simp only [Volume.PreloadBlocks, List.foldlM_cons, e1, e2, e3, hparse]
    rfl

theorem splitStringFrom_no_delim (delim : Char) (p : List Char) (hp : delim ∉ p) :
    ∀ piece, splitStringFrom delim p piece = [piece ++ p] := by
  induction p with
  | nil => intro piece; simp [splitStringFrom]
  | cons c rest ih =>
    intro piece
    have hc : c ≠ delim := fun h => hp (h ▸ List.mem_cons_self c rest)
    have hrest : delim ∉ rest := fun h => hp (List.mem_cons_of_mem c h)
    rw [splitStringFrom, if_neg hc, ih hrest]
    simp

theorem splitStringFrom_first (delim : Char) (p rest : List Char) (hp : delim ∉ p) :
    ∀ piece, splitStringFrom delim (p ++ delim :: rest) piece
      = (piece ++ p) :: splitStringFrom delim rest [] := by
  induction p with
  | nil => intro piece; simp [splitStringFrom]
  | cons c p' ih =>
    intro piece
    have hc : c ≠ delim := fun h => hp (h ▸ List.mem_cons_self c p')
    have hrest : delim ∉ p' := fun h => hp (List.mem_cons_of_mem c h)
    rw [List.cons_append, splitStringFrom, if_neg hc, ih hrest]
    simp

theorem splitStringFrom_ne_nil (delim : Char) (s : List Char) :
    ∀ piece, splitStringFrom delim s piece ≠ [] := by
  induction s with
  | nil => intro piece; simp [splitStringFrom]
  | cons c rest ih =>
    intro piece
    rw [splitStringFrom]
    split
    · simp
    · exact ih _

theorem splitStringFrom_last (delim : Char) (name : List Char) (hn : delim ∉ name)
    (pre : List Char) :
    ∀ piece, (splitStringFrom delim (pre ++ delim :: name) piece).getLastD [] = name := by
  induction pre with
  | nil =>
    intro piece
    rw [List.nil_append, splitStringFrom, if_pos rfl, splitStringFrom_no_delim delim name hn]
    simp
  | cons c pre' ih =>
    intro piece
    rw [List.cons_append, splitStringFrom]
    split
    · have hne := splitStringFrom_ne_nil delim (pre' ++ delim :: name) []
      obtain ⟨a, l, hl⟩ := List.exists_cons_of_ne_nil hne
      have h := ih []
      rw [hl] at h ⊢
      simpa [List.getLastD] using h
    · exact ih _

theorem digitChar_facts (d : Nat) (h : d < 10) :
    (digitChar d).isDigit = true ∧ (digitChar d).toNat - 48 = d := by
  unfold digitChar
  interval_cases d <;> exact ⟨by decide, by decide⟩

theorem isDigit_ne (c : Char) (h : c.isDigit = true) :
    c ≠ '.' ∧ c ≠ '/' ∧ c ≠ '_' ∧ c ≠ '-' ∧ c ≠ '+' ∧ isspace c = false := by
  have hval : 48 ≤ c.toNat ∧ c.toNat ≤ 57 := by
    have h' : (c.val ≥ 48 && c.val ≤ 57) = true := h
    simp only [Bool.and_eq_true, decide_eq_true_eq, ge_iff_le] at h'
    obtain ⟨h1, h2⟩ := h'
    have e1 : (48 : UInt32).toNat ≤ c.val.toNat := h1
    have e2 : c.val.toNat ≤ (57 : UInt32).toNat := h2
    exact ⟨e1, e2⟩
  refine ⟨?_, ?_, ?_, ?_, ?_, ?_⟩
  · rintro rfl; exact absurd hval.1 (by decide)
  · rintro rfl; exact absurd hval.1 (by decide)
  · rintro rfl; exact absurd hval.2 (by decide)
  · rintro rfl; exact absurd hval.1 (by decide)
  · rintro rfl; exact absurd hval.1 (by decide)
  · unfold isspace
    have h1 : ¬ c.toNat = 32 := by omega
    have h2 : ¬ c.toNat ≤ 13 := by omega
    simp [h1, h2]

theorem showNat_digits (n : Nat) : ∀ c ∈ showNat n, c.isDigit = true := by
  intro c hc
  unfold showNat at hc
  by_cases h0 : n = 0
  · rw [if_pos h0, List.mem_singleton] at hc
    rw [hc]; exact (digitChar_facts 0 (by decide)).1
  · rw [if_neg h0, List.mem_map] at hc
    obtain ⟨d, hd, rfl⟩ := hc
    exact (digitChar_facts d (Nat.digits_lt_base (by decide) (List.mem_reverse.mp hd))).1

theorem showNat_ne_nil (n : Nat) : showNat n ≠ [] := by
  unfold showNat
  by_cases h0 : n = 0
  · rw [if_pos h0]; simp
  · rw [if_neg h0]
    intro h
    have : Nat.digits 10 n = [] := by simpa using h
    exact (Nat.digits_ne_nil_iff_ne_zero.mpr h0) this

theorem digits_value (L : List Nat) (hL : ∀ d ∈ L, d < 10) :
    (L.reverse.map digitChar).foldl (fun acc c => 10 * acc + (c.toNat - 48)) 0
      = Nat.ofDigits 10 L := by
  induction L with
  | nil => simp
  | cons d L' ih =>
    rw [List.reverse_cons, List.map_append, List.foldl_append,
      ih (fun x hx => hL x (List.mem_cons_of_mem d hx)), Nat.ofDigits_cons]
    simp only [List.map_cons, List.map_nil, List.foldl_cons, List.foldl_nil]
    rw [(digitChar_facts d (hL d (List.mem_cons_self d L'))).2]
    ring

theorem showNat_value (n : Nat) :
    (showNat n).foldl (fun acc c => 10 * acc + (c.toNat - 48)) 0 = n := by
  unfold showNat
  by_cases h0 : n = 0
  · rw [if_pos h0, h0]
    simp only [List.foldl_cons, List.foldl_nil]
    rw [(digitChar_facts 0 (by decide)).2]
  · rw [if_neg h0, digits_value _ (fun d hd => Nat.digits_lt_base (by decide) hd),
      Nat.ofDigits_digits]

theorem showInt_chars (x : Int) : ∀ c ∈ showInt x, c = '-' ∨ c.isDigit = true := by
  intro c hc
  unfold showInt at hc
  split at hc
  · rcases List.mem_cons.mp hc with h | h
    · exact Or.inl h
    · exact Or.inr (showNat_digits _ c h)
  · exact Or.inr (showNat_digits _ c hc)

theorem stoi_showInt (x : Int) (hlo : -2147483648 ≤ x) (hhi : x ≤ 2147483647) :
    stoi (showInt x) = some x := by
  obtain ⟨c0, rest, hshow⟩ := List.exists_cons_of_ne_nil (showNat_ne_nil x.natAbs)
  have hc0 : c0.isDigit = true :=
    showNat_digits x.natAbs c0 (by rw [hshow]; exact List.mem_cons_self c0 rest)
  have hall : ∀ c ∈ showNat x.natAbs, c.isDigit = true := showNat_digits x.natAbs
  have htake : (showNat x.natAbs).takeWhile Char.isDigit = showNat x.natAbs :=
    List.takeWhile_eq_self_iff.mpr hall
  obtain ⟨_, _, _, hminus, hplus, hsp⟩ := isDigit_ne c0 hc0
  have hval := showNat_value x.natAbs
  unfold stoi showInt
  by_cases hneg : x < 0
  · rw [if_pos hneg]
    have hsp' : isspace '-' = false := by decide
    have hdrop : List.dropWhile isspace ('-' :: showNat x.natAbs) = '-' :: showNat x.natAbs := by
      rw [List.dropWhile_cons, hsp']; rfl
    simp only [hdrop, List.head?_cons, List.tail_cons, beq_self_eq_true, Bool.true_or, if_true,
      htake, hval]
    rw [if_neg (showNat_ne_nil _)]
    have e : -((x.natAbs : Nat) : Int) = x := by omega
    rw [e, if_neg (by omega)]
  · rw [if_neg hneg]
    have hdrop : List.dropWhile isspace (showNat x.natAbs) = showNat x.natAbs := by
      rw [hshow, List.dropWhile_cons, hsp]; rfl
    have h1 : (some c0 == some '-') = false := by
      simp [hminus]
    have h2 : (some c0 == some '+') = false := by
      simp [hplus]
    have hhead : (showNat x.natAbs).head? = some c0 := by rw [hshow]; rfl
    simp only [hdrop, hhead, h1, h2, Bool.or_self, Bool.false_eq_true, if_false, htake, hval]
    rw [if_neg (showNat_ne_nil _)]
    have e : ((x.natAbs : Nat) : Int) = x := by omega
    rw [e, if_neg (by omega)]

theorem showInt_no (x : Int) :
    '.' ∉ showInt x ∧ '/' ∉ showInt x ∧ '_' ∉ showInt x := by
  have key : ∀ d : Char, d ≠ '-' → (∀ c : Char, c.isDigit = true → c ≠ d) → d ∉ showInt x := by
    intro d hd hdig hmem
    rcases showInt_chars x d hmem with h | h
    · exact hd h
    · exact hdig d h rfl
  exact ⟨key '.' (by decide) (fun c hc => (isDigit_ne c hc).1),
    key '/' (by decide) (fun c hc => (isDigit_ne c hc).2.1),
    key '_' (by decide) (fun c hc => (isDigit_ne c hc).2.2.1)⟩

/-- For a directory path without a dot, the path that `DumpAllBlocks` writes for a block
parses back to the id of the block. -/
theorem parseBlockFile_dumpFileName (dir : List Char) (id : BlockId) (hdot : '.' ∉ dir)
    (hx : -2147483648 ≤ id.x ∧ id.x ≤ 2147483647)
    (hy : -2147483648 ≤ id.y ∧ id.y ≤ 2147483647)
    (hz : -2147483648 ≤ id.z ∧ id.z ≤ 2147483647) :
    parseBlockFile (dumpFileName dir id) = ParsedName.parsed id := by
  obtain ⟨hx1, hx2, hx3⟩ := showInt_no id.x
  obtain ⟨hy1, hy2, hy3⟩ := showInt_no id.y
  obtain ⟨hz1, hz2, hz3⟩ := showInt_no id.z
  have hpath : dumpFileName dir id
      = (dir ++ '/' :: (showInt id.x ++ '_' :: (showInt id.y ++ '_' :: showInt id.z)))
        ++ '.' :: ['g', 'z'] := by
    simp [dumpFileName, blockEntryName, List.append_assoc]
  have hstem : '.' ∉ dir ++ '/' :: (showInt id.x ++ '_' :: (showInt id.y ++ '_' :: showInt id.z)) := by
    simp only [List.mem_append, List.mem_cons, not_or]
    exact ⟨hdot, by decide, hx1, by decide, hy1, by decide, hz1⟩
  have hname : '/' ∉ showInt id.x ++ '_' :: (showInt id.y ++ '_' :: showInt id.z) := by
    simp only [List.mem_append, List.mem_cons, not_or]
    exact ⟨hx2, by decide, hy2, by decide, hz2⟩
  have hgz : splitStringFrom '.' ['g', 'z'] [] = [['g', 'z']] := by decide
  have hsplit3 : splitStringFrom '_'
      (showInt id.x ++ '_' :: (showInt id.y ++ '_' :: showInt id.z)) []
      = [showInt id.x, showInt id.y, showInt id.z] := by
    rw [splitStringFrom_first '_' _ _ hx3, splitStringFrom_first '_' _ _ hy3,
      splitStringFrom_no_delim '_' _ hz3]
    simp
  unfold parseBlockFile splitString
  simp only [hpath]
  rw [splitStringFrom_first '.' _ _ hstem, hgz]
  simp only [List.nil_append, List.getLastD_cons, List.getLastD_nil, List.headD_cons,
    ne_eq, not_true_eq_false, if_false]
  rw [splitStringFrom_last '/' _ hname dir [], hsplit3]
  simp only [List.getElem?_cons_zero, List.getElem?_cons_succ,
    stoi_showInt id.x hx.1 hx.2, stoi_showInt id.y hy.1 hy.2, stoi_showInt id.z hz.1 hz.2]

/-! ## The walk of `RaycastVoxels`, emplace by emplace -/

theorem inc_abs_le (d : Int) : |inc d| ≤ 1 := by
  unfold inc
  split_ifs <;> simp

theorem inc_mul_abs (d : Int) : inc d * |d| = d := by
  unfold inc
  split_ifs with h0 h1
  · simp [h0]
  · rw [abs_of_neg h1]; ring
  · rw [abs_of_pos (by omega)]; ring

/-- A loop whose body emplaces the current id and updates the id and the error terms
without reading the set: the set after `n` iterations is the initial set with the ids at
the head of the iterations `0, ..., n - 1`. -/
theorem raycast_loop_found (step : RaycastState → RaycastState)
    (hstep : ∀ id e1 e2 F, step ⟨id, e1, e2, F⟩
      = ⟨(step ⟨id, e1, e2, ∅⟩).id, (step ⟨id, e1, e2, ∅⟩).err1, (step ⟨id, e1, e2, ∅⟩).err2,
        insert id F⟩)
    (a : Index3d) (e1 e2 : Int) (S : Finset Index3d) (n : Nat) :
    forLoop n (fun _ => step) ⟨a, e1, e2, S⟩
      = ⟨(forLoop n (fun _ => step) ⟨a, e1, e2, ∅⟩).id,
        (forLoop n (fun _ => step) ⟨a, e1, e2, ∅⟩).err1,
        (forLoop n (fun _ => step) ⟨a, e1, e2, ∅⟩).err2,
        S ∪ (Finset.range n).image (fun i => (forLoop i (fun _ => step) ⟨a, e1, e2, ∅⟩).id)⟩ := by
  induction n with
  | zero => simp [forLoop]
  | succ k ih =>
    have hT : step (forLoop k (fun _ => step) ⟨a, e1, e2, ∅⟩)
        = ⟨(step ⟨(forLoop k (fun _ => step) ⟨a, e1, e2, ∅⟩).id,
              (forLoop k (fun _ => step) ⟨a, e1, e2, ∅⟩).err1,
              (forLoop k (fun _ => step) ⟨a, e1, e2, ∅⟩).err2, ∅⟩).id,
            (step ⟨(forLoop k (fun _ => step) ⟨a, e1, e2, ∅⟩).id,
              (forLoop k (fun _ => step) ⟨a, e1, e2, ∅⟩).err1,
              (forLoop k (fun _ => step) ⟨a, e1, e2, ∅⟩).err2, ∅⟩).err1,
            (step ⟨(forLoop k (fun _ => step) ⟨a, e1, e2, ∅⟩).id,
              (forLoop k (fun _ => step) ⟨a, e1, e2, ∅⟩).err1,
              (forLoop k (fun _ => step) ⟨a, e1, e2, ∅⟩).err2, ∅⟩).err2,
            insert (forLoop k (fun _ => step) ⟨a, e1, e2, ∅⟩).id
              (forLoop k (fun _ => step) ⟨a, e1, e2, ∅⟩).foundIds⟩ :=
      hstep _ _ _ _
    rw [forLoop_succ, ih, hstep, forLoop_succ, hT, Finset.range_succ, Finset.image_insert,
      Finset.union_insert]

theorem raycastStepX_found (incX incY incZ dx2 dy2 dz2 : Int) (id : Index3d) (e1 e2 : Int)
    (F : Finset Index3d) :
    raycastStepX incX incY incZ dx2 dy2 dz2 ⟨id, e1, e2, F⟩
      = ⟨(raycastStepX incX incY incZ dx2 dy2 dz2 ⟨id, e1, e2, ∅⟩).id,
        (raycastStepX incX incY incZ dx2 dy2 dz2 ⟨id, e1, e2, ∅⟩).err1,
        (raycastStepX incX incY incZ dx2 dy2 dz2 ⟨id, e1, e2, ∅⟩).err2, insert id F⟩ := rfl

theorem raycastStepY_found (incX incY incZ dx2 dy2 dz2 : Int) (id : Index3d) (e1 e2 : Int)
    (F : Finset Index3d) :
    raycastStepY incX incY incZ dx2 dy2 dz2 ⟨id, e1, e2, F⟩
      = ⟨(raycastStepY incX incY incZ dx2 dy2 dz2 ⟨id, e1, e2, ∅⟩).id,
        (raycastStepY incX incY incZ dx2 dy2 dz2 ⟨id, e1, e2, ∅⟩).err1,
        (raycastStepY incX incY incZ dx2 dy2 dz2 ⟨id, e1, e2, ∅⟩).err2, insert id F⟩ := rfl

theorem raycastStepZ_found (incX incY incZ dx2 dy2 dz2 : Int) (id : Index3d) (e1 e2 : Int)
    (F : Finset Index3d) :
    raycastStepZ incX incY incZ dx2 dy2 dz2 ⟨id, e1, e2, F⟩
      = ⟨(raycastStepZ incX incY incZ dx2 dy2 dz2 ⟨id, e1, e2, ∅⟩).id,
        (raycastStepZ incX incY incZ dx2 dy2 dz2 ⟨id, e1, e2, ∅⟩).err1,
        (raycastStepZ incX incY incZ dx2 dy2 dz2 ⟨id, e1, e2, ∅⟩).err2, insert id F⟩ := rfl

/-- The set that `RaycastVoxels` returns is the set it was given with the ids of its
`L + 2` calls of `emplace`. -/
theorem RaycastVoxels_eq_emitted (a b : Index3d) (S : Finset Index3d) :
    RaycastVoxels a b S
      = S ∪ (Finset.range (raycastLength a b + 2)).image (raycastEmitted a b) := by
  have hx : |b.x - a.x| ≥ |b.y - a.y| ∧ |b.x - a.x| ≥ |b.z - a.z| →
      raycastLength a b = |b.x - a.x|.toNat := by
    intro h
    unfold raycastLength
    rw [max_eq_left (max_le h.1 h.2)]
  have hy : |b.y - a.y| ≥ |b.x - a.x| ∧ |b.y - a.y| ≥ |b.z - a.z| →
      raycastLength a b = |b.y - a.y|.toNat := by
    intro h
    unfold raycastLength
    rw [max_eq_right (le_trans h.1 (le_max_left _ _)), max_eq_left h.2]
  have hz : ¬ (|b.x - a.x| ≥ |b.y - a.y| ∧ |b.x - a.x| ≥ |b.z - a.z|) →
      ¬ (|b.y - a.y| ≥ |b.x - a.x| ∧ |b.y - a.y| ≥ |b.z - a.z|) →
      raycastLength a b = |b.z - a.z|.toNat := by
    intro h1 h2
    unfold raycastLength
    have h3 : |b.x - a.x| ≤ |b.z - a.z| ∧ |b.y - a.y| ≤ |b.z - a.z| := by omega
    rw [max_eq_right (le_trans h3.1 (le_max_right _ _)), max_eq_right h3.2]
  have hfin : ∀ (n : Nat) (f : Nat → Index3d),
      insert (f (n + 1)) (S ∪ (Finset.range (n + 1)).image f)
        = S ∪ (Finset.range (n + 2)).image f := by
    intro n f
    rw [Finset.range_succ (n := n + 1), Finset.image_insert, Finset.union_insert]
  unfold RaycastVoxels raycastEmitted raycastState
  simp only []
  by_cases h1 : |b.x - a.x| ≥ |b.y - a.y| ∧ |b.x - a.x| ≥ |b.z - a.z|
  · simp only [if_pos h1, hx h1]
    rw [raycast_loop_found _ (raycastStepX_found _ _ _ _ _ _)]
    exact hfin _ _
  · by_cases h2 : |b.y - a.y| ≥ |b.x - a.x| ∧ |b.y - a.y| ≥ |b.z - a.z|
    · simp only [if_neg h1, if_pos h2, hy h2]
      rw [raycast_loop_found _ (raycastStepY_found _ _ _ _ _ _)]
      exact hfin _ _
    · simp only [if_neg h1, if_neg h2, hz h1 h2]
      rw [raycast_loop_found _ (raycastStepZ_found _ _ _ _ _ _)]
      exact hfin _ _

theorem raycast_loopX_driver (incX incY incZ dx2 dy2 dz2 : Int) (s : RaycastState) (i : Nat) :
    (forLoop i (fun _ => raycastStepX incX incY incZ dx2 dy2 dz2) s).id.x
      = s.id.x + i * incX := by
  induction i with
  | zero => simp [forLoop]
  | succ k ih =>
    rw [forLoop_succ]
    show (forLoop k (fun _ => raycastStepX incX incY incZ dx2 dy2 dz2) s).id.x + incX = _
    rw [ih]; push_cast; ring

theorem raycast_loopY_driver (incX incY incZ dx2 dy2 dz2 : Int) (s : RaycastState) (i : Nat) :
    (forLoop i (fun _ => raycastStepY incX incY incZ dx2 dy2 dz2) s).id.y
      = s.id.y + i * incY := by
  induction i with
  | zero => simp [forLoop]
  | succ k ih =>
    rw [forLoop_succ]
    show (forLoop k (fun _ => raycastStepY incX incY incZ dx2 dy2 dz2) s).id.y + incY = _
    rw [ih]; push_cast; ring

theorem raycast_loopZ_driver (incX incY incZ dx2 dy2 dz2 : Int) (s : RaycastState) (i : Nat) :
    (forLoop i (fun _ => raycastStepZ incX incY incZ dx2 dy2 dz2) s).id.z
      = s.id.z + i * incZ := by
  induction i with
  | zero => simp [forLoop]
  | succ k ih =>
    rw [forLoop_succ]
    show (forLoop k (fun _ => raycastStepZ incX incY incZ dx2 dy2 dz2) s).id.z + incZ = _
    rw [ih]; push_cast; ring

/-- One iteration moves the current id by at most one unit along every axis. -/
theorem raycastStep_unit (incX incY incZ dx2 dy2 dz2 : Int) (hx : |incX| ≤ 1) (hy : |incY| ≤ 1)
    (hz : |incZ| ≤ 1) (s : RaycastState) (ax : Axis) :
    |(raycastStepX incX incY incZ dx2 dy2 dz2 s).id.coord ax - s.id.coord ax| ≤ 1 ∧
    |(raycastStepY incX incY incZ dx2 dy2 dz2 s).id.coord ax - s.id.coord ax| ≤ 1 ∧
    |(raycastStepZ incX incY incZ dx2 dy2 dz2 s).id.coord ax - s.id.coord ax| ≤ 1 := by
  rw [abs_le] at hx hy hz
  cases ax <;>
    simp only [raycastStepX, raycastStepY, raycastStepZ, Index3d.coord] <;>
    refine ⟨?_, ?_, ?_⟩ <;> rw [abs_le] <;> (try split_ifs) <;> omega

/-- The axis that `RaycastVoxels` drives has the greatest absolute delta. -/
theorem raycastDriver_abs (a b : Index3d) :
    |b.coord (raycastDriver a b) - a.coord (raycastDriver a b)|
      = max |b.x - a.x| (max |b.y - a.y| |b.z - a.z|) := by
  unfold raycastDriver
  simp only []
  by_cases h1 : |b.x - a.x| ≥ |b.y - a.y| ∧ |b.x - a.x| ≥ |b.z - a.z|
  · rw [if_pos h1, max_eq_left (max_le h1.1 h1.2)]; rfl
  · by_cases h2 : |b.y - a.y| ≥ |b.x - a.x| ∧ |b.y - a.y| ≥ |b.z - a.z|
    · rw [if_neg h1, if_pos h2, max_eq_right (le_trans h2.1 (le_max_left _ _)),
        max_eq_left h2.2]; rfl
    · have h3 : |b.x - a.x| ≤ |b.z - a.z| ∧ |b.y - a.y| ≤ |b.z - a.z| := by omega
      rw [if_neg h1, if_neg h2, max_eq_right (le_trans h3.1 (le_max_right _ _)),
        max_eq_right h3.2]; rfl

theorem raycastLength_cast (a b : Index3d) :
    ((raycastLength a b : Nat) : Int) = max |b.x - a.x| (max |b.y - a.y| |b.z - a.z|) := by
  unfold raycastLength
  exact Int.toNat_of_nonneg (le_trans (abs_nonneg _) (le_max_left _ _))

/-- The driver coordinate advances by its unit increment at every `emplace`. -/
theorem raycastEmitted_driver (a b : Index3d) (i : Nat) :
    (raycastEmitted a b i).coord (raycastDriver a b)
      = a.coord (raycastDriver a b)
        + i * inc (b.coord (raycastDriver a b) - a.coord (raycastDriver a b)) := by
  unfold raycastEmitted raycastState raycastDriver
  simp only []
  by_cases h1 : |b.x - a.x| ≥ |b.y - a.y| ∧ |b.x - a.x| ≥ |b.z - a.z|
  · simp only [if_pos h1, Index3d.coord]
    exact raycast_loopX_driver _ _ _ _ _ _ _ i
  · by_cases h2 : |b.y - a.y| ≥ |b.x - a.x| ∧ |b.y - a.y| ≥ |b.z - a.z|
    · simp only [if_neg h1, if_pos h2, Index3d.coord]
      exact raycast_loopY_driver _ _ _ _ _ _ _ i
    · simp only [if_neg h1, if_neg h2, Index3d.coord]
      exact raycast_loopZ_driver _ _ _ _ _ _ _ i

/-- C31: in `RaycastVoxels(a, b, S)` the driver axis is an axis of greatest `|delta|`,
of absolute delta `L = max(|dx|, |dy|, |dz|)`; the call makes `L + 2` calls of `emplace`
(`L + 1` in its loop and one after it) and returns `S` with the ids they pass; the id of
call number `i` has the driver coordinate `a.driver + i * sign(delta.driver)`;
consecutive emitted ids differ by at most 1 in every coordinate; so at most `L + 2`
distinct ids are added. -/
theorem RaycastVoxels_driver_walk (a b : Index3d) (S : Finset Index3d) :
    |b.coord (raycastDriver a b) - a.coord (raycastDriver a b)|
        = max |b.x - a.x| (max |b.y - a.y| |b.z - a.z|) ∧
      ((raycastLength a b : Nat) : Int) = max |b.x - a.x| (max |b.y - a.y| |b.z - a.z|) ∧
      RaycastVoxels a b S
        = S ∪ (Finset.range (raycastLength a b + 2)).image (raycastEmitted a b) ∧
      raycastEmitted a b 0 = a ∧
      (∀ i : Nat, (raycastEmitted a b i).coord (raycastDriver a b)
        = a.coord (raycastDriver a b)
          + i * inc (b.coord (raycastDriver a b) - a.coord (raycastDriver a b))) ∧
      (∀ (i : Nat) (ax : Axis),
        |(raycastEmitted a b (i + 1)).coord ax - (raycastEmitted a b i).coord ax| ≤ 1) ∧
      (RaycastVoxels a b S \ S).card ≤ raycastLength a b + 2 ∧
      (RaycastVoxels a b ∅).card ≤ raycastLength a b + 2 := by
  have hcard : ∀ T : Finset Index3d,
      ((T ∪ (Finset.range (raycastLength a b + 2)).image (raycastEmitted a b)) \ T).card
        ≤ raycastLength a b + 2 := by
    intro T
    calc ((T ∪ (Finset.range (raycastLength a b + 2)).image (raycastEmitted a b)) \ T).card
        ≤ ((Finset.range (raycastLength a b + 2)).image (raycastEmitted a b)).card := by
          apply Finset.card_le_card
          intro c hc
          simp only [Finset.mem_sdiff, Finset.mem_union] at hc
          tauto
      _ ≤ (Finset.range (raycastLength a b + 2)).card := Finset.card_image_le
      _ = raycastLength a b + 2 := Finset.card_range _
  refine ⟨raycastDriver_abs a b, raycastLength_cast a b, RaycastVoxels_eq_emitted a b S, ?_,
    raycastEmitted_driver a b, ?_, ?_, ?_⟩
  · unfold raycastEmitted raycastState
    simp only []
    split_ifs <;> rfl
  · intro i ax
    unfold raycastEmitted raycastState
    simp only []
    split_ifs
    · rw [forLoop_succ]
      exact (raycastStep_unit _ _ _ _ _ _ (inc_abs_le _) (inc_abs_le _) (inc_abs_le _) _ ax).1
    · rw [forLoop_succ]
      exact (raycastStep_unit _ _ _ _ _ _ (inc_abs_le _) (inc_abs_le _) (inc_abs_le _) _ ax).2.1
    · rw [forLoop_succ]
      exact (raycastStep_unit _ _ _ _ _ _ (inc_abs_le _) (inc_abs_le _) (inc_abs_le _) _ ax).2.2
  · rw [RaycastVoxels_eq_emitted]
    exact hcard S
  · have h := hcard ∅
    rw [RaycastVoxels_eq_emitted]
    simpa using h

/-- For distinct endpoints the id emplaced after the loop lies one step past `maxId`
along the driver axis, outside the box of the endpoints. -/
theorem RaycastVoxels_overshoot (a b : Index3d) (S : Finset Index3d) (hab : a ≠ b) :
    raycastEmitted a b (raycastLength a b + 1) ∈ RaycastVoxels a b S ∧
      ¬ inBox a b (raycastEmitted a b (raycastLength a b + 1)) := by
  constructor
  · rw [RaycastVoxels_eq_emitted]
    apply Finset.mem_union_right
    exact Finset.mem_image_of_mem _ (Finset.mem_range.mpr (by omega))
  · have hd := raycastEmitted_driver a b (raycastLength a b + 1)
    have habs := raycastDriver_abs a b
    have hlen := raycastLength_cast a b
    have hpos : 0 < max |b.x - a.x| (max |b.y - a.y| |b.z - a.z|) := by
      by_contra hle
      have h0 : max |b.x - a.x| (max |b.y - a.y| |b.z - a.z|) ≤ 0 := not_lt.mp hle
      have hx : |b.x - a.x| ≤ 0 := le_trans (le_max_left _ _) h0
      have hy : |b.y - a.y| ≤ 0 := le_trans (le_trans (le_max_left _ _) (le_max_right _ _)) h0
      have hz : |b.z - a.z| ≤ 0 := le_trans (le_trans (le_max_right _ _) (le_max_right _ _)) h0
      have ex : b.x - a.x = 0 := abs_eq_zero.mp (le_antisymm hx (abs_nonneg _))
      have ey : b.y - a.y = 0 := abs_eq_zero.mp (le_antisymm hy (abs_nonneg _))
      have ez : b.z - a.z = 0 := abs_eq_zero.mp (le_antisymm hz (abs_nonneg _))
      apply hab
      cases a; cases b
      simp only [Index3d.mk.injEq] at ex ey ez ⊢
      omega
    rw [← hlen] at habs hpos
    intro hbox
    unfold inBox at hbox
    generalize raycastEmitted a b (raycastLength a b + 1) = c at hd hbox
    generalize raycastLength a b = L at hd habs hpos
    have hL : (1 : Int) ≤ (L : Int) := by omega
    unfold inc at hd
    cases hdr : raycastDriver a b <;> rw [hdr] at hd habs <;>
      simp only [Index3d.coord] at hd habs <;>
      rcases abs_cases (b.x - a.x) with ⟨e, _⟩ | ⟨e, _⟩ <;>
      rcases abs_cases (b.y - a.y) with ⟨e2, _⟩ | ⟨e2, _⟩ <;>
      rcases abs_cases (b.z - a.z) with ⟨e3, _⟩ | ⟨e3, _⟩ <;>
      simp only [e, e2, e3] at habs <;> simp only [min_le_iff, le_max_iff] at hbox <;>
      split_ifs at hd <;> push_cast at hd <;> omega

/-- Evaluation for C35: `RaycastVoxels((0,0,0), (1,0,0))` emits `(2,0,0)`, one step past
`maxId`: the loop runs for `i <= l` and the id reached after it is emplaced as well.
`RaycastVoxels((0,0,0), (2,0,1))` emits `(2,0,2)` inside its loop, because `dz2` is
`dz << 2`.  Neither id lies in the box spanned by the endpoints. -/
theorem RaycastVoxels_leaves_box :
    RaycastVoxels ⟨0, 0, 0⟩ ⟨1, 0, 0⟩ ∅ = {⟨0, 0, 0⟩, ⟨1, 0, 0⟩, ⟨2, 0, 0⟩} ∧
    ¬ inBox ⟨0, 0, 0⟩ ⟨1, 0, 0⟩ ⟨2, 0, 0⟩ ∧
    (⟨2, 0, 2⟩ : Index3d) ∈ RaycastVoxels ⟨0, 0, 0⟩ ⟨2, 0, 1⟩ ∅ ∧
    ¬ inBox ⟨0, 0, 0⟩ ⟨2, 0, 1⟩ ⟨2, 0, 2⟩ := by
  decide

/-- Evaluation for C36: for `a = (0,0,0)`, `b = (2,1,0)`, where `|dx| = 2` exceeds
`|dy| = 1` and `|dz| = 0`, the walk emits `(0,0,0), (1,0,0), (2,1,0), (3,1,0)`; with the
y and z components of the endpoints exchanged it emits `(0,0,0), (1,0,1), (2,0,2),
(3,0,3)`, which is not the first set with y and z exchanged: `dy2` is `dy << 1` and `dz2`
is `dz << 2`. -/
theorem RaycastVoxels_yz_asymmetric :
    RaycastVoxels ⟨0, 0, 0⟩ ⟨2, 1, 0⟩ ∅ = {⟨0, 0, 0⟩, ⟨1, 0, 0⟩, ⟨2, 1, 0⟩, ⟨3, 1, 0⟩} ∧
    RaycastVoxels (swapYZ ⟨0, 0, 0⟩) (swapYZ ⟨2, 1, 0⟩) ∅
      = {⟨0, 0, 0⟩, ⟨1, 0, 1⟩, ⟨2, 0, 2⟩, ⟨3, 0, 3⟩} ∧
    RaycastVoxels (swapYZ ⟨0, 0, 0⟩) (swapYZ ⟨2, 1, 0⟩) ∅
      ≠ (RaycastVoxels ⟨0, 0, 0⟩ ⟨2, 1, 0⟩ ∅).image swapYZ := by
  decide

/-! ## The cells of the padded buffer that the gradient loops read -/

theorem stencilCell_iff_paddedCell (p q r : Nat) : stencilCell p q r ↔ paddedCell p q r := by
  unfold stencilCell paddedCell blockSize
  constructor
  · rintro ⟨i, j, k, hi, hj, hk, h⟩
    omega
  · rintro ⟨hp, hq, hr, h⟩
    rcases h with h | h | h
    · by_cases h0 : p ≤ 15
      · refine ⟨p + 1, q, r, ?_, ?_, ?_, ?_⟩ <;> omega
      · refine ⟨p - 1, q, r, ?_, ?_, ?_, ?_⟩ <;> omega
    · by_cases h0 : q ≤ 15
      · refine ⟨p, q + 1, r, ?_, ?_, ?_, ?_⟩ <;> omega
      · refine ⟨p, q - 1, r, ?_, ?_, ?_, ?_⟩ <;> omega
    · by_cases h0 : r ≤ 15
      · refine ⟨p, q, r + 1, ?_, ?_, ?_, ?_⟩ <;> omega
      · refine ⟨p, q, r - 1, ?_, ?_, ?_, ?_⟩ <;> omega

/-- The gradient loops read the padded buffer at stencil cells only. -/
theorem gradientLoops_congr (P P' : Nat → ℚ) (voxelRes_ : ℚ) (g : Nat → Vec3f)
    (h : ∀ p q r, stencilCell p q r → P (packedIndex p q r) = P' (packedIndex p q r)) :
    gradientLoops P voxelRes_ g = gradientLoops P' voxelRes_ g := by
  unfold gradientLoops forLoopFrom
  refine forLoop_congr _ _ _ _ (fun k g1 hk => ?_)
  refine forLoop_congr _ _ _ _ (fun j g2 hj => ?_)
  refine forLoop_congr _ _ _ _ (fun i g3 hi => ?_)
  have hk1 : 1 ≤ 1 + k ∧ 1 + k < blockSize + 1 := by omega
  have hj1 : 1 ≤ 1 + j ∧ 1 + j < blockSize + 1 := by omega
  have hi1 : 1 ≤ 1 + i ∧ 1 + i < blockSize + 1 := by omega
  simp only []
  rw [h (1 + i + 1) (1 + j) (1 + k) ⟨1 + i, 1 + j, 1 + k, hi1, hj1, hk1, Or.inl ⟨rfl, rfl, rfl⟩⟩,
    h (1 + i - 1) (1 + j) (1 + k)
      ⟨1 + i, 1 + j, 1 + k, hi1, hj1, hk1, Or.inr (Or.inl ⟨rfl, rfl, rfl⟩)⟩,
    h (1 + i) (1 + j + 1) (1 + k)
      ⟨1 + i, 1 + j, 1 + k, hi1, hj1, hk1, Or.inr (Or.inr (Or.inl ⟨rfl, rfl, rfl⟩))⟩,
    h (1 + i) (1 + j - 1) (1 + k)
      ⟨1 + i, 1 + j, 1 + k, hi1, hj1, hk1, Or.inr (Or.inr (Or.inr (Or.inl ⟨rfl, rfl, rfl⟩)))⟩,
    h (1 + i) (1 + j) (1 + k + 1)
      ⟨1 + i, 1 + j, 1 + k, hi1, hj1, hk1,
        Or.inr (Or.inr (Or.inr (Or.inr (Or.inl ⟨rfl, rfl, rfl⟩))))⟩,
    h (1 + i) (1 + j) (1 + k - 1)
      ⟨1 + i, 1 + j, 1 + k, hi1, hj1, hk1,
        Or.inr (Or.inr (Or.inr (Or.inr (Or.inr ⟨rfl, rfl, rfl⟩))))⟩]

/-- `PackTSDF` leaves the edge and corner cells of the padded buffer as they were. -/
theorem PackTSDF_edge_cell (volume_ : Volume) (blockId : BlockId) (packedTSDF : Nat → ℚ)
    (block : VoxelBlock) (hb : volume_.GetBlock blockId = some block)
    (p q r : Nat) (hp : p ≤ 17) (hq : q ≤ 17) (hr : r ≤ 17) (hc : ¬ paddedCell p q r) :
    PackTSDF volume_ blockId packedTSDF (packedIndex p q r) = packedTSDF (packedIndex p q r) := by
  unfold paddedCell at hc
  rw [PackTSDF_eq_chain volume_ blockId packedTSDF block hb,
    tripleLoop_miss _ _ _ _ (by intro a b c _ _ _; simp only [packedIndex_eq]; omega),
    slabLoop_miss _ _ _ _ (by intro a b _ _; simp only [packedIndex_eq]; omega),
    slabLoop_miss _ _ _ _ (by intro a b _ _; simp only [packedIndex_eq]; omega),
    slabLoop_miss _ _ _ _ (by intro a b _ _; simp only [packedIndex_eq]; omega),
    slabLoop_miss _ _ _ _ (by intro a b _ _; simp only [packedIndex_eq]; omega),
    slabLoop_miss _ _ _ _ (by intro a b _ _; simp only [packedIndex_eq]; omega),
    slabLoop_miss _ _ _ _ (by intro a b _ _; simp only [packedIndex_eq]; omega)]

/-- C37: the gradient loops of `UpdateGradients` / `UpdateAllGradients` read the padded
buffer only at the cells `(i ± 1, j, k)`, `(i, j ± 1, k)`, `(i, j, k ± 1)` with
`1 <= i, j, k <= 16`; these are exactly the cells of the six face slabs and of the
interior, each of which `PackTSDF` has written in the same iteration with a value that
the volume determines, whatever the buffer held; the edge and corner cells of the `18^3`
buffer are left untouched by `PackTSDF` and are not read; so the gradients written in an
iteration do not depend on the previous content of the buffer. -/
theorem gradient_reads_written_cells :
    (∀ (P P' : Nat → ℚ) (voxelRes_ : ℚ) (g : Nat → Vec3f),
      (∀ p q r, stencilCell p q r → P (packedIndex p q r) = P' (packedIndex p q r)) →
      gradientLoops P voxelRes_ g = gradientLoops P' voxelRes_ g) ∧
    (∀ p q r, stencilCell p q r ↔ paddedCell p q r) ∧
    (∀ (volume_ : Volume) (blockId : BlockId) (block : VoxelBlock) (packedTSDF : Nat → ℚ)
      (p q r : Nat), volume_.GetBlock blockId = some block → stencilCell p q r →
      PackTSDF volume_ blockId packedTSDF (packedIndex p q r)
        = paddedTsdf volume_ blockId block.tsdf_ p q r) ∧
    (∀ (volume_ : Volume) (blockId : BlockId) (block : VoxelBlock) (packedTSDF : Nat → ℚ)
      (p q r : Nat), volume_.GetBlock blockId = some block → p ≤ 17 → q ≤ 17 → r ≤ 17 →
      ¬ paddedCell p q r →
      ¬ stencilCell p q r ∧
      PackTSDF volume_ blockId packedTSDF (packedIndex p q r)
        = packedTSDF (packedIndex p q r)) ∧
    (∀ (voxelRes_ : ℚ) (volume_ : Volume) (blockId : BlockId) (packedTSDF packedTSDF' : Nat → ℚ),
      (updateGradientsStep voxelRes_ (volume_, packedTSDF) blockId).1
        = (updateGradientsStep voxelRes_ (volume_, packedTSDF') blockId).1) := by
  refine ⟨gradientLoops_congr, stencilCell_iff_paddedCell, ?_, ?_, ?_⟩
  · intro volume_ blockId block packedTSDF p q r hb hs
    exact PackTSDF_cell volume_ blockId packedTSDF block hb p q r
      ((stencilCell_iff_paddedCell p q r).mp hs)
  · intro volume_ blockId block packedTSDF p q r hb hp hq hr hc
    exact ⟨fun hs => hc ((stencilCell_iff_paddedCell p q r).mp hs),
      PackTSDF_edge_cell volume_ blockId packedTSDF block hb p q r hp hq hr hc⟩
  · intro voxelRes_ volume_ blockId packedTSDF packedTSDF'
    unfold updateGradientsStep
    cases hb : volume_.GetBlock blockId with
    | none => rfl
    | some block =>
      simp only []
      rw [gradientLoops_congr (PackTSDF volume_ blockId packedTSDF)
        (PackTSDF volume_ blockId packedTSDF') voxelRes_ block.gradients_]
      intro p q r hs
      rw [PackTSDF_cell volume_ blockId packedTSDF block hb p q r
          ((stencilCell_iff_paddedCell p q r).mp hs),
        PackTSDF_cell volume_ blockId packedTSDF' block hb p q r
          ((stencilCell_iff_paddedCell p q r).mp hs)]

/-! ## Normal estimation on an ordered cloud -/

/-- A loop that appends to a list yields the initial list followed by the pieces. -/
theorem forLoop_append_flatMap {α : Type} (n : Nat) (f : Nat → List α) (init : List α) :
    forLoop n (fun i acc => acc ++ f i) init = init ++ (List.range n).flatMap f := by
  induction n with
  | zero => simp [forLoop]
  | succ k ih =>
    rw [forLoop_succ, ih, List.range_succ, List.flatMap_append]
    simp

theorem EstimateNormalsReads_eq (opc : OrderedPointCloud) :
    EstimateNormalsReads opc
      = (List.range opc.height_).flatMap (fun i =>
          (List.range ((opc.width_ + sizeModulus - 1) % sizeModulus - 1)).flatMap (fun j =>
            normalReads opc i (1 + j))) := by
  unfold EstimateNormalsReads forLoopFrom
  have h : ∀ i (acc : List Nat),
      forLoop ((opc.width_ + sizeModulus - 1) % sizeModulus - 1)
          (fun j acc' => acc' ++ normalReads opc i (1 + j)) acc
        = acc ++ (List.range ((opc.width_ + sizeModulus - 1) % sizeModulus - 1)).flatMap
            (fun j => normalReads opc i (1 + j)) :=
    fun i acc => forLoop_append_flatMap _ _ acc
  simp only [h]
  rw [forLoop_append_flatMap]
  simp

/-- For an ordered cloud of width at least 3 whose last row has a valid point in column 1,
`EstimateNormals` reads the point array at the subscript of `(height_, 1)`, in the row
below the last one and past the `width_ * height_` elements of the array. -/
theorem EstimateNormals_reads_below (opc : OrderedPointCloud) (hw : 3 ≤ opc.width_)
    (hh : 1 ≤ opc.height_) (hsize : opc.width_ * opc.height_ + opc.width_ < sizeModulus)
    (hvalid : isValidPoint (opc.points ((opc.height_ - 1) * opc.width_ + 1)) = true) :
    opc.height_ * opc.width_ + 1 ∈ EstimateNormalsReads opc ∧
      opc.width_ * opc.height_ ≤ opc.height_ * opc.width_ + 1 := by
  have hmul : opc.height_ * opc.width_ = opc.width_ * opc.height_ := Nat.mul_comm _ _
  have hle : (opc.height_ - 1) * opc.width_ ≤ opc.width_ * opc.height_ := by
    rw [← hmul]; exact Nat.mul_le_mul_right _ (Nat.sub_le _ _)
  refine ⟨?_, by omega⟩
  rw [EstimateNormalsReads_eq]
  simp only [List.mem_flatMap, List.mem_range]
  refine ⟨opc.height_ - 1, by omega, 0, ?_, ?_⟩
  · unfold sizeModulus at hsize ⊢
    omega
  · have hs : opc.subscript (opc.height_ - 1) (1 + 0) = (opc.height_ - 1) * opc.width_ + 1 := by
      unfold OrderedPointCloud.subscript
      exact Nat.mod_eq_of_lt (by omega)
    have hrow : (opc.height_ - 1 + 1) % sizeModulus = opc.height_ := by
      rw [Nat.sub_add_cancel hh]
      apply Nat.mod_eq_of_lt
      have : opc.height_ ≤ opc.width_ * opc.height_ := Nat.le_mul_of_pos_left _ (by omega)
      omega
    unfold normalReads
    rw [hs, if_pos hvalid, hrow]
    have hd : opc.subscript opc.height_ (1 + 0) = opc.height_ * opc.width_ + 1 := by
      unfold OrderedPointCloud.subscript
      exact Nat.mod_eq_of_lt (by omega)
    rw [hd]
    simp

/-- Evaluation for C38: on a cloud of width 3 and height 1 with valid points,
`EstimateNormals` visits the pixel `(0, 1)` and reads `Points(i - 1, j)` at the subscript
`2^64 - 2` (`i - 1` wraps in `size_t`) and `Points(i + 1, j)` at the subscript 4, both
outside the three elements of the point array; the columns `j - 1 = 0` and `j + 1 = 2`
stay inside the row. -/
theorem EstimateNormals_row_reads :
    threePixelRow.width_ * threePixelRow.height_ = 3 ∧
    EstimateNormalsReads threePixelRow = [1, 18446744073709551614, 4, 0, 2] := by
  refine ⟨rfl, ?_⟩
  decide

end fusion

namespace mc

/-! ## Marching Cubes -/

theorem forLoop_fixed {σ : Type} (n : Nat) (body : Nat → σ → σ) (s : σ)
    (h : ∀ i, i < n → body i s = s) : forLoop n body s = s := by
  induction n with
  | zero => rfl
  | succ k ih =>
    rw [fusion.forLoop_succ, ih (fun i hi => h i (Nat.lt_succ_of_lt hi))]
    exact h k (Nat.lt_succ_self k)

theorem processCube_of_invalid_n0 (env : Env) (isoValue : ℚ) (cube : Cube)
    (h : cube.n0.tsdf = ISOVALUE_MAX) : processCube env isoValue cube = [] := by
  simp [processCube, INVALID_CUBE, h]

theorem interpolate_reverse (isoValue : ℚ) (v0 v1 : vertex_t) (tsdf0 tsdf1 : ℚ)
    (hcross : (tsdf0 < isoValue ∧ ¬ tsdf1 < isoValue) ∨ (¬ tsdf0 < isoValue ∧ tsdf1 < isoValue))
    (hclamp : ¬ (|isoValue - tsdf0| < epsilon ∧ |isoValue - tsdf1| < epsilon)) :
    interpolate isoValue v0 v1 tsdf0 tsdf1 = interpolate isoValue v1 v0 tsdf1 tsdf0 := by
  have heps : (0 : ℚ) < epsilon := by norm_num [epsilon]
  unfold interpolate
  by_cases h0 : |isoValue - tsdf0| < epsilon
  · have h1 : ¬ |isoValue - tsdf1| < epsilon := fun h1 => hclamp ⟨h0, h1⟩
    rw [if_pos h0, if_neg h1, if_pos h0]
  · by_cases h1 : |isoValue - tsdf1| < epsilon
    · rw [if_neg h0, if_pos h1, if_pos h1]
    · have h0' : epsilon ≤ |isoValue - tsdf0| := not_lt.mp h0
      have h1' : epsilon ≤ |isoValue - tsdf1| := not_lt.mp h1
      have hd : epsilon ≤ |tsdf0 - tsdf1| := by
        rcases hcross with ⟨ha, hb⟩ | ⟨ha, hb⟩
        · have hb' : isoValue ≤ tsdf1 := not_lt.mp hb
          rw [abs_of_pos (by linarith)] at h0'
          rw [abs_of_nonpos (by linarith)] at h1'
          rw [abs_of_neg (by linarith)]
          linarith
        · have ha' : isoValue ≤ tsdf0 := not_lt.mp ha
          rw [abs_of_nonpos (by linarith)] at h0'
          rw [abs_of_pos (by linarith)] at h1'
          rw [abs_of_pos (by linarith)]
          linarith
      have hd' : epsilon ≤ |tsdf1 - tsdf0| := by rw [abs_sub_comm]; exact hd
      have hne : tsdf1 - tsdf0 ≠ 0 := by
        intro h
        rw [h, abs_zero] at hd'
        linarith
      have hne' : tsdf0 - tsdf1 ≠ 0 := by
        intro h
        rw [h, abs_zero] at hd
        linarith
      rw [if_neg h0, if_neg h1, if_neg (not_lt.mpr hd), if_neg h1, if_neg h0,
        if_neg (not_lt.mpr hd')]
      simp only [vertex_t.mk.injEq]
      refine ⟨?_, ?_, ?_⟩ <;> field_simp <;> ring

/-- Counterexample for C7: in the inner pass of a block whose voxels `(1, 0, 0)` and
`(1, 1, 0)` hold `1e-6` and `-1e-6`, the cubes `(0, 0, 0)` and `(1, 0, 0)` share a crossed
edge (edge 2 of the first, edge 0 of the second), and the two vertices computed on it
are the two ends of the edge, `voxelRes` apart, which is more than `1e-4 * voxelRes`. -/
theorem shared_edge_vertices_apart :
    sharesEdge (innerCube (edgeExample (1 / 1000000) (-1 / 1000000)) (1 / 100) ⟨0, 0, 0⟩ 16 0 0 0) 2
        (innerCube (edgeExample (1 / 1000000) (-1 / 1000000)) (1 / 100) ⟨0, 0, 0⟩ 16 1 0 0) 0 ∧
      edgeCrossed 0
        (innerCube (edgeExample (1 / 1000000) (-1 / 1000000)) (1 / 100) ⟨0, 0, 0⟩ 16 0 0 0) 2 ∧
      edgeVertex 0
        (innerCube (edgeExample (1 / 1000000) (-1 / 1000000)) (1 / 100) ⟨0, 0, 0⟩ 16 0 0 0) 2
          = ⟨1 / 100, 1 / 100, 0⟩ ∧
      edgeVertex 0
        (innerCube (edgeExample (1 / 1000000) (-1 / 1000000)) (1 / 100) ⟨0, 0, 0⟩ 16 1 0 0) 0
          = ⟨1 / 100, 0, 0⟩ ∧
      ¬ (|(edgeVertex 0
            (innerCube (edgeExample (1 / 1000000) (-1 / 1000000)) (1 / 100) ⟨0, 0, 0⟩ 16 0 0 0)
            2).y -
          (edgeVertex 0
            (innerCube (edgeExample (1 / 1000000) (-1 / 1000000)) (1 / 100) ⟨0, 0, 0⟩ 16 1 0 0)
            0).y| ≤ 1 / 10000 * (1 / 100)) := by
  have hv1 : edgeVertex 0
      (innerCube (edgeExample (1 / 1000000) (-1 / 1000000)) (1 / 100) ⟨0, 0, 0⟩ 16 0 0 0) 2
        = ⟨1 / 100, 1 / 100, 0⟩ := by
    norm_num [edgeVertex, edgeEnds, innerCube, cornerAt, edgeExample, GRID_OFFSET, get3DPos,
      interpolate, epsilon, abs_lt]
  have hv2 : edgeVertex 0
      (innerCube (edgeExample (1 / 1000000) (-1 / 1000000)) (1 / 100) ⟨0, 0, 0⟩ 16 1 0 0) 0
        = ⟨1 / 100, 0, 0⟩ := by
    norm_num [edgeVertex, edgeEnds, innerCube, cornerAt, edgeExample, GRID_OFFSET, get3DPos,
      interpolate, epsilon, abs_lt]
  refine ⟨Or.inr ⟨rfl, rfl, rfl, rfl⟩, ?_, hv1, hv2, ?_⟩
  · norm_num [edgeCrossed, edgeEnds, innerCube, cornerAt, edgeExample, GRID_OFFSET]
  · rw [hv1, hv2]
    simp only [sub_zero]
    rw [abs_of_pos (by norm_num)]
    norm_num

/-- C7, amended: in exact arithmetic, two cubes that share a crossed cube edge (the same two
corner positions and tsdf values, in either order) compute the same vertex position on
it, provided the two corner values of the edge are not both within `1e-5` of the iso
value. -/
theorem shared_edge_vertex_agree (isoValue : ℚ) (cube1 cube2 : Cube) (e1 e2 : Nat)
    (hshare : sharesEdge cube1 e1 cube2 e2) (hcross : edgeCrossed isoValue cube1 e1)
    (hclamp : ¬ edgeBothClamped isoValue cube1 e1) :
    edgeVertex isoValue cube1 e1 = edgeVertex isoValue cube2 e2 := by
  unfold edgeVertex
  rcases hshare with ⟨hp1, ht1, hp2, ht2⟩ | ⟨hp1, ht1, hp2, ht2⟩
  · rw [hp1, ht1, hp2, ht2]
  · rw [interpolate_reverse isoValue _ _ _ _ hcross hclamp, hp1, ht1, hp2, ht2]

/-- Witness for C7, amended: the same two cubes when the voxels `(1, 0, 0)` and `(1, 1, 0)`
hold `1e-6` and `-1`. -/
theorem shared_edge_vertex_agree_witness :
    sharesEdge (innerCube (edgeExample (1 / 1000000) (-1)) (1 / 100) ⟨0, 0, 0⟩ 16 0 0 0) 2
        (innerCube (edgeExample (1 / 1000000) (-1)) (1 / 100) ⟨0, 0, 0⟩ 16 1 0 0) 0 ∧
      edgeCrossed 0 (innerCube (edgeExample (1 / 1000000) (-1)) (1 / 100) ⟨0, 0, 0⟩ 16 0 0 0) 2 ∧
      ¬ edgeBothClamped 0
        (innerCube (edgeExample (1 / 1000000) (-1)) (1 / 100) ⟨0, 0, 0⟩ 16 0 0 0) 2 ∧
      edgeVertex 0 (innerCube (edgeExample (1 / 1000000) (-1)) (1 / 100) ⟨0, 0, 0⟩ 16 0 0 0) 2
        = edgeVertex 0 (innerCube (edgeExample (1 / 1000000) (-1)) (1 / 100) ⟨0, 0, 0⟩ 16 1 0 0) 0 :=
  have hshare : sharesEdge
      (innerCube (edgeExample (1 / 1000000) (-1)) (1 / 100) ⟨0, 0, 0⟩ 16 0 0 0) 2
      (innerCube (edgeExample (1 / 1000000) (-1)) (1 / 100) ⟨0, 0, 0⟩ 16 1 0 0) 0 :=
    Or.inr ⟨rfl, rfl, rfl, rfl⟩
  have hcross : edgeCrossed 0
      (innerCube (edgeExample (1 / 1000000) (-1)) (1 / 100) ⟨0, 0, 0⟩ 16 0 0 0) 2 := by
    norm_num [edgeCrossed, edgeEnds, innerCube, cornerAt, edgeExample, GRID_OFFSET]
  have hclamp : ¬ edgeBothClamped 0
      (innerCube (edgeExample (1 / 1000000) (-1)) (1 / 100) ⟨0, 0, 0⟩ 16 0 0 0) 2 := by
    norm_num [edgeBothClamped, edgeEnds, innerCube, cornerAt, edgeExample, GRID_OFFSET, epsilon,
      abs_lt]
  ⟨hshare, hcross, hclamp, shared_edge_vertex_agree 0 _ _ 2 0 hshare hcross hclamp⟩

/-- Cubes of the inner pass that are neighbours along x share the four edges of their
common face; two of them are traversed in opposite directions. -/
theorem innerCube_x_adjacent (b : BlockArrays) (voxelRes : ℚ) (org : vertex_t)
    (blockSize i j k : Nat) :
    sharesEdge (innerCube b voxelRes org blockSize i j k) 2
        (innerCube b voxelRes org blockSize (i + 1) j k) 0 ∧
      sharesEdge (innerCube b voxelRes org blockSize i j k) 6
        (innerCube b voxelRes org blockSize (i + 1) j k) 4 ∧
      sharesEdge (innerCube b voxelRes org blockSize i j k) 10
        (innerCube b voxelRes org blockSize (i + 1) j k) 9 ∧
      sharesEdge (innerCube b voxelRes org blockSize i j k) 11
        (innerCube b voxelRes org blockSize (i + 1) j k) 8 :=
  ⟨Or.inr ⟨rfl, rfl, rfl, rfl⟩, Or.inr ⟨rfl, rfl, rfl, rfl⟩, Or.inl ⟨rfl, rfl, rfl, rfl⟩,
    Or.inl ⟨rfl, rfl, rfl, rfl⟩⟩

/-- Cubes of the inner pass that are neighbours along y. -/
theorem innerCube_y_adjacent (b : BlockArrays) (voxelRes : ℚ) (org : vertex_t)
    (blockSize i j k : Nat) :
    sharesEdge (innerCube b voxelRes org blockSize i j k) 1
        (innerCube b voxelRes org blockSize i (j + 1) k) 3 ∧
      sharesEdge (innerCube b voxelRes org blockSize i j k) 5
        (innerCube b voxelRes org blockSize i (j + 1) k) 7 ∧
      sharesEdge (innerCube b voxelRes org blockSize i j k) 9
        (innerCube b voxelRes org blockSize i (j + 1) k) 8 ∧
      sharesEdge (innerCube b voxelRes org blockSize i j k) 10
        (innerCube b voxelRes org blockSize i (j + 1) k) 11 :=
  ⟨Or.inr ⟨rfl, rfl, rfl, rfl⟩, Or.inr ⟨rfl, rfl, rfl, rfl⟩, Or.inl ⟨rfl, rfl, rfl, rfl⟩,
    Or.inl ⟨rfl, rfl, rfl, rfl⟩⟩

/-- Cubes of the inner pass that are neighbours along z. -/
theorem innerCube_z_adjacent (b : BlockArrays) (voxelRes : ℚ) (org : vertex_t)
    (blockSize i j k : Nat) :
    sharesEdge (innerCube b voxelRes org blockSize i j k) 4
        (innerCube b voxelRes org blockSize i j (k + 1)) 0 ∧
      sharesEdge (innerCube b voxelRes org blockSize i j k) 5
        (innerCube b voxelRes org blockSize i j (k + 1)) 1 ∧
      sharesEdge (innerCube b voxelRes org blockSize i j k) 6
        (innerCube b voxelRes org blockSize i j (k + 1)) 2 ∧
      sharesEdge (innerCube b voxelRes org blockSize i j k) 7
        (innerCube b voxelRes org blockSize i j (k + 1)) 3 :=
  ⟨Or.inl ⟨rfl, rfl, rfl, rfl⟩, Or.inl ⟨rfl, rfl, rfl, rfl⟩, Or.inl ⟨rfl, rfl, rfl, rfl⟩,
    Or.inl ⟨rfl, rfl, rfl, rfl⟩⟩

/-- Inside one block: the last inner cube of a row and the +X face cube next to it. -/
theorem innerCube_xFaceCube_adjacent (bi bf : BlockArrays) (voxelRes : ℚ) (org : vertex_t)
    (j k : Nat) :
    sharesEdge (innerCube bi voxelRes org 16 14 j k) 2 (xFaceCube bi bf voxelRes org 16 j k) 0 ∧
      sharesEdge (innerCube bi voxelRes org 16 14 j k) 6
        (xFaceCube bi bf voxelRes org 16 j k) 4 ∧
      sharesEdge (innerCube bi voxelRes org 16 14 j k) 10
        (xFaceCube bi bf voxelRes org 16 j k) 9 ∧
      sharesEdge (innerCube bi voxelRes org 16 14 j k) 11
        (xFaceCube bi bf voxelRes org 16 j k) 8 :=
  ⟨Or.inr ⟨rfl, rfl, rfl, rfl⟩, Or.inr ⟨rfl, rfl, rfl, rfl⟩, Or.inl ⟨rfl, rfl, rfl, rfl⟩,
    Or.inl ⟨rfl, rfl, rfl, rfl⟩⟩

/-- The origin of the +X neighbour block is the shifted origin used by the face pass. -/
theorem blockOrigin_plus_x (voxelRes : ℚ) (blockId : fusion.BlockId) :
    blockOrigin voxelRes (fusion.Index3d.add blockId ⟨1, 0, 0⟩)
      = shiftedOrg (blockOrigin voxelRes blockId) voxelRes 16 true false false := by
  simp [blockOrigin, shiftedOrg, fusion.Index3d.add, fusion.blockSize]
  ring

/-- Across the seam: the +X face cube of a block and the first inner cube of the +X
neighbour block, whose mesh is extracted with the neighbour's own origin. -/
theorem xFaceCube_neighbour_adjacent (bi bf : BlockArrays) (voxelRes : ℚ)
    (blockId : fusion.BlockId) (j k : Nat) :
    sharesEdge (xFaceCube bi bf voxelRes (blockOrigin voxelRes blockId) 16 j k) 2
        (innerCube bf voxelRes
          (blockOrigin voxelRes (fusion.Index3d.add blockId ⟨1, 0, 0⟩)) 16 0 j k) 0 ∧
      sharesEdge (xFaceCube bi bf voxelRes (blockOrigin voxelRes blockId) 16 j k) 6
        (innerCube bf voxelRes
          (blockOrigin voxelRes (fusion.Index3d.add blockId ⟨1, 0, 0⟩)) 16 0 j k) 4 ∧
      sharesEdge (xFaceCube bi bf voxelRes (blockOrigin voxelRes blockId) 16 j k) 10
        (innerCube bf voxelRes
          (blockOrigin voxelRes (fusion.Index3d.add blockId ⟨1, 0, 0⟩)) 16 0 j k) 9 ∧
      sharesEdge (xFaceCube bi bf voxelRes (blockOrigin voxelRes blockId) 16 j k) 11
        (innerCube bf voxelRes
          (blockOrigin voxelRes (fusion.Index3d.add blockId ⟨1, 0, 0⟩)) 16 0 j k) 8 := by
  rw [blockOrigin_plus_x]
  exact ⟨Or.inr ⟨rfl, rfl, rfl, rfl⟩, Or.inr ⟨rfl, rfl, rfl, rfl⟩, Or.inl ⟨rfl, rfl, rfl, rfl⟩,
    Or.inl ⟨rfl, rfl, rfl, rfl⟩⟩

theorem cornerAt_tsdf_invalid (b : BlockArrays) (hb : allInvalid b) (org : vertex_t)
    (voxelRes : ℚ) (i j k : Nat) (hi : i < 16) (hj : j < 16) (hk : k < 16) :
    (cornerAt b org voxelRes 16 i j k).tsdf = ISOVALUE_MAX := by
  simp only [cornerAt, GRID_OFFSET]
  exact hb _ (by omega)

theorem extractInnerMesh_allInvalid (env : Env) (b : BlockArrays) (hb : allInvalid b)
    (voxelRes : ℚ) (org : vertex_t) (isoValue : ℚ) :
    extractInnerMesh env b voxelRes org 16 isoValue = [] := by
  unfold extractInnerMesh
  refine forLoop_fixed _ _ _ (fun k hk => forLoop_fixed _ _ _ (fun j hj =>
    forLoop_fixed _ _ _ (fun i hi => ?_)))
  rw [processCube_of_invalid_n0]
  · rfl
  · exact cornerAt_tsdf_invalid b hb org voxelRes i j k (by omega) (by omega) (by omega)

theorem extractXFaceMesh_allInvalid (env : Env) (b bf : BlockArrays) (hb : allInvalid b)
    (voxelRes : ℚ) (org : vertex_t) (isoValue : ℚ) :
    extractXFaceMesh env b bf voxelRes org 16 isoValue = [] := by
  unfold extractXFaceMesh
  refine forLoop_fixed _ _ _ (fun k hk => forLoop_fixed _ _ _ (fun j hj => ?_))
  rw [processCube_of_invalid_n0]
  · rfl
  · exact cornerAt_tsdf_invalid b hb org voxelRes 15 j k (by omega) (by omega) (by omega)

theorem extractYFaceMesh_allInvalid (env : Env) (b bf : BlockArrays) (hb : allInvalid b)
    (voxelRes : ℚ) (org : vertex_t) (isoValue : ℚ) :
    extractYFaceMesh env b bf voxelRes org 16 isoValue = [] := by
  unfold extractYFaceMesh
  refine forLoop_fixed _ _ _ (fun k hk => forLoop_fixed _ _ _ (fun i hi => ?_))
  rw [processCube_of_invalid_n0]
  · rfl
  · exact cornerAt_tsdf_invalid b hb org voxelRes i 15 k (by omega) (by omega) (by omega)

theorem extractZFaceMesh_allInvalid (env : Env) (b bf : BlockArrays) (hb : allInvalid b)
    (voxelRes : ℚ) (org : vertex_t) (isoValue : ℚ) :
    extractZFaceMesh env b bf voxelRes org 16 isoValue = [] := by
  unfold extractZFaceMesh
  refine forLoop_fixed _ _ _ (fun j hj => forLoop_fixed _ _ _ (fun i hi => ?_))
  rw [processCube_of_invalid_n0]
  · rfl
  · exact cornerAt_tsdf_invalid b hb org voxelRes i j 15 (by omega) (by omega) (by omega)

theorem extractXYEdgeMesh_allInvalid (env : Env) (b bx by' bxy : BlockArrays)
    (hb : allInvalid b) (voxelRes : ℚ) (org : vertex_t) (isoValue : ℚ) :
    extractXYEdgeMesh env b bx by' bxy voxelRes org 16 isoValue = [] := by
  unfold extractXYEdgeMesh
  refine forLoop_fixed _ _ _ (fun k hk => ?_)
  rw [processCube_of_invalid_n0]
  · rfl
  · exact cornerAt_tsdf_invalid b hb org voxelRes 15 15 k (by omega) (by omega) (by omega)

theorem extractXZEdgeMesh_allInvalid (env : Env) (b bx bz bxz : BlockArrays)
    (hb : allInvalid b) (voxelRes : ℚ) (org : vertex_t) (isoValue : ℚ) :
    extractXZEdgeMesh env b bx bz bxz voxelRes org 16 isoValue = [] := by
  unfold extractXZEdgeMesh
  refine forLoop_fixed _ _ _ (fun j hj => ?_)
  rw [processCube_of_invalid_n0]
  · rfl
  · exact cornerAt_tsdf_invalid b hb org voxelRes 15 j 15 (by omega) (by omega) (by omega)

theorem extractYZEdgeMesh_allInvalid (env : Env) (b by' bz byz : BlockArrays)
    (hb : allInvalid b) (voxelRes : ℚ) (org : vertex_t) (isoValue : ℚ) :
    extractYZEdgeMesh env b by' bz byz voxelRes org 16 isoValue = [] := by
  unfold extractYZEdgeMesh
  refine forLoop_fixed _ _ _ (fun i hi => ?_)
  rw [processCube_of_invalid_n0]
  · rfl
  · exact cornerAt_tsdf_invalid b hb org voxelRes i 15 15 (by omega) (by omega) (by omega)

theorem extractXYZCornerMesh_allInvalid (env : Env) (b bx by' bz bxy bxz byz bxyz : BlockArrays)
    (hb : allInvalid b) (voxelRes : ℚ) (org : vertex_t) (isoValue : ℚ) :
    extractXYZCornerMesh env b bx by' bz bxy bxz byz bxyz voxelRes org 16 isoValue = [] := by
  unfold extractXYZCornerMesh
  rw [processCube_of_invalid_n0]
  exact cornerAt_tsdf_invalid b hb org voxelRes 15 15 15 (by omega) (by omega) (by omega)

/-- C8: the body that every pass of `extractMesh` runs on a cube emits no triangle when at
least one of the eight corner values equals `INVALID`; in particular `extractMesh` emits
no triangle (returns 0) for a block whose 4096 tsdf values are all `INVALID`, whatever
neighbour blocks are supplied. -/
theorem extractMesh_invalid (env : Env) :
    (∀ (isoValue : ℚ) (cube : Cube),
      (cube.n0.tsdf = fusion.invalidTsdf ∨ cube.n1.tsdf = fusion.invalidTsdf ∨
        cube.n2.tsdf = fusion.invalidTsdf ∨ cube.n3.tsdf = fusion.invalidTsdf ∨
        cube.n4.tsdf = fusion.invalidTsdf ∨ cube.n5.tsdf = fusion.invalidTsdf ∨
        cube.n6.tsdf = fusion.invalidTsdf ∨ cube.n7.tsdf = fusion.invalidTsdf) →
      processCube env isoValue cube = []) ∧
    (∀ (b : BlockArrays) (xx yy zz xy xz yz xyz : Option BlockArrays) (voxelRes : ℚ)
      (blockPos : vertex_t), allInvalid b →
      extractMesh env (some b) xx yy zz xy xz yz xyz 16 voxelRes blockPos = [] ∧
      (extractMesh env (some b) xx yy zz xy xz yz xyz 16 voxelRes blockPos).length = 0) := by
  constructor
  · intro isoValue cube h
    have hI : INVALID_CUBE cube.n0.tsdf cube.n1.tsdf cube.n2.tsdf cube.n3.tsdf cube.n4.tsdf
        cube.n5.tsdf cube.n6.tsdf cube.n7.tsdf = true := by
      simp only [INVALID_CUBE, ISOVALUE_MAX, Bool.or_eq_true, beq_iff_eq]
      simp only [fusion.invalidTsdf] at h
      tauto
    simp [processCube, hI]
  · intro b xx yy zz xy xz yz xyz voxelRes blockPos hb
    have hnil : extractMesh env (some b) xx yy zz xy xz yz xyz 16 voxelRes blockPos = [] := by
      simp only [extractMesh, extractInnerMesh_allInvalid env b hb, List.nil_append]
      cases xx <;> cases yy <;> cases zz <;> cases xy <;> cases xz <;> cases yz <;> cases xyz <;>
        simp [optionalPass, extractXFaceMesh_allInvalid env b _ hb,
          extractYFaceMesh_allInvalid env b _ hb, extractZFaceMesh_allInvalid env b _ hb,
          extractXYEdgeMesh_allInvalid env b _ _ _ hb, extractXZEdgeMesh_allInvalid env b _ _ _ hb,
          extractYZEdgeMesh_allInvalid env b _ _ _ hb,
          extractXYZCornerMesh_allInvalid env b _ _ _ _ _ _ _ hb]
    exact ⟨hnil, by rw [hnil]; rfl⟩

/-- Witness for C8: a block filled with `INVALID`, with its +X neighbour supplied. -/
theorem extractMesh_invalid_witness :
    allInvalid invalidBlock ∧
      extractMesh exampleEnv (some invalidBlock) (some (edgeExample 1 (-1))) none none none none none none
        16 (1 / 100) ⟨0, 0, 0⟩ = [] :=
  have h : allInvalid invalidBlock := fun _ _ => rfl
  ⟨h, ((extractMesh_invalid exampleEnv).2 invalidBlock (some (edgeExample 1 (-1))) none none none none
    none none (1 / 100) ⟨0, 0, 0⟩ h).1⟩

/-! ## The passes of `extractMesh` -/

/-- C17: `extractMesh` on a block `b` returns the inner-pass triangles followed by the
contributions of seven optional passes.  The +X, +Y, +Z face pass contributes only when
that face neighbour is supplied; the XY, XZ, YZ edge pass only when its three neighbours
are supplied; the corner pass only when all seven neighbours are supplied; a pass that
does not run contributes nothing.  With no neighbour supplied the result is exactly the
inner-pass triangles. -/
theorem extractMesh_passes (env : Env) (b : BlockArrays)
    (xx yy zz xy xz yz xyz : Option BlockArrays) (blockSize : Nat) (voxelRes : ℚ)
    (blockPos : vertex_t) :
    (∃ fx fy fz exy exz eyz c : List Triangle,
      extractMesh env (some b) xx yy zz xy xz yz xyz blockSize voxelRes blockPos
        = extractInnerMesh env b voxelRes blockPos blockSize 0
            ++ fx ++ fy ++ fz ++ exy ++ exz ++ eyz ++ c ∧
      (xx = none → fx = []) ∧
      (∀ bx, xx = some bx → fx = extractXFaceMesh env b bx voxelRes blockPos blockSize 0) ∧
      (yy = none → fy = []) ∧
      (∀ by', yy = some by' → fy = extractYFaceMesh env b by' voxelRes blockPos blockSize 0) ∧
      (zz = none → fz = []) ∧
      (∀ bz, zz = some bz → fz = extractZFaceMesh env b bz voxelRes blockPos blockSize 0) ∧
      (xx = none ∨ yy = none ∨ xy = none → exy = []) ∧
      (∀ bx by' bxy, xx = some bx → yy = some by' → xy = some bxy →
        exy = extractXYEdgeMesh env b bx by' bxy voxelRes blockPos blockSize 0) ∧
      (xx = none ∨ zz = none ∨ xz = none → exz = []) ∧
      (∀ bx bz bxz, xx = some bx → zz = some bz → xz = some bxz →
        exz = extractXZEdgeMesh env b bx bz bxz voxelRes blockPos blockSize 0) ∧
      (yy = none ∨ zz = none ∨ yz = none → eyz = []) ∧
      (∀ by' bz byz, yy = some by' → zz = some bz → yz = some byz →
        eyz = extractYZEdgeMesh env b by' bz byz voxelRes blockPos blockSize 0) ∧
      (xx = none ∨ yy = none ∨ zz = none ∨ xy = none ∨ xz = none ∨ yz = none ∨ xyz = none →
        c = []) ∧
      (∀ bx by' bz bxy bxz byz bxyz, xx = some bx → yy = some by' → zz = some bz →
        xy = some bxy → xz = some bxz → yz = some byz → xyz = some bxyz →
        c = extractXYZCornerMesh env b bx by' bz bxy bxz byz bxyz voxelRes blockPos
          blockSize 0)) ∧
    extractMesh env (some b) none none none none none none none blockSize voxelRes blockPos
      = extractInnerMesh env b voxelRes blockPos blockSize 0 := by
  refine ⟨⟨optionalPass (xx.map fun bx => extractXFaceMesh env b bx voxelRes blockPos blockSize 0),
    optionalPass (yy.map fun by' => extractYFaceMesh env b by' voxelRes blockPos blockSize 0),
    optionalPass (zz.map fun bz => extractZFaceMesh env b bz voxelRes blockPos blockSize 0),
    optionalPass (xx.bind fun bx => yy.bind fun by' => xy.map fun bxy =>
      extractXYEdgeMesh env b bx by' bxy voxelRes blockPos blockSize 0),
    optionalPass (xx.bind fun bx => zz.bind fun bz => xz.map fun bxz =>
      extractXZEdgeMesh env b bx bz bxz voxelRes blockPos blockSize 0),
    optionalPass (yy.bind fun by' => zz.bind fun bz => yz.map fun byz =>
      extractYZEdgeMesh env b by' bz byz voxelRes blockPos blockSize 0),
    optionalPass (xx.bind fun bx => yy.bind fun by' => zz.bind fun bz =>
      xy.bind fun bxy => xz.bind fun bxz => yz.bind fun byz => xyz.map fun bxyz =>
        extractXYZCornerMesh env b bx by' bz bxy bxz byz bxyz voxelRes blockPos blockSize 0),
    rfl, ?_, ?_, ?_, ?_, ?_, ?_, ?_, ?_, ?_, ?_, ?_, ?_, ?_, ?_⟩, ?_⟩
  · rintro rfl; rfl
  · rintro bx rfl; rfl
  · rintro rfl; rfl
  · rintro by' rfl; rfl
  · rintro rfl; rfl
  · rintro bz rfl; rfl
  · rintro (rfl | rfl | rfl)
    · rfl
    · cases xx <;> rfl
    · cases xx <;> cases yy <;> rfl
  · rintro bx by' bxy rfl rfl rfl; rfl
  · rintro (rfl | rfl | rfl)
    · rfl
    · cases xx <;> rfl
    · cases xx <;> cases zz <;> rfl
  · rintro bx bz bxz rfl rfl rfl; rfl
  · rintro (rfl | rfl | rfl)
    · rfl
    · cases yy <;> rfl
    · cases yy <;> cases zz <;> rfl
  · rintro by' bz byz rfl rfl rfl; rfl
  · rintro (rfl | rfl | rfl | rfl | rfl | rfl | rfl)
    · rfl
    · cases xx <;> rfl
    · cases xx <;> cases yy <;> rfl
    · cases xx <;> cases yy <;> cases zz <;> rfl
    · cases xx <;> cases yy <;> cases zz <;> cases xy <;> rfl
    · cases xx <;> cases yy <;> cases zz <;> cases xy <;> cases xz <;> rfl
    · cases xx <;> cases yy <;> cases zz <;> cases xy <;> cases xz <;> cases yz <;> rfl
  · rintro bx by' bz bxy bxz byz bxyz rfl rfl rfl rfl rfl rfl rfl; rfl
  · simp [extractMesh, optionalPass]

/-! ## The interpolated vertex lies on its edge -/

/-- C29: for a cube edge whose corner values `tsdf0`, `tsdf1` lie on opposite sides of the
iso value (exactly one of them is below it), `interpolate` returns the corner `v0` when
`|iso - tsdf0| < 1e-5`, else the corner `v1` when `|iso - tsdf1| < 1e-5`, else `v0` when
`|tsdf0 - tsdf1| < 1e-5`, and otherwise `v0 + mu * (v1 - v0)` with
`mu = (iso - tsdf0) / (tsdf1 - tsdf0)` in `[0, 1]`; in every case the result is
`v0 + s * (v1 - v0)` for some `s` in `[0, 1]`, a point of the segment between the
corners. -/
theorem interpolate_on_segment (isoValue : ℚ) (v0 v1 : vertex_t) (tsdf0 tsdf1 : ℚ)
    (hcross : (tsdf0 < isoValue ∧ ¬ tsdf1 < isoValue) ∨ (¬ tsdf0 < isoValue ∧ tsdf1 < isoValue)) :
    (|isoValue - tsdf0| < epsilon → interpolate isoValue v0 v1 tsdf0 tsdf1 = v0) ∧
    (¬ |isoValue - tsdf0| < epsilon → |isoValue - tsdf1| < epsilon →
      interpolate isoValue v0 v1 tsdf0 tsdf1 = v1) ∧
    (¬ |isoValue - tsdf0| < epsilon → ¬ |isoValue - tsdf1| < epsilon →
      |tsdf0 - tsdf1| < epsilon → interpolate isoValue v0 v1 tsdf0 tsdf1 = v0) ∧
    (¬ |isoValue - tsdf0| < epsilon → ¬ |isoValue - tsdf1| < epsilon →
      ¬ |tsdf0 - tsdf1| < epsilon →
      0 ≤ (isoValue - tsdf0) / (tsdf1 - tsdf0) ∧ (isoValue - tsdf0) / (tsdf1 - tsdf0) ≤ 1 ∧
      interpolate isoValue v0 v1 tsdf0 tsdf1 =
        ⟨v0.x + (isoValue - tsdf0) / (tsdf1 - tsdf0) * (v1.x - v0.x),
          v0.y + (isoValue - tsdf0) / (tsdf1 - tsdf0) * (v1.y - v0.y),
          v0.z + (isoValue - tsdf0) / (tsdf1 - tsdf0) * (v1.z - v0.z)⟩) ∧
    (∃ s : ℚ, 0 ≤ s ∧ s ≤ 1 ∧
      interpolate isoValue v0 v1 tsdf0 tsdf1 =
        ⟨v0.x + s * (v1.x - v0.x), v0.y + s * (v1.y - v0.y), v0.z + s * (v1.z - v0.z)⟩) := by
  have hmu : 0 ≤ (isoValue - tsdf0) / (tsdf1 - tsdf0) ∧
      (isoValue - tsdf0) / (tsdf1 - tsdf0) ≤ 1 := by
    rcases hcross with ⟨h0, h1⟩ | ⟨h0, h1⟩
    · have hd : 0 < tsdf1 - tsdf0 := by linarith [not_lt.mp h1]
      exact ⟨div_nonneg (by linarith) hd.le, (div_le_one hd).mpr (by linarith [not_lt.mp h1])⟩
    · have hd : tsdf1 - tsdf0 < 0 := by linarith [not_lt.mp h0]
      refine ⟨div_nonneg_of_nonpos (by linarith [not_lt.mp h0]) hd.le, ?_⟩
      rw [div_le_one_of_neg hd]
      linarith
  have hv0 : v0 = ⟨v0.x + 0 * (v1.x - v0.x), v0.y + 0 * (v1.y - v0.y),
      v0.z + 0 * (v1.z - v0.z)⟩ := by
    cases v0; simp
  have hv1 : v1 = ⟨v0.x + 1 * (v1.x - v0.x), v0.y + 1 * (v1.y - v0.y),
      v0.z + 1 * (v1.z - v0.z)⟩ := by
    cases v1; simp
  refine ⟨?_, ?_, ?_, ?_, ?_⟩
  · intro h; simp [interpolate, h]
  · intro h0 h1; simp [interpolate, h0, h1]
  · intro h0 h1 h2; simp [interpolate, h0, h1, h2]
  · intro h0 h1 h2
    refine ⟨hmu.1, hmu.2, ?_⟩
    simp [interpolate, h0, h1, h2]
  · unfold interpolate
    by_cases h0 : |isoValue - tsdf0| < epsilon
    · rw [if_pos h0]
      exact ⟨0, le_refl 0, zero_le_one, hv0⟩
    · rw [if_neg h0]
      by_cases h1 : |isoValue - tsdf1| < epsilon
      · rw [if_pos h1]
        exact ⟨1, zero_le_one, le_refl 1, hv1⟩
      · rw [if_neg h1]
        by_cases h2 : |tsdf0 - tsdf1| < epsilon
        · rw [if_pos h2]
          exact ⟨0, le_refl 0, zero_le_one, hv0⟩
        · rw [if_neg h2]
          exact ⟨_, hmu.1, hmu.2, rfl⟩

theorem interpolate_on_segment_witness :
    (((-1 : ℚ) < 0 ∧ ¬ (1 : ℚ) < 0) ∨ (¬ (-1 : ℚ) < 0 ∧ (1 : ℚ) < 0)) ∧
    ∃ s : ℚ, 0 ≤ s ∧ s ≤ 1 ∧
      interpolate 0 ⟨0, 0, 0⟩ ⟨1, 0, 0⟩ (-1) 1 =
        ⟨0 + s * (1 - 0), 0 + s * (0 - 0), 0 + s * (0 - 0)⟩ :=
  ⟨Or.inl ⟨by norm_num, by norm_num⟩,
    (interpolate_on_segment 0 ⟨0, 0, 0⟩ ⟨1, 0, 0⟩ (-1) 1
      (Or.inl ⟨by norm_num, by norm_num⟩)).2.2.2.2⟩

/-- No pass emits a triangle for a block whose tsdf values are all `INVALID`. -/
theorem extractMesh_allInvalid_nil (env : Env) (b : BlockArrays)
    (xx yy zz xy xz yz xyz : Option BlockArrays) (voxelRes : ℚ) (blockPos : vertex_t)
    (hb : allInvalid b) :
    extractMesh env (some b) xx yy zz xy xz yz xyz 16 voxelRes blockPos = [] := by
  simp only [extractMesh, extractInnerMesh_allInvalid env b hb, List.nil_append]
  cases xx <;> cases yy <;> cases zz <;> cases xy <;> cases xz <;> cases yz <;> cases xyz <;>
    simp [optionalPass, extractXFaceMesh_allInvalid env b _ hb,
      extractYFaceMesh_allInvalid env b _ hb, extractZFaceMesh_allInvalid env b _ hb,
      extractXYEdgeMesh_allInvalid env b _ _ _ hb, extractXZEdgeMesh_allInvalid env b _ _ _ hb,
      extractYZEdgeMesh_allInvalid env b _ _ _ hb,
      extractXYZCornerMesh_allInvalid env b _ _ _ _ _ _ _ hb]

/-! ## The passes of `extractMesh` against one kernel on the adjoined grid -/

theorem shifted_coordinate (i : Nat) (hi : i ≤ 16) (voxelRes x : ℚ) :
    (i : ℚ) * voxelRes + x
      = ((i % 16 : Nat) : ℚ) * voxelRes
        + (if decide (i = 16) = true then x + voxelRes * ((16 : Nat) : ℚ) else x) := by
  by_cases h : i = 16
  · subst h
    simp only [decide_True, if_true, Nat.mod_self]
    push_cast
    ring
  · have hlt : i % 16 = i := Nat.mod_eq_of_lt (by omega)
    simp only [h, decide_False, Bool.false_eq_true, if_false, hlt]

/-- A corner of the adjoined grid is the corner of the block that holds it, at the local
coordinates, positioned from the origin of that block. -/
theorem cornerAt_adjoinedGrid (bi bx by' bz bxy bxz byz bxyz : BlockArrays) (voxelRes : ℚ)
    (org : vertex_t) (i j k : Nat) (hi : i ≤ 16) (hj : j ≤ 16) (hk : k ≤ 16) :
    cornerAt (adjoinedGrid bi bx by' bz bxy bxz byz bxyz) org voxelRes 17 i j k
      = cornerAt (adjoinedBlock bi bx by' bz bxy bxz byz bxyz i j k)
          (shiftedOrg org voxelRes 16 (decide (i = 16)) (decide (j = 16)) (decide (k = 16)))
          voxelRes 16 (i % 16) (j % 16) (k % 16) := by
  have h1 : GRID_OFFSET i j k 17 % 17 = i := by unfold GRID_OFFSET; omega
  have h2 : GRID_OFFSET i j k 17 / 17 % 17 = j := by unfold GRID_OFFSET; omega
  have h3 : GRID_OFFSET i j k 17 / 289 = k := by unfold GRID_OFFSET; omega
  simp only [cornerAt, adjoinedGrid, h1, h2, h3, get3DPos, shiftedOrg, Corner.mk.injEq,
    vertex_t.mk.injEq, true_and, and_true]
  exact ⟨shifted_coordinate i hi voxelRes org.x, shifted_coordinate j hj voxelRes org.y,
    shifted_coordinate k hk voxelRes org.z⟩

/-- The same, with the layer flags explicit: `fx`, `fy`, `fz` tell on which axes the
corner lies in the first layer of a neighbour, where its local coordinate is 0. -/
theorem cornerAt_adjoined (bi bx by' bz bxy bxz byz bxyz : BlockArrays) (voxelRes : ℚ)
    (org : vertex_t) (fx fy fz : Bool) (a b c : Nat) (ha : a < 16) (hb : b < 16) (hc : c < 16)
    (hfa : fx = true → a = 0) (hfb : fy = true → b = 0) (hfc : fz = true → c = 0) :
    cornerAt (layerBlock bi bx by' bz bxy bxz byz bxyz fx fy fz)
        (shiftedOrg org voxelRes 16 fx fy fz) voxelRes 16 a b c
      = cornerAt (adjoinedGrid bi bx by' bz bxy bxz byz bxyz) org voxelRes 17
        (a + if fx = true then 16 else 0) (b + if fy = true then 16 else 0)
        (c + if fz = true then 16 else 0) := by
  have flag : ∀ (f : Bool) (n : Nat), n < 16 → (f = true → n = 0) →
      (n + if f = true then 16 else 0) ≤ 16 ∧ (n + if f = true then 16 else 0) % 16 = n ∧
        decide ((n + if f = true then 16 else 0) = 16) = f := by
    intro f n hn hf
    cases f
    · simp only [Bool.false_eq_true, if_false, add_zero]
      exact ⟨by omega, Nat.mod_eq_of_lt hn, decide_eq_false (by omega)⟩
    · have h0 : n = 0 := hf rfl
      subst h0
      exact ⟨by simp, by simp, by simp⟩
  obtain ⟨x1, x2, x3⟩ := flag fx a ha hfa
  obtain ⟨y1, y2, y3⟩ := flag fy b hb hfb
  obtain ⟨z1, z2, z3⟩ := flag fz c hc hfc
  rw [cornerAt_adjoinedGrid _ _ _ _ _ _ _ _ _ _ _ _ _ x1 y1 z1, x2, y2, z2]
  unfold adjoinedBlock
  rw [x3, y3, z3]

/-- A cube of the inner pass is the cube of the kernel on the adjoined grid at the same origin. -/
theorem innerCube_grid (bi bx by' bz bxy bxz byz bxyz : BlockArrays) (voxelRes : ℚ)
    (org : vertex_t) (i j k : Nat) (hi : i < 15) (hj : j < 15) (hk : k < 15) :
    innerCube bi voxelRes org 16 i j k
      = gridCube bi bx by' bz bxy bxz byz bxyz voxelRes org (i, j, k) := by
  unfold innerCube gridCube innerCube
  simp only [Cube.mk.injEq]
  refine ⟨?_, ?_, ?_, ?_, ?_, ?_, ?_, ?_⟩
  · exact cornerAt_adjoined bi bx by' bz bxy bxz byz bxyz voxelRes org false false false i j k
      (by omega) (by omega) (by omega) (by simp) (by simp) (by simp)
  · exact cornerAt_adjoined bi bx by' bz bxy bxz byz bxyz voxelRes org false false false i (j + 1) k
      (by omega) (by omega) (by omega) (by simp) (by simp) (by simp)
  · exact cornerAt_adjoined bi bx by' bz bxy bxz byz bxyz voxelRes org false false false (i + 1) (j + 1) k
      (by omega) (by omega) (by omega) (by simp) (by simp) (by simp)
  · exact cornerAt_adjoined bi bx by' bz bxy bxz byz bxyz voxelRes org false false false (i + 1) j k
      (by omega) (by omega) (by omega) (by simp) (by simp) (by simp)
  · exact cornerAt_adjoined bi bx by' bz bxy bxz byz bxyz voxelRes org false false false i j (k + 1)
      (by omega) (by omega) (by omega) (by simp) (by simp) (by simp)
  · exact cornerAt_adjoined bi bx by' bz bxy bxz byz bxyz voxelRes org false false false i (j + 1) (k + 1)
      (by omega) (by omega) (by omega) (by simp) (by simp) (by simp)
  · exact cornerAt_adjoined bi bx by' bz bxy bxz byz bxyz voxelRes org false false false (i + 1) (j + 1) (k + 1)
      (by omega) (by omega) (by omega) (by simp) (by simp) (by simp)
  · exact cornerAt_adjoined bi bx by' bz bxy bxz byz bxyz voxelRes org false false false (i + 1) j (k + 1)
      (by omega) (by omega) (by omega) (by simp) (by simp) (by simp)

/-- A cube of the +x face pass is the cube of the kernel on the adjoined grid at the same origin. -/
theorem xFaceCube_grid (bi bx by' bz bxy bxz byz bxyz : BlockArrays) (voxelRes : ℚ)
    (org : vertex_t) (j k : Nat) (hj : j < 15) (hk : k < 15) :
    xFaceCube bi bx voxelRes org 16 j k
      = gridCube bi bx by' bz bxy bxz byz bxyz voxelRes org (15, j, k) := by
  unfold xFaceCube gridCube innerCube
  simp only [Cube.mk.injEq]
  refine ⟨?_, ?_, ?_, ?_, ?_, ?_, ?_, ?_⟩
  · exact cornerAt_adjoined bi bx by' bz bxy bxz byz bxyz voxelRes org false false false 15 j k
      (by omega) (by omega) (by omega) (by simp) (by simp) (by simp)
  · exact cornerAt_adjoined bi bx by' bz bxy bxz byz bxyz voxelRes org false false false 15 (j + 1) k
      (by omega) (by omega) (by omega) (by simp) (by simp) (by simp)
  · exact cornerAt_adjoined bi bx by' bz bxy bxz byz bxyz voxelRes org true false false 0 (j + 1) k
      (by omega) (by omega) (by omega) (by simp) (by simp) (by simp)
  · exact cornerAt_adjoined bi bx by' bz bxy bxz byz bxyz voxelRes org true false false 0 j k
      (by omega) (by omega) (by omega) (by simp) (by simp) (by simp)
  · exact cornerAt_adjoined bi bx by' bz bxy bxz byz bxyz voxelRes org false false false 15 j (k + 1)
      (by omega) (by omega) (by omega) (by simp) (by simp) (by simp)
  · exact cornerAt_adjoined bi bx by' bz bxy bxz byz bxyz voxelRes org false false false 15 (j + 1) (k + 1)
      (by omega) (by omega) (by omega) (by simp) (by simp) (by simp)
  · exact cornerAt_adjoined bi bx by' bz bxy bxz byz bxyz voxelRes org true false false 0 (j + 1) (k + 1)
      (by omega) (by omega) (by omega) (by simp) (by simp) (by simp)
  · exact cornerAt_adjoined bi bx by' bz bxy bxz byz bxyz voxelRes org true false false 0 j (k + 1)
      (by omega) (by omega) (by omega) (by simp) (by simp) (by simp)

/-- A cube of the +y face pass is the cube of the kernel on the adjoined grid at the same origin. -/
theorem yFaceCube_grid (bi bx by' bz bxy bxz byz bxyz : BlockArrays) (voxelRes : ℚ)
    (org : vertex_t) (i k : Nat) (hi : i < 15) (hk : k < 15) :
    yFaceCube bi by' voxelRes org 16 i k
      = gridCube bi bx by' bz bxy bxz byz bxyz voxelRes org (i, 15, k) := by
  unfold yFaceCube gridCube innerCube
  simp only [Cube.mk.injEq]
  refine ⟨?_, ?_, ?_, ?_, ?_, ?_, ?_, ?_⟩
  · exact cornerAt_adjoined bi bx by' bz bxy bxz byz bxyz voxelRes org false false false i 15 k
      (by omega) (by omega) (by omega) (by simp) (by simp) (by simp)
  · exact cornerAt_adjoined bi bx by' bz bxy bxz byz bxyz voxelRes org false true false i 0 k
      (by omega) (by omega) (by omega) (by simp) (by simp) (by simp)
  · exact cornerAt_adjoined bi bx by' bz bxy bxz byz bxyz voxelRes org false true false (i + 1) 0 k
      (by omega) (by omega) (by omega) (by simp) (by simp) (by simp)
  · exact cornerAt_adjoined bi bx by' bz bxy bxz byz bxyz voxelRes org false false false (i + 1) 15 k
      (by omega) (by omega) (by omega) (by simp) (by simp) (by simp)
  · exact cornerAt_adjoined bi bx by' bz bxy bxz byz bxyz voxelRes org false false false i 15 (k + 1)
      (by omega) (by omega) (by omega) (by simp) (by simp) (by simp)
  · exact cornerAt_adjoined bi bx by' bz bxy bxz byz bxyz voxelRes org false true false i 0 (k + 1)
      (by omega) (by omega) (by omega) (by simp) (by simp) (by simp)
  · exact cornerAt_adjoined bi bx by' bz bxy bxz byz bxyz voxelRes org false true false (i + 1) 0 (k + 1)
      (by omega) (by omega) (by omega) (by simp) (by simp) (by simp)
  · exact cornerAt_adjoined bi bx by' bz bxy bxz byz bxyz voxelRes org false false false (i + 1) 15 (k + 1)
      (by omega) (by omega) (by omega) (by simp) (by simp) (by simp)

/-- A cube of the +z face pass is the cube of the kernel on the adjoined grid at the same origin. -/
theorem zFaceCube_grid (bi bx by' bz bxy bxz byz bxyz : BlockArrays) (voxelRes : ℚ)
    (org : vertex_t) (i j : Nat) (hi : i < 15) (hj : j < 15) :
    zFaceCube bi bz voxelRes org 16 i j
      = gridCube bi bx by' bz bxy bxz byz bxyz voxelRes org (i, j, 15) := by
  unfold zFaceCube gridCube innerCube
  simp only [Cube.mk.injEq]
  refine ⟨?_, ?_, ?_, ?_, ?_, ?_, ?_, ?_⟩
  · exact cornerAt_adjoined bi bx by' bz bxy bxz byz bxyz voxelRes org false false false i j 15
      (by omega) (by omega) (by omega) (by simp) (by simp) (by simp)
  · exact cornerAt_adjoined bi bx by' bz bxy bxz byz bxyz voxelRes org false false false i (j + 1) 15
      (by omega) (by omega) (by omega) (by simp) (by simp) (by simp)
  · exact cornerAt_adjoined bi bx by' bz bxy bxz byz bxyz voxelRes org false false false (i + 1) (j + 1) 15
      (by omega) (by omega) (by omega) (by simp) (by simp) (by simp)
  · exact cornerAt_adjoined bi bx by' bz bxy bxz byz bxyz voxelRes org false false false (i + 1) j 15
      (by omega) (by omega) (by omega) (by simp) (by simp) (by simp)
  · exact cornerAt_adjoined bi bx by' bz bxy bxz byz bxyz voxelRes org false false true i j 0
      (by omega) (by omega) (by omega) (by simp) (by simp) (by simp)
  · exact cornerAt_adjoined bi bx by' bz bxy bxz byz bxyz voxelRes org false false true i (j + 1) 0
      (by omega) (by omega) (by omega) (by simp) (by simp) (by simp)
  · exact cornerAt_adjoined bi bx by' bz bxy bxz byz bxyz voxelRes org false false true (i + 1) (j + 1) 0
      (by omega) (by omega) (by omega) (by simp) (by simp) (by simp)
  · exact cornerAt_adjoined bi bx by' bz bxy bxz byz bxyz voxelRes org false false true (i + 1) j 0
      (by omega) (by omega) (by omega) (by simp) (by simp) (by simp)

/-- A cube of the xy edge pass is the cube of the kernel on the adjoined grid at the same origin. -/
theorem xyEdgeCube_grid (bi bx by' bz bxy bxz byz bxyz : BlockArrays) (voxelRes : ℚ)
    (org : vertex_t) (k : Nat) (hk : k < 15) :
    xyEdgeCube bi bx by' bxy voxelRes org 16 k
      = gridCube bi bx by' bz bxy bxz byz bxyz voxelRes org (15, 15, k) := by
  unfold xyEdgeCube gridCube innerCube
  simp only [Cube.mk.injEq]
  refine ⟨?_, ?_, ?_, ?_, ?_, ?_, ?_, ?_⟩
  · exact cornerAt_adjoined bi bx by' bz bxy bxz byz bxyz voxelRes org false false false 15 15 k
      (by omega) (by omega) (by omega) (by simp) (by simp) (by simp)
  · exact cornerAt_adjoined bi bx by' bz bxy bxz byz bxyz voxelRes org false true false 15 0 k
      (by omega) (by omega) (by omega) (by simp) (by simp) (by simp)
  · exact cornerAt_adjoined bi bx by' bz bxy bxz byz bxyz voxelRes org true true false 0 0 k
      (by omega) (by omega) (by omega) (by simp) (by simp) (by simp)
  · exact cornerAt_adjoined bi bx by' bz bxy bxz byz bxyz voxelRes org true false false 0 15 k
      (by omega) (by omega) (by omega) (by simp) (by simp) (by simp)
  · exact cornerAt_adjoined bi bx by' bz bxy bxz byz bxyz voxelRes org false false false 15 15 (k + 1)
      (by omega) (by omega) (by omega) (by simp) (by simp) (by simp)
  · exact cornerAt_adjoined bi bx by' bz bxy bxz byz bxyz voxelRes org false true false 15 0 (k + 1)
      (by omega) (by omega) (by omega) (by simp) (by simp) (by simp)
  · exact cornerAt_adjoined bi bx by' bz bxy bxz byz bxyz voxelRes org true true false 0 0 (k + 1)
      (by omega) (by omega) (by omega) (by simp) (by simp) (by simp)
  · exact cornerAt_adjoined bi bx by' bz bxy bxz byz bxyz voxelRes org true false false 0 15 (k + 1)
      (by omega) (by omega) (by omega) (by simp) (by simp) (by simp)

/-- A cube of the xz edge pass is the cube of the kernel on the adjoined grid at the same origin. -/
theorem xzEdgeCube_grid (bi bx by' bz bxy bxz byz bxyz : BlockArrays) (voxelRes : ℚ)
    (org : vertex_t) (j : Nat) (hj : j < 15) :
    xzEdgeCube bi bx bz bxz voxelRes org 16 j
      = gridCube bi bx by' bz bxy bxz byz bxyz voxelRes org (15, j, 15) := by
  unfold xzEdgeCube gridCube innerCube
  simp only [Cube.mk.injEq]
  refine ⟨?_, ?_, ?_, ?_, ?_, ?_, ?_, ?_⟩
  · exact cornerAt_adjoined bi bx by' bz bxy bxz byz bxyz voxelRes org false false false 15 j 15
      (by omega) (by omega) (by omega) (by simp) (by simp) (by simp)
  · exact cornerAt_adjoined bi bx by' bz bxy bxz byz bxyz voxelRes org false false false 15 (j + 1) 15
      (by omega) (by omega) (by omega) (by simp) (by simp) (by simp)
  · exact cornerAt_adjoined bi bx by' bz bxy bxz byz bxyz voxelRes org true false false 0 (j + 1) 15
      (by omega) (by omega) (by omega) (by simp) (by simp) (by simp)
  · exact cornerAt_adjoined bi bx by' bz bxy bxz byz bxyz voxelRes org true false false 0 j 15
      (by omega) (by omega) (by omega) (by simp) (by simp) (by simp)
  · exact cornerAt_adjoined bi bx by' bz bxy bxz byz bxyz voxelRes org false false true 15 j 0
      (by omega) (by omega) (by omega) (by simp) (by simp) (by simp)
  · exact cornerAt_adjoined bi bx by' bz bxy bxz byz bxyz voxelRes org false false true 15 (j + 1) 0
      (by omega) (by omega) (by omega) (by simp) (by simp) (by simp)
  · exact cornerAt_adjoined bi bx by' bz bxy bxz byz bxyz voxelRes org true false true 0 (j + 1) 0
      (by omega) (by omega) (by omega) (by simp) (by simp) (by simp)
  · exact cornerAt_adjoined bi bx by' bz bxy bxz byz bxyz voxelRes org true false true 0 j 0
      (by omega) (by omega) (by omega) (by simp) (by simp) (by simp)

/-- A cube of the yz edge pass is the cube of the kernel on the adjoined grid at the same origin. -/
theorem yzEdgeCube_grid (bi bx by' bz bxy bxz byz bxyz : BlockArrays) (voxelRes : ℚ)
    (org : vertex_t) (i : Nat) (hi : i < 15) :
    yzEdgeCube bi by' bz byz voxelRes org 16 i
      = gridCube bi bx by' bz bxy bxz byz bxyz voxelRes org (i, 15, 15) := by
  unfold yzEdgeCube gridCube innerCube
  simp only [Cube.mk.injEq]
  refine ⟨?_, ?_, ?_, ?_, ?_, ?_, ?_, ?_⟩
  · exact cornerAt_adjoined bi bx by' bz bxy bxz byz bxyz voxelRes org false false false i 15 15
      (by omega) (by omega) (by omega) (by simp) (by simp) (by simp)
  · exact cornerAt_adjoined bi bx by' bz bxy bxz byz bxyz voxelRes org false true false i 0 15
      (by omega) (by omega) (by omega) (by simp) (by simp) (by simp)
  · exact cornerAt_adjoined bi bx by' bz bxy bxz byz bxyz voxelRes org false true false (i + 1) 0 15
      (by omega) (by omega) (by omega) (by simp) (by simp) (by simp)
  · exact cornerAt_adjoined bi bx by' bz bxy bxz byz bxyz voxelRes org false false false (i + 1) 15 15
      (by omega) (by omega) (by omega) (by simp) (by simp) (by simp)
  · exact cornerAt_adjoined bi bx by' bz bxy bxz byz bxyz voxelRes org false false true i 15 0
      (by omega) (by omega) (by omega) (by simp) (by simp) (by simp)
  · exact cornerAt_adjoined bi bx by' bz bxy bxz byz bxyz voxelRes org false true true i 0 0
      (by omega) (by omega) (by omega) (by simp) (by simp) (by simp)
  · exact cornerAt_adjoined bi bx by' bz bxy bxz byz bxyz voxelRes org false true true (i + 1) 0 0
      (by omega) (by omega) (by omega) (by simp) (by simp) (by simp)
  · exact cornerAt_adjoined bi bx by' bz bxy bxz byz bxyz voxelRes org false false true (i + 1) 15 0
      (by omega) (by omega) (by omega) (by simp) (by simp) (by simp)

/-- The cube of the corner pass is the cube of the kernel on the adjoined grid at the same origin. -/
theorem xyzCornerCube_grid (bi bx by' bz bxy bxz byz bxyz : BlockArrays) (voxelRes : ℚ)
    (org : vertex_t) :
    xyzCornerCube bi bx by' bz bxy bxz byz bxyz voxelRes org 16
      = gridCube bi bx by' bz bxy bxz byz bxyz voxelRes org (15, 15, 15) := by
  unfold xyzCornerCube gridCube innerCube
  simp only [Cube.mk.injEq]
  refine ⟨?_, ?_, ?_, ?_, ?_, ?_, ?_, ?_⟩
  · exact cornerAt_adjoined bi bx by' bz bxy bxz byz bxyz voxelRes org false false false 15 15 15
      (by omega) (by omega) (by omega) (by simp) (by simp) (by simp)
  · exact cornerAt_adjoined bi bx by' bz bxy bxz byz bxyz voxelRes org false true false 15 0 15
      (by omega) (by omega) (by omega) (by simp) (by simp) (by simp)
  · exact cornerAt_adjoined bi bx by' bz bxy bxz byz bxyz voxelRes org true true false 0 0 15
      (by omega) (by omega) (by omega) (by simp) (by simp) (by simp)
  · exact cornerAt_adjoined bi bx by' bz bxy bxz byz bxyz voxelRes org true false false 0 15 15
      (by omega) (by omega) (by omega) (by simp) (by simp) (by simp)
  · exact cornerAt_adjoined bi bx by' bz bxy bxz byz bxyz voxelRes org false false true 15 15 0
      (by omega) (by omega) (by omega) (by simp) (by simp) (by simp)
  · exact cornerAt_adjoined bi bx by' bz bxy bxz byz bxyz voxelRes org false true true 15 0 0
      (by omega) (by omega) (by omega) (by simp) (by simp) (by simp)
  · exact cornerAt_adjoined bi bx by' bz bxy bxz byz bxyz voxelRes org true true true 0 0 0
      (by omega) (by omega) (by omega) (by simp) (by simp) (by simp)
  · exact cornerAt_adjoined bi bx by' bz bxy bxz byz bxyz voxelRes org true false true 0 15 0
      (by omega) (by omega) (by omega) (by simp) (by simp) (by simp)

theorem forLoop_flatMap_single {α : Type} (n : Nat) (f : Nat → List α) :
    forLoop n (fun i out => out ++ f i) [] = (List.range n).flatMap f := by
  rw [fusion.forLoop_append_flatMap, List.nil_append]

theorem forLoop_flatMap_double {α : Type} (n m : Nat) (f : Nat → Nat → List α) :
    forLoop n (fun k => forLoop m (fun j out => out ++ f j k)) []
      = (List.range n).flatMap (fun k => (List.range m).flatMap (fun j => f j k)) := by
  have h : (fun k => forLoop m (fun j out => out ++ f j k))
      = (fun k acc => acc ++ (List.range m).flatMap (fun j => f j k)) := by
    funext k acc
    exact fusion.forLoop_append_flatMap m (fun j => f j k) acc
  rw [h, forLoop_flatMap_single]

theorem forLoop_flatMap_triple {α : Type} (n m l : Nat) (f : Nat → Nat → Nat → List α) :
    forLoop n (fun k => forLoop m (fun j => forLoop l (fun i out => out ++ f i j k))) []
      = (List.range n).flatMap (fun k => (List.range m).flatMap (fun j =>
          (List.range l).flatMap (fun i => f i j k))) := by
  have h : (fun k => forLoop m (fun j => forLoop l (fun i out => out ++ f i j k)))
      = (fun k => forLoop m (fun j acc => acc ++ (List.range l).flatMap (fun i => f i j k))) := by
    funext k
    have h2 : (fun j => forLoop l (fun i out => out ++ f i j k))
        = (fun j acc => acc ++ (List.range l).flatMap (fun i => f i j k)) := by
      funext j acc
      exact fusion.forLoop_append_flatMap l (fun i => f i j k) acc
    rw [h2]
  rw [h, forLoop_flatMap_double]

theorem extractInnerMesh_grid (env : Env) (bi bx by' bz bxy bxz byz bxyz : BlockArrays)
    (voxelRes : ℚ) (org : vertex_t) (isoValue : ℚ) :
    extractInnerMesh env bi voxelRes org 16 isoValue
      = innerCubes.flatMap (fun c => processCube env isoValue
          (gridCube bi bx by' bz bxy bxz byz bxyz voxelRes org c)) := by
  unfold extractInnerMesh innerCubes
  rw [show 16 - 1 = 15 from rfl, forLoop_flatMap_triple, List.flatMap_assoc]
  refine List.flatMap_congr (fun k hk => ?_)
  rw [List.flatMap_assoc]
  refine List.flatMap_congr (fun j hj => ?_)
  rw [List.flatMap_map]
  refine List.flatMap_congr (fun i hi => ?_)
  rw [innerCube_grid bi bx by' bz bxy bxz byz bxyz voxelRes org i j k (List.mem_range.mp hi)
    (List.mem_range.mp hj) (List.mem_range.mp hk)]

theorem extractXFaceMesh_grid (env : Env) (bi bx by' bz bxy bxz byz bxyz : BlockArrays)
    (voxelRes : ℚ) (org : vertex_t) (isoValue : ℚ) :
    extractXFaceMesh env bi bx voxelRes org 16 isoValue
      = xFaceCubes.flatMap (fun c => processCube env isoValue
          (gridCube bi bx by' bz bxy bxz byz bxyz voxelRes org c)) := by
  unfold extractXFaceMesh xFaceCubes
  rw [show 16 - 1 = 15 from rfl, forLoop_flatMap_double, List.flatMap_assoc]
  refine List.flatMap_congr (fun k hk => ?_)
  rw [List.flatMap_map]
  refine List.flatMap_congr (fun j hj => ?_)
  rw [xFaceCube_grid bi bx by' bz bxy bxz byz bxyz voxelRes org j k (List.mem_range.mp hj)
    (List.mem_range.mp hk)]

theorem extractYFaceMesh_grid (env : Env) (bi bx by' bz bxy bxz byz bxyz : BlockArrays)
    (voxelRes : ℚ) (org : vertex_t) (isoValue : ℚ) :
    extractYFaceMesh env bi by' voxelRes org 16 isoValue
      = yFaceCubes.flatMap (fun c => processCube env isoValue
          (gridCube bi bx by' bz bxy bxz byz bxyz voxelRes org c)) := by
  unfold extractYFaceMesh yFaceCubes
  rw [show 16 - 1 = 15 from rfl, forLoop_flatMap_double, List.flatMap_assoc]
  refine List.flatMap_congr (fun k hk => ?_)
  rw [List.flatMap_map]
  refine List.flatMap_congr (fun i hi => ?_)
  rw [yFaceCube_grid bi bx by' bz bxy bxz byz bxyz voxelRes org i k (List.mem_range.mp hi)
    (List.mem_range.mp hk)]

theorem extractZFaceMesh_grid (env : Env) (bi bx by' bz bxy bxz byz bxyz : BlockArrays)
    (voxelRes : ℚ) (org : vertex_t) (isoValue : ℚ) :
    extractZFaceMesh env bi bz voxelRes org 16 isoValue
      = zFaceCubes.flatMap (fun c => processCube env isoValue
          (gridCube bi bx by' bz bxy bxz byz bxyz voxelRes org c)) := by
  unfold extractZFaceMesh zFaceCubes
  rw [show 16 - 1 = 15 from rfl, forLoop_flatMap_double, List.flatMap_assoc]
  refine List.flatMap_congr (fun j hj => ?_)
  rw [List.flatMap_map]
  refine List.flatMap_congr (fun i hi => ?_)
  rw [zFaceCube_grid bi bx by' bz bxy bxz byz bxyz voxelRes org i j (List.mem_range.mp hi)
    (List.mem_range.mp hj)]

theorem extractXYEdgeMesh_grid (env : Env) (bi bx by' bz bxy bxz byz bxyz : BlockArrays)
    (voxelRes : ℚ) (org : vertex_t) (isoValue : ℚ) :
    extractXYEdgeMesh env bi bx by' bxy voxelRes org 16 isoValue
      = xyEdgeCubes.flatMap (fun c => processCube env isoValue
          (gridCube bi bx by' bz bxy bxz byz bxyz voxelRes org c)) := by
  unfold extractXYEdgeMesh xyEdgeCubes
  rw [show 16 - 1 = 15 from rfl, forLoop_flatMap_single, List.flatMap_map]
  refine List.flatMap_congr (fun k hk => ?_)
  rw [xyEdgeCube_grid bi bx by' bz bxy bxz byz bxyz voxelRes org k (List.mem_range.mp hk)]

theorem extractXZEdgeMesh_grid (env : Env) (bi bx by' bz bxy bxz byz bxyz : BlockArrays)
    (voxelRes : ℚ) (org : vertex_t) (isoValue : ℚ) :
    extractXZEdgeMesh env bi bx bz bxz voxelRes org 16 isoValue
      = xzEdgeCubes.flatMap (fun c => processCube env isoValue
          (gridCube bi bx by' bz bxy bxz byz bxyz voxelRes org c)) := by
  unfold extractXZEdgeMesh xzEdgeCubes
  rw [show 16 - 1 = 15 from rfl, forLoop_flatMap_single, List.flatMap_map]
  refine List.flatMap_congr (fun j hj => ?_)
  rw [xzEdgeCube_grid bi bx by' bz bxy bxz byz bxyz voxelRes org j (List.mem_range.mp hj)]

theorem extractYZEdgeMesh_grid (env : Env) (bi bx by' bz bxy bxz byz bxyz : BlockArrays)
    (voxelRes : ℚ) (org : vertex_t) (isoValue : ℚ) :
    extractYZEdgeMesh env bi by' bz byz voxelRes org 16 isoValue
      = yzEdgeCubes.flatMap (fun c => processCube env isoValue
          (gridCube bi bx by' bz bxy bxz byz bxyz voxelRes org c)) := by
  unfold extractYZEdgeMesh yzEdgeCubes
  rw [show 16 - 1 = 15 from rfl, forLoop_flatMap_single, List.flatMap_map]
  refine List.flatMap_congr (fun i hi => ?_)
  rw [yzEdgeCube_grid bi bx by' bz bxy bxz byz bxyz voxelRes org i (List.mem_range.mp hi)]

/-- With all seven neighbours supplied, `extractMesh` runs the kernel on the cubes of the
adjoined grid whose origins are `passCubes`, in that order. -/
theorem extractMesh_eq_grid (env : Env) (bi bx by' bz bxy bxz byz bxyz : BlockArrays)
    (voxelRes : ℚ) (org : vertex_t) :
    extractMesh env (some bi) (some bx) (some by') (some bz) (some bxy) (some bxz) (some byz)
        (some bxyz) 16 voxelRes org
      = passCubes.flatMap (fun c => processCube env 0
          (gridCube bi bx by' bz bxy bxz byz bxyz voxelRes org c)) := by
  simp only [extractMesh, optionalPass, Option.map_some', Option.some_bind, Option.bind_some, Option.getD_some,
    passCubes, List.flatMap_append, List.flatMap_singleton,
    extractInnerMesh_grid env bi bx by' bz bxy bxz byz bxyz,
    extractXFaceMesh_grid env bi bx by' bz bxy bxz byz bxyz,
    extractYFaceMesh_grid env bi bx by' bz bxy bxz byz bxyz,
    extractZFaceMesh_grid env bi bx by' bz bxy bxz byz bxyz,
    extractXYEdgeMesh_grid env bi bx by' bz bxy bxz byz bxyz,
    extractXZEdgeMesh_grid env bi bx by' bz bxy bxz byz bxyz,
    extractYZEdgeMesh_grid env bi bx by' bz bxy bxz byz bxyz,
    extractXYZCornerMesh, xyzCornerCube_grid bi bx by' bz bxy bxz byz bxyz]

/-- The kernel of `extractInnerMesh`, run on the adjoined grid with `blockSize = 17`,
visits the cubes whose origins are `gridCubes`. -/
theorem extractInnerMesh_adjoined (env : Env) (bi bx by' bz bxy bxz byz bxyz : BlockArrays)
    (voxelRes : ℚ) (org : vertex_t) (isoValue : ℚ) :
    extractInnerMesh env (adjoinedGrid bi bx by' bz bxy bxz byz bxyz) voxelRes org 17 isoValue
      = gridCubes.flatMap (fun c => processCube env isoValue
          (gridCube bi bx by' bz bxy bxz byz bxyz voxelRes org c)) := by
  unfold extractInnerMesh gridCubes
  rw [show 17 - 1 = 16 from rfl, forLoop_flatMap_triple, List.flatMap_assoc]
  refine List.flatMap_congr (fun k _ => ?_)
  rw [List.flatMap_assoc]
  refine List.flatMap_congr (fun j _ => ?_)
  rw [List.flatMap_map]
  rfl

theorem gridCubes_mem (c : Nat × Nat × Nat) :
    c ∈ gridCubes ↔ c.1 < 16 ∧ c.2.1 < 16 ∧ c.2.2 < 16 := by
  obtain ⟨i, j, k⟩ := c
  simp only [gridCubes, List.mem_flatMap, List.mem_map, List.mem_range, Prod.mk.injEq]
  constructor
  · rintro ⟨k', hk, j', hj, i', hi, rfl, rfl, rfl⟩
    exact ⟨hi, hj, hk⟩
  · rintro ⟨hi, hj, hk⟩
    exact ⟨k, hk, j, hj, i, hi, rfl, rfl, rfl⟩

theorem passCubes_mem (c : Nat × Nat × Nat) :
    c ∈ passCubes ↔ c.1 < 16 ∧ c.2.1 < 16 ∧ c.2.2 < 16 := by
  obtain ⟨i, j, k⟩ := c
  simp only [passCubes, innerCubes, xFaceCubes, yFaceCubes, zFaceCubes, xyEdgeCubes,
    xzEdgeCubes, yzEdgeCubes, List.mem_append, List.mem_flatMap, List.mem_map, List.mem_range,
    List.mem_singleton, Prod.mk.injEq]
  constructor
  · rintro (((((((⟨k', hk, j', hj, i', hi, rfl, rfl, rfl⟩ | ⟨k', hk, j', hj, rfl, rfl, rfl⟩) |
      ⟨k', hk, i', hi, rfl, rfl, rfl⟩) | ⟨j', hj, i', hi, rfl, rfl, rfl⟩) |
      ⟨k', hk, rfl, rfl, rfl⟩) | ⟨j', hj, rfl, rfl, rfl⟩) | ⟨i', hi, rfl, rfl, rfl⟩) |
      ⟨rfl, rfl, rfl⟩) <;> omega
  · rintro ⟨hi, hj, hk⟩
    by_cases hi' : i < 15 <;> by_cases hj' : j < 15 <;> by_cases hk' : k < 15
    · exact Or.inl (Or.inl (Or.inl (Or.inl (Or.inl (Or.inl (Or.inl
        ⟨k, hk', j, hj', i, hi', rfl, rfl, rfl⟩))))))
    · exact Or.inl (Or.inl (Or.inl (Or.inl (Or.inr
        ⟨j, hj', i, hi', rfl, rfl, by omega⟩))))
    · exact Or.inl (Or.inl (Or.inl (Or.inl (Or.inl (Or.inr
        ⟨k, hk', i, hi', rfl, by omega, rfl⟩)))))
    · exact Or.inl (Or.inr ⟨i, hi', rfl, by omega, by omega⟩)
    · exact Or.inl (Or.inl (Or.inl (Or.inl (Or.inl (Or.inl (Or.inr
        ⟨k, hk', j, hj', by omega, rfl, rfl⟩))))))
    · exact Or.inl (Or.inl (Or.inr ⟨j, hj', by omega, rfl, by omega⟩))
    · exact Or.inl (Or.inl (Or.inl (Or.inr ⟨k, hk', by omega, by omega, rfl⟩)))
    · exact Or.inr ⟨by omega, by omega, by omega⟩

theorem cubes_toFinset (l : List (Nat × Nat × Nat))
    (h : ∀ c, c ∈ l ↔ c.1 < 16 ∧ c.2.1 < 16 ∧ c.2.2 < 16) :
    l.toFinset = Finset.range 16 ×ˢ Finset.range 16 ×ˢ Finset.range 16 := by
  ext c
  rw [List.mem_toFinset, h c]
  simp only [Finset.mem_product, Finset.mem_range]

theorem cubes_nodup (l : List (Nat × Nat × Nat))
    (h : ∀ c, c ∈ l ↔ c.1 < 16 ∧ c.2.1 < 16 ∧ c.2.2 < 16) (hlen : l.length = 4096) :
    l.Nodup := by
  have hcard : l.toFinset.card = l.length := by
    rw [cubes_toFinset l h, hlen]
    simp [Finset.card_product]
  exact Multiset.coe_nodup.mp (Multiset.toFinset_card_eq_card_iff_nodup.mp hcard)

theorem length_flatMap_const {α β : Type} (l : List α) (f : α → List β) (c : Nat)
    (h : ∀ x, (f x).length = c) : (l.flatMap f).length = l.length * c := by
  induction l with
  | nil => simp
  | cons a t ih =>
    rw [List.flatMap_cons, List.length_append, ih, h a, List.length_cons]
    ring

theorem passCubes_lengths :
    innerCubes.length = 15 ^ 3 ∧ xFaceCubes.length = 15 ^ 2 ∧ yFaceCubes.length = 15 ^ 2 ∧
      zFaceCubes.length = 15 ^ 2 ∧ xyEdgeCubes.length = 15 ∧ xzEdgeCubes.length = 15 ∧
      yzEdgeCubes.length = 15 ∧ passCubes.length = 16 ^ 3 ∧ gridCubes.length = 16 ^ 3 := by
  have h2 : ∀ (n m : Nat) (f : Nat → Nat → Nat × Nat × Nat),
      ((List.range n).flatMap (fun k => (List.range m).map (fun j => f j k))).length = n * m := by
    intro n m f
    rw [length_flatMap_const _ _ m (fun k => by simp), List.length_range]
  have h3 : ∀ (n : Nat), ((List.range n).flatMap (fun k => (List.range n).flatMap (fun j =>
      (List.range n).map (fun i => (i, j, k))))).length = n * (n * n) := by
    intro n
    rw [length_flatMap_const _ _ (n * n) (fun k => h2 n n (fun i j => (i, j, k))),
      List.length_range]
  have e1 : innerCubes.length = 3375 := h3 15
  have e2 : xFaceCubes.length = 225 := h2 15 15 (fun j k => (15, j, k))
  have e3 : yFaceCubes.length = 225 := h2 15 15 (fun i k => (i, 15, k))
  have e4 : zFaceCubes.length = 225 := h2 15 15 (fun i j => (i, j, 15))
  have e5 : xyEdgeCubes.length = 15 := by simp [xyEdgeCubes]
  have e6 : xzEdgeCubes.length = 15 := by simp [xzEdgeCubes]
  have e7 : yzEdgeCubes.length = 15 := by simp [yzEdgeCubes]
  refine ⟨e1, e2, e3, e4, e5, e6, e7, ?_, h3 16⟩
  simp only [passCubes, List.length_append, e1, e2, e3, e4, e5, e6, e7, List.length_singleton]
  rfl

theorem passCubes_perm : List.Perm passCubes gridCubes :=
  (List.perm_ext_iff_of_nodup (cubes_nodup passCubes passCubes_mem passCubes_lengths.2.2.2.2.2.2.2.1)
    (cubes_nodup gridCubes gridCubes_mem passCubes_lengths.2.2.2.2.2.2.2.2)).mpr
    (fun c => by rw [passCubes_mem, gridCubes_mem])

/-- C32: when all seven +x/+y/+z neighbours are supplied, the eight passes of `extractMesh`
(inner, three faces, three edges, corner) run the same kernel `processCube` on the cubes
of the adjoined `17^3` grid whose origins are `passCubes`: every origin `(i, j, k)` with
`0 <= i, j, k < 16` occurs exactly once (`15^3` inner, `3 * 15^2` face, `3 * 15` edge and
1 corner cubes, `16^3` in all), and the cube that a pass forms is the cube that the kernel
of the inner pass forms at the same origin on the adjoined grid: the same eight corner
tsdf values, colours, gradients and positions.  The corner at the grid voxel `(i, j, k)`
carries the values of the voxel `(i mod 16, j mod 16, k mod 16)` of the block that holds
it and the position `org + voxelRes * (i, j, k)`.  So `extractMesh` emits the triangles
that the inner pass emits on the adjoined grid, in another order. -/
theorem extractMesh_on_adjoined_grid (env : Env) (bi bx by' bz bxy bxz byz bxyz : BlockArrays)
    (voxelRes : ℚ) (org : vertex_t) :
    extractMesh env (some bi) (some bx) (some by') (some bz) (some bxy) (some bxz) (some byz)
        (some bxyz) 16 voxelRes org
      = passCubes.flatMap (fun c => processCube env 0
          (gridCube bi bx by' bz bxy bxz byz bxyz voxelRes org c)) ∧
    passCubes.Nodup ∧
    (∀ c : Nat × Nat × Nat, c ∈ passCubes ↔ c.1 < 16 ∧ c.2.1 < 16 ∧ c.2.2 < 16) ∧
    (innerCubes.length = 15 ^ 3 ∧ xFaceCubes.length = 15 ^ 2 ∧ yFaceCubes.length = 15 ^ 2 ∧
      zFaceCubes.length = 15 ^ 2 ∧ xyEdgeCubes.length = 15 ∧ xzEdgeCubes.length = 15 ∧
      yzEdgeCubes.length = 15 ∧ passCubes.length = 16 ^ 3 ∧ gridCubes.length = 16 ^ 3) ∧
    (∀ i j k, i < 15 → j < 15 → k < 15 → innerCube bi voxelRes org 16 i j k
      = gridCube bi bx by' bz bxy bxz byz bxyz voxelRes org (i, j, k)) ∧
    (∀ j k, j < 15 → k < 15 → xFaceCube bi bx voxelRes org 16 j k
      = gridCube bi bx by' bz bxy bxz byz bxyz voxelRes org (15, j, k)) ∧
    (∀ i k, i < 15 → k < 15 → yFaceCube bi by' voxelRes org 16 i k
      = gridCube bi bx by' bz bxy bxz byz bxyz voxelRes org (i, 15, k)) ∧
    (∀ i j, i < 15 → j < 15 → zFaceCube bi bz voxelRes org 16 i j
      = gridCube bi bx by' bz bxy bxz byz bxyz voxelRes org (i, j, 15)) ∧
    (∀ k, k < 15 → xyEdgeCube bi bx by' bxy voxelRes org 16 k
      = gridCube bi bx by' bz bxy bxz byz bxyz voxelRes org (15, 15, k)) ∧
    (∀ j, j < 15 → xzEdgeCube bi bx bz bxz voxelRes org 16 j
      = gridCube bi bx by' bz bxy bxz byz bxyz voxelRes org (15, j, 15)) ∧
    (∀ i, i < 15 → yzEdgeCube bi by' bz byz voxelRes org 16 i
      = gridCube bi bx by' bz bxy bxz byz bxyz voxelRes org (i, 15, 15)) ∧
    xyzCornerCube bi bx by' bz bxy bxz byz bxyz voxelRes org 16
      = gridCube bi bx by' bz bxy bxz byz bxyz voxelRes org (15, 15, 15) ∧
    (∀ i j k, i ≤ 16 → j ≤ 16 → k ≤ 16 →
      cornerAt (adjoinedGrid bi bx by' bz bxy bxz byz bxyz) org voxelRes 17 i j k
        = { tsdf := (adjoinedBlock bi bx by' bz bxy bxz byz bxyz i j k).tsdf
              (GRID_OFFSET (i % 16) (j % 16) (k % 16) 16)
            p := ⟨org.x + voxelRes * (i : ℚ), org.y + voxelRes * (j : ℚ),
              org.z + voxelRes * (k : ℚ)⟩
            c := (adjoinedBlock bi bx by' bz bxy bxz byz bxyz i j k).rgba
              (GRID_OFFSET (i % 16) (j % 16) (k % 16) 16)
            g := (adjoinedBlock bi bx by' bz bxy bxz byz bxyz i j k).grad
              (GRID_OFFSET (i % 16) (j % 16) (k % 16) 16) }) ∧
    List.Perm
      (extractMesh env (some bi) (some bx) (some by') (some bz) (some bxy) (some bxz) (some byz)
        (some bxyz) 16 voxelRes org)
      (extractInnerMesh env (adjoinedGrid bi bx by' bz bxy bxz byz bxyz) voxelRes org 17 0) := by
  refine ⟨extractMesh_eq_grid env bi bx by' bz bxy bxz byz bxyz voxelRes org,
    cubes_nodup passCubes passCubes_mem passCubes_lengths.2.2.2.2.2.2.2.1, passCubes_mem,
    passCubes_lengths,
    innerCube_grid bi bx by' bz bxy bxz byz bxyz voxelRes org,
    xFaceCube_grid bi bx by' bz bxy bxz byz bxyz voxelRes org,
    yFaceCube_grid bi bx by' bz bxy bxz byz bxyz voxelRes org,
    zFaceCube_grid bi bx by' bz bxy bxz byz bxyz voxelRes org,
    xyEdgeCube_grid bi bx by' bz bxy bxz byz bxyz voxelRes org,
    xzEdgeCube_grid bi bx by' bz bxy bxz byz bxyz voxelRes org,
    yzEdgeCube_grid bi bx by' bz bxy bxz byz bxyz voxelRes org,
    xyzCornerCube_grid bi bx by' bz bxy bxz byz bxyz voxelRes org, ?_, ?_⟩
  · intro i j k hi hj hk
    have h1 : GRID_OFFSET i j k 17 % 17 = i := by unfold GRID_OFFSET; omega
    have h2 : GRID_OFFSET i j k 17 / 17 % 17 = j := by unfold GRID_OFFSET; omega
    have h3 : GRID_OFFSET i j k 17 / 289 = k := by unfold GRID_OFFSET; omega
    simp only [cornerAt, adjoinedGrid, h1, h2, h3, get3DPos, Corner.mk.injEq,
      vertex_t.mk.injEq, true_and, and_true]
    exact ⟨by ring, by ring, by ring⟩
  · rw [extractMesh_eq_grid, extractInnerMesh_adjoined]
    exact List.Perm.flatMap_right _ passCubes_perm

end mc

namespace data_types

/-! ## Point extraction -/

/-- A pixel whose depth is 0 gets the position `(FLT_MAX, FLT_MAX, FLT_MAX)`, and the
point built from it passes `isValid()` exactly when its colour is not black. -/
theorem zero_depth_pixel_isValid (f : RGBDFrame) (intrinsics : CameraIntrinsics)
    (near far scale : ℚ) (u v : Nat) (hd : f.depthImage_.get v u 0 = 0) :
    RGBDFrame.getPosition f intrinsics near far scale u v = Vec3f.splat FLT_MAX ∧
      (PointXYZRGB.isValid
          ⟨RGBDFrame.getPosition f intrinsics near far scale u v, RGBDFrame.getColor f u v⟩
        = true ↔ RGBDFrame.getColor f u v ≠ Vec3f.splat 0) := by
  have hp : RGBDFrame.getPosition f intrinsics near far scale u v = Vec3f.splat FLT_MAX := by
    simp [RGBDFrame.getPosition, hd]
  refine ⟨hp, ?_⟩
  rw [hp]
  cases hc : RGBDFrame.getColor f u v with
  | mk x y z =>
    simp only [PointXYZRGB.isValid, PointXYZRGB.ne, PointXYZRGB.InvalidPoint, Vec3f.ne,
      Vec3f.splat, maxScalar, Bool.or_eq_true, bne_iff_ne, ne_eq, not_true_eq_false,
      or_self, false_or, Vec3f.mk.injEq]
    tauto

/-- Evaluation for C9: a frame of one pixel with depth 0 and the colour `(255, 255, 255)`.
`ExtractPoints` adds one point to the empty cloud: the position `(FLT_MAX, FLT_MAX,
FLT_MAX)` with the colour `(1, 1, 1)`. -/
theorem ExtractPoints_zero_depth_white :
    (onePixelFrame 0 255 255 255).depthImage_.get 0 0 0 = 0 ∧
      ((onePixelFrame 0 255 255 255).ExtractPoints
        ((PointCloud.new 1 (fun _ => Vec3f.zero)).Clear) ⟨525, 525, 0, 0⟩ 0 5 5000).Size = 1 ∧
      ((onePixelFrame 0 255 255 255).ExtractPoints
        ((PointCloud.new 1 (fun _ => Vec3f.zero)).Clear) ⟨525, 525, 0, 0⟩ 0 5 5000).pointAt 0
        = ⟨⟨FLT_MAX, FLT_MAX, FLT_MAX⟩, ⟨1, 1, 1⟩⟩ := by
  have hv : PointXYZRGB.isValid
      ⟨RGBDFrame.getPosition (onePixelFrame 0 255 255 255) ⟨525, 525, 0, 0⟩ 0 5 5000 0 0,
        RGBDFrame.getColor (onePixelFrame 0 255 255 255) 0 0⟩ = true := by
    rw [(zero_depth_pixel_isValid (onePixelFrame 0 255 255 255) ⟨525, 525, 0, 0⟩ 0 5 5000 0 0
      rfl).2]
    norm_num [RGBDFrame.getColor, onePixelFrame, Vec3f.sdiv, Vec3f.splat]
  have hrun : (onePixelFrame 0 255 255 255).ExtractPoints
      ((PointCloud.new 1 (fun _ => Vec3f.zero)).Clear) ⟨525, 525, 0, 0⟩ 0 5 5000
      = ((PointCloud.new 1 (fun _ => Vec3f.zero)).Clear).AddPoint
          ⟨RGBDFrame.getPosition (onePixelFrame 0 255 255 255) ⟨525, 525, 0, 0⟩ 0 5 5000 0 0,
            RGBDFrame.getColor (onePixelFrame 0 255 255 255) 0 0⟩ := by
    have e : (onePixelFrame 0 255 255 255).ExtractPoints
        ((PointCloud.new 1 (fun _ => Vec3f.zero)).Clear) ⟨525, 525, 0, 0⟩ 0 5 5000
        = if PointXYZRGB.isValid
            ⟨RGBDFrame.getPosition (onePixelFrame 0 255 255 255) ⟨525, 525, 0, 0⟩ 0 5 5000 0 0,
              RGBDFrame.getColor (onePixelFrame 0 255 255 255) 0 0⟩ = true
          then ((PointCloud.new 1 (fun _ => Vec3f.zero)).Clear).AddPoint
            ⟨RGBDFrame.getPosition (onePixelFrame 0 255 255 255) ⟨525, 525, 0, 0⟩ 0 5 5000 0 0,
              RGBDFrame.getColor (onePixelFrame 0 255 255 255) 0 0⟩
          else (PointCloud.new 1 (fun _ => Vec3f.zero)).Clear := rfl
    rw [e, if_pos hv]
  refine ⟨rfl, ?_, ?_⟩
  · rw [hrun]; rfl
  · rw [hrun]
    simp only [PointCloud.pointAt, PointCloud.AddPoint, PointList.AddPoint, Buffer.set,
      Buffer.IncSize, PointCloud.Clear, PointList.Clear, Buffer.Clear, PointCloud.new,
      PointList.new, Buffer.new, store, if_true,
      (zero_depth_pixel_isValid (onePixelFrame 0 255 255 255) ⟨525, 525, 0, 0⟩ 0 5 5000 0 0
        rfl).1]
    norm_num [RGBDFrame.getColor, onePixelFrame, Vec3f.sdiv, Vec3f.splat]

/-! ## Capacity of buffers and point lists -/

theorem Buffer.Resize_over_capacity {T : Type} (b : Buffer T) (size : Nat)
    (h : b.capacity_ < size) : b.Resize size = .error CapacityError.capacityExceeded := by
  unfold Buffer.Resize
  rw [if_pos h]

theorem PointList.Resize_list_over_capacity (l : PointList) (size : Nat) (h : l.capacity_ < size) :
    l.Resize size = .error CapacityError.capacityExceeded := by
  unfold PointList.Resize
  rw [if_pos h]

/-- Evaluation for C26: `AddPoint` and `IncSize` have no capacity test.  On a point list
of capacity 1, the second `AddPoint` returns normally with `size_ = 2 > capacity_ = 1`
in the list and in both buffers, and it has stored the point at the subscript 1, past the
arrays of one element; `IncSize` on a buffer of capacity 1 and size 1 gives size 2.  Only
`Resize` refuses a size above the capacity. -/
theorem AddPoint_past_capacity :
    (overfullList ⟨⟨1, 2, 3⟩, ⟨0, 0, 0⟩⟩ ⟨⟨4, 5, 6⟩, ⟨1, 1, 1⟩⟩).capacity_ = 1 ∧
    (overfullList ⟨⟨1, 2, 3⟩, ⟨0, 0, 0⟩⟩ ⟨⟨4, 5, 6⟩, ⟨1, 1, 1⟩⟩).size_ = 2 ∧
    (overfullList ⟨⟨1, 2, 3⟩, ⟨0, 0, 0⟩⟩ ⟨⟨4, 5, 6⟩, ⟨1, 1, 1⟩⟩).xyzData_.capacity_ = 1 ∧
    (overfullList ⟨⟨1, 2, 3⟩, ⟨0, 0, 0⟩⟩ ⟨⟨4, 5, 6⟩, ⟨1, 1, 1⟩⟩).xyzData_.size_ = 2 ∧
    (overfullList ⟨⟨1, 2, 3⟩, ⟨0, 0, 0⟩⟩ ⟨⟨4, 5, 6⟩, ⟨1, 1, 1⟩⟩).rgbData_.size_ = 2 ∧
    (overfullList ⟨⟨1, 2, 3⟩, ⟨0, 0, 0⟩⟩ ⟨⟨4, 5, 6⟩, ⟨1, 1, 1⟩⟩).xyzData_.data_ 1 = ⟨4, 5, 6⟩ ∧
    (((Buffer.new 1 (fun _ => (0 : ℚ))).IncSize 1).IncSize 1).size_ = 2 ∧
    (((Buffer.new 1 (fun _ => (0 : ℚ))).IncSize 1).IncSize 1).capacity_ = 1 ∧
    (PointList.new 1 (fun _ => Vec3f.zero)).Resize 2
      = .error CapacityError.capacityExceeded := by
  refine ⟨rfl, rfl, rfl, rfl, rfl, ?_, rfl, rfl, rfl⟩
  simp [overfullList, PointList.AddPoint, PointList.new, Buffer.new, Buffer.IncSize, Buffer.set,
    store]

end data_types

namespace fusion

/-! ## `RecomputeMeshes` on an id that was never added -/

/-- `ComputeMesh` on an id that the map does not hold: the subscript `blockIds_[blockId]`
inserts the id with the index 0, so that a call that returns leaves a map with one more
entry over the same blocks and as many mesh slots, and the block it meshes is the one of
index 0. -/
theorem Volume.ComputeMesh_unknown (env : mc.Env) (v : Volume) (blockId : BlockId)
    (hfind : v.blockIds_.find blockId = none) (n : Nat) (w : Volume)
    (h : Volume.ComputeMesh env v blockId = .ok (n, w)) :
    w.blockIds_ = v.blockIds_ ++ [(blockId, 0)] ∧ w.NumBlocks = v.NumBlocks + 1 ∧
      w.voxelBlocks_ = v.voxelBlocks_ ∧ w.meshes_.length = v.meshes_.length := by
  unfold Volume.ComputeMesh at h
  simp only [BlockIdMap.subscript, hfind] at h
  have hnum : ∀ u : Volume, u.blockIds_ = v.blockIds_ ++ [(blockId, 0)] →
      u.NumBlocks = v.NumBlocks + 1 := by
    intro u hu
    simp [Volume.NumBlocks, BlockIdMap.size, hu]
  cases hb : v.voxelBlocks_.getD 0 none with
  | none =>
    simp only [hb] at h
    obtain ⟨-, rfl⟩ := Prod.mk.inj (Except.ok.inj h)
    exact ⟨rfl, hnum _ rfl, rfl, rfl⟩
  | some block =>
    simp only [hb] at h
    split_ifs at h
    · obtain ⟨-, rfl⟩ := Prod.mk.inj (Except.ok.inj h)
      exact ⟨rfl, hnum _ rfl, rfl, by simp⟩
    · obtain ⟨-, rfl⟩ := Prod.mk.inj (Except.ok.inj h)
      exact ⟨rfl, hnum _ rfl, rfl, by simp⟩

/-- Evaluation for C33: on the volume that holds the single block `(0, 0, 0)`,
`RecomputeMeshes` on the list of the id `(5, 5, 5)`, which was never added, returns
normally with a map of two entries, `(0, 0, 0)` and `(5, 5, 5)`, both with the index 0,
over one block and one mesh slot: `NumBlocks()` is 2, and `GetBlock((5, 5, 5))` now
returns the block of `(0, 0, 0)`. -/
theorem RecomputeMeshes_unknown_id :
    ((Volume.new (1 / 100)).AddBlock ⟨0, 0, 0⟩).2.blockIds_ = [(⟨0, 0, 0⟩, 0)] ∧
    ((Volume.new (1 / 100)).AddBlock ⟨0, 0, 0⟩).2.NumBlocks = 1 ∧
    ((Volume.new (1 / 100)).AddBlock ⟨0, 0, 0⟩).2.GetBlock ⟨5, 5, 5⟩ = none ∧
    ∃ w, Volume.RecomputeMeshes mc.exampleEnv ((Volume.new (1 / 100)).AddBlock ⟨0, 0, 0⟩).2
          [⟨5, 5, 5⟩] = .ok w ∧
      w.blockIds_ = [(⟨0, 0, 0⟩, 0), (⟨5, 5, 5⟩, 0)] ∧ w.NumBlocks = 2 ∧
      w.voxelBlocks_.length = 1 ∧ w.meshes_.length = 1 ∧
      w.GetBlock ⟨5, 5, 5⟩ = w.GetBlock ⟨0, 0, 0⟩ ∧
      w.GetBlock ⟨5, 5, 5⟩ = some (VoxelBlock.new (1 / 100) true) := by
  refine ⟨rfl, rfl, rfl, ?_⟩
  have hts : ∀ (v1 : Volume), blockTriangles mc.exampleEnv v1 ⟨5, 5, 5⟩
      (VoxelBlock.new (1 / 100) true) = [] := by
    intro v1
    unfold blockTriangles
    exact mc.extractMesh_allInvalid_nil _ _ _ _ _ _ _ _ _ _ _ (fun _ _ => rfl)
  have hc : Volume.ComputeMesh mc.exampleEnv ((Volume.new (1 / 100)).AddBlock ⟨0, 0, 0⟩).2
      ⟨5, 5, 5⟩ = .ok (0,
        { nextBlockIndex_ := 1
          voxelRes_ := 1 / 100
          blockIds_ := [(⟨0, 0, 0⟩, 0), (⟨5, 5, 5⟩, 0)]
          voxelBlocks_ := [some (VoxelBlock.new (1 / 100) true)]
          meshes_ := [none] }) := by
    unfold Volume.ComputeMesh
    have hsub : (((Volume.new (1 / 100)).AddBlock ⟨0, 0, 0⟩).2.blockIds_.subscript ⟨5, 5, 5⟩)
        = (0, [(⟨0, 0, 0⟩, 0), (⟨5, 5, 5⟩, 0)]) := by decide
    have hblk : ((Volume.new (1 / 100)).AddBlock ⟨0, 0, 0⟩).2.voxelBlocks_.getD 0 none
        = some (VoxelBlock.new (1 / 100) true) := rfl
    simp only [hsub, hblk, hts, List.length_nil]
    rfl
  refine ⟨⟨1, 1 / 100, [(⟨0, 0, 0⟩, 0), (⟨5, 5, 5⟩, 0)], [some (VoxelBlock.new (1 / 100) true)],
    [none]⟩, ?_, rfl, rfl, rfl, rfl, rfl, rfl⟩
  rw [Volume.RecomputeMeshes_cons, hc]
  rfl

/-! ## Frames and the gradient pass -/

/-! ## Two frames: a neighbour that the second frame does not touch -/

theorem libmExample_sqrt_one : libmExample.sqrtf 1 = 1 := by
  show Rat.sqrt 1 = 1
  have h := Rat.sqrt_eq 1
  rw [mul_one, abs_one] at h
  exact h

/-- An iteration of the marching loop whose position falls on the slot `off` of the
allocated block `id` applies the running update to that slot. -/
theorem integrateAt_hit (env : IntegratorEnv) (voxelRes_ tau_ : ℚ) (org u : Vec3f)
    (rgb : Color3f) (dist : ℚ) (v : Volume) (id : BlockId) (off : Nat) (b : VoxelBlock)
    (hid : GetId (Vec3f.sub org (Vec3f.smul dist u)) voxelRes_ = id)
    (hoff : (voxelOffset (GetVoxelId (Vec3f.sub org (Vec3f.smul dist u)) voxelRes_)).toNat = off)
    (hb : v.GetBlock id = some b) :
    ∃ w t, integrateAt env voxelRes_ tau_ org u rgb dist v
      = v.writeBlock id (integrateSample b off w t rgb) := by
  unfold integrateAt
  simp only [hid, hoff, hb]
  exact ⟨_, _, rfl⟩

/-- With `voxelRes = 1` and `tau = 1/2` the marching loop visits `dist = 1/2` and
`dist = 0`. -/
theorem integrateRay_two (env : IntegratorEnv) (org u : Vec3f) (rgb : Color3f) (v : Volume) :
    integrateRay env 1 (1 / 2) 2 org u rgb v
      = some (integrateAt env 1 (1 / 2) org u rgb 0 (integrateAt env 1 (1 / 2) org u rgb (1 / 2) v)) := by
  unfold integrateRay
  norm_num [marchLoop]

theorem IntegratePointCloud_onePoint (env : IntegratorEnv) (voxelRes_ tau_ : ℚ) (fuel : Nat)
    (v : Volume) (p cam : Vec3f) (rgb : Color3f) :
    IntegratePointCloud env voxelRes_ tau_ fuel v (onePointCloud p rgb) cam
      = integrateRay env voxelRes_ tau_ fuel p
          (Vec3f.Normalize env.sqrtf (Vec3f.sub p cam)) rgb v := by
  unfold IntegratePointCloud
  have hs : (onePointCloud p rgb).Size = 1 := rfl
  have hp : (onePointCloud p rgb).points_.xyzData_.data_ 0 = p := rfl
  have hc : (onePointCloud p rgb).points_.rgbData_.data_ 0 = rgb := rfl
  rw [hs, show List.range 1 = [0] from rfl, List.foldlM_cons, hp, hc]
  simp only [List.foldlM_nil]
  cases integrateRay env voxelRes_ tau_ fuel p (Vec3f.Normalize env.sqrtf (Vec3f.sub p cam)) rgb v <;>
    rfl

theorem GetBlocksIntersecting_onePoint (env : IntegratorEnv) (voxelRes_ tau_ : ℚ)
    (p cam : Vec3f) (rgb : Color3f) :
    GetBlocksIntersecting env voxelRes_ tau_ (onePointCloud p rgb) cam
      = RaycastVoxels
          (GetId (Vec3f.sub p (Vec3f.smul tau_ (Vec3f.Normalize env.sqrtf (Vec3f.sub p cam))))
            voxelRes_)
          (GetId (Vec3f.add p (Vec3f.smul tau_ (Vec3f.Normalize env.sqrtf (Vec3f.sub p cam))))
            voxelRes_) ∅ := by
  unfold GetBlocksIntersecting
  have hs : (onePointCloud p rgb).Size = 1 := rfl
  have hp : (onePointCloud p rgb).points_.xyzData_.data_ 0 = p := rfl
  rw [hs]
  simp only [forLoop, show List.range 1 = [0] from rfl, List.foldl_cons, List.foldl_nil, hp]

theorem RaycastVoxels_self (a : Index3d) (S : Finset Index3d) :
    RaycastVoxels a a S = insert a S := by
  simp [RaycastVoxels, forLoop, raycastStepX, inc, shl, List.range_succ]

/-- A frame of one point whose ray stays in one block: the block is the only one of the
frame, it is added when the volume lacks it, its slots 2183 and 2184 receive the two
samples, and its gradients are recomputed. -/
theorem integrateFrame_onePoint (v : Volume) (p cam : Vec3f) (rgb : Color3f) (id : BlockId)
    (b : VoxelBlock) (packedTSDF : Nat → ℚ)
    (hu : Vec3f.Normalize libmExample.sqrtf (Vec3f.sub p cam) = ⟨1, 0, 0⟩)
    (hfirst : GetId ⟨p.x - 1 / 2, p.y, p.z⟩ 1 = id) (hlast : GetId ⟨p.x + 1 / 2, p.y, p.z⟩ 1 = id)
    (hmid : GetId p 1 = id)
    (hoff1 : (voxelOffset (GetVoxelId ⟨p.x - 1 / 2, p.y, p.z⟩ 1)).toNat = 2183)
    (hoff0 : (voxelOffset (GetVoxelId p 1)).toNat = 2184)
    (hb : (v.AddBlocks [id]).2.GetBlock id = some b) :
    ∃ w1 t1 w2 t2, integrateFrame libmExample 1 (1 / 2) 2 v (onePointCloud p rgb) cam packedTSDF
      = some ((UpdateGradients 1
          (((v.AddBlocks [id]).2.writeBlock id (integrateSample b 2183 w1 t1 rgb)).writeBlock id
            (integrateSample (integrateSample b 2183 w1 t1 rgb) 2184 w2 t2 rgb))
          [id] packedTSDF).1, [id]) := by
  have hpos1 : Vec3f.sub p (Vec3f.smul (1 / 2) ⟨1, 0, 0⟩) = ⟨p.x - 1 / 2, p.y, p.z⟩ := by
    simp [Vec3f.sub, Vec3f.smul]
  have hpos2 : Vec3f.add p (Vec3f.smul (1 / 2) ⟨1, 0, 0⟩) = ⟨p.x + 1 / 2, p.y, p.z⟩ := by
    simp [Vec3f.add, Vec3f.smul]
  have hpos0 : Vec3f.sub p (Vec3f.smul 0 ⟨1, 0, 0⟩) = p := by
    simp [Vec3f.sub, Vec3f.smul]
  have hset : GetBlocksIntersecting libmExample 1 (1 / 2) (onePointCloud p rgb) cam = {id} := by
    rw [GetBlocksIntersecting_onePoint, hu, hpos1, hpos2, hfirst, hlast, RaycastVoxels_self]
    rfl
  obtain ⟨w1, t1, h1⟩ := integrateAt_hit libmExample 1 (1 / 2) p ⟨1, 0, 0⟩ rgb (1 / 2)
    (v.AddBlocks [id]).2 id 2183 b (by rw [hpos1]; exact hfirst) (by rw [hpos1]; exact hoff1) hb
  have hb1 : ((v.AddBlocks [id]).2.writeBlock id (integrateSample b 2183 w1 t1 rgb)).GetBlock id
      = some (integrateSample b 2183 w1 t1 rgb) := by
    rw [Volume.GetBlock_writeBlock _ _ _ _ hb, if_pos rfl]
  obtain ⟨w2, t2, h2⟩ := integrateAt_hit libmExample 1 (1 / 2) p ⟨1, 0, 0⟩ rgb 0
    ((v.AddBlocks [id]).2.writeBlock id (integrateSample b 2183 w1 t1 rgb)) id 2184
    (integrateSample b 2183 w1 t1 rgb) (by rw [hpos0]; exact hmid) (by rw [hpos0]; exact hoff0)
    hb1
  refine ⟨w1, t1, w2, t2, ?_⟩
  unfold integrateFrame
  simp only [hset, Finset.sort_singleton, IntegratePointCloud_onePoint, hu, integrateRay_two,
    h1, h2]

theorem paddedTsdf_probe_x (v : Volume) (id : BlockId) (t : Nat → ℚ) :
    paddedTsdf v id t 2 1 1 = t 1 ∧
    paddedTsdf v id t 0 1 1 = slabValue (tsdfOf v (Index3d.sub id ⟨1, 0, 0⟩)) 15 ∧
    paddedTsdf v id t 1 2 1 = t 16 ∧
    paddedTsdf v id t 1 0 1 = slabValue (tsdfOf v (Index3d.sub id ⟨0, 1, 0⟩)) 240 ∧
    paddedTsdf v id t 1 1 2 = t 256 ∧
    paddedTsdf v id t 1 1 0 = slabValue (tsdfOf v (Index3d.sub id ⟨0, 0, 1⟩)) 3840 := by
  simp [paddedTsdf, blockIndex_eq]

/-- The gradient that the central differences give at the voxel `(0, 0, 0)`. -/
theorem gradientsAgree_origin (v : Volume) (id : BlockId) (blk : VoxelBlock) (voxelRes : ℚ)
    (h : gradientsAgree v id blk voxelRes) :
    blk.GradientAt ⟨0, 0, 0⟩
      = Vec3f.sdiv
          ⟨blk.tsdf_ 1 - slabValue (tsdfOf v (Index3d.sub id ⟨1, 0, 0⟩)) 15,
            blk.tsdf_ 16 - slabValue (tsdfOf v (Index3d.sub id ⟨0, 1, 0⟩)) 240,
            blk.tsdf_ 256 - slabValue (tsdfOf v (Index3d.sub id ⟨0, 0, 1⟩)) 3840⟩
          voxelRes := by
  have h0 := h 0 0 0 (by omega) (by omega) (by omega)
  obtain ⟨p1, p2, p3, p4, p5, p6⟩ := paddedTsdf_probe_x v id blk.tsdf_
  have e : blk.GradientAt ⟨0, 0, 0⟩ = blk.gradients_ (blockIndex 0 0 0) :=
    GradientAt_nat blk 0 0 0
  rw [e, h0]
  simp only [zero_add, Nat.reduceAdd, p1, p2, p3, p4, p5, p6]

theorem BlockIdMap.find_pair_inj (p q a c : BlockId) (k : Nat)
    (ha : BlockIdMap.find [(p, 0), (q, 1)] a = some k)
    (hc : BlockIdMap.find [(p, 0), (q, 1)] c = some k) : a = c := by
  have key : ∀ x : BlockId, BlockIdMap.find [(p, 0), (q, 1)] x = some k →
      (k = 0 ∧ x = p) ∨ (k = 1 ∧ x = q) := by
    intro x hx
    by_cases h1 : x = p
    · subst h1
      simp [BlockIdMap.find, List.lookup] at hx
      exact Or.inl ⟨hx.symm, rfl⟩
    · have hbeq : (x == p) = false := by simpa using h1
      by_cases h2 : x = q
      · subst h2
        simp [BlockIdMap.find, List.lookup, hbeq] at hx
        exact Or.inr ⟨hx.symm, rfl⟩
      · have hbeq2 : (x == q) = false := by simpa using h2
        simp [BlockIdMap.find, List.lookup, hbeq, hbeq2] at hx
  rcases key a ha with ⟨h1, h2⟩ | ⟨h1, h2⟩ <;> rcases key c hc with ⟨h3, h4⟩ | ⟨h3, h4⟩
  · rw [h2, h4]
  · omega
  · omega
  · rw [h2, h4]

/-- The first frame of the example: the single point `(24, 8, 8)` seen from
`(23, 8, 8)` with `voxelRes = 1` and `tau = 1/2`, on the empty volume.  The block
`(1, 0, 0)` is the only block of the frame and of the volume; its gradient at the voxel
`(0, 0, 0)` is computed with no neighbour across the three lower faces. -/
theorem firstFrame_result :
    ∃ blkA : VoxelBlock,
      integrateFrame libmExample 1 (1 / 2) 2 (Volume.new 1)
          (onePointCloud ⟨24, 8, 8⟩ ⟨1, 1, 1⟩) ⟨23, 8, 8⟩ (fun _ => 0)
        = some (⟨1, 1, [(⟨1, 0, 0⟩, 0)], [some blkA], [none]⟩, [⟨1, 0, 0⟩]) ∧
      blkA.GradientAt ⟨0, 0, 0⟩ = ⟨FLT_MAX, FLT_MAX, FLT_MAX⟩ ∧
      blkA.tsdf_ 1 = FLT_MAX ∧ blkA.tsdf_ 16 = FLT_MAX ∧ blkA.tsdf_ 256 = FLT_MAX := by
  have huA : Vec3f.Normalize libmExample.sqrtf (Vec3f.sub ⟨24, 8, 8⟩ ⟨23, 8, 8⟩) = ⟨1, 0, 0⟩ := by
    norm_num [Vec3f.Normalize, Vec3f.sub, Vec3f.smul, libmExample_sqrt_one]
  obtain ⟨w1, t1, w2, t2, hA⟩ := integrateFrame_onePoint (Volume.new 1) ⟨24, 8, 8⟩ ⟨23, 8, 8⟩
    ⟨1, 1, 1⟩ ⟨1, 0, 0⟩ (VoxelBlock.new 1 true) (fun _ => 0) huA
    (by simp only [GetId, floorDiv]; norm_num [blockShift_eq]; decide)
    (by simp only [GetId, floorDiv]; norm_num [blockShift_eq]; decide)
    (by simp only [GetId, floorDiv]; norm_num [blockShift_eq]; decide)
    (by simp only [GetVoxelId, floorDiv, voxelOffset]; norm_num [blockSize, Mod]; decide)
    (by simp only [GetVoxelId, floorDiv, voxelOffset]; norm_num [blockSize, Mod]; decide)
    rfl
  -- the volume after the first frame
  have hvA : (UpdateGradients 1
      ((((Volume.new 1).AddBlocks [⟨1, 0, 0⟩]).2.writeBlock ⟨1, 0, 0⟩
          (integrateSample (VoxelBlock.new 1 true) 2183 w1 t1 ⟨1, 1, 1⟩)).writeBlock ⟨1, 0, 0⟩
        (integrateSample (integrateSample (VoxelBlock.new 1 true) 2183 w1 t1 ⟨1, 1, 1⟩) 2184 w2 t2
          ⟨1, 1, 1⟩))
      [⟨1, 0, 0⟩] (fun _ => 0)).1
      = ⟨1, 1, [(⟨1, 0, 0⟩, 0)],
          [some { integrateSample (integrateSample (VoxelBlock.new 1 true) 2183 w1 t1 ⟨1, 1, 1⟩)
                    2184 w2 t2 ⟨1, 1, 1⟩ with
            gradients_ := gradientLoops
              (PackTSDF ⟨1, 1, [(⟨1, 0, 0⟩, 0)],
                [some (integrateSample (integrateSample (VoxelBlock.new 1 true) 2183 w1 t1
                  ⟨1, 1, 1⟩) 2184 w2 t2 ⟨1, 1, 1⟩)], [none]⟩ ⟨1, 0, 0⟩ (fun _ => 0)) 1
              (integrateSample (integrateSample (VoxelBlock.new 1 true) 2183 w1 t1 ⟨1, 1, 1⟩)
                2184 w2 t2 ⟨1, 1, 1⟩).gradients_ }],
          [none]⟩ := rfl
  rw [hvA] at hA
  generalize hbA : integrateSample (integrateSample (VoxelBlock.new 1 true) 2183 w1 t1 ⟨1, 1, 1⟩)
    2184 w2 t2 ⟨1, 1, 1⟩ = bA at hA
  have htA : bA.tsdf_ 1 = FLT_MAX ∧ bA.tsdf_ 16 = FLT_MAX ∧ bA.tsdf_ 256 = FLT_MAX := by
    subst hbA
    simp [integrateSample, store, VoxelBlock.new, invalidTsdf]
  have hgA := gradientsAgree_origin _ _ _ _
    (gradient_step_all ⟨1, 1, [(⟨1, 0, 0⟩, 0)], [some bA], [none]⟩
      ⟨1, 1, [(⟨1, 0, 0⟩, 0)], [some bA], [none]⟩ (fun _ => rfl) ⟨1, 0, 0⟩ (fun _ => 0) 1 bA rfl)
  have hnone : ∀ d : Index3d, d ≠ ⟨0, 0, 0⟩ →
      tsdfOf ⟨1, 1, [(⟨1, 0, 0⟩, 0)], [some bA], [none]⟩ (Index3d.sub ⟨1, 0, 0⟩ d) = none := by
    intro d hd
    have hne : (Index3d.sub ⟨1, 0, 0⟩ d == (⟨1, 0, 0⟩ : Index3d)) = false := by
      rw [beq_eq_false_iff_ne]
      intro h
      apply hd
      obtain ⟨dx, dy, dz⟩ := d
      simp only [Index3d.sub, Index3d.mk.injEq] at h ⊢
      omega
    simp [tsdfOf, Volume.GetBlock, BlockIdMap.find, List.lookup, hne]
  rw [hnone _ (by decide), hnone _ (by decide), hnone _ (by decide)] at hgA
  simp only [slabValue, sub_zero, htA.1, htA.2.1, htA.2.2, Vec3f.sdiv, div_one] at hgA
  generalize hblkA : ({ bA with
    gradients_ := gradientLoops
      (PackTSDF ⟨1, 1, [(⟨1, 0, 0⟩, 0)], [some bA], [none]⟩ ⟨1, 0, 0⟩ (fun _ => 0)) 1
      bA.gradients_ } : VoxelBlock) = blkA at hA hgA
  have htA' : blkA.tsdf_ 1 = FLT_MAX ∧ blkA.tsdf_ 16 = FLT_MAX ∧ blkA.tsdf_ 256 = FLT_MAX := by
    subst hblkA
    exact htA
  exact ⟨blkA, hA, hgA, htA'⟩

/-- C34, counterexample: two frames with `voxelRes = 1` and `tau = 1/2`.  The first
has the single point `(24, 8, 8)` seen from `(23, 8, 8)`: its ray stays in the block
`(1, 0, 0)`, which is the only block of the frame.  The second has the single point
`(8, 8, 8)` seen from `(7, 8, 8)`: its touched-block list is `[(0, 0, 0)]`.  After the
second frame and its `UpdateGradients`, the block `(1, 0, 0)` still holds at its voxel
`(0, 0, 0)` the gradient computed when the block `(0, 0, 0)` did not exist, with the x
component `FLT_MAX`, while `UpdateAllGradients` on the same volume computes the x
component `0` from the tsdf that `(0, 0, 0)` now holds across the face. -/
theorem frames_leave_stale_gradient :
    ∃ (vA vB : Volume) (blk blkAll : VoxelBlock),
      integrateFrame libmExample 1 (1 / 2) 2 (Volume.new 1)
          (onePointCloud ⟨24, 8, 8⟩ ⟨1, 1, 1⟩) ⟨23, 8, 8⟩ (fun _ => 0)
        = some (vA, [⟨1, 0, 0⟩]) ∧
      integrateFrame libmExample 1 (1 / 2) 2 vA
          (onePointCloud ⟨8, 8, 8⟩ ⟨1, 1, 1⟩) ⟨7, 8, 8⟩ (fun _ => 0)
        = some (vB, [⟨0, 0, 0⟩]) ∧
      vB.GetBlock ⟨1, 0, 0⟩ = some blk ∧
      (UpdateAllGradients 1 vB (fun _ => 0)).1.GetBlock ⟨1, 0, 0⟩ = some blkAll ∧
      blkAll.tsdf_ = blk.tsdf_ ∧
      blk.GradientAt ⟨0, 0, 0⟩ = ⟨FLT_MAX, FLT_MAX, FLT_MAX⟩ ∧
      blkAll.GradientAt ⟨0, 0, 0⟩ = ⟨0, FLT_MAX, FLT_MAX⟩ := by
  obtain ⟨blkA, hA, hgA, htA'⟩ := firstFrame_result
  -- the second frame
  have huB : Vec3f.Normalize libmExample.sqrtf (Vec3f.sub ⟨8, 8, 8⟩ ⟨7, 8, 8⟩) = ⟨1, 0, 0⟩ := by
    norm_num [Vec3f.Normalize, Vec3f.sub, Vec3f.smul, libmExample_sqrt_one]
  obtain ⟨w3, t3, w4, t4, hB⟩ := integrateFrame_onePoint
    ⟨1, 1, [(⟨1, 0, 0⟩, 0)], [some blkA], [none]⟩ ⟨8, 8, 8⟩ ⟨7, 8, 8⟩
    ⟨1, 1, 1⟩ ⟨0, 0, 0⟩ (VoxelBlock.new 1 true) (fun _ => 0) huB
    (by simp only [GetId, floorDiv]; norm_num [blockShift_eq]; decide)
    (by simp only [GetId, floorDiv]; norm_num [blockShift_eq]; decide)
    (by simp only [GetId, floorDiv]; norm_num [blockShift_eq]; decide)
    (by simp only [GetVoxelId, floorDiv, voxelOffset]; norm_num [blockSize, Mod]; decide)
    (by simp only [GetVoxelId, floorDiv, voxelOffset]; norm_num [blockSize, Mod]; decide)
    rfl
  have hvB : (UpdateGradients 1
      ((((⟨1, 1, [(⟨1, 0, 0⟩, 0)], [some blkA], [none]⟩ : Volume).AddBlocks [⟨0, 0, 0⟩]).2.writeBlock
          ⟨0, 0, 0⟩ (integrateSample (VoxelBlock.new 1 true) 2183 w3 t3 ⟨1, 1, 1⟩)).writeBlock
        ⟨0, 0, 0⟩
        (integrateSample (integrateSample (VoxelBlock.new 1 true) 2183 w3 t3 ⟨1, 1, 1⟩) 2184 w4 t4
          ⟨1, 1, 1⟩))
      [⟨0, 0, 0⟩] (fun _ => 0)).1
      = ⟨2, 1, [(⟨1, 0, 0⟩, 0), (⟨0, 0, 0⟩, 1)],
          [some blkA,
            some { integrateSample (integrateSample (VoxelBlock.new 1 true) 2183 w3 t3 ⟨1, 1, 1⟩)
                    2184 w4 t4 ⟨1, 1, 1⟩ with
              gradients_ := gradientLoops
                (PackTSDF ⟨2, 1, [(⟨1, 0, 0⟩, 0), (⟨0, 0, 0⟩, 1)],
                  [some blkA, some (integrateSample (integrateSample (VoxelBlock.new 1 true) 2183
                    w3 t3 ⟨1, 1, 1⟩) 2184 w4 t4 ⟨1, 1, 1⟩)], [none, none]⟩ ⟨0, 0, 0⟩ (fun _ => 0)) 1
                (integrateSample (integrateSample (VoxelBlock.new 1 true) 2183 w3 t3 ⟨1, 1, 1⟩)
                  2184 w4 t4 ⟨1, 1, 1⟩).gradients_ }],
          [none, none]⟩ := rfl
  rw [hvB] at hB
  clear hvB
  generalize hblkB : ({ integrateSample (integrateSample (VoxelBlock.new 1 true) 2183 w3 t3
        ⟨1, 1, 1⟩) 2184 w4 t4 ⟨1, 1, 1⟩ with
      gradients_ := gradientLoops
        (PackTSDF ⟨2, 1, [(⟨1, 0, 0⟩, 0), (⟨0, 0, 0⟩, 1)],
          [some blkA, some (integrateSample (integrateSample (VoxelBlock.new 1 true) 2183
            w3 t3 ⟨1, 1, 1⟩) 2184 w4 t4 ⟨1, 1, 1⟩)], [none, none]⟩ ⟨0, 0, 0⟩ (fun _ => 0)) 1
        (integrateSample (integrateSample (VoxelBlock.new 1 true) 2183 w3 t3 ⟨1, 1, 1⟩)
          2184 w4 t4 ⟨1, 1, 1⟩).gradients_ } : VoxelBlock) = blkB at hB
  have htB : blkB.tsdf_ 15 = FLT_MAX := by
    subst hblkB
    simp [integrateSample, store, VoxelBlock.new, invalidTsdf]
  clear hblkB
  -- what `UpdateAllGradients` computes on the volume after the second frame
  have hinj : ∀ a c k,
      (⟨2, 1, [(⟨1, 0, 0⟩, 0), (⟨0, 0, 0⟩, 1)], [some blkA, some blkB], [none, none]⟩
        : Volume).blockIds_.find a = some k →
      (⟨2, 1, [(⟨1, 0, 0⟩, 0), (⟨0, 0, 0⟩, 1)], [some blkA, some blkB], [none, none]⟩
        : Volume).blockIds_.find c = some k → a = c :=
    fun a c k ha hc => BlockIdMap.find_pair_inj _ _ a c k ha hc
  obtain ⟨blkAll, hall1, hall2, hall3⟩ := UpdateGradients_all 1
    ⟨2, 1, [(⟨1, 0, 0⟩, 0), (⟨0, 0, 0⟩, 1)], [some blkA, some blkB], [none, none]⟩
    [⟨1, 0, 0⟩, ⟨0, 0, 0⟩] (fun _ => 0) ⟨1, 0, 0⟩ blkA hinj (List.mem_cons_self _ _) rfl
  have hgAll := gradientsAgree_origin _ _ _ _ hall3
  have hB0 : tsdfOf ⟨2, 1, [(⟨1, 0, 0⟩, 0), (⟨0, 0, 0⟩, 1)], [some blkA, some blkB], [none, none]⟩
      (Index3d.sub ⟨1, 0, 0⟩ ⟨1, 0, 0⟩) = some blkB.tsdf_ := rfl
  have hB1 : tsdfOf ⟨2, 1, [(⟨1, 0, 0⟩, 0), (⟨0, 0, 0⟩, 1)], [some blkA, some blkB], [none, none]⟩
      (Index3d.sub ⟨1, 0, 0⟩ ⟨0, 1, 0⟩) = none := rfl
  have hB2 : tsdfOf ⟨2, 1, [(⟨1, 0, 0⟩, 0), (⟨0, 0, 0⟩, 1)], [some blkA, some blkB], [none, none]⟩
      (Index3d.sub ⟨1, 0, 0⟩ ⟨0, 0, 1⟩) = none := rfl
  rw [hB0, hB1, hB2, hall2] at hgAll
  simp only [slabValue, sub_zero, htA'.1, htA'.2.1, htA'.2.2, htB, sub_self, Vec3f.sdiv, div_one,
    zero_div] at hgAll
  exact ⟨_, _, blkA, blkAll, hA, hB, rfl, hall1, hall2, hgA, hgAll⟩

/-- The gradient pass changes neither the block map nor the tsdf of any block. -/
theorem UpdateGradients_fold_view (voxelRes_ : ℚ) :
    ∀ (l : List BlockId) (st : Volume × (Nat → ℚ)),
      (l.foldl (updateGradientsStep voxelRes_) st).1.blockIds_ = st.1.blockIds_ ∧
      ∀ id, tsdfOf (l.foldl (updateGradientsStep voxelRes_) st).1 id = tsdfOf st.1 id := by
  intro l
  induction l with
  | nil => intro st; exact ⟨rfl, fun _ => rfl⟩
  | cons b' rest ih =>
    intro st
    rw [List.foldl_cons]
    obtain ⟨h1, h2⟩ := ih (updateGradientsStep voxelRes_ st b')
    have hstep : (updateGradientsStep voxelRes_ st b').1.blockIds_ = st.1.blockIds_ ∧
        ∀ id, tsdfOf (updateGradientsStep voxelRes_ st b').1 id = tsdfOf st.1 id := by
      unfold updateGradientsStep
      cases hb' : st.1.GetBlock b' with
      | none => exact ⟨rfl, fun _ => rfl⟩
      | some block2 =>
        refine ⟨Volume.writeBlock_blockIds _ _ _, ?_⟩
        intro id
        unfold tsdfOf
        show Option.map VoxelBlock.tsdf_ ((st.1.writeBlock b' _).GetBlock id) = _
        rw [Volume.GetBlock_writeBlock st.1 b' _ block2 hb' id]
        by_cases hf : st.1.blockIds_.find id = st.1.blockIds_.find b'
        · rw [if_pos hf]
          have hsame : st.1.GetBlock id = st.1.GetBlock b' := by
            unfold Volume.GetBlock; rw [hf]
          rw [hsame, hb']
          rfl
        · rw [if_neg hf]
    exact ⟨h1.trans hstep.1, fun id => (h2 id).trans (hstep.2 id)⟩

theorem gradientsAgree_congr (w v : Volume) (h : ∀ id, tsdfOf w id = tsdfOf v id)
    (blockId : BlockId) (blk : VoxelBlock) (voxelRes : ℚ)
    (hg : gradientsAgree w blockId blk voxelRes) : gradientsAgree v blockId blk voxelRes := by
  intro i j k hi hj hk
  rw [hg i j k hi hj hk]
  simp only [paddedTsdf_congr w v h]

/-- Two blocks with the same tsdf whose gradients are both the central differences of
the padded buffer hold the same gradient in every slot of the array. -/
theorem gradientsAgree_unique (v : Volume) (blockId : BlockId) (b1 b2 : VoxelBlock)
    (voxelRes : ℚ) (ht : b2.tsdf_ = b1.tsdf_) (h1 : gradientsAgree v blockId b1 voxelRes)
    (h2 : gradientsAgree v blockId b2 voxelRes) (n : Nat) (hn : n < 4096) :
    b1.gradients_ n = b2.gradients_ n := by
  have e : n = blockIndex (n % 16) (n / 16 % 16) (n / 256) := by
    rw [blockIndex_eq]; omega
  rw [e, h1 _ _ _ (by omega) (by omega) (by omega), h2 _ _ _ (by omega) (by omega) (by omega),
    ht]

/-- On any volume whose map is injective, a block of the list that is allocated holds
after `UpdateGradients` the gradients that `UpdateAllGradients` computes on the result. -/
theorem UpdateGradients_listed_agree (voxelRes_ : ℚ) (volume_ : Volume)
    (newBlocks_ : List BlockId) (packedTSDF packedTSDF2 : Nat → ℚ) (blockId : BlockId)
    (b1 : VoxelBlock)
    (hinj : ∀ a c k, volume_.blockIds_.find a = some k → volume_.blockIds_.find c = some k →
      a = c)
    (hmem : blockId ∈ newBlocks_)
    (hb : (UpdateGradients voxelRes_ volume_ newBlocks_ packedTSDF).1.GetBlock blockId
      = some b1) :
    ∃ b2, (UpdateAllGradients voxelRes_
          (UpdateGradients voxelRes_ volume_ newBlocks_ packedTSDF).1 packedTSDF2).1.GetBlock
          blockId = some b2 ∧
      b2.tsdf_ = b1.tsdf_ ∧ ∀ n, n < 4096 → b1.gradients_ n = b2.gradients_ n := by
  obtain ⟨hids, hview⟩ := UpdateGradients_fold_view voxelRes_ newBlocks_ (volume_, packedTSDF)
  change (UpdateGradients voxelRes_ volume_ newBlocks_ packedTSDF).1.blockIds_
    = volume_.blockIds_ at hids
  change ∀ id, tsdfOf (UpdateGradients voxelRes_ volume_ newBlocks_ packedTSDF).1 id
    = tsdfOf volume_ id at hview
  -- the block exists before the pass
  have hsome : ∃ block, volume_.GetBlock blockId = some block := by
    have h := hview blockId
    unfold tsdfOf at h
    rw [hb] at h
    cases hv : volume_.GetBlock blockId with
    | none => rw [hv] at h; exact absurd h (by simp)
    | some block => exact ⟨block, rfl⟩
  obtain ⟨block, hblock⟩ := hsome
  obtain ⟨b1', e1, _, hg1⟩ := UpdateGradients_all voxelRes_ volume_ newBlocks_ packedTSDF
    blockId block hinj hmem hblock
  rw [hb] at e1
  obtain rfl : b1 = b1' := Option.some.inj e1
  generalize (UpdateGradients voxelRes_ volume_ newBlocks_ packedTSDF).1 = v1 at hids hview hb ⊢
  have hinj1 : ∀ a c k, v1.blockIds_.find a = some k → v1.blockIds_.find c = some k →
      a = c := by
    rw [hids]; exact hinj
  have hkey : blockId ∈ v1.keys := by
    apply Volume.mem_keys_of_find
    cases hf : v1.blockIds_.find blockId with
    | none =>
      have : v1.GetBlock blockId = none := by simp [Volume.GetBlock, hf]
      rw [this] at hb; exact absurd hb (by simp)
    | some k => rfl
  obtain ⟨b2, e2, ht2, hg2⟩ := UpdateGradients_all voxelRes_ v1 v1.keys packedTSDF2 blockId b1
    hinj1 hkey hb
  exact ⟨b2, e2, ht2, gradientsAgree_unique v1 blockId b1 b2 voxelRes_ ht2
    (gradientsAgree_congr volume_ v1 (fun id => (hview id).symm) blockId b1 voxelRes_ hg1) hg2⟩

/-- C34, amended: after a frame has been integrated and `UpdateGradients` has run over
the frame's touched-block list, every allocated block of that list holds in each of the
4096 slots of its gradient array the value that `UpdateAllGradients` computes on the
volume of that moment, and the two blocks have the same tsdf.  The block map of the
volume is supposed to send distinct ids to distinct slots. -/
theorem integrateFrame_listed_gradients (env : IntegratorEnv) (voxelRes_ tau_ : ℚ)
    (fuel : Nat) (volume_ : Volume) (inputCloud : data_types.PointCloud)
    (cameraCenter : Point3f) (packedTSDF packedTSDF2 : Nat → ℚ)
    (after : Volume) (newBlocks_ : List BlockId) (blockId : BlockId) (b1 : VoxelBlock)
    (hframe : integrateFrame env voxelRes_ tau_ fuel volume_ inputCloud cameraCenter packedTSDF
      = some (after, newBlocks_))
    (hinj : ∀ a c k, after.blockIds_.find a = some k → after.blockIds_.find c = some k →
      a = c)
    (hmem : blockId ∈ newBlocks_) (hb : after.GetBlock blockId = some b1) :
    ∃ b2, (UpdateAllGradients voxelRes_ after packedTSDF2).1.GetBlock blockId = some b2 ∧
      b2.tsdf_ = b1.tsdf_ ∧ ∀ n, n < 4096 → b1.gradients_ n = b2.gradients_ n := by
  unfold integrateFrame at hframe
  simp only at hframe
  cases hint : IntegratePointCloud env voxelRes_ tau_ fuel
      (volume_.AddBlocks ((GetBlocksIntersecting env voxelRes_ tau_ inputCloud
        cameraCenter).sort Index3d.le)).2 inputCloud cameraCenter with
  | none => rw [hint] at hframe; exact absurd hframe (by simp)
  | some integrated =>
    rw [hint] at hframe
    simp only [Option.some.injEq, Prod.mk.injEq] at hframe
    obtain ⟨hv, hl⟩ := hframe
    rw [hl] at hv
    subst hv
    have hids := (UpdateGradients_fold_view voxelRes_ newBlocks_ (integrated, packedTSDF)).1
    change (UpdateGradients voxelRes_ integrated newBlocks_ packedTSDF).1.blockIds_
      = integrated.blockIds_ at hids
    rw [hids] at hinj
    exact UpdateGradients_listed_agree voxelRes_ integrated newBlocks_ packedTSDF packedTSDF2
      blockId b1 hinj hmem hb

theorem integrateFrame_listed_gradients_witness :
    ∃ (after : Volume) (b1 b2 : VoxelBlock),
      integrateFrame libmExample 1 (1 / 2) 2 (Volume.new 1)
          (onePointCloud ⟨24, 8, 8⟩ ⟨1, 1, 1⟩) ⟨23, 8, 8⟩ (fun _ => 0)
        = some (after, [⟨1, 0, 0⟩]) ∧
      (∀ a c k, after.blockIds_.find a = some k → after.blockIds_.find c = some k → a = c) ∧
      (⟨1, 0, 0⟩ : BlockId) ∈ [(⟨1, 0, 0⟩ : BlockId)] ∧
      after.GetBlock ⟨1, 0, 0⟩ = some b1 ∧
      (UpdateAllGradients 1 after (fun _ => 0)).1.GetBlock ⟨1, 0, 0⟩ = some b2 ∧
      b2.tsdf_ = b1.tsdf_ ∧ ∀ n, n < 4096 → b1.gradients_ n = b2.gradients_ n := by
  obtain ⟨blkA, hA, _, _⟩ := firstFrame_result
  have hinj : ∀ a c k,
      (⟨1, 1, [(⟨1, 0, 0⟩, 0)], [some blkA], [none]⟩ : Volume).blockIds_.find a = some k →
      (⟨1, 1, [(⟨1, 0, 0⟩, 0)], [some blkA], [none]⟩ : Volume).blockIds_.find c = some k →
      a = c :=
    fun a c k ha hc => BlockIdMap.find_singleton_inj _ _ a c k ha hc
  obtain ⟨b2, h1, h2, h3⟩ := integrateFrame_listed_gradients libmExample 1 (1 / 2) 2
    (Volume.new 1) (onePointCloud ⟨24, 8, 8⟩ ⟨1, 1, 1⟩) ⟨23, 8, 8⟩ (fun _ => 0) (fun _ => 0)
    ⟨1, 1, [(⟨1, 0, 0⟩, 0)], [some blkA], [none]⟩ [⟨1, 0, 0⟩] ⟨1, 0, 0⟩ blkA hA hinj
    (List.mem_singleton.mpr rfl) rfl
  exact ⟨_, blkA, b2, hA, hinj, List.mem_singleton.mpr rfl, rfl, h1, h2, h3⟩

end fusion

end spf
